import Mathlib

/-!
GK20A PMU command/response channel (pmu_gk20a.c)

A shallow embedding of the host side of the PMU channel: the DMEM copy
primitives, the hardware mutexes, the ring-buffer queues, the sequence
table, the command dispatcher, the response handler, the power-gating
state machine and the processing of the init message, followed by theorems
about them.

Conventions of the embedding

* `u32` values are natural numbers; additions and subtractions that the C
  code performs in `u32` are written `add32` / `sub32` (reduction modulo
  `2 ^ 32`).
* A C buffer (`u8 *`) is a function `Nat → Nat` from byte index to byte.
* Constants, macros and type layouts that come from headers outside the
  translated file (`pmu_gk20a.h`, `hw_pwr_gk20a.h`) are the fields of
  `Consts`; every function takes the constants as its first argument.
* Logging calls (`nvhost_err`, `nvhost_warn`, `nvhost_dbg_*`) have no
  effect on the modelled state and are left out, except where the arguments
  of the message read through a pointer that can be null (`pmu_validate_cmd`).
* A function that can hit `BUG()`, block for ever, or use an
  uninitialised value returns a `Res`.
* The code is embedded as sequential state passing. A function that sleeps
  in a wait takes what the other contexts do to the state in the meantime
  as a parameter.
-/

namespace PmuGk20a

/-! ## Outcomes, machine arithmetic, buffers -/

/-- Outcome of a driver function: it returns a value, or it does not return. -/
inductive Res (α : Type) where
  /-- the function returned `a` -/
  | ok (a : α)
  /-- `BUG()` or a `BUG_ON` fired -/
  | bug
  /-- `mutex_lock` on a mutex that is already held: blocks for ever -/
  | deadlock
  /-- a value that was never initialised (or a null pointer) is used -/
  | undef
  /-- a retry loop was still running when the fuel ran out -/
  | nofuel

/-- Linux errno values used by the file. -/
def EAGAIN : Int := 11
/-- Linux errno `ENOMEM`. -/
def ENOMEM : Int := 12
/-- Linux errno `EBUSY`. -/
def EBUSY : Int := 16
/-- Linux errno `EINVAL`. -/
def EINVAL : Int := 22

/-- Number of values of a `u32`. -/
def U32 : Nat := 4294967296

/-- Addition in `u32`. -/
def add32 (a b : Nat) : Nat := (a + b) % U32

/-- Subtraction in `u32` (wraps below zero). -/
def sub32 (a b : Nat) : Nat := (a + U32 - b % U32) % U32

/-- `ALIGN(x, a)` of linux/kernel.h for a `u32` `x`: `(x + a - 1) & ~(a - 1)`.
For the powers of two `a` it is used with, clearing the low bits is
`/ a * a`. -/
def ALIGN (x a : Nat) : Nat := (x + (a - 1)) % U32 / a * a

/-- A byte buffer in host memory, indexed by byte offset. -/
abbrev Buf := Nat → Nat

/-- Bounded `for (i = 0; i < n; i++) body` loop over a state. -/
def for_loop {σ : Type} (n : Nat) (body : Nat → σ → σ) (s : σ) : σ :=
  match n with
  | 0 => s
  | k + 1 => body k (for_loop k body s)

/-- Byte lane `k` (0..3) of a little-endian 32-bit word. -/
def lane (w k : Nat) : Nat := w / 256 ^ k % 256

/-- The 32-bit word `((u32 *)src)[i]` of a byte buffer (little endian). -/
def u32_at (src : Buf) (i : Nat) : Nat :=
  src (4 * i) % 256 + src (4 * i + 1) % 256 * 256 + src (4 * i + 2) % 256 * 65536
    + src (4 * i + 3) % 256 * 16777216

/-- Store of a 32-bit word through `((u32 *)dst)[i] = w`. -/
def set_u32 (dst : Buf) (i w : Nat) : Buf :=
  fun j => if j / 4 = i then lane w (j % 4) else dst j

/-! ## Constants and layouts from the headers -/

/-- Message and command header `struct pmu_hdr`. -/
structure PmuHdr where
  unit_id : Nat
  size : Nat
  ctrl_flags : Nat
  seq_id : Nat
deriving DecidableEq, Repr

/-- Constants, macros and layouts that `pmu_gk20a.c` takes from its headers. -/
structure Consts where
  /-- `sizeof(struct pmu_hdr)`: `PMU_CMD_HDR_SIZE` and `PMU_MSG_HDR_SIZE` -/
  sizeof_pmu_hdr : Nat
  /-- `QUEUE_ALIGNMENT` -/
  QUEUE_ALIGNMENT : Nat
  /-- `pwr_falcon_dmemc_offs_m() | pwr_falcon_dmemc_blk_m()` -/
  addr_mask : Nat
  /-- `PMU_UNIT_REWIND` -/
  PMU_UNIT_REWIND : Nat
  /-- `PMU_UNIT_RC` -/
  PMU_UNIT_RC : Nat
  /-- `PMU_RC_MSG_TYPE_UNHANDLED_CMD` -/
  PMU_RC_MSG_TYPE_UNHANDLED_CMD : Nat
  /-- `PMU_UNIT_ID_IS_VALID(id)` -/
  PMU_UNIT_ID_IS_VALID : Nat → Bool
  /-- `PMU_IS_COMMAND_QUEUE(id)` -/
  PMU_IS_COMMAND_QUEUE : Nat → Bool
  /-- `PMU_IS_SW_COMMAND_QUEUE(id)` -/
  PMU_IS_SW_COMMAND_QUEUE : Nat → Bool
  /-- `PMU_IS_MESSAGE_QUEUE(id)` -/
  PMU_IS_MESSAGE_QUEUE : Nat → Bool
  /-- `PMU_MESSAGE_QUEUE` -/
  PMU_MESSAGE_QUEUE : Nat
  /-- `pwr_pmu_queue_head__size_1_v()` -/
  queue_head_size_1 : Nat
  /-- `pwr_pmu_queue_tail__size_1_v()` -/
  queue_tail_size_1 : Nat
  /-- `PMU_MAX_NUM_SEQUENCES` -/
  PMU_MAX_NUM_SEQUENCES : Nat
  /-- `sizeof(pmu->pmu_seq_tbl)`, in bytes -/
  sizeof_pmu_seq_tbl : Nat
  /-- `PMU_INVALID_SEQ_DESC` -/
  PMU_INVALID_SEQ_DESC : Nat
  /-- `PMU_CMD_FLAGS_STATUS` -/
  PMU_CMD_FLAGS_STATUS : Nat
  /-- `PMU_CMD_FLAGS_INTR` -/
  PMU_CMD_FLAGS_INTR : Nat
  /-- `PMU_CMD_FLAGS_EVENT` -/
  PMU_CMD_FLAGS_EVENT : Nat
  /-- `PMU_CMD_FLAGS_PMU_MASK` -/
  PMU_CMD_FLAGS_PMU_MASK : Nat
  /-- `sizeof(struct pmu_allocation)` -/
  sizeof_pmu_allocation : Nat
  /-- byte offset of the `u16 size` field inside `struct pmu_allocation` -/
  alloc_size_at : Nat
  /-- byte offset of the `u32 offset` field inside `struct pmu_allocation` -/
  alloc_offset_at : Nat
  /-- `PMU_INVALID_MUTEX_OWNER_ID` -/
  PMU_INVALID_MUTEX_OWNER_ID : Nat
  /-- `PMU_MUTEX_ID_IS_VALID(id)` -/
  PMU_MUTEX_ID_IS_VALID : Nat → Bool
  /-- `pwr_pmu_mutex_id_value_init_v()` -/
  mutex_id_value_init : Nat
  /-- `pwr_pmu_mutex_id_value_not_avail_v()` -/
  mutex_id_value_not_avail : Nat
  /-- `pwr_pmu_mutex_value_initial_lock_f()` -/
  mutex_value_initial_lock : Nat
  /-- `msg->msg.rc.msg_type` read from the body of a message -/
  rc_msg_type : Buf → Nat
  /-- `msg->msg.pg.elpg_msg.msg` read from the body of a message -/
  pg_elpg_msg : Buf → Nat
  /-- `msg->msg.pg.eng_buf_stat.status` read from the body of a message -/
  pg_eng_buf_stat_status : Buf → Nat
  /-- `msg->msg.pg.stat.sub_msg_id` read from the body of a message -/
  pg_stat_sub_msg_id : Buf → Nat
  /-- `msg->msg.pg.stat.data` read from the body of a message -/
  pg_stat_data : Buf → Nat
  /-- `PMU_PG_ELPG_MSG_INIT_ACK` -/
  PMU_PG_ELPG_MSG_INIT_ACK : Nat
  /-- `PMU_PG_ELPG_MSG_ALLOW_ACK` -/
  PMU_PG_ELPG_MSG_ALLOW_ACK : Nat
  /-- `PMU_PG_ELPG_MSG_DISALLOW_ACK` -/
  PMU_PG_ELPG_MSG_DISALLOW_ACK : Nat
  /-- `PMU_PG_MSG_ENG_BUF_LOADED` -/
  PMU_PG_MSG_ENG_BUF_LOADED : Nat
  /-- `PMU_PG_STAT_MSG_RESP_DMEM_OFFSET` -/
  PMU_PG_STAT_MSG_RESP_DMEM_OFFSET : Nat
  /-- whether the macro `nvhost_err` (dev.h) evaluates the arguments that follow its
  format string, as the call of `dev_err` it stands for does -/
  nvhost_err_evaluates_args : Bool
  /-- `PMU_UNIT_PG` -/
  PMU_UNIT_PG : Nat
  /-- `PMU_COMMAND_QUEUE_HPQ` -/
  PMU_COMMAND_QUEUE_HPQ : Nat
  /-- `sizeof(struct pmu_pg_cmd_elpg_cmd)` -/
  sizeof_pmu_pg_cmd_elpg_cmd : Nat
  /-- byte offset of the `u8 cmd_type` field inside `struct pmu_pg_cmd_elpg_cmd` -/
  elpg_cmd_type_at : Nat
  /-- byte offset of the `u8 engine_id` field inside `struct pmu_pg_cmd_elpg_cmd` -/
  elpg_engine_id_at : Nat
  /-- byte offset of the `u16 cmd` field inside `struct pmu_pg_cmd_elpg_cmd` -/
  elpg_cmd_at : Nat
  /-- `PMU_PG_CMD_TYPE_ELPG_CMD` -/
  PMU_PG_CMD_TYPE_ELPG_CMD : Nat
  /-- `ENGINE_GR_GK20A` -/
  ENGINE_GR_GK20A : Nat
  /-- `PMU_PG_ELPG_CMD_ALLOW` -/
  PMU_PG_ELPG_CMD_ALLOW : Nat
  /-- `PMU_PG_ELPG_CMD_DISALLOW` -/
  PMU_PG_ELPG_CMD_DISALLOW : Nat
  /-- `PMU_PG_ELPG_CMD_INIT` -/
  PMU_PG_ELPG_CMD_INIT : Nat
  /-- `PMU_COMMAND_QUEUE_LPQ` -/
  PMU_COMMAND_QUEUE_LPQ : Nat
  /-- `sizeof(struct pmu_pg_cmd_stat)` -/
  sizeof_pmu_pg_cmd_stat : Nat
  /-- byte offset of the `u8 cmd_type` field inside `struct pmu_pg_cmd_stat` -/
  stat_cmd_type_at : Nat
  /-- byte offset of the `u8 engine_id` field inside `struct pmu_pg_cmd_stat` -/
  stat_engine_id_at : Nat
  /-- byte offset of the `u16 sub_cmd_id` field inside `struct pmu_pg_cmd_stat` -/
  stat_sub_cmd_id_at : Nat
  /-- byte offset of the `u32 data` field inside `struct pmu_pg_cmd_stat` -/
  stat_data_at : Nat
  /-- `PMU_PG_CMD_TYPE_PG_STAT` -/
  PMU_PG_CMD_TYPE_PG_STAT : Nat
  /-- `PMU_PG_STAT_CMD_ALLOC_DMEM` -/
  PMU_PG_STAT_CMD_ALLOC_DMEM : Nat
  /-- `PMU_PG_IDLE_THRESHOLD` -/
  PMU_PG_IDLE_THRESHOLD : Nat
  /-- `PMU_PG_POST_POWERUP_IDLE_THRESHOLD` -/
  PMU_PG_POST_POWERUP_IDLE_THRESHOLD : Nat
  /-- `PMU_UNIT_INIT` -/
  PMU_UNIT_INIT : Nat
  /-- `PMU_INIT_MSG_TYPE_PMU_INIT` -/
  PMU_INIT_MSG_TYPE_PMU_INIT : Nat
  /-- `PMU_DMEM_ALIGNMENT` -/
  PMU_DMEM_ALIGNMENT : Nat
  /-- `PMU_QUEUE_COUNT` -/
  PMU_QUEUE_COUNT : Nat
  /-- `msg->msg.init.msg_type` read from the body of a message -/
  init_msg_type : Buf → Nat
  /-- `msg->msg.init.pmu_init.sw_managed_area_offset` read from the body of a message -/
  init_sw_managed_area_offset : Buf → Nat
  /-- `msg->msg.init.pmu_init.sw_managed_area_size` read from the body of a message -/
  init_sw_managed_area_size : Buf → Nat
  /-- `msg->msg.init.pmu_init.queue_info[id].index` read from the body of a message -/
  init_queue_info_index : Buf → Nat → Nat
  /-- `msg->msg.init.pmu_init.queue_info[id].offset` read from the body of a message -/
  init_queue_info_offset : Buf → Nat → Nat
  /-- `msg->msg.init.pmu_init.queue_info[id].size` read from the body of a message -/
  init_queue_info_size : Buf → Nat → Nat
  /-- `sizeof(struct pmu_sha1_gid_data)` -/
  sizeof_pmu_sha1_gid_data : Nat
  /-- byte offset of the `signature` field inside `struct pmu_sha1_gid_data` -/
  gid_data_signature_at : Nat
  /-- byte offset of the `gid` field inside `struct pmu_sha1_gid_data` -/
  gid_data_gid_at : Nat
  /-- `sizeof(gid_data.gid)` -/
  sizeof_gid_data_gid : Nat
  /-- `sizeof(pmu->gid_info.gid)` -/
  sizeof_gid_info_gid : Nat
  /-- `PMU_SHA1_GID_SIGNATURE` -/
  PMU_SHA1_GID_SIGNATURE : Nat

/-- `PMU_CMD_HDR_SIZE`, that is `sizeof(struct pmu_hdr)`. -/
def Consts.PMU_CMD_HDR_SIZE (c : Consts) : Nat := c.sizeof_pmu_hdr

/-- `PMU_MSG_HDR_SIZE`, that is `sizeof(struct pmu_hdr)`. -/
def Consts.PMU_MSG_HDR_SIZE (c : Consts) : Nat := c.sizeof_pmu_hdr

/-- Modelled from the spec: `struct pmu_hdr` is declared in pmu_gk20a.h, which
is not among the sources. The header is taken as four one-byte fields, in the
order unit id, size, control flags, sequence id, at byte offsets 0 to 3; the
bytes of the header beyond offset 3 (when `sizeof(struct pmu_hdr)` is taken
larger than 4) carry no field and read 0. This is the byte image of a header. -/
def PmuHdr.image (h : PmuHdr) : Buf :=
  fun i =>
    if i = 0 then h.unit_id % 256
    else if i = 1 then h.size % 256
    else if i = 2 then h.ctrl_flags % 256
    else if i = 3 then h.seq_id % 256
    else 0

/-- Header fields read back from a byte image (inverse of `PmuHdr.image`). -/
def PmuHdr.parse (b : Buf) : PmuHdr :=
  { unit_id := b 0 % 256, size := b 1 % 256, ctrl_flags := b 2 % 256, seq_id := b 3 % 256 }

/-- The `struct pmu_cmd`: header followed by the unit-specific body `cmd`. -/
structure PmuCmd where
  hdr : PmuHdr
  cmd : Buf

/-- The `struct pmu_msg`: header followed by the unit-specific body `msg`. -/
structure PmuMsg where
  hdr : PmuHdr
  msg : Buf

/-- Byte image of a `struct pmu_cmd` as seen through `(u8 *)cmd`. -/
def PmuCmd.image (c : Consts) (cmd : PmuCmd) : Buf :=
  fun i => if i < c.sizeof_pmu_hdr then cmd.hdr.image i else cmd.cmd (i - c.sizeof_pmu_hdr)

/-- Byte image of a `struct pmu_msg` as seen through `(u8 *)msg`. -/
def PmuMsg.image (c : Consts) (m : PmuMsg) : Buf :=
  fun i => if i < c.sizeof_pmu_hdr then m.hdr.image i else m.msg (i - c.sizeof_pmu_hdr)

/-- A `struct pmu_msg` rebuilt from a byte image. -/
def PmuMsg.ofImage (c : Consts) (b : Buf) : PmuMsg :=
  { hdr := PmuHdr.parse b, msg := fun i => b (i + c.sizeof_pmu_hdr) }

/-! ## Hardware: DMEM port, queue registers, mutex registers -/

/-- Registers and data memory of the PMU falcon, as far as the file uses them.
Field accessors of hw_pwr_gk20a.h (`..._v`, `..._f`) that select the whole
value of a register are the identity here. -/
structure Hw where
  /-- DMEM contents: the 32-bit word stored at a byte address -/
  dmem : Nat → Nat
  /-- address counter of DMEM port 0 (`pwr_falcon_dmemc_r(0)`), auto-incrementing -/
  dmemc : Nat
  /-- `pwr_pmu_queue_head_r(i)` -/
  queue_head : Nat → Nat
  /-- `pwr_pmu_queue_tail_r(i)` -/
  queue_tail : Nat → Nat
  /-- `pwr_pmu_msgq_head_r()` -/
  msgq_head : Nat
  /-- `pwr_pmu_msgq_tail_r()` -/
  msgq_tail : Nat
  /-- `pwr_pmu_mutex_r(i)`: owner value of hardware mutex `i` -/
  mutex : Nat → Nat
  /-- values that successive reads of `pwr_pmu_mutex_id_r()` return -/
  mutex_id_gen : Nat → Nat
  /-- number of reads of `pwr_pmu_mutex_id_r()` so far -/
  mutex_id_cnt : Nat
  /-- values written to `pwr_pmu_mutex_id_r()` (released tokens), oldest first -/
  mutex_id_released : List Nat
  /-- `pwr_pmu_pg_idlefilth_r(i)` -/
  pg_idlefilth : Nat → Nat
  /-- `pwr_pmu_pg_ppuidlefilth_r(i)` -/
  pg_ppuidlefilth : Nat → Nat

/-- The `gk20a_writel(g, pwr_falcon_dmemc_r(0), addr | aincw/aincr)`: set the port address. -/
def writel_dmemc (hw : Hw) (addr : Nat) : Hw := { hw with dmemc := addr }

/-- The `gk20a_writel(g, pwr_falcon_dmemd_r(0), w)`: store a word at the port address,
which then advances by 4 (auto-increment on write). -/
def writel_dmemd (hw : Hw) (w : Nat) : Hw :=
  { hw with dmem := Function.update hw.dmem hw.dmemc (w % U32), dmemc := hw.dmemc + 4 }

/-- The `gk20a_readl(g, pwr_falcon_dmemd_r(0))`: load the word at the port address,
which then advances by 4 (auto-increment on read). -/
def readl_dmemd (hw : Hw) : Nat × Hw :=
  (hw.dmem hw.dmemc, { hw with dmemc := hw.dmemc + 4 })

/-- The function `pmu_copy_from_dmem(pmu, src, dst, size, 0)`. Returns the hardware
state and the destination buffer. -/
def pmu_copy_from_dmem (c : Consts) (hw : Hw) (src : Nat) (dst : Buf) (size : Nat) : Hw × Buf :=
  if size = 0 then (hw, dst)
  else if src % 4 ≠ 0 then (hw, dst)               -- src & 0x3
  else
    let words := size / 4                          -- size >> 2
    let bytes := size % 4                          -- size & 0x3
    let src := src &&& c.addr_mask
    let hw := writel_dmemc hw src
    let r := for_loop words
      (fun i (s : Hw × Buf) => ((readl_dmemd s.1).2, set_u32 s.2 i (readl_dmemd s.1).1)) (hw, dst)
    if bytes > 0 then
      let data := (readl_dmemd r.1).1
      ((readl_dmemd r.1).2,
        for_loop bytes (fun i (d : Buf) => Function.update d (4 * words + i) (lane data i)) r.2)
    else r

/-- The function `pmu_copy_to_dmem(pmu, dst, src, size, 0)`. The read-back of the port
address at the end only feeds an error message. -/
def pmu_copy_to_dmem (c : Consts) (hw : Hw) (dst : Nat) (src : Buf) (size : Nat) : Hw :=
  if size = 0 then hw
  else if dst % 4 ≠ 0 then hw                      -- dst & 0x3
  else
    let words := size / 4
    let bytes := size % 4
    let dst := dst &&& c.addr_mask
    let hw := writel_dmemc hw dst
    let hw := for_loop words (fun i (h : Hw) => writel_dmemd h (u32_at src i)) hw
    if bytes > 0 then
      -- data = 0; ((u8 *)&data)[i] = src[(words << 2) + i]
      let data := for_loop bytes (fun i d => d + src (4 * words + i) % 256 * 256 ^ i) 0
      writel_dmemd hw data
    else hw

/-! ## Driver state -/

/-- Open direction of a queue: `OFLAG_READ` / `OFLAG_WRITE`. -/
inductive Oflag where
  | OFLAG_READ
  | OFLAG_WRITE
deriving DecidableEq, Repr

/-- The `struct pmu_queue`. -/
structure PmuQueue where
  id : Nat
  index : Nat
  offset : Nat
  size : Nat
  position : Nat
  oflag : Oflag
  opened : Bool
  locked : Bool
  mutex_id : Nat
  /-- token of the hardware mutex (`queue->mutex_lock`) -/
  mutex_lock : Nat
  /-- the kernel `struct mutex queue->mutex` is held -/
  mutex : Bool

/-- The `struct pmu_mutex`. -/
structure PmuMutex where
  id : Nat
  index : Nat
  ref_cnt : Nat
  acquired : Bool

/-- State of a sequence slot (`PMU_SEQ_STATE_*`). -/
inductive SeqState where
  | FREE
  | PENDING
  | USED
  | CANCELLED
deriving DecidableEq, Repr

/-- Completion callbacks (`pmu_callback`): the three handlers of this file, or a
handler of another client of the PMU. -/
inductive Callback where
  | pmu_handle_pg_elpg_msg
  | pmu_handle_pg_buf_config_msg
  | pmu_handle_pg_stat_msg
  | client (k : Nat)
deriving DecidableEq, Repr

/-- A DMEM region `{size, offset}` (`struct pmu_allocation`). -/
structure PmuAllocation where
  size : Nat
  offset : Nat
deriving DecidableEq, Repr

/-- The `struct pmu_sequence`. Pointers to caller memory are `Option Nat`
(`none` is `NULL`). -/
structure PmuSequence where
  id : Nat
  state : SeqState
  desc : Nat
  callback : Option Callback
  cb_params : Option Nat
  msg : Option Nat
  out_payload : Option Nat
  in_ : PmuAllocation
  out : PmuAllocation

/-- The external DMEM allocator `pmu->dmem` (nvhost_allocator): the results of
its future `alloc` calls are scripted as `(err, offset)` pairs, and the model
records the regions that are live and every `free` call. -/
structure Allocator where
  script : List (Int × Nat)
  live : List (Nat × Nat)
  freed : List (Nat × Nat)

/-- Power-gating state `PMU_ELPG_STAT_*`. -/
inductive ElpgStat where
  | OFF
  | ON_PENDING
  | ON
  | OFF_ON_PENDING
deriving DecidableEq, Repr

/-- One invocation of a completion callback: `callback(g, msg, param, handle, status)`. -/
structure CallRecord where
  callback : Callback
  msg : PmuMsg
  param : Option Nat
  handle : Nat
  status : Int

/-- The `pmu->gid_info`: the validity flag and the bytes of the GPU id. -/
structure GidInfo where
  valid : Bool
  gid : Buf

/-- The `struct pmu_gk20a` together with the hardware it drives and the caller
memory its pointers refer to. -/
structure Pmu where
  hw : Hw
  queue : Nat → PmuQueue
  seq : Nat → PmuSequence
  /-- allocation bitmap `pmu_seq_tbl`, one bit per position -/
  pmu_seq_tbl : Nat → Bool
  next_seq_desc : Nat
  mutex : Nat → PmuMutex
  mutex_cnt : Nat
  dmem : Allocator
  pmu_ready : Bool
  elpg_ready : Bool
  elpg_enable_allow : Bool
  /-- `timer_pending(&pmu->elpg_timer)`: the debounce timer is armed -/
  elpg_timer_pending : Bool
  elpg_stat : ElpgStat
  pg_buf_loaded : Bool
  stat_dmem_offset : Nat
  /-- caller-owned `struct pmu_msg` response buffers, by address -/
  msgbuf : Nat → PmuMsg
  /-- caller-owned payload buffers, by address -/
  hostbuf : Nat → Buf
  /-- contents of the uninitialised `struct pmu_cmd` on the stack of `pmu_queue_rewind` -/
  stack_cmd : PmuCmd
  /-- completion callbacks invoked so far, oldest first -/
  calls : List CallRecord
  gid_info : GidInfo

/-- Replace queue `qi` of the queue array. -/
def Pmu.setQueue (pmu : Pmu) (qi : Nat) (q : PmuQueue) : Pmu :=
  { pmu with queue := Function.update pmu.queue qi q }

/-- Replace slot `i` of the sequence array. -/
def Pmu.setSeq (pmu : Pmu) (i : Nat) (s : PmuSequence) : Pmu :=
  { pmu with seq := Function.update pmu.seq i s }

/-! ## Hardware mutexes -/

/-- Modelled from the spec: the behaviour of the hardware mutex register on a
write is not part of the sources. A write of a token is taken only while the
register holds the unlocked value; a write of the unlocked value always
succeeds (this is what the read-back test of `pmu_mutex_acquire` relies on). -/
def writel_mutex (c : Consts) (hw : Hw) (index v : Nat) : Hw :=
  if hw.mutex index = c.mutex_value_initial_lock ∨ v = c.mutex_value_initial_lock then
    { hw with mutex := Function.update hw.mutex index v }
  else hw

/-- Read of `pwr_pmu_mutex_id_r()`: the hardware hands out its next token. -/
def readl_mutex_id (hw : Hw) : Nat × Hw :=
  (hw.mutex_id_gen hw.mutex_id_cnt, { hw with mutex_id_cnt := hw.mutex_id_cnt + 1 })

/-- Write of `pwr_pmu_mutex_id_release_value_f(v)` to `pwr_pmu_mutex_id_r()`. -/
def writel_mutex_id_release (hw : Hw) (v : Nat) : Hw :=
  { hw with mutex_id_released := hw.mutex_id_released ++ [v] }

/-- The `do { ... } while (!acquired)` loop of `pmu_mutex_acquire`; one unit of
fuel per iteration. -/
def pmu_mutex_acquire_loop (c : Consts) (id : Nat) : Nat → Pmu → Res Pmu
  | 0, _ => Res.nofuel
  | fuel + 1, pmu =>
    let mutex := pmu.mutex id
    let data := (readl_mutex_id pmu.hw).1
    let hw1 := (readl_mutex_id pmu.hw).2
    let owner := data
    if owner = c.mutex_id_value_init ∨ owner = c.mutex_id_value_not_avail then
      pmu_mutex_acquire_loop c id fuel { pmu with hw := hw1 }
    else
      let hw2 := writel_mutex c hw1 mutex.index owner
      let data := hw2.mutex mutex.index
      if data = owner then
        Res.ok { pmu with
          hw := hw2,
          mutex := Function.update pmu.mutex id { mutex with ref_cnt := 1, acquired := true } }
      else
        pmu_mutex_acquire_loop c id fuel
          { pmu with hw := writel_mutex_id_release hw2 mutex.index }

/-- The function `pmu_mutex_acquire(pmu, id, &token)`; `token` is the value of
`*token`, which the function never assigns. The returned error code is `none`
on the slow path, where the C code returns the local `err` without ever having
assigned it. -/
def pmu_mutex_acquire (c : Consts) (fuel : Nat) (pmu : Pmu) (id token : Nat) :
    Res (Pmu × Option Int) :=
  if !c.PMU_MUTEX_ID_IS_VALID id then Res.bug
  else if id > pmu.mutex_cnt then Res.bug
  else
    let mutex := pmu.mutex id
    let owner := pmu.hw.mutex mutex.index
    if token ≠ c.PMU_INVALID_MUTEX_OWNER_ID ∧ token = owner then
      Res.ok ({ pmu with
        mutex := Function.update pmu.mutex id { mutex with ref_cnt := add32 mutex.ref_cnt 1 } },
        some 0)
    else
      match pmu_mutex_acquire_loop c id fuel pmu with
      | Res.ok p => Res.ok (p, none)
      | Res.bug => Res.bug
      | Res.deadlock => Res.deadlock
      | Res.undef => Res.undef
      | Res.nofuel => Res.nofuel

/-- The function `pmu_mutex_release(pmu, id, &token)`. -/
def pmu_mutex_release (c : Consts) (pmu : Pmu) (id token : Nat) : Res (Pmu × Int) :=
  if !c.PMU_MUTEX_ID_IS_VALID id then Res.bug
  else if id > pmu.mutex_cnt then Res.bug
  else
    let mutex := pmu.mutex id
    let owner := pmu.hw.mutex mutex.index
    if token ≠ owner then Res.ok (pmu, -EINVAL)
    else if !mutex.acquired then
      Res.ok ({ pmu with
        hw := writel_mutex_id_release
          (writel_mutex c pmu.hw mutex.index c.mutex_value_initial_lock) owner }, 0)
    else
      -- --mutex->ref_cnt == 0
      let mutex1 := { mutex with ref_cnt := sub32 mutex.ref_cnt 1 }
      let pmu1 := { pmu with mutex := Function.update pmu.mutex id mutex1 }
      if mutex1.ref_cnt = 0 then
        Res.ok ({ pmu1 with
          hw := writel_mutex_id_release
            (writel_mutex c pmu.hw mutex.index c.mutex_value_initial_lock) owner }, 0)
      else Res.ok (pmu1, 0)

/-! ## Queues -/

/-- The call `pmu_queue_head(pmu, queue, &head, QUEUE_GET)`: `none` when the function
returns `-EINVAL` and leaves `*head` untouched. -/
def pmu_queue_head_get (c : Consts) (pmu : Pmu) (q : PmuQueue) : Option Nat :=
  if c.PMU_IS_COMMAND_QUEUE q.id then
    if q.index ≥ c.queue_head_size_1 then none
    else some (pmu.hw.queue_head q.index)
  else some pmu.hw.msgq_head

/-- The call `pmu_queue_head(pmu, queue, &head, QUEUE_SET)`. -/
def pmu_queue_head_set (c : Consts) (pmu : Pmu) (q : PmuQueue) (head : Nat) : Pmu :=
  if c.PMU_IS_COMMAND_QUEUE q.id then
    if q.index ≥ c.queue_head_size_1 then pmu
    else { pmu with hw := { pmu.hw with queue_head := Function.update pmu.hw.queue_head q.index head } }
  else { pmu with hw := { pmu.hw with msgq_head := head } }

/-- The call `pmu_queue_tail(pmu, queue, &tail, QUEUE_GET)`: `none` when the function
returns `-EINVAL` and leaves `*tail` untouched. -/
def pmu_queue_tail_get (c : Consts) (pmu : Pmu) (q : PmuQueue) : Option Nat :=
  if c.PMU_IS_COMMAND_QUEUE q.id then
    if q.index ≥ c.queue_tail_size_1 then none
    else some (pmu.hw.queue_tail q.index)
  else some pmu.hw.msgq_tail

/-- The call `pmu_queue_tail(pmu, queue, &tail, QUEUE_SET)`. -/
def pmu_queue_tail_set (c : Consts) (pmu : Pmu) (q : PmuQueue) (tail : Nat) : Pmu :=
  if c.PMU_IS_COMMAND_QUEUE q.id then
    if q.index ≥ c.queue_tail_size_1 then pmu
    else { pmu with hw := { pmu.hw with queue_tail := Function.update pmu.hw.queue_tail q.index tail } }
  else { pmu with hw := { pmu.hw with msgq_tail := tail } }

/-- The function `pmu_queue_lock(pmu, queue)` on queue `qi` of the queue array. -/
def pmu_queue_lock (c : Consts) (fuel : Nat) (pmu : Pmu) (qi : Nat) : Res (Pmu × Int) :=
  let q := pmu.queue qi
  if c.PMU_IS_MESSAGE_QUEUE q.id then Res.ok (pmu, 0)
  else if c.PMU_IS_SW_COMMAND_QUEUE q.id then
    -- mutex_lock(&queue->mutex)
    if q.mutex then Res.deadlock
    else Res.ok (pmu.setQueue qi { q with mutex := true, locked := true }, 0)
  else
    match pmu_mutex_acquire c fuel pmu q.mutex_id q.mutex_lock with
    | Res.ok (p, some err) =>
      if err = 0 then Res.ok (p.setQueue qi { p.queue qi with locked := true }, err)
      else Res.ok (p, err)
    | Res.ok (_, none) => Res.undef
    | Res.bug => Res.bug
    | Res.deadlock => Res.deadlock
    | Res.undef => Res.undef
    | Res.nofuel => Res.nofuel

/-- The function `pmu_queue_unlock(pmu, queue)` on queue `qi`. -/
def pmu_queue_unlock (c : Consts) (pmu : Pmu) (qi : Nat) : Res (Pmu × Int) :=
  let q := pmu.queue qi
  if c.PMU_IS_MESSAGE_QUEUE q.id then Res.ok (pmu, 0)
  else if c.PMU_IS_SW_COMMAND_QUEUE q.id then
    -- mutex_unlock(&queue->mutex)
    Res.ok (pmu.setQueue qi { q with mutex := false, locked := false }, 0)
  else if q.locked then
    match pmu_mutex_release c pmu q.mutex_id q.mutex_lock with
    | Res.ok (p, err) =>
      if err = 0 then Res.ok (p.setQueue qi { p.queue qi with locked := false }, 0)
      else Res.ok (p, 0)
    | Res.bug => Res.bug
    | Res.deadlock => Res.deadlock
    | Res.undef => Res.undef
    | Res.nofuel => Res.nofuel
  else Res.ok (pmu, 0)

/-- The function `pmu_queue_is_empty(pmu, queue)`. -/
def pmu_queue_is_empty (c : Consts) (pmu : Pmu) (qi : Nat) : Res Bool :=
  let q := pmu.queue qi
  match pmu_queue_head_get c pmu q with
  | none => Res.undef
  | some head =>
    if q.opened ∧ q.oflag = Oflag.OFLAG_READ then Res.ok (head == q.position)
    else
      match pmu_queue_tail_get c pmu q with
      | none => Res.undef
      | some tail => Res.ok (head == tail)

/-- The function `pmu_queue_has_room(pmu, queue, size, &need_rewind)`; returns the
result and the value stored in `*need_rewind`. -/
def pmu_queue_has_room (c : Consts) (pmu : Pmu) (qi : Nat) (size : Nat) : Res (Bool × Bool) :=
  let q := pmu.queue qi
  if !q.locked then Res.bug
  else
    let size := ALIGN size c.QUEUE_ALIGNMENT
    match pmu_queue_head_get c pmu q, pmu_queue_tail_get c pmu q with
    | some head, some tail =>
      -- if (head >= tail) { free = offset + size - head; free -= PMU_CMD_HDR_SIZE;
      --                     if (size > free) { rewind = true; head = queue->offset; } }
      let free0 := sub32 (sub32 (add32 q.offset q.size) head) c.PMU_CMD_HDR_SIZE
      let rewind := decide (head ≥ tail ∧ size > free0)
      let head1 := if rewind then q.offset else head
      -- if (head < tail) free = tail - head - 1;
      let free := if head1 < tail then tail - head1 - 1 else free0
      Res.ok (decide (size ≤ free), rewind)
    | _, _ => Res.undef

/-- The function `pmu_queue_push(pmu, queue, data, size)` on queue `qi`. -/
def pmu_queue_push (c : Consts) (pmu : Pmu) (qi : Nat) (data : Buf) (size : Nat) : Pmu × Int :=
  let q := pmu.queue qi
  if !q.opened ∧ q.oflag = Oflag.OFLAG_WRITE then (pmu, -EINVAL)
  else
    let pmu1 := { pmu with hw := pmu_copy_to_dmem c pmu.hw q.position data size }
    (pmu1.setQueue qi { q with position := add32 q.position (ALIGN size c.QUEUE_ALIGNMENT) }, 0)

/-- Result of `pmu_queue_pop`: the state, the destination buffer, `*bytes_read`
and the return value. -/
structure PopResult where
  pmu : Pmu
  data : Buf
  bytes_read : Nat
  err : Int

/-- The function `pmu_queue_pop(pmu, queue, data, size, &bytes_read)` on queue `qi`. -/
def pmu_queue_pop (c : Consts) (pmu : Pmu) (qi : Nat) (data : Buf) (size : Nat) : Res PopResult :=
  let q := pmu.queue qi
  if !q.opened ∧ q.oflag = Oflag.OFLAG_READ then
    Res.ok { pmu := pmu, data := data, bytes_read := 0, err := -EINVAL }
  else
    match pmu_queue_head_get c pmu q with
    | none => Res.undef
    | some head =>
      let tail := q.position
      if head = tail then Res.ok { pmu := pmu, data := data, bytes_read := 0, err := 0 }
      else
        let used := if head > tail then head - tail else sub32 (add32 q.offset q.size) tail
        let size := if size > used then used else size
        let r := pmu_copy_from_dmem c pmu.hw tail data size
        let pmu1 := { pmu with hw := r.1 }
        Res.ok {
          pmu := pmu1.setQueue qi
            { q with position := add32 q.position (ALIGN size c.QUEUE_ALIGNMENT) },
          data := r.2, bytes_read := size, err := 0 }

/-- The local `struct pmu_cmd cmd` of `pmu_queue_rewind` after
`cmd.hdr.unit_id = PMU_UNIT_REWIND; cmd.hdr.size = PMU_CMD_HDR_SIZE;`: the rest of
it is not initialised. -/
def rewind_cmd (c : Consts) (pmu : Pmu) : PmuCmd :=
  { pmu.stack_cmd with
    hdr := { pmu.stack_cmd.hdr with
      unit_id := c.PMU_UNIT_REWIND % 256, size := c.PMU_CMD_HDR_SIZE % 256 } }

/-- The function `pmu_queue_rewind(pmu, queue)` on queue `qi`. -/
def pmu_queue_rewind (c : Consts) (pmu : Pmu) (qi : Nat) : Pmu :=
  let q := pmu.queue qi
  if !q.opened then pmu
  else
    let pmu1 :=
      if q.oflag = Oflag.OFLAG_WRITE then
        let cmd := rewind_cmd c pmu
        (pmu_queue_push c pmu qi (cmd.image c) cmd.hdr.size).1
      else pmu
    pmu1.setQueue qi { pmu1.queue qi with position := q.offset }

/-- Sequencing of outcomes: run `f` on the value of a returned outcome. -/
def Res.bind {α β : Type} (r : Res α) (f : α → Res β) : Res β :=
  match r with
  | Res.ok a => f a
  | Res.bug => Res.bug
  | Res.deadlock => Res.deadlock
  | Res.undef => Res.undef
  | Res.nofuel => Res.nofuel

/-- The function `pmu_queue_open_read(pmu, queue)` on queue `qi`. -/
def pmu_queue_open_read (c : Consts) (fuel : Nat) (pmu : Pmu) (qi : Nat) : Res (Pmu × Int) :=
  (pmu_queue_lock c fuel pmu qi).bind fun r =>
    if r.2 ≠ 0 then Res.ok (r.1, r.2)
    else
      let q := r.1.queue qi
      if q.opened then Res.bug
      else
        -- pmu_queue_tail(pmu, queue, &queue->position, QUEUE_GET)
        let position := (pmu_queue_tail_get c r.1 q).getD q.position
        Res.ok (r.1.setQueue qi
          { q with position := position, oflag := Oflag.OFLAG_READ, opened := true }, 0)

/-- The function `pmu_queue_open_write(pmu, queue, size)` on queue `qi`. -/
def pmu_queue_open_write (c : Consts) (fuel : Nat) (pmu : Pmu) (qi : Nat) (size : Nat) :
    Res (Pmu × Int) :=
  (pmu_queue_lock c fuel pmu qi).bind fun r =>
    if r.2 ≠ 0 then Res.ok (r.1, r.2)
    else
      let q := r.1.queue qi
      if q.opened then Res.bug
      else
        (pmu_queue_has_room c r.1 qi size).bind fun room =>
          if !room.1 then Res.ok (r.1, -EAGAIN)
          else
            -- pmu_queue_head(pmu, queue, &queue->position, QUEUE_GET)
            let position := (pmu_queue_head_get c r.1 q).getD q.position
            let pmu1 := r.1.setQueue qi
              { q with position := position, oflag := Oflag.OFLAG_WRITE, opened := true }
            Res.ok (if room.2 then pmu_queue_rewind c pmu1 qi else pmu1, 0)

/-- The function `pmu_queue_close(pmu, queue, commit)` on queue `qi`. -/
def pmu_queue_close (c : Consts) (pmu : Pmu) (qi : Nat) (commit : Bool) : Res (Pmu × Int) :=
  let q := pmu.queue qi
  if !q.opened then Res.ok (pmu, 0)
  else
    let pmu1 :=
      if commit then
        if q.oflag = Oflag.OFLAG_READ then pmu_queue_tail_set c pmu q q.position
        else pmu_queue_head_set c pmu q q.position
      else pmu
    let pmu2 := pmu1.setQueue qi { q with opened := false }
    (pmu_queue_unlock c pmu2 qi).bind fun r => Res.ok (r.1, 0)

/-- Result of `pmu_read_message`: the state, the message buffer, `*status` and
the return value. -/
structure ReadResult where
  pmu : Pmu
  msg : PmuMsg
  status : Int
  ret : Bool

/-- The `clean_up:` exit of `pmu_read_message`: close without commit, return false. -/
def pmu_read_message_clean_up (c : Consts) (pmu : Pmu) (qi : Nat) (msg : PmuMsg) (status : Int) :
    Res ReadResult :=
  (pmu_queue_close c pmu qi false).bind fun r =>
    Res.ok { pmu := r.1, msg := msg, status := status, ret := false }

/-- Second half of `pmu_read_message`, from the unit-id check on. -/
def pmu_read_message_body (c : Consts) (pmu : Pmu) (qi : Nat) (msg : PmuMsg) : Res ReadResult :=
  if !c.PMU_UNIT_ID_IS_VALID msg.hdr.unit_id then
    pmu_read_message_clean_up c pmu qi msg (-EINVAL)
  else if msg.hdr.size > c.PMU_MSG_HDR_SIZE then
    let read_size := msg.hdr.size - c.PMU_MSG_HDR_SIZE
    (pmu_queue_pop c pmu qi msg.msg read_size).bind fun p =>
      let msg1 : PmuMsg := { msg with msg := p.data }
      if p.err ≠ 0 ∨ p.bytes_read ≠ read_size then
        pmu_read_message_clean_up c p.pmu qi msg1 p.err
      else
        (pmu_queue_close c p.pmu qi true).bind fun r =>
          if r.2 ≠ 0 then Res.ok { pmu := r.1, msg := msg1, status := r.2, ret := false }
          else Res.ok { pmu := r.1, msg := msg1, status := 0, ret := true }
  else
    (pmu_queue_close c pmu qi true).bind fun r =>
      if r.2 ≠ 0 then Res.ok { pmu := r.1, msg := msg, status := r.2, ret := false }
      else Res.ok { pmu := r.1, msg := msg, status := 0, ret := true }

/-- The function `pmu_read_message(pmu, queue, msg, &status)` on queue `qi`; `msg`
is the previous content of the caller's message buffer. -/
def pmu_read_message (c : Consts) (fuel : Nat) (pmu : Pmu) (qi : Nat) (msg : PmuMsg) :
    Res ReadResult :=
  (pmu_queue_is_empty c pmu qi).bind fun empty =>
    if empty then Res.ok { pmu := pmu, msg := msg, status := 0, ret := false }
    else
      (pmu_queue_open_read c fuel pmu qi).bind fun o =>
        if o.2 ≠ 0 then Res.ok { pmu := o.1, msg := msg, status := o.2, ret := false }
        else
          (pmu_queue_pop c o.1 qi msg.hdr.image c.PMU_MSG_HDR_SIZE).bind fun p =>
            let msg1 : PmuMsg := { msg with hdr := PmuHdr.parse p.data }
            if p.err ≠ 0 ∨ p.bytes_read ≠ c.PMU_MSG_HDR_SIZE then
              pmu_read_message_clean_up c p.pmu qi msg1 (Int.lor p.err (-EINVAL))
            else if msg1.hdr.unit_id = c.PMU_UNIT_REWIND then
              let pmu2 := pmu_queue_rewind c p.pmu qi
              -- read again after rewind
              (pmu_queue_pop c pmu2 qi msg1.hdr.image c.PMU_MSG_HDR_SIZE).bind fun p2 =>
                let msg2 : PmuMsg := { msg1 with hdr := PmuHdr.parse p2.data }
                if p2.err ≠ 0 ∨ p2.bytes_read ≠ c.PMU_MSG_HDR_SIZE then
                  pmu_read_message_clean_up c p2.pmu qi msg2 (Int.lor p2.err (-EINVAL))
                else pmu_read_message_body c p2.pmu qi msg2
            else pmu_read_message_body c p.pmu qi msg1

/-! ## Sequence table -/

/-- Upward scan of a bitmap from position `i` over at most `k` positions: the first
position whose bit is clear, and `i + k` when all `k` bits are set. -/
def find_first_zero_bit_from (tbl : Nat → Bool) : Nat → Nat → Nat
  | 0, i => i
  | k + 1, i => if tbl i then find_first_zero_bit_from tbl k (i + 1) else i

/-- The kernel `find_first_zero_bit(tbl, size)`: the lowest position below `size`
whose bit is clear, and `size` when every one of the first `size` bits is set. -/
def find_first_zero_bit (tbl : Nat → Bool) (size : Nat) : Nat :=
  find_first_zero_bit_from tbl size 0

/-- A zero-filled `struct pmu_sequence` (after `memset`), with the given id. -/
def PmuSequence.zero (i : Nat) : PmuSequence :=
  { id := i, state := SeqState.FREE, desc := 0, callback := none, cb_params := none,
    msg := none, out_payload := none, in_ := { size := 0, offset := 0 },
    out := { size := 0, offset := 0 } }

/-- The function `pmu_seq_acquire(pmu, &seq)`: returns the state, the error code and
the position of the slot stored in `*pseq` (`none` when nothing is stored). -/
def pmu_seq_acquire (c : Consts) (pmu : Pmu) : Pmu × Int × Option Nat :=
  let index := find_first_zero_bit pmu.pmu_seq_tbl c.sizeof_pmu_seq_tbl
  if index ≥ c.sizeof_pmu_seq_tbl then (pmu, -EAGAIN, none)
  else
    let pmu1 := { pmu with pmu_seq_tbl := Function.update pmu.pmu_seq_tbl index true }
    (pmu1.setSeq index { pmu1.seq index with state := SeqState.PENDING }, 0, some index)

/-- The function `pmu_seq_release(pmu, seq)` for `seq = &pmu->seq[i]`. -/
def pmu_seq_release (c : Consts) (pmu : Pmu) (i : Nat) : Pmu :=
  let seq := pmu.seq i
  let seq1 : PmuSequence :=
    { seq with
      state := SeqState.FREE, desc := c.PMU_INVALID_SEQ_DESC, callback := none,
      cb_params := none, msg := none, out_payload := none,
      in_ := { seq.in_ with size := 0 }, out := { seq.out with size := 0 } }
  let pmu1 := pmu.setSeq i seq1
  { pmu1 with pmu_seq_tbl := Function.update pmu1.pmu_seq_tbl seq1.id false }

/-! ## DMEM allocator interface -/

/-- The call `pmu->dmem.alloc(&pmu->dmem, &addr, len)`: the next scripted result; on
success (`err = 0`) the region is live and its offset is stored through `addr`. -/
def Allocator.alloc (a : Allocator) (len : Nat) : Allocator × Int × Option Nat :=
  match a.script with
  | [] => (a, -ENOMEM, none)
  | (err, off) :: rest =>
    if err = 0 then ({ a with script := rest, live := (off, len) :: a.live }, 0, some off)
    else ({ a with script := rest }, err, none)

/-- The call `pmu->dmem.free(&pmu->dmem, addr, len)`. -/
def Allocator.free (a : Allocator) (addr len : Nat) : Allocator :=
  { a with live := a.live.erase (addr, len), freed := a.freed ++ [(addr, len)] }

/-! ## Command dispatcher -/

/-- One direction of a `struct pmu_payload`: `{buf, size, offset}`. -/
structure PmuPayloadDesc where
  buf : Option Nat
  size : Nat
  offset : Nat

/-- The `struct pmu_payload`. -/
structure PmuPayload where
  in_ : PmuPayloadDesc
  out : PmuPayloadDesc

/-- Store of a `u16` (little endian) at byte offset `k` of a buffer. -/
def put16 (b : Buf) (k v : Nat) : Buf :=
  fun i => if i = k then v % 256 else if i = k + 1 then v / 256 % 256 else b i

/-- Load of a `u16` (little endian) from byte offset `k` of a buffer. -/
def get16 (b : Buf) (k : Nat) : Nat := b k % 256 + b (k + 1) % 256 * 256

/-- Store of a `u32` (little endian) at byte offset `k` of a buffer. -/
def put32 (b : Buf) (k v : Nat) : Buf :=
  fun i =>
    if i = k then v % 256 else if i = k + 1 then v / 256 % 256
    else if i = k + 2 then v / 65536 % 256 else if i = k + 3 then v / 16777216 % 256
    else b i

/-- Load of a `u32` (little endian) from byte offset `k` of a buffer. -/
def get32 (b : Buf) (k : Nat) : Nat :=
  b k % 256 + b (k + 1) % 256 * 256 + b (k + 2) % 256 * 65536 + b (k + 3) % 256 * 16777216

/-- The test `msg != NULL && msg->hdr.size < PMU_MSG_HDR_SIZE` of `pmu_validate_cmd`. -/
def msg_hdr_too_small (c : Consts) (pmu : Pmu) (msg : Option Nat) : Bool :=
  match msg with
  | some m => decide ((pmu.msgbuf m).hdr.size < c.PMU_MSG_HDR_SIZE)
  | none => false

/-- The part of `pmu_validate_cmd` that checks a non-null `payload`. -/
def pmu_validate_payload (c : Consts) (cmd : PmuCmd) (payload : PmuPayload) : Bool :=
  if payload.in_.buf = none ∧ payload.out.buf = none then false
  else if (payload.in_.buf ≠ none ∧ payload.in_.size = 0) ∨
          (payload.out.buf ≠ none ∧ payload.out.size = 0) then false
  else
    let in_size :=
      if payload.in_.buf ≠ none then
        add32 (add32 c.PMU_CMD_HDR_SIZE payload.in_.offset) c.sizeof_pmu_allocation
      else c.PMU_CMD_HDR_SIZE
    let out_size :=
      if payload.out.buf ≠ none then
        add32 (add32 c.PMU_CMD_HDR_SIZE payload.out.offset) c.sizeof_pmu_allocation
      else c.PMU_CMD_HDR_SIZE
    if in_size > cmd.hdr.size ∨ out_size > cmd.hdr.size then false
    else if (payload.in_.offset ≠ 0 ∧ payload.in_.buf = none) ∨
            (payload.out.offset ≠ 0 ∧ payload.out.buf = none) then false
    else true

/-- The tests of `pmu_validate_cmd(pmu, cmd, msg, payload, queue_id)`: `false` stands
for `goto invalid_cmd`, `true` for `return true`. -/
def pmu_validate_cmd_checks (c : Consts) (pmu : Pmu) (cmd : PmuCmd) (msg : Option Nat)
    (payload : Option PmuPayload) (queue_id : Nat) : Bool :=
  if !c.PMU_IS_SW_COMMAND_QUEUE queue_id then false
  else
    let queue := pmu.queue queue_id
    if cmd.hdr.size < c.PMU_CMD_HDR_SIZE then false
    else if cmd.hdr.size > queue.size / 2 then false          -- queue->size >> 1
    else if msg_hdr_too_small c pmu msg then false
    else if !c.PMU_UNIT_ID_IS_VALID cmd.hdr.unit_id then false
    else
      match payload with
      | none => true
      | some payload => pmu_validate_payload c cmd payload

/-- The function `pmu_validate_cmd(pmu, cmd, msg, payload, queue_id)`. At `invalid_cmd`
the arguments of the error message read `payload->in.size`, `payload->in.offset`,
`payload->out.size` and `payload->out.offset`; `msg` is tested for `NULL` there,
`payload` is not. -/
def pmu_validate_cmd (c : Consts) (pmu : Pmu) (cmd : PmuCmd) (msg : Option Nat)
    (payload : Option PmuPayload) (queue_id : Nat) : Res Bool :=
  if pmu_validate_cmd_checks c pmu cmd msg payload queue_id then Res.ok true
  else
    match payload with
    | some _ => Res.ok false
    | none =>
      -- reads through the NULL `payload`
      if c.nvhost_err_evaluates_args then Res.undef else Res.ok false

/-- The `do { ... } while (1)` retry loop of `pmu_write_cmd`; one unit of fuel per
iteration. `timeout` is a `u32`, so the test `timeout >= 0` is always true. -/
def pmu_write_cmd_loop (c : Consts) (qi size : Nat) : Nat → Pmu → Nat → Res (Pmu × Int)
  | 0, _, _ => Res.nofuel
  | fuel + 1, pmu, timeout =>
    (pmu_queue_open_write c fuel pmu qi size).bind fun r =>
      if r.2 = -EAGAIN ∧ 0 ≤ timeout then
        -- timeout--; msleep(1);
        pmu_write_cmd_loop c qi size fuel r.1 (sub32 timeout 1)
      else Res.ok r

/-- The function `pmu_write_cmd(pmu, cmd, queue_id, timeout)`. -/
def pmu_write_cmd (c : Consts) (fuel : Nat) (pmu : Pmu) (cmd : PmuCmd) (queue_id timeout : Nat) :
    Res (Pmu × Int) :=
  (pmu_write_cmd_loop c queue_id cmd.hdr.size fuel pmu timeout).bind fun r =>
    if r.2 ≠ 0 then Res.ok r
    else
      let pmu1 := (pmu_queue_push c r.1 queue_id (cmd.image c) cmd.hdr.size).1
      pmu_queue_close c pmu1 queue_id true

/-- Result of `gk20a_pmu_cmd_post`: the state, the command (its header and body
are written by the call), the value stored in `*seq_desc` (`none` when the call
stores nothing) and the return value. -/
structure PostResult where
  pmu : Pmu
  cmd : PmuCmd
  seq_desc : Option Nat
  err : Int

/-- The `clean_up:` exit of `gk20a_pmu_cmd_post`; `inp` and `out` are the byte offsets
in the command body of the allocation records that `in` and `out` point to. -/
def gk20a_pmu_cmd_post_clean_up (c : Consts) (pmu : Pmu) (cmd : PmuCmd) (si : Nat)
    (inp out : Option Nat) (seq_desc : Option Nat) (err : Int) : PostResult :=
  let pmu1 :=
    match inp with
    | some k => { pmu with dmem := pmu.dmem.free (get32 cmd.cmd (k + c.alloc_offset_at))
                                      (get16 cmd.cmd (k + c.alloc_size_at)) }
    | none => pmu
  let pmu2 :=
    match out with
    | some k => { pmu1 with dmem := pmu1.dmem.free (get32 cmd.cmd (k + c.alloc_offset_at))
                                      (get16 cmd.cmd (k + c.alloc_size_at)) }
    | none => pmu1
  { pmu := pmu_seq_release c pmu2 si, cmd := cmd, seq_desc := seq_desc, err := err }

/-- Tail of `gk20a_pmu_cmd_post`: the call of `pmu_write_cmd` and what follows it. -/
def gk20a_pmu_cmd_post_write (c : Consts) (fuel : Nat) (pmu : Pmu) (cmd : PmuCmd) (si : Nat)
    (queue_id timeout : Nat) (seq_desc : Option Nat) : Res PostResult :=
  (pmu_write_cmd c fuel pmu cmd queue_id timeout).bind fun w =>
    let pmu1 :=
      if w.2 = 0 then w.1.setSeq si { w.1.seq si with state := SeqState.USED } else w.1
    Res.ok { pmu := pmu1, cmd := cmd, seq_desc := seq_desc, err := 0 }

/-- The `if (payload && payload->out.offset != 0)` block of `gk20a_pmu_cmd_post` and
what follows it. -/
def gk20a_pmu_cmd_post_out (c : Consts) (fuel : Nat) (pmu : Pmu) (cmd : PmuCmd) (si : Nat)
    (payload : Option PmuPayload) (inp : Option Nat) (queue_id timeout : Nat)
    (seq_desc : Option Nat) : Res PostResult :=
  match payload with
  | none => gk20a_pmu_cmd_post_write c fuel pmu cmd si queue_id timeout seq_desc
  | some pl =>
    if pl.out.offset ≠ 0 then
      let k := pl.out.offset
      -- out->size = (u16)payload->out.size;
      let cmd1 : PmuCmd := { cmd with cmd := put16 cmd.cmd (k + c.alloc_size_at) (pl.out.size % 65536) }
      if pl.out.buf ≠ pl.in_.buf then
        let a := pmu.dmem.alloc (get16 cmd1.cmd (k + c.alloc_size_at))
        let pmu1 := { pmu with dmem := a.1 }
        -- the allocator stores the offset through &out->offset
        let cmd2 : PmuCmd :=
          match a.2.2 with
          | some off => { cmd1 with cmd := put32 cmd1.cmd (k + c.alloc_offset_at) off }
          | none => cmd1
        if a.2.1 ≠ 0 then
          Res.ok (gk20a_pmu_cmd_post_clean_up c pmu1 cmd2 si inp (some k) seq_desc a.2.1)
        else
          let seq := pmu1.seq si
          let pmu2 := pmu1.setSeq si
            { seq with out := { size := get16 cmd2.cmd (k + c.alloc_size_at),
                                offset := get32 cmd2.cmd (k + c.alloc_offset_at) } }
          gk20a_pmu_cmd_post_write c fuel pmu2 cmd2 si queue_id timeout seq_desc
      else
        match inp with
        | none => Res.bug                                  -- BUG_ON(in == NULL)
        | some ki =>
          -- out->offset = in->offset;
          let cmd2 : PmuCmd :=
            { cmd1 with cmd := put32 cmd1.cmd (k + c.alloc_offset_at)
                                 (get32 cmd1.cmd (ki + c.alloc_offset_at)) }
          let seq := pmu.seq si
          let pmu2 := pmu.setSeq si
            { seq with out := { size := get16 cmd2.cmd (k + c.alloc_size_at),
                                offset := get32 cmd2.cmd (k + c.alloc_offset_at) } }
          gk20a_pmu_cmd_post_write c fuel pmu2 cmd2 si queue_id timeout seq_desc
    else gk20a_pmu_cmd_post_write c fuel pmu cmd si queue_id timeout seq_desc

/-- The `if (payload && payload->in.offset != 0)` block of `gk20a_pmu_cmd_post` and
what follows it. -/
def gk20a_pmu_cmd_post_in (c : Consts) (fuel : Nat) (pmu : Pmu) (cmd : PmuCmd) (si : Nat)
    (payload : Option PmuPayload) (queue_id timeout : Nat) (seq_desc : Option Nat) :
    Res PostResult :=
  match payload with
  | none => gk20a_pmu_cmd_post_out c fuel pmu cmd si payload none queue_id timeout seq_desc
  | some pl =>
    if pl.in_.offset ≠ 0 then
      let k := pl.in_.offset
      let size :=
        if pl.in_.buf ≠ pl.out.buf then pl.in_.size % 65536
        else (max pl.in_.size pl.out.size) % 65536
      let cmd1 : PmuCmd := { cmd with cmd := put16 cmd.cmd (k + c.alloc_size_at) size }
      let a := pmu.dmem.alloc (get16 cmd1.cmd (k + c.alloc_size_at))
      let pmu1 := { pmu with dmem := a.1 }
      -- the allocator stores the offset through &in->offset
      let cmd2 : PmuCmd :=
        match a.2.2 with
        | some off => { cmd1 with cmd := put32 cmd1.cmd (k + c.alloc_offset_at) off }
        | none => cmd1
      if a.2.1 ≠ 0 then
        Res.ok (gk20a_pmu_cmd_post_clean_up c pmu1 cmd2 si (some k) none seq_desc a.2.1)
      else
        match pl.in_.buf with
        | none => Res.undef                                -- copy from a NULL buffer
        | some b =>
          let pmu2 := { pmu1 with
            hw := pmu_copy_to_dmem c pmu1.hw (get32 cmd2.cmd (k + c.alloc_offset_at))
                    (pmu1.hostbuf b) pl.in_.size }
          let seq := pmu2.seq si
          let pmu3 := pmu2.setSeq si
            { seq with in_ := { size := get16 cmd2.cmd (k + c.alloc_size_at),
                                offset := get32 cmd2.cmd (k + c.alloc_offset_at) } }
          gk20a_pmu_cmd_post_out c fuel pmu3 cmd2 si payload (some k) queue_id timeout seq_desc
    else gk20a_pmu_cmd_post_out c fuel pmu cmd si payload none queue_id timeout seq_desc

/-- The function `gk20a_pmu_cmd_post(g, cmd, msg, payload, queue_id, callback, cb_param,
&seq_desc, timeout)`. The pointers `cmd` and `seq_desc` are not null. -/
def gk20a_pmu_cmd_post (c : Consts) (fuel : Nat) (pmu : Pmu) (cmd : PmuCmd) (msg : Option Nat)
    (payload : Option PmuPayload) (queue_id : Nat) (callback : Option Callback)
    (cb_param : Option Nat) (timeout : Nat) : Res PostResult :=
  if !pmu.pmu_ready then Res.bug                           -- BUG_ON(!pmu->pmu_ready)
  else (pmu_validate_cmd c pmu cmd msg payload queue_id).bind fun valid =>
  if !valid then
    Res.ok { pmu := pmu, cmd := cmd, seq_desc := none, err := -EINVAL }
  else
    let a := pmu_seq_acquire c pmu
    match a.2.2 with
    | none => Res.ok { pmu := a.1, cmd := cmd, seq_desc := none, err := a.2.1 }
    | some si =>
      let pmu1 := a.1
      let seq := pmu1.seq si
      let hdr1 : PmuHdr :=
        { cmd.hdr with
          seq_id := seq.id % 256,
          ctrl_flags := ((0 ||| c.PMU_CMD_FLAGS_STATUS) ||| c.PMU_CMD_FLAGS_INTR) % 256 }
      let cmd1 : PmuCmd := { cmd with hdr := hdr1 }
      let seq1 : PmuSequence :=
        { seq with
          callback := callback, cb_params := cb_param, msg := msg,
          out_payload := (match payload with
                          | some pl => pl.out.buf
                          | none => none),
          desc := pmu1.next_seq_desc }
      let pmu2 := { pmu1.setSeq si seq1 with next_seq_desc := add32 pmu1.next_seq_desc 1 }
      gk20a_pmu_cmd_post_in c fuel pmu2 cmd1 si payload queue_id timeout (some seq1.desc)

/-! ## Response handling -/

/-- The function `pmu_handle_pg_elpg_msg(g, msg, param, handle, status)`, `param`
being the PMU itself. The `wake_up(&pmu->pg_wq)` calls change nothing in the state. -/
def pmu_handle_pg_elpg_msg (c : Consts) (pmu : Pmu) (msg : PmuMsg) (status : Int) : Pmu :=
  if status ≠ 0 then pmu
  else if c.pg_elpg_msg msg.msg = c.PMU_PG_ELPG_MSG_INIT_ACK then { pmu with elpg_ready := true }
  else if c.pg_elpg_msg msg.msg = c.PMU_PG_ELPG_MSG_ALLOW_ACK then
    { pmu with elpg_stat := ElpgStat.ON }
  else if c.pg_elpg_msg msg.msg = c.PMU_PG_ELPG_MSG_DISALLOW_ACK then
    { pmu with elpg_stat := ElpgStat.OFF }
  else pmu

/-- The function `pmu_handle_pg_buf_config_msg(g, msg, param, handle, status)`. -/
def pmu_handle_pg_buf_config_msg (c : Consts) (pmu : Pmu) (msg : PmuMsg) (status : Int) : Pmu :=
  if status ≠ 0 then pmu
  else { pmu with
    pg_buf_loaded := decide (c.pg_eng_buf_stat_status msg.msg = c.PMU_PG_MSG_ENG_BUF_LOADED) }

/-- The function `pmu_handle_pg_stat_msg(g, msg, param, handle, status)`. -/
def pmu_handle_pg_stat_msg (c : Consts) (pmu : Pmu) (msg : PmuMsg) (status : Int) : Pmu :=
  if status ≠ 0 then pmu
  else if c.pg_stat_sub_msg_id msg.msg = c.PMU_PG_STAT_MSG_RESP_DMEM_OFFSET then
    { pmu with stat_dmem_offset := c.pg_stat_data msg.msg }
  else pmu

/-- The indirect call `seq->callback(g, msg, seq->cb_params, seq->desc, ret)`: the call
is recorded, and a handler of this file has its effect on the PMU state. A
handler of another client is outside the file: only the call is recorded. -/
def invoke_callback (c : Consts) (pmu : Pmu) (cb : Callback) (msg : PmuMsg)
    (param : Option Nat) (handle : Nat) (status : Int) : Pmu :=
  let pmu1 := { pmu with
    calls := pmu.calls ++
      [{ callback := cb, msg := msg, param := param, handle := handle, status := status }] }
  match cb with
  | Callback.pmu_handle_pg_elpg_msg => pmu_handle_pg_elpg_msg c pmu1 msg status
  | Callback.pmu_handle_pg_buf_config_msg => pmu_handle_pg_buf_config_msg c pmu1 msg status
  | Callback.pmu_handle_pg_stat_msg => pmu_handle_pg_stat_msg c pmu1 msg status
  | Callback.client _ => pmu1

/-- The call `memcpy(dst, msg, n)` onto a `struct pmu_msg`. -/
def pmu_msg_memcpy (c : Consts) (dst src : PmuMsg) (n : Nat) : PmuMsg :=
  PmuMsg.ofImage c (fun i => if i < n then src.image c i else dst.image c i)

/-- The two `pmu->dmem.free` calls of `pmu_response_handle` for slot `si`. -/
def pmu_response_handle_free (pmu : Pmu) (si : Nat) : Pmu :=
  let seq := pmu.seq si
  let pmu1 :=
    if seq.in_.size ≠ 0 then { pmu with dmem := pmu.dmem.free seq.in_.offset seq.in_.size }
    else pmu
  if seq.out.size ≠ 0 then { pmu1 with dmem := pmu1.dmem.free seq.out.offset seq.out.size }
  else pmu1

/-- Part of `pmu_response_handle` after the slot has been checked: the frees, the
callback and the release of slot `si`. -/
def pmu_response_handle_finish (c : Consts) (pmu : Pmu) (msg : PmuMsg) (si : Nat) : Pmu × Int :=
  let seq := pmu.seq si
  let pmu2 := pmu_response_handle_free pmu si
  let pmu3 :=
    match seq.callback with
    | some cb => invoke_callback c pmu2 cb msg seq.cb_params seq.desc 0
    | none => pmu2
  (pmu_seq_release c pmu3 si, 0)

/-- The function `pmu_response_handle(pmu, msg)`. -/
def pmu_response_handle (c : Consts) (pmu : Pmu) (msg : PmuMsg) : Res (Pmu × Int) :=
  let si := msg.hdr.seq_id
  let seq := pmu.seq si
  if seq.state ≠ SeqState.USED ∧ seq.state ≠ SeqState.CANCELLED then Res.ok (pmu, -EINVAL)
  else if msg.hdr.unit_id = c.PMU_UNIT_RC ∧
      c.rc_msg_type msg.msg = c.PMU_RC_MSG_TYPE_UNHANDLED_CMD then
    Res.ok (pmu_response_handle_finish c pmu msg si)
  else if seq.state ≠ SeqState.CANCELLED then
    match seq.msg with
    | some m =>
      if (pmu.msgbuf m).hdr.size ≥ msg.hdr.size then
        -- memcpy(seq->msg, msg, msg->hdr.size)
        let pmu1 := { pmu with
          msgbuf := Function.update pmu.msgbuf m (pmu_msg_memcpy c (pmu.msgbuf m) msg msg.hdr.size) }
        if seq.out.size ≠ 0 then
          match seq.out_payload with
          | none =>
            -- a copy through a NULL destination, unless pmu_copy_from_dmem returns early
            if seq.out.offset % 4 ≠ 0 then Res.ok (pmu_response_handle_finish c pmu1 msg si)
            else Res.undef
          | some b =>
            let r := pmu_copy_from_dmem c pmu1.hw seq.out.offset (pmu1.hostbuf b) seq.out.size
            let pmu2 := { pmu1 with hw := r.1, hostbuf := Function.update pmu1.hostbuf b r.2 }
            Res.ok (pmu_response_handle_finish c pmu2 msg si)
        else Res.ok (pmu_response_handle_finish c pmu1 msg si)
      else Res.ok (pmu_response_handle_finish c pmu msg si)
    | none => Res.ok (pmu_response_handle_finish c pmu msg si)
  else
    -- seq->callback = NULL;
    Res.ok (pmu_response_handle_finish c (pmu.setSeq si { seq with callback := none }) msg si)

/-- The `while (pmu_read_message(...))` loop of `pmu_process_message`, which the
function runs once the channel is ready; one unit of fuel per message. `msg` is
the content of the local `struct pmu_msg msg`. -/
def pmu_process_message_loop (c : Consts) : Nat → Pmu → PmuMsg → Res Pmu
  | 0, _, _ => Res.nofuel
  | fuel + 1, pmu, msg =>
    (pmu_read_message c fuel pmu c.PMU_MESSAGE_QUEUE msg).bind fun r =>
      if !r.ret then Res.ok r.pmu
      else
        -- msg.hdr.ctrl_flags &= ~PMU_CMD_FLAGS_PMU_MASK;
        let flags := r.msg.hdr.ctrl_flags ^^^ (r.msg.hdr.ctrl_flags &&& c.PMU_CMD_FLAGS_PMU_MASK)
        let msg1 : PmuMsg := { r.msg with hdr := { r.msg.hdr with ctrl_flags := flags } }
        if flags = c.PMU_CMD_FLAGS_EVENT then
          -- TBD: handle event callbacks
          pmu_process_message_loop c fuel r.pmu msg1
        else
          (pmu_response_handle c r.pmu msg1).bind fun h =>
            pmu_process_message_loop c fuel h.1 msg1

/-! ## Power gating -/

/-- The pointer `pmu` that the power-gating code registers as callback parameter. -/
def pmu_self : Option Nat := some 0

/-- The local `struct pmu_cmd cmd` of the power-gating functions after the `memset`
and the five assignments that make it an ELPG command with sub-command `cmd`. -/
def elpg_cmd (c : Consts) (cmd : Nat) : PmuCmd :=
  { hdr := { unit_id := c.PMU_UNIT_PG % 256,
             size := (c.PMU_CMD_HDR_SIZE + c.sizeof_pmu_pg_cmd_elpg_cmd) % 256,
             ctrl_flags := 0, seq_id := 0 },
    cmd := put16
      (Function.update
        (Function.update (fun _ => 0) c.elpg_cmd_type_at (c.PMU_PG_CMD_TYPE_ELPG_CMD % 256))
        c.elpg_engine_id_at (c.ENGINE_GR_GK20A % 256))
      c.elpg_cmd_at (cmd % 65536) }

/-- The function `gk20a_pmu_enable_elpg(g)`; `golden_image_initialized` is
`g->gr.ctx_vars.golden_image_initialized`. The result of `gk20a_pmu_cmd_post` is
not looked at. -/
def gk20a_pmu_enable_elpg (c : Consts) (fuel : Nat) (pmu : Pmu)
    (golden_image_initialized : Bool) : Res (Pmu × Int) :=
  if !pmu.elpg_ready then Res.ok (pmu, 0)
  else if !golden_image_initialized then Res.ok (pmu, 0)
  else if pmu.elpg_stat ≠ ElpgStat.OFF then Res.ok (pmu, 0)
  else if !pmu.elpg_enable_allow then
    Res.ok ({ pmu with elpg_stat := ElpgStat.OFF_ON_PENDING }, 0)
  else
    (gk20a_pmu_cmd_post c fuel pmu (elpg_cmd c c.PMU_PG_ELPG_CMD_ALLOW) none none
        c.PMU_COMMAND_QUEUE_HPQ (some Callback.pmu_handle_pg_elpg_msg) pmu_self
        4294967295).bind fun r =>
      -- no need to wait ack for ELPG enable
      Res.ok ({ r.pmu with elpg_stat := ElpgStat.ON_PENDING }, 0)

/-- The timer function `pmu_elpg_enable_allow(arg)` of the debounce timer
`pmu->elpg_timer`; `golden_image_initialized` is
`g->gr.ctx_vars.golden_image_initialized`. -/
def pmu_elpg_enable_allow (c : Consts) (fuel : Nat) (pmu : Pmu)
    (golden_image_initialized : Bool) : Res Pmu :=
  let pmu1 := { pmu with elpg_enable_allow := true }
  if pmu1.elpg_stat = ElpgStat.OFF_ON_PENDING then
    (gk20a_pmu_enable_elpg c fuel pmu1 golden_image_initialized).bind fun r => Res.ok r.1
  else Res.ok pmu1

/-- Modelled from the spec: the kernel macro
`wait_event_interruptible_timeout(wq, condition, timeout)` (linux/wait.h) is not
among the sources. The caller goes on at once when `condition` holds; otherwise it
sleeps until a wake-up finds the condition true, the timeout expires or a signal
arrives. What the other contexts (the interrupt handler that runs the response
dispatcher and its callbacks) do to the driver state during that sleep is the
parameter `env`. The value the macro returns only feeds an error message. -/
def wait_event_interruptible_timeout (env : Pmu → Pmu) (condition : Pmu → Bool) (pmu : Pmu) :
    Pmu :=
  if condition pmu then pmu else env pmu

/-- Second half of `gk20a_pmu_disable_elpg`: the post of the DISALLOW command, the wait
for its acknowledgement and the arming of the debounce timer. The result of
`gk20a_pmu_cmd_post` is not looked at; the expiry time of the timer is not modelled. -/
def gk20a_pmu_disable_elpg_post (c : Consts) (fuel : Nat) (pmu : Pmu) (env : Pmu → Pmu) :
    Res (Pmu × Int) :=
  (gk20a_pmu_cmd_post c fuel pmu (elpg_cmd c c.PMU_PG_ELPG_CMD_DISALLOW) none none
      c.PMU_COMMAND_QUEUE_HPQ (some Callback.pmu_handle_pg_elpg_msg) pmu_self
      4294967295).bind fun r =>
    let pmu1 := wait_event_interruptible_timeout env
      (fun p => decide (p.elpg_stat = ElpgStat.OFF)) r.pmu
    if pmu1.elpg_stat ≠ ElpgStat.OFF then Res.ok (pmu1, -EBUSY)
    else if !pmu1.elpg_timer_pending then
      -- add_timer(&pmu->elpg_timer)
      Res.ok ({ pmu1 with elpg_enable_allow := false, elpg_timer_pending := true }, 0)
    else Res.ok (pmu1, 0)

/-- The function `gk20a_pmu_disable_elpg(g)`; `env` is what the other contexts do to
the state while the function sleeps in a wait. -/
def gk20a_pmu_disable_elpg (c : Consts) (fuel : Nat) (pmu : Pmu) (env : Pmu → Pmu) :
    Res (Pmu × Int) :=
  if !pmu.elpg_ready then Res.ok (pmu, 0)
  else if pmu.elpg_stat = ElpgStat.OFF_ON_PENDING then
    -- cancel off_on_pending and return
    Res.ok ({ pmu with elpg_stat := ElpgStat.OFF }, 0)
  else if pmu.elpg_stat = ElpgStat.ON_PENDING then
    -- wait if on_pending
    let pmu1 := wait_event_interruptible_timeout env
      (fun p => decide (p.elpg_stat = ElpgStat.ON)) pmu
    if pmu1.elpg_stat ≠ ElpgStat.ON then Res.ok (pmu1, -EBUSY)
    else gk20a_pmu_disable_elpg_post c fuel pmu1 env
  else if pmu.elpg_stat ≠ ElpgStat.ON then
    -- return if ELPG is already off
    Res.ok (pmu, 0)
  else gk20a_pmu_disable_elpg_post c fuel pmu env

/-! ## Initialisation -/

/-- The function `pmu_queue_init(queue, id, init)`; `init` is the body of the init
message. `mutex_init` leaves the kernel mutex of the queue unlocked. -/
def pmu_queue_init (c : Consts) (queue : PmuQueue) (id : Nat) (init : Buf) : PmuQueue :=
  { queue with
    id := id,
    index := c.init_queue_info_index init id,
    offset := c.init_queue_info_offset init id,
    size := c.init_queue_info_size init id,
    mutex_id := id,
    mutex := false }

/-- The call `nvhost_allocator_init(&pmu->dmem, ...)`: an allocator without regions. -/
def Allocator.init (a : Allocator) : Allocator := { a with live := [], freed := [] }

/-- The local `struct pmu_cmd cmd` of `pmu_init_powergating` after the `memset` and
the six assignments that make it the PG_STAT command that asks for the statistics
area in DMEM. -/
def pg_stat_cmd (c : Consts) : PmuCmd :=
  { hdr := { unit_id := c.PMU_UNIT_PG % 256,
             size := (c.PMU_CMD_HDR_SIZE + c.sizeof_pmu_pg_cmd_stat) % 256,
             ctrl_flags := 0, seq_id := 0 },
    cmd := put32
      (put16
        (Function.update
          (Function.update (fun _ => 0) c.stat_cmd_type_at (c.PMU_PG_CMD_TYPE_PG_STAT % 256))
          c.stat_engine_id_at (c.ENGINE_GR_GK20A % 256))
        c.stat_sub_cmd_id_at (c.PMU_PG_STAT_CMD_ALLOC_DMEM % 65536))
      c.stat_data_at 0 }

/-- The function `pmu_init_powergating(pmu)`. The results of the three calls of
`gk20a_pmu_cmd_post` are not looked at. -/
def pmu_init_powergating (c : Consts) (fuel : Nat) (pmu : Pmu) : Res (Pmu × Int) :=
  let hw1 : Hw :=
    { pmu.hw with
      pg_idlefilth :=
        Function.update pmu.hw.pg_idlefilth c.ENGINE_GR_GK20A (c.PMU_PG_IDLE_THRESHOLD % U32) }
  let hw2 : Hw :=
    { hw1 with
      pg_ppuidlefilth :=
        Function.update hw1.pg_ppuidlefilth c.ENGINE_GR_GK20A
          (c.PMU_PG_POST_POWERUP_IDLE_THRESHOLD % U32) }
  let pmu1 : Pmu := { pmu with hw := hw2 }
  -- init ELPG
  (gk20a_pmu_cmd_post c fuel pmu1 (elpg_cmd c c.PMU_PG_ELPG_CMD_INIT) none none
      c.PMU_COMMAND_QUEUE_HPQ (some Callback.pmu_handle_pg_elpg_msg) pmu_self
      4294967295).bind fun r1 =>
    -- alloc dmem for powergating state log
    let pmu2 : Pmu := { r1.pmu with stat_dmem_offset := 0 }
    (gk20a_pmu_cmd_post c fuel pmu2 (pg_stat_cmd c) none none
        c.PMU_COMMAND_QUEUE_LPQ (some Callback.pmu_handle_pg_stat_msg) pmu_self
        4294967295).bind fun r2 =>
      -- disallow ELPG initially
      let pmu3 : Pmu := { r2.pmu with elpg_stat := ElpgStat.ON }
      (gk20a_pmu_cmd_post c fuel pmu3 (elpg_cmd c c.PMU_PG_ELPG_CMD_DISALLOW) none none
          c.PMU_COMMAND_QUEUE_HPQ (some Callback.pmu_handle_pg_elpg_msg) pmu_self
          4294967295).bind fun r3 =>
        Res.ok (r3.pmu, 0)

/-- Result of `pmu_process_init_msg`: the state, the caller's message buffer and the
value returned. -/
structure InitResult where
  pmu : Pmu
  msg : PmuMsg
  err : Int

/-- The `if (!pmu->gid_info.valid)` block of `pmu_process_init_msg`; `init` is the body
of the init message and `gid_data` the previous content of the local
`struct pmu_sha1_gid_data gid_data`. -/
def pmu_process_init_msg_gid (c : Consts) (pmu : Pmu) (init : Buf) (gid_data : Buf) : Res Pmu :=
  if !pmu.gid_info.valid then
    let g := pmu_copy_from_dmem c pmu.hw (c.init_sw_managed_area_offset init) gid_data
      c.sizeof_pmu_sha1_gid_data
    let valid := decide (get32 g.2 c.gid_data_signature_at = c.PMU_SHA1_GID_SIGNATURE % U32)
    let pmu1 : Pmu := { pmu with hw := g.1, gid_info := { pmu.gid_info with valid := valid } }
    if valid then
      if c.sizeof_gid_info_gid ≠ c.sizeof_gid_data_gid then Res.bug   -- BUG_ON
      else
        Res.ok
          { pmu1 with
            gid_info :=
              { pmu1.gid_info with
                gid := fun i =>
                  if i < c.sizeof_gid_info_gid then g.2 (c.gid_data_gid_at + i)
                  else pmu1.gid_info.gid i } }
    else Res.ok pmu1
  else Res.ok pmu

/-- The function `pmu_process_init_msg(pmu, msg)`; `msg` is the previous content of
the caller's message buffer and `gid_data` that of the local
`struct pmu_sha1_gid_data gid_data`. -/
def pmu_process_init_msg (c : Consts) (pmu : Pmu) (msg : PmuMsg) (gid_data : Buf) :
    Res InitResult :=
  let tail := pmu.hw.msgq_tail
  let h := pmu_copy_from_dmem c pmu.hw tail msg.hdr.image c.PMU_MSG_HDR_SIZE
  let msg1 : PmuMsg := { msg with hdr := PmuHdr.parse h.2 }
  let pmu1 : Pmu := { pmu with hw := h.1 }
  if msg1.hdr.unit_id ≠ c.PMU_UNIT_INIT then
    Res.ok { pmu := pmu1, msg := msg1, err := -EINVAL }
  else
    let b := pmu_copy_from_dmem c pmu1.hw (add32 tail c.PMU_MSG_HDR_SIZE) msg1.msg
      (sub32 msg1.hdr.size c.PMU_MSG_HDR_SIZE)
    let msg2 : PmuMsg := { msg1 with msg := b.2 }
    let pmu2 : Pmu := { pmu1 with hw := b.1 }
    if c.init_msg_type msg2.msg ≠ c.PMU_INIT_MSG_TYPE_PMU_INIT then
      Res.ok { pmu := pmu2, msg := msg2, err := -EINVAL }
    else
      let tail1 := add32 tail (ALIGN msg2.hdr.size c.PMU_DMEM_ALIGNMENT)
      let pmu3 : Pmu := { pmu2 with hw := { pmu2.hw with msgq_tail := tail1 } }
      (pmu_process_init_msg_gid c pmu3 msg2.msg gid_data).bind fun pmu4 =>
        let pmu5 := for_loop c.PMU_QUEUE_COUNT
          (fun i p => p.setQueue i (pmu_queue_init c (p.queue i) i msg2.msg)) pmu4
        Res.ok
          { pmu := { pmu5 with dmem := pmu5.dmem.init, pmu_ready := true },
            msg := msg2, err := 0 }

/-- The function `pmu_process_message(pmu)`; `msg` and `gid_data` are the previous
contents of the local `struct pmu_msg msg` and of the local `gid_data` of
`pmu_process_init_msg`. The results of `pmu_process_init_msg` and of
`pmu_init_powergating` are not looked at. -/
def pmu_process_message (c : Consts) (fuel : Nat) (pmu : Pmu) (msg : PmuMsg) (gid_data : Buf) :
    Res (Pmu × Int) :=
  if !pmu.pmu_ready then
    (pmu_process_init_msg c pmu msg gid_data).bind fun r =>
      (pmu_init_powergating c fuel r.pmu).bind fun p =>
        Res.ok (p.1, 0)
  else
    (pmu_process_message_loop c fuel pmu msg).bind fun p => Res.ok (p, 0)

/-! ## Auxiliary definitions for the statements below -/

/-- Word `i` of the first `n` bytes of a buffer: the bytes at or beyond `n` count as 0. -/
def src_word (src : Buf) (n i : Nat) : Nat :=
  (if 4 * i < n then src (4 * i) % 256 else 0)
    + (if 4 * i + 1 < n then src (4 * i + 1) % 256 else 0) * 256
    + (if 4 * i + 2 < n then src (4 * i + 2) % 256 else 0) * 65536
    + (if 4 * i + 3 < n then src (4 * i + 3) % 256 else 0) * 16777216

/-- DMEM after `w` words `f 0, f 1, ...` have been stored from byte address `a` on. -/
def dmem_after_write (d : Nat → Nat) (a w : Nat) (f : Nat → Nat) : Nat → Nat :=
  fun x => if a ≤ x ∧ x < a + 4 * w ∧ (x - a) % 4 = 0 then f ((x - a) / 4) % U32 else d x

/-- Destination buffer after `n` bytes have been loaded from byte address `a` of DMEM. -/
def buf_after_read (d : Nat → Nat) (a n : Nat) (dst : Buf) : Buf :=
  fun j => if j < n then lane (d (a + 4 * (j / 4))) (j % 4) else dst j

/-- A queue descriptor of a software command queue: it is locked with the kernel
mutex, and its head and tail live in the indexed command-queue registers. -/
def IsSwQueue (c : Consts) (q : PmuQueue) : Prop :=
  c.PMU_IS_MESSAGE_QUEUE q.id = false ∧ c.PMU_IS_SW_COMMAND_QUEUE q.id = true ∧
    c.PMU_IS_COMMAND_QUEUE q.id = true ∧ q.index < c.queue_head_size_1 ∧
    q.index < c.queue_tail_size_1

/-- State after `pmu_queue_lock` took the kernel mutex of queue `qi`. -/
def sw_locked (pmu : Pmu) (qi : Nat) : Pmu :=
  pmu.setQueue qi { pmu.queue qi with mutex := true, locked := true }

/-- State after `pmu_queue_open_write` locked queue `qi` and opened it at `head`. -/
def sw_opened_write (pmu : Pmu) (qi head : Nat) : Pmu :=
  pmu.setQueue qi
    { pmu.queue qi with
      mutex := true, locked := true, position := head, oflag := Oflag.OFLAG_WRITE, opened := true }

/-- State after `pmu_queue_open_read` locked queue `qi` and opened it at `tail`. -/
def sw_opened_read (pmu : Pmu) (qi tail : Nat) : Pmu :=
  pmu.setQueue qi
    { pmu.queue qi with
      mutex := true, locked := true, position := tail, oflag := Oflag.OFLAG_READ, opened := true }

/-- The free space `pmu_queue_has_room` computes before the buffer end, in `u32`. -/
def free_before_end (c : Consts) (q : PmuQueue) (head : Nat) : Nat :=
  sub32 (sub32 (add32 q.offset q.size) head) c.PMU_CMD_HDR_SIZE

/-- The value `pmu_queue_has_room` stores in `*need_rewind`. -/
def need_rewind (c : Consts) (q : PmuQueue) (head tail size : Nat) : Bool :=
  decide (head ≥ tail ∧ ALIGN size c.QUEUE_ALIGNMENT > free_before_end c q head)

/-- The result of `pmu_queue_has_room` in terms of the head and tail registers. -/
def has_room (c : Consts) (q : PmuQueue) (head tail size : Nat) : Bool :=
  let head1 := if need_rewind c q head tail size then q.offset else head
  let free := if head1 < tail then tail - head1 - 1 else free_before_end c q head
  decide (ALIGN size c.QUEUE_ALIGNMENT ≤ free)

/-- The claim of the specification on when a padded request `P` fits: with
`head >= tail` it fits before the buffer end iff `P <= offset + size - head - hdr`,
and otherwise after a rewind iff `offset < tail` and `P <= tail - offset - 1`; with
`head < tail` it fits iff `P <= tail - head - 1`. -/
def fits_spec (offset size head tail hdr P : Nat) : Prop :=
  if head ≥ tail then
    P ≤ offset + size - head - hdr ∨ (offset < tail ∧ P ≤ tail - offset - 1)
  else P ≤ tail - head - 1

/-- The claim of the specification on when a rewind is needed: `head >= tail` and
the padded request does not fit before the buffer end. -/
def rewind_spec (offset size head tail hdr P : Nat) : Prop :=
  head ≥ tail ∧ ¬ (P ≤ offset + size - head - hdr)

/-! ## A concrete configuration, for evaluating the model -/

/-- A concrete choice of the header constants: 4-byte header, 4-byte queue
alignment, two software command queues (ids 0 and 1), two hardware-locked
command queues (ids 2 and 3), the message queue (id 4), and 256 sequences
whose bitmap occupies 32 bytes. -/
def gk20a : Consts :=
  { sizeof_pmu_hdr := 4
    QUEUE_ALIGNMENT := 4
    addr_mask := 65532
    PMU_UNIT_REWIND := 0
    PMU_UNIT_RC := 31
    PMU_RC_MSG_TYPE_UNHANDLED_CMD := 0
    PMU_UNIT_ID_IS_VALID := fun id => decide (id < 35 ∨ id ≥ 254)
    PMU_IS_COMMAND_QUEUE := fun id => decide (id < 4)
    PMU_IS_SW_COMMAND_QUEUE := fun id => decide (id = 0 ∨ id = 1)
    PMU_IS_MESSAGE_QUEUE := fun id => decide (id = 4)
    PMU_MESSAGE_QUEUE := 4
    queue_head_size_1 := 4
    queue_tail_size_1 := 4
    PMU_MAX_NUM_SEQUENCES := 256
    sizeof_pmu_seq_tbl := 32
    PMU_INVALID_SEQ_DESC := 4294967295
    PMU_CMD_FLAGS_STATUS := 1
    PMU_CMD_FLAGS_INTR := 2
    PMU_CMD_FLAGS_EVENT := 4
    PMU_CMD_FLAGS_PMU_MASK := 240
    sizeof_pmu_allocation := 8
    alloc_size_at := 0
    alloc_offset_at := 4
    PMU_INVALID_MUTEX_OWNER_ID := 0
    PMU_MUTEX_ID_IS_VALID := fun id => decide (id < 16)
    mutex_id_value_init := 0
    mutex_id_value_not_avail := 255
    mutex_value_initial_lock := 0
    rc_msg_type := fun b => b 0
    pg_elpg_msg := fun b => get16 b 2
    pg_eng_buf_stat_status := fun b => b 3
    pg_stat_sub_msg_id := fun b => get16 b 2
    pg_stat_data := fun b => get32 b 4
    PMU_PG_ELPG_MSG_INIT_ACK := 0
    PMU_PG_ELPG_MSG_DISALLOW_ACK := 1
    PMU_PG_ELPG_MSG_ALLOW_ACK := 2
    PMU_PG_MSG_ENG_BUF_LOADED := 0
    PMU_PG_STAT_MSG_RESP_DMEM_OFFSET := 0
    nvhost_err_evaluates_args := true
    PMU_UNIT_PG := 3
    PMU_COMMAND_QUEUE_HPQ := 0
    sizeof_pmu_pg_cmd_elpg_cmd := 4
    elpg_cmd_type_at := 0
    elpg_engine_id_at := 1
    elpg_cmd_at := 2
    PMU_PG_CMD_TYPE_ELPG_CMD := 0
    ENGINE_GR_GK20A := 0
    PMU_PG_ELPG_CMD_ALLOW := 2
    PMU_PG_ELPG_CMD_DISALLOW := 1
    PMU_PG_ELPG_CMD_INIT := 0
    PMU_COMMAND_QUEUE_LPQ := 1
    sizeof_pmu_pg_cmd_stat := 8
    stat_cmd_type_at := 0
    stat_engine_id_at := 1
    stat_sub_cmd_id_at := 2
    stat_data_at := 4
    PMU_PG_CMD_TYPE_PG_STAT := 3
    PMU_PG_STAT_CMD_ALLOC_DMEM := 0
    PMU_PG_IDLE_THRESHOLD := 15000
    PMU_PG_POST_POWERUP_IDLE_THRESHOLD := 1000000
    PMU_UNIT_INIT := 7
    PMU_INIT_MSG_TYPE_PMU_INIT := 0
    PMU_DMEM_ALIGNMENT := 4
    PMU_QUEUE_COUNT := 5
    init_msg_type := fun b => b 0 % 256
    init_sw_managed_area_offset := fun b => get16 b 32
    init_sw_managed_area_size := fun b => get16 b 34
    init_queue_info_index := fun b id => b (2 + 6 * id + 4) % 256
    init_queue_info_offset := fun b id => get16 b (2 + 6 * id + 2)
    init_queue_info_size := fun b id => get16 b (2 + 6 * id)
    sizeof_pmu_sha1_gid_data := 20
    gid_data_signature_at := 0
    gid_data_gid_at := 4
    sizeof_gid_data_gid := 16
    sizeof_gid_info_gid := 16
    PMU_SHA1_GID_SIGNATURE := 2814798546 }

/-- Hardware state with empty queues: queue `i` occupies the 128 bytes of DMEM
from `2048 + 128 * i` on, the message queue the 128 bytes from 2560 on. -/
def hw0 : Hw :=
  { dmem := fun _ => 0
    dmemc := 0
    queue_head := fun i => 2048 + 128 * i
    queue_tail := fun i => 2048 + 128 * i
    msgq_head := 2560
    msgq_tail := 2560
    mutex := fun _ => 0
    mutex_id_gen := fun k => k + 1
    mutex_id_cnt := 0
    mutex_id_released := []
    pg_idlefilth := fun _ => 0
    pg_ppuidlefilth := fun _ => 0 }

/-- Queue descriptor `i` as `pmu_queue_init` leaves it for the geometry of `hw0`. -/
def queue0 (i : Nat) : PmuQueue :=
  { id := i, index := i, offset := 2048 + 128 * i, size := 128, position := 0,
    oflag := Oflag.OFLAG_READ, opened := false, locked := false, mutex_id := i,
    mutex_lock := 0, mutex := false }

/-- An all-zero message or command header. -/
def PmuHdr.zero : PmuHdr := { unit_id := 0, size := 0, ctrl_flags := 0, seq_id := 0 }

/-- A driver state right after initialisation: queues set up and empty, every
sequence slot free, the channel marked ready. -/
def pmu0 : Pmu :=
  { hw := hw0
    queue := queue0
    seq := PmuSequence.zero
    pmu_seq_tbl := fun _ => false
    next_seq_desc := 0
    mutex := fun i => { id := i, index := i, ref_cnt := 0, acquired := false }
    mutex_cnt := 16
    dmem := { script := [], live := [], freed := [] }
    pmu_ready := true
    elpg_ready := false
    elpg_enable_allow := false
    elpg_timer_pending := false
    elpg_stat := ElpgStat.OFF
    pg_buf_loaded := false
    stat_dmem_offset := 0
    msgbuf := fun _ => { hdr := PmuHdr.zero, msg := fun _ => 0 }
    hostbuf := fun _ _ => 0
    stack_cmd := { hdr := PmuHdr.zero, cmd := fun _ => 0 }
    calls := []
    gid_info := { valid := false, gid := fun _ => 0 } }

/-- The constants of `gk20a` with an 8-byte header, as in the wraparound scenario
of the specification (capacity 64, alignment unit 4, header size 8). -/
def gk20a_hdr8 : Consts := { gk20a with sizeof_pmu_hdr := 8 }

/-- A state whose command queues occupy the 64 bytes of DMEM from 0 on, with head
and tail registers both at `h`. -/
def pmu_q64 (h : Nat) : Pmu :=
  { pmu0 with
    hw := { hw0 with queue_head := fun _ => h, queue_tail := fun _ => h },
    queue := fun i => { queue0 i with offset := 0, size := 64 } }

/-- The state `pmu0` with the head and tail registers of every command queue moved
8 bytes before the end of queue 0 (byte address 2168 of the buffer `[2048, 2176)`). -/
def pmu_wrap : Pmu :=
  { pmu0 with hw := { hw0 with queue_head := fun _ => 2168, queue_tail := fun _ => 2168 } }

/-- An 8-byte command for unit 3: a 4-byte header and 4 body bytes of value 7. -/
def cmd_pg8 : PmuCmd :=
  { hdr := { unit_id := 3, size := 8, ctrl_flags := 0, seq_id := 0 }, cmd := fun _ => 7 }

/-- An all-zero message buffer. -/
def PmuMsg.zero : PmuMsg := { hdr := PmuHdr.zero, msg := fun _ => 0 }

/-- The state `pmu0` after 32 commands have been posted and not yet answered: the
slots 0 to 31 are in use and their bits are set, every other slot is free. -/
def pmu_seq32 : Pmu :=
  { pmu0 with
    pmu_seq_tbl := fun i => decide (i < 32),
    seq := fun i =>
      if i < 32 then { PmuSequence.zero i with state := SeqState.USED } else PmuSequence.zero i }

/-- The state `pmu0` with slot 3 in use: its command was posted with the callback of
client 7, context 9, descriptor 5 and no response buffer. -/
def pmu_used3 : Pmu :=
  { pmu0 with
    pmu_seq_tbl := fun i => decide (i = 3),
    seq := fun i =>
      if i = 3 then
        { PmuSequence.zero 3 with
          state := SeqState.USED, callback := some (Callback.client 7), cb_params := some 9,
          desc := 5 }
      else PmuSequence.zero i }

/-- A 4-byte response message from unit 3 for sequence id 3. -/
def msg_resp3 : PmuMsg :=
  { hdr := { unit_id := 3, size := 4, ctrl_flags := 0, seq_id := 3 }, msg := fun _ => 0 }

/-- A command of unit 3 whose size field, 2, is below the header size. -/
def cmd_short : PmuCmd :=
  { hdr := { unit_id := 3, size := 2, ctrl_flags := 0, seq_id := 0 }, cmd := fun _ => 0 }

/-! ## Predicates on the sequence table and on a posted command -/

/-- Two states with the same sequence slots and the same allocation bitmap. -/
def SameSeq (p q : Pmu) : Prop := q.seq = p.seq ∧ q.pmu_seq_tbl = p.pmu_seq_tbl

/-- Where `pmu_queue_open_write` places a request of `size` bytes in the queue `q`
with the given head and tail registers: at the start of the buffer after a rewind,
at the head otherwise. -/
def write_position (c : Consts) (q : PmuQueue) (head tail size : Nat) : Nat :=
  if need_rewind c q head tail size = true then q.offset else head

/-- The fields of a sequence slot that `gk20a_pmu_cmd_post` fills before it writes
the command: id, descriptor, callback, context, response buffer, output buffer. -/
def slot_view (s : PmuSequence) :
    Nat × Nat × Option Callback × Option Nat × Option Nat × Option Nat :=
  (s.id, s.desc, s.callback, s.cb_params, s.msg, s.out_payload)

/-- Outcome of a `gk20a_pmu_cmd_post` that wrote its command: success is returned, the
command keeps the header `hdr`, the slot `si` is USED with the fields `v`, and the
command image has been copied to DMEM at the write position of queue `qi` (descriptor
`qd`, registers `head` and `tail` before the call), the head register published and
the queue closed and unlocked. -/
def PostDone (c : Consts) (hdr : PmuHdr)
    (v : Nat × Nat × Option Callback × Option Nat × Option Nat × Option Nat)
    (sd : Option Nat) (qd : PmuQueue) (head tail : Nat) (si qi : Nat) (r : PostResult) : Prop :=
  r.err = 0 ∧ r.cmd.hdr = hdr ∧ r.seq_desc = sd ∧
  (r.pmu.seq si).state = SeqState.USED ∧ slot_view (r.pmu.seq si) = v ∧
  (∃ hw1, r.pmu.hw.dmem =
    (pmu_copy_to_dmem c hw1 (write_position c qd head tail hdr.size) (r.cmd.image c)
      hdr.size).dmem) ∧
  r.pmu.hw.queue_head qd.index =
    add32 (write_position c qd head tail hdr.size) (ALIGN hdr.size c.QUEUE_ALIGNMENT) ∧
  (r.pmu.queue qi).opened = false ∧ (r.pmu.queue qi).mutex = false

/-- The next scripted result of the DMEM allocator is a success. -/
def AllocOk1 (a : Allocator) : Prop := ∃ o rest, a.script = (0, o) :: rest

/-- The next two scripted results of the DMEM allocator are successes. -/
def AllocOk2 (a : Allocator) : Prop := ∃ o1 o2 rest, a.script = (0, o1) :: (0, o2) :: rest

/-- The state `pmu0` with command queue 0 full: the head register of every command
queue is at 2148 and the tail register at 2152, so 3 bytes are free. -/
def pmu_full : Pmu :=
  { pmu0 with hw := { hw0 with queue_head := fun _ => 2148, queue_tail := fun _ => 2152 } }

/-- The state `pmu0` with slot 3 in use and a response buffer registered: its command
was posted with the callback of client 7, context 9, descriptor 5 and the message
buffer at address 1, whose size field is 4. -/
def pmu_used3_msg : Pmu :=
  { pmu0 with
    pmu_seq_tbl := fun i => decide (i = 3),
    seq := fun i =>
      if i = 3 then
        { PmuSequence.zero 3 with
          state := SeqState.USED, callback := some (Callback.client 7), cb_params := some 9,
          desc := 5, msg := some 1 }
      else PmuSequence.zero i,
    msgbuf := fun _ => { hdr := { unit_id := 0, size := 4, ctrl_flags := 0, seq_id := 0 },
                         msg := fun _ => 0 } }

/-- An 8-byte response message from unit 3 for sequence id 3, with body bytes 170. -/
def msg_resp3_long : PmuMsg :=
  { hdr := { unit_id := 3, size := 8, ctrl_flags := 0, seq_id := 3 }, msg := fun _ => 170 }

/-- The state `pmu0` with slot 3 cancelled while in flight: callback of client 7,
context 9, descriptor 5, no response buffer. -/
def pmu_cancelled3 : Pmu :=
  { pmu0 with
    pmu_seq_tbl := fun i => decide (i = 3),
    seq := fun i =>
      if i = 3 then
        { PmuSequence.zero 3 with
          state := SeqState.CANCELLED, callback := some (Callback.client 7),
          cb_params := some 9, desc := 5 }
      else PmuSequence.zero i }

/-- A message of unit `PMU_UNIT_RC` (31) and type `PMU_RC_MSG_TYPE_UNHANDLED_CMD` (0)
for sequence id 3. -/
def msg_rc3 : PmuMsg :=
  { hdr := { unit_id := 31, size := 8, ctrl_flags := 0, seq_id := 3 }, msg := fun _ => 0 }

/-- The state `pmu0` whose DMEM allocator will grant one region, at offset 4096. -/
def pmu_alloc1 : Pmu :=
  { pmu0 with dmem := { script := [(0, 4096)], live := [], freed := [] } }

/-- A 24-byte command for unit 3 with room for two allocation records in its body,
at body offsets 4 and 12. -/
def cmd_io24 : PmuCmd :=
  { hdr := { unit_id := 3, size := 24, ctrl_flags := 0, seq_id := 0 }, cmd := fun _ => 0 }

/-- A payload whose input and output are the same 8-byte buffer (address 1). -/
def payload_alias : PmuPayload :=
  { in_ := { buf := some 1, size := 8, offset := 4 },
    out := { buf := some 1, size := 8, offset := 12 } }

/-- A 4-byte response message from unit 3 for sequence id 0. -/
def msg_resp0 : PmuMsg :=
  { hdr := { unit_id := 3, size := 4, ctrl_flags := 0, seq_id := 0 }, msg := fun _ => 0 }

/-- A queue descriptor of the message queue: it needs no lock, and its head and
tail live in the message-queue registers. -/
def IsMsgQueue (c : Consts) (q : PmuQueue) : Prop :=
  c.PMU_IS_MESSAGE_QUEUE q.id = true ∧ c.PMU_IS_COMMAND_QUEUE q.id = false

/-- Two states that differ at most in the hardware and in the queue descriptors. -/
def SameTable (p q : Pmu) : Prop :=
  q.seq = p.seq ∧ q.pmu_seq_tbl = p.pmu_seq_tbl ∧ q.dmem = p.dmem ∧ q.calls = p.calls ∧
    q.msgbuf = p.msgbuf ∧ q.hostbuf = p.hostbuf

/-- The state `pmu_used3` with two 4-byte messages in the message queue
`[2560, 2688)`: at the tail, 2560, a header with the unknown unit id 200; behind it,
at 2564, a response of unit 3 for sequence id 3; the head is at 2568. -/
def pmu_msgq_bad : Pmu :=
  { pmu_used3 with
    hw := { hw0 with
      msgq_head := 2568, msgq_tail := 2560,
      dmem := fun a => if a = 2560 then 1224 else if a = 2564 then 50332675 else 0 } }

/-- The state `pmu_msgq_bad` with the tail register moved past the first message. -/
def pmu_msgq_good : Pmu :=
  { pmu_msgq_bad with hw := { pmu_msgq_bad.hw with msgq_tail := 2564 } }

/-- The state `pmu0` with the owner register of hardware mutex 0 holding the token 5
of another holder, and the counter of mutex 0 raised to 2 by two acquisitions
through the fast path (the `acquired` flag is clear). -/
def pmu_mutex_shared : Pmu :=
  { pmu0 with
    hw := { hw0 with mutex := fun i => if i = 0 then 5 else 0 },
    mutex := fun i =>
      if i = 0 then { id := 0, index := 0, ref_cnt := 2, acquired := false }
      else { id := i, index := i, ref_cnt := 0, acquired := false } }

/-- The state `pmu0` after `pmu_mutex_acquire` took hardware mutex 0 with the token 1
twice (slow path, then fast path): owner register 1, counter 2, `acquired` set. -/
def pmu_mutex_held : Pmu :=
  { pmu0 with
    hw := { hw0 with mutex := fun i => if i = 0 then 1 else 0, mutex_id_cnt := 1 },
    mutex := fun i =>
      if i = 0 then { id := 0, index := 0, ref_cnt := 2, acquired := true }
      else { id := i, index := i, ref_cnt := 0, acquired := false } }

/-- The state `pmu0` with power gating ready and the allow gate open. -/
def pmu_elpg_ready : Pmu :=
  { pmu0 with elpg_ready := true, elpg_enable_allow := true }

/-- The state `pmu0` with power gating ready, the state OFF and the allow gate closed,
as after a disable whose debounce timer is still running. -/
def pmu_gate_closed : Pmu :=
  { pmu0 with elpg_ready := true, elpg_timer_pending := true }

/-- The state `pmu_gate_closed` after a request to enable power gating: the state is
OFF_ON_PENDING. -/
def pmu_enable_pending : Pmu :=
  { pmu_gate_closed with elpg_stat := ElpgStat.OFF_ON_PENDING }

/-- The state `pmu_enable_pending` when the debounce timer has expired: the kernel has
taken the timer off its list and is about to call the timer function. -/
def pmu_timer_expired : Pmu :=
  { pmu_enable_pending with elpg_timer_pending := false }

/-- The state `pmu_elpg_ready` with the state ON_PENDING: an ALLOW command is under way. -/
def pmu_on_pending : Pmu :=
  { pmu_elpg_ready with elpg_stat := ElpgStat.ON_PENDING }

/-- The state `pmu_elpg_ready` with the state ON: power gating is enabled. -/
def pmu_elpg_on : Pmu :=
  { pmu_elpg_ready with elpg_stat := ElpgStat.ON }

/-- An acknowledgement message of the power-gating unit whose type field is `t`. -/
def msg_elpg_ack (t : Nat) : PmuMsg :=
  { hdr := { unit_id := 3, size := 8, ctrl_flags := 0, seq_id := 0 },
    msg := put16 (fun _ => 0) 2 t }

/-- The state `pmu_used3` with the message queue (queue 4) open for read, as
`pmu_queue_open_read` leaves it. -/
def pmu_msgq_open : Pmu :=
  pmu_used3.setQueue 4
    { pmu_used3.queue 4 with position := 2560, oflag := Oflag.OFLAG_READ, opened := true }

/-- A hardware-locked command queue: neither the message queue nor a software command
queue, so that it is locked with the hardware mutex `mutex_id`. -/
def IsHwQueue (c : Consts) (q : PmuQueue) : Prop :=
  c.PMU_IS_MESSAGE_QUEUE q.id = false ∧ c.PMU_IS_SW_COMMAND_QUEUE q.id = false

/-- The state `pmu0` with the hardware-locked command queue 2 open for write and
locked: hardware mutex 2 is owned by the token 7 of the queue, taken once. -/
def pmu_hwq_open : Pmu :=
  { pmu0 with
    hw := { hw0 with mutex := fun i => if i = 2 then 7 else 0 },
    mutex := fun i =>
      if i = 2 then { id := 2, index := 2, ref_cnt := 1, acquired := true }
      else { id := i, index := i, ref_cnt := 0, acquired := false },
    queue := fun i =>
      if i = 2 then
        { queue0 2 with
          position := 2312, oflag := Oflag.OFLAG_WRITE, opened := true, locked := true,
          mutex_lock := 7 }
      else queue0 i }

/-- The state in which `pmu_queue_close` calls `pmu_queue_unlock` for an open queue. -/
def close_pre_unlock (c : Consts) (pmu : Pmu) (qi : Nat) (commit : Bool) : Pmu :=
  (if commit then
      if (pmu.queue qi).oflag = Oflag.OFLAG_READ then
        pmu_queue_tail_set c pmu (pmu.queue qi) (pmu.queue qi).position
      else pmu_queue_head_set c pmu (pmu.queue qi) (pmu.queue qi).position
    else pmu).setQueue qi { pmu.queue qi with opened := false }

/-- The state `pmu0` with 12 bytes in the message queue `[2560, 2688)` (tail 2560,
head 2572; the DMEM words at 2560, 2564, 2568 are 1, 2, 3) and the queue open for read
at the tail. -/
def pmu_msgq_12 : Pmu :=
  { pmu0 with
    hw := { hw0 with
      msgq_head := 2572, msgq_tail := 2560,
      dmem := fun a => if a = 2560 then 1 else if a = 2564 then 2 else if a = 2568 then 3 else 0 },
    queue := fun i =>
      if i = 4 then
        { queue0 4 with
          offset := 2560, position := 2560, oflag := Oflag.OFLAG_READ, opened := true }
      else queue0 i }

/-- A state whose command queues occupy the 64 bytes of DMEM from 0 on, with the head
registers at `h` and the tail registers at `t`. -/
def pmu_q64_ht (h t : Nat) : Pmu :=
  { pmu0 with
    hw := { hw0 with queue_head := fun _ => h, queue_tail := fun _ => t },
    queue := fun i => { queue0 i with offset := 0, size := 64 } }

/-- A 60-byte command for unit 3. -/
def cmd60 : PmuCmd :=
  { hdr := { unit_id := 3, size := 60, ctrl_flags := 0, seq_id := 0 }, cmd := fun _ => 7 }

/-- A 20-byte command for unit 3, with body bytes of value 7. -/
def cmd20 : PmuCmd :=
  { hdr := { unit_id := 3, size := 20, ctrl_flags := 0, seq_id := 0 }, cmd := fun _ => 7 }

/-- The state `pmu0` with hardware mutex 3 owned by another agent (owner register 5,
nothing recorded in the driver). -/
def pmu_mutex3_taken : Pmu :=
  { pmu0 with hw := { hw0 with mutex := fun i => if i = 3 then 5 else 0 } }

/-- What the other contexts do during a wait when the acknowledgement of the command
under way arrives: `pmu_handle_pg_elpg_msg` runs with status 0, on an ALLOW
acknowledgement while the state is ON_PENDING and on a DISALLOW acknowledgement
otherwise. -/
def env_acks (c : Consts) (p : Pmu) : Pmu :=
  if p.elpg_stat = ElpgStat.ON_PENDING then
    pmu_handle_pg_elpg_msg c p (msg_elpg_ack c.PMU_PG_ELPG_MSG_ALLOW_ACK) 0
  else pmu_handle_pg_elpg_msg c p (msg_elpg_ack c.PMU_PG_ELPG_MSG_DISALLOW_ACK) 0

/-- The state `pmu0` whose DMEM allocator will grant two regions, at the offsets 4096
and 4200. -/
def pmu_alloc2 : Pmu :=
  { pmu0 with dmem := { script := [(0, 4096), (0, 4200)], live := [], freed := [] } }

/-- A payload with an 8-byte input from the buffer 1 and a 16-byte output into the
buffer 2; the allocation records are at the body offsets 4 and 12. -/
def payload_io : PmuPayload :=
  { in_ := { buf := some 1, size := 8, offset := 4 },
    out := { buf := some 2, size := 16, offset := 12 } }

/-- A payload whose input (16 bytes) and output (8 bytes) are the same buffer 1. -/
def payload_alias_16_8 : PmuPayload :=
  { in_ := { buf := some 1, size := 16, offset := 4 },
    out := { buf := some 1, size := 8, offset := 12 } }

/-- The DMEM word at byte address `x` overlaps the unread bytes of a queue with buffer
`[offset, offset + size)`: the bytes from `tail` up to `head`, going round the end of
the buffer when `head` is below `tail`. -/
def InUnread (offset size head tail x : Nat) : Prop :=
  if tail ≤ head then tail < x + 4 ∧ x < head
  else (tail < x + 4 ∧ x < offset + size) ∨ (offset < x + 4 ∧ x < head)

/-- The state `pmu0` before the channel is ready, with one pending message at the
tail 2560 of the message queue: an 8-byte message of unit 3 (`PMU_UNIT_PG`), which is
not an init message. -/
def pmu_boot_bad_unit : Pmu :=
  { pmu0 with
    pmu_ready := false,
    hw := { hw0 with dmem := fun a => if a = 2560 then 2051 else 0, msgq_head := 2568 } }

/-- The state `pmu0` before the channel is ready, with one pending message at the
tail 2560 of the message queue: a 40-byte message of unit 7 (`PMU_UNIT_INIT`) whose
message type is 1, not `PMU_INIT_MSG_TYPE_PMU_INIT`. -/
def pmu_boot_bad_type : Pmu :=
  { pmu0 with
    pmu_ready := false,
    hw := { hw0 with
      dmem := fun a => if a = 2560 then 10247 else if a = 2564 then 1 else 0,
      msgq_head := 2600 } }

/-- The bytes of a valid init message: the header (unit 7, 40 bytes), message type
0, five queue records `{size, offset, index}` that describe the queues of `hw0`, and
a software-managed area of 1024 bytes at 4096. -/
def init_msg_bytes : List Nat :=
  [7, 40, 0, 0,
   0, 0,
   128, 0, 0, 8, 0, 0,
   128, 0, 128, 8, 1, 0,
   128, 0, 0, 9, 2, 0,
   128, 0, 128, 9, 3, 0,
   128, 0, 0, 10, 4, 0,
   0, 16, 0, 4]

/-- The state `pmu0` before the channel is ready, with the valid init message
`init_msg_bytes` pending at the tail 2560 of the message queue. -/
def pmu_boot_valid : Pmu :=
  { pmu0 with
    pmu_ready := false,
    hw := { hw0 with
      dmem := fun a =>
        if 2560 ≤ a ∧ a < 2600 then
          init_msg_bytes.getD (a - 2560) 0 + init_msg_bytes.getD (a - 2560 + 1) 0 * 256
            + init_msg_bytes.getD (a - 2560 + 2) 0 * 65536
            + init_msg_bytes.getD (a - 2560 + 3) 0 * 16777216
        else 0,
      msgq_head := 2600 } }

/-- A 4-byte command for unit 3: a header without body. -/
def cmd_hdr4 : PmuCmd :=
  { hdr := { unit_id := 3, size := 4, ctrl_flags := 0, seq_id := 0 }, cmd := fun _ => 0 }

/-- The state `pmu_msgq_12` with the read position of the message queue at 2562, an
address that is not a multiple of 4. -/
def pmu_msgq_unaligned : Pmu :=
  pmu_msgq_12.setQueue 4 { pmu_msgq_12.queue 4 with position := 2562 }

/-- The state `pmu0` with the head and tail registers of command queue 0 at 2050, an
address inside the queue that is not a multiple of 4. -/
def pmu_head_2050 : Pmu :=
  { pmu0 with
    hw := { hw0 with
      queue_head := fun i => if i = 0 then 2050 else 2048 + 128 * i,
      queue_tail := fun i => if i = 0 then 2050 else 2048 + 128 * i } }

/-- A payload whose output record (at body offset 4) names the same buffer as its
input, while the input has no record in the command (input offset 0). -/
def payload_out_only_alias : PmuPayload :=
  { in_ := { buf := some 1, size := 8, offset := 0 },
    out := { buf := some 1, size := 8, offset := 4 } }

theorem for_loop_succ {σ : Type} (n : Nat) (body : Nat → σ → σ) (s : σ) :
    for_loop (n + 1) body s = body n (for_loop n body s) := rfl

theorem dmem_after_write_zero (d : Nat → Nat) (a : Nat) (f : Nat → Nat) :
    dmem_after_write d a 0 f = d := by
  funext x
  simp only [dmem_after_write]
  rw [if_neg (by omega)]

theorem dmem_after_write_succ (d : Nat → Nat) (a k : Nat) (f : Nat → Nat) :
    Function.update (dmem_after_write d a k f) (a + 4 * k) (f k % U32)
      = dmem_after_write d a (k + 1) f := by
  funext x
  simp only [dmem_after_write, Function.update]
  by_cases hx : x = a + 4 * k
  · subst hx
    have h1 : (a + 4 * k - a) = 4 * k := by omega
    simp [h1]
  · by_cases h2 : a ≤ x ∧ x < a + 4 * k ∧ (x - a) % 4 = 0
    · have h3 : a ≤ x ∧ x < a + 4 * (k + 1) ∧ (x - a) % 4 = 0 := by omega
      simp only [hx, dite_false, if_pos h2, if_pos h3]
    · have h3 : ¬ (a ≤ x ∧ x < a + 4 * (k + 1) ∧ (x - a) % 4 = 0) := by omega
      simp only [hx, dite_false, if_neg h2, if_neg h3]

theorem dmem_after_write_congr (d : Nat → Nat) (a w : Nat) (f g : Nat → Nat)
    (h : ∀ i, i < w → f i = g i) : dmem_after_write d a w f = dmem_after_write d a w g := by
  funext x
  simp only [dmem_after_write]
  by_cases h2 : a ≤ x ∧ x < a + 4 * w ∧ (x - a) % 4 = 0
  · rw [if_pos h2, if_pos h2, h ((x - a) / 4) (by omega)]
  · rw [if_neg h2, if_neg h2]

theorem write_loop_eq (hw : Hw) (f : Nat → Nat) (w : Nat) :
    for_loop w (fun i (h : Hw) => writel_dmemd h (f i)) hw =
      { hw with dmem := dmem_after_write hw.dmem hw.dmemc w f, dmemc := hw.dmemc + 4 * w } := by
  induction w with
  | zero =>
    simp only [for_loop, dmem_after_write_zero]
    rfl
  | succ k ih =>
    rw [for_loop_succ, ih]
    simp only [writel_dmemd, dmem_after_write_succ]
    congr 1

theorem src_word_full (src : Buf) (n i : Nat) (h : i < n / 4) : u32_at src i = src_word src n i := by
  have h0 : 4 * i < n := by omega
  have h1 : 4 * i + 1 < n := by omega
  have h2 : 4 * i + 2 < n := by omega
  have h3 : 4 * i + 3 < n := by omega
  simp only [u32_at, src_word, if_pos h0, if_pos h1, if_pos h2, if_pos h3]

theorem src_word_tail (src : Buf) (n : Nat) (h : n % 4 > 0) :
    for_loop (n % 4) (fun i d => d + src (4 * (n / 4) + i) % 256 * 256 ^ i) 0
      = src_word src n (n / 4) := by
  have hb : n % 4 = 1 ∨ n % 4 = 2 ∨ n % 4 = 3 := by omega
  have hn3 : ¬ (4 * (n / 4) + 3 < n) := by omega
  rcases hb with hb | hb | hb
  · have h0 : 4 * (n / 4) < n := by omega
    have h1 : ¬ (4 * (n / 4) + 1 < n) := by omega
    have h2 : ¬ (4 * (n / 4) + 2 < n) := by omega
    simp only [hb, for_loop, src_word, if_pos h0, if_neg h1, if_neg h2, if_neg hn3]
    norm_num
  · have h0 : 4 * (n / 4) < n := by omega
    have h1 : (4 * (n / 4) + 1 < n) := by omega
    have h2 : ¬ (4 * (n / 4) + 2 < n) := by omega
    simp only [hb, for_loop, src_word, if_pos h0, if_pos h1, if_neg h2, if_neg hn3]
    norm_num
  · have h0 : 4 * (n / 4) < n := by omega
    have h1 : (4 * (n / 4) + 1 < n) := by omega
    have h2 : (4 * (n / 4) + 2 < n) := by omega
    simp only [hb, for_loop, src_word, if_pos h0, if_pos h1, if_pos h2, if_neg hn3]
    norm_num

theorem src_word_lt (src : Buf) (n i : Nat) : src_word src n i < U32 := by
  have a0 : (if 4 * i < n then src (4 * i) % 256 else 0) < 256 := by
    split
    · exact Nat.mod_lt _ (by norm_num)
    · norm_num
  have a1 : (if 4 * i + 1 < n then src (4 * i + 1) % 256 else 0) < 256 := by
    split
    · exact Nat.mod_lt _ (by norm_num)
    · norm_num
  have a2 : (if 4 * i + 2 < n then src (4 * i + 2) % 256 else 0) < 256 := by
    split
    · exact Nat.mod_lt _ (by norm_num)
    · norm_num
  have a3 : (if 4 * i + 3 < n then src (4 * i + 3) % 256 else 0) < 256 := by
    split
    · exact Nat.mod_lt _ (by norm_num)
    · norm_num
  simp only [src_word, U32]
  omega

theorem lane_src_word (src : Buf) (n i k : Nat) (hk : k < 4) :
    lane (src_word src n i) k = if 4 * i + k < n then src (4 * i + k) % 256 else 0 := by
  have a0 : (if 4 * i < n then src (4 * i) % 256 else 0) < 256 := by
    split
    · exact Nat.mod_lt _ (by norm_num)
    · norm_num
  have a1 : (if 4 * i + 1 < n then src (4 * i + 1) % 256 else 0) < 256 := by
    split
    · exact Nat.mod_lt _ (by norm_num)
    · norm_num
  have a2 : (if 4 * i + 2 < n then src (4 * i + 2) % 256 else 0) < 256 := by
    split
    · exact Nat.mod_lt _ (by norm_num)
    · norm_num
  have a3 : (if 4 * i + 3 < n then src (4 * i + 3) % 256 else 0) < 256 := by
    split
    · exact Nat.mod_lt _ (by norm_num)
    · norm_num
  interval_cases k
  · simp only [lane, src_word, Nat.add_zero, pow_zero, Nat.div_one]
    generalize (if 4 * i < n then src (4 * i) % 256 else 0) = b0 at *
    generalize (if 4 * i + 1 < n then src (4 * i + 1) % 256 else 0) = b1 at *
    generalize (if 4 * i + 2 < n then src (4 * i + 2) % 256 else 0) = b2 at *
    generalize (if 4 * i + 3 < n then src (4 * i + 3) % 256 else 0) = b3 at *
    omega
  · simp only [lane, src_word, pow_one]
    generalize (if 4 * i < n then src (4 * i) % 256 else 0) = b0 at *
    generalize (if 4 * i + 1 < n then src (4 * i + 1) % 256 else 0) = b1 at *
    generalize (if 4 * i + 2 < n then src (4 * i + 2) % 256 else 0) = b2 at *
    generalize (if 4 * i + 3 < n then src (4 * i + 3) % 256 else 0) = b3 at *
    omega
  · have e : 256 ^ 2 = 65536 := by norm_num
    simp only [lane, src_word, e]
    generalize (if 4 * i < n then src (4 * i) % 256 else 0) = b0 at *
    generalize (if 4 * i + 1 < n then src (4 * i + 1) % 256 else 0) = b1 at *
    generalize (if 4 * i + 2 < n then src (4 * i + 2) % 256 else 0) = b2 at *
    generalize (if 4 * i + 3 < n then src (4 * i + 3) % 256 else 0) = b3 at *
    omega
  · have e : 256 ^ 3 = 16777216 := by norm_num
    simp only [lane, src_word, e]
    generalize (if 4 * i < n then src (4 * i) % 256 else 0) = b0 at *
    generalize (if 4 * i + 1 < n then src (4 * i + 1) % 256 else 0) = b1 at *
    generalize (if 4 * i + 2 < n then src (4 * i + 2) % 256 else 0) = b2 at *
    generalize (if 4 * i + 3 < n then src (4 * i + 3) % 256 else 0) = b3 at *
    omega

theorem pmu_copy_to_dmem_eq (c : Consts) (hw : Hw) (dst : Nat) (src : Buf) (n : Nat)
    (hn : 0 < n) (ha : dst % 4 = 0) :
    pmu_copy_to_dmem c hw dst src n =
      { hw with
        dmem := dmem_after_write hw.dmem (dst &&& c.addr_mask) ((n + 3) / 4) (src_word src n),
        dmemc := (dst &&& c.addr_mask) + 4 * ((n + 3) / 4) } := by
  have hn0 : ¬ n = 0 := by omega
  have ha0 : ¬ dst % 4 ≠ 0 := by omega
  simp only [pmu_copy_to_dmem, if_neg hn0, if_neg ha0, write_loop_eq, writel_dmemc]
  rw [dmem_after_write_congr hw.dmem (dst &&& c.addr_mask) (n / 4) (u32_at src) (src_word src n)
    (fun i hi => src_word_full src n i hi)]
  by_cases hb : n % 4 > 0
  · rw [if_pos hb, src_word_tail src n hb]
    have e : (n + 3) / 4 = n / 4 + 1 := by omega
    simp only [writel_dmemd, dmem_after_write_succ, e]
    congr 1
  · rw [if_neg hb]
    have e : (n + 3) / 4 = n / 4 := by omega
    rw [e]

theorem buf_after_read_succ (d : Nat → Nat) (a k : Nat) (dst : Buf) :
    set_u32 (buf_after_read d a (4 * k) dst) k (d (a + 4 * k))
      = buf_after_read d a (4 * (k + 1)) dst := by
  funext j
  simp only [set_u32, buf_after_read]
  by_cases h1 : j / 4 = k
  · have h2 : j < 4 * (k + 1) := by omega
    rw [if_pos h1, if_pos h2, h1]
  · rw [if_neg h1]
    by_cases h2 : j < 4 * k
    · have h3 : j < 4 * (k + 1) := by omega
      rw [if_pos h2, if_pos h3]
    · have h3 : ¬ j < 4 * (k + 1) := by omega
      rw [if_neg h2, if_neg h3]

theorem read_loop_eq (hw : Hw) (dst : Buf) (w : Nat) :
    for_loop w (fun i (s : Hw × Buf) => ((readl_dmemd s.1).2, set_u32 s.2 i (readl_dmemd s.1).1))
        (hw, dst)
      = ({ hw with dmemc := hw.dmemc + 4 * w }, buf_after_read hw.dmem hw.dmemc (4 * w) dst) := by
  induction w with
  | zero =>
    have h0 : buf_after_read hw.dmem hw.dmemc (4 * 0) dst = dst := by
      funext j
      simp only [buf_after_read]
      rw [if_neg (by omega)]
    simp only [for_loop, h0]
    rfl
  | succ k ih =>
    rw [for_loop_succ, ih]
    simp only [readl_dmemd, buf_after_read_succ]
    congr 1

theorem tail_loop_eq (data w b : Nat) (buf : Buf) :
    for_loop b (fun i (d : Buf) => Function.update d (4 * w + i) (lane data i)) buf
      = fun j => if 4 * w ≤ j ∧ j < 4 * w + b then lane data (j - 4 * w) else buf j := by
  induction b with
  | zero =>
    funext j
    simp only [for_loop]
    rw [if_neg (by omega)]
  | succ k ih =>
    rw [for_loop_succ, ih]
    funext j
    simp only [Function.update]
    by_cases hj : j = 4 * w + k
    · subst hj
      have e : 4 * w + k - 4 * w = k := by omega
      simp [e]
    · simp only [hj, dite_false]
      by_cases h2 : 4 * w ≤ j ∧ j < 4 * w + k
      · rw [if_pos h2, if_pos (by omega)]
      · rw [if_neg h2, if_neg (by omega)]

theorem pmu_copy_from_dmem_eq (c : Consts) (hw : Hw) (src : Nat) (dst : Buf) (n : Nat)
    (hn : 0 < n) (ha : src % 4 = 0) :
    pmu_copy_from_dmem c hw src dst n =
      ({ hw with dmemc := (src &&& c.addr_mask) + 4 * ((n + 3) / 4) },
        buf_after_read hw.dmem (src &&& c.addr_mask) n dst) := by
  have hn0 : ¬ n = 0 := by omega
  have ha0 : ¬ src % 4 ≠ 0 := by omega
  simp only [pmu_copy_from_dmem, if_neg hn0, if_neg ha0, read_loop_eq, writel_dmemc]
  by_cases hb : n % 4 > 0
  · rw [if_pos hb]
    simp only [readl_dmemd, tail_loop_eq]
    have e : (n + 3) / 4 = n / 4 + 1 := by omega
    rw [e]
    congr 1
    funext j
    simp only [buf_after_read]
    by_cases h1 : 4 * (n / 4) ≤ j ∧ j < 4 * (n / 4) + n % 4
    · have h2 : j < n := by omega
      have h3 : j / 4 = n / 4 := by omega
      have h4 : j - 4 * (n / 4) = j % 4 := by omega
      rw [if_pos h1, if_pos h2, h3, h4]
    · rw [if_neg h1]
      by_cases h2 : j < 4 * (n / 4)
      · rw [if_pos h2, if_pos (by omega)]
      · rw [if_neg h2, if_neg (by omega)]
  · rw [if_neg hb]
    have e : (n + 3) / 4 = n / 4 := by omega
    have e2 : 4 * (n / 4) = n := by omega
    rw [e, e2]

/-- Reading back what `pmu_copy_to_dmem` stored: byte `j` of the first `n` bytes. -/
theorem buf_after_read_write (d : Nat → Nat) (a n : Nat) (src dst : Buf) (j : Nat) (hj : j < n) :
    buf_after_read (dmem_after_write d a ((n + 3) / 4) (src_word src n)) a n dst j
      = src j % 256 := by
  simp only [buf_after_read, dmem_after_write, if_pos hj]
  have h1 : a ≤ a + 4 * (j / 4) ∧ a + 4 * (j / 4) < a + 4 * ((n + 3) / 4) ∧
      (a + 4 * (j / 4) - a) % 4 = 0 := by omega
  have h2 : (a + 4 * (j / 4) - a) / 4 = j / 4 := by omega
  rw [if_pos h1, h2, Nat.mod_eq_of_lt (src_word_lt src n (j / 4)),
    lane_src_word src n (j / 4) (j % 4) (by omega)]
  have h3 : 4 * (j / 4) + j % 4 = j := by omega
  rw [h3, if_pos hj]

/-! ## Queue operations on a software command queue -/

@[simp] theorem setQueue_queue_same (pmu : Pmu) (qi : Nat) (q : PmuQueue) :
    (pmu.setQueue qi q).queue qi = q := by
  simp [Pmu.setQueue]

theorem setQueue_queue_other (pmu : Pmu) (qi qj : Nat) (q : PmuQueue) (h : qj ≠ qi) :
    (pmu.setQueue qi q).queue qj = pmu.queue qj := by
  simp [Pmu.setQueue, Function.update, h]

@[simp] theorem setQueue_hw (pmu : Pmu) (qi : Nat) (q : PmuQueue) :
    (pmu.setQueue qi q).hw = pmu.hw := rfl

@[simp] theorem setQueue_setQueue (pmu : Pmu) (qi : Nat) (q1 q2 : PmuQueue) :
    (pmu.setQueue qi q1).setQueue qi q2 = pmu.setQueue qi q2 := by
  simp [Pmu.setQueue]

theorem head_get_sw (c : Consts) (pmu : Pmu) (q : PmuQueue) (h : IsSwQueue c q) :
    pmu_queue_head_get c pmu q = some (pmu.hw.queue_head q.index) := by
  obtain ⟨_, _, h3, h4, _⟩ := h
  simp [pmu_queue_head_get, h3, Nat.not_le.mpr h4]

theorem tail_get_sw (c : Consts) (pmu : Pmu) (q : PmuQueue) (h : IsSwQueue c q) :
    pmu_queue_tail_get c pmu q = some (pmu.hw.queue_tail q.index) := by
  obtain ⟨_, _, h3, _, h5⟩ := h
  simp [pmu_queue_tail_get, h3, Nat.not_le.mpr h5]

theorem pmu_queue_lock_sw (c : Consts) (fuel : Nat) (pmu : Pmu) (qi : Nat)
    (h : IsSwQueue c (pmu.queue qi)) (hm : (pmu.queue qi).mutex = false) :
    pmu_queue_lock c fuel pmu qi = Res.ok (sw_locked pmu qi, 0) := by
  obtain ⟨h1, h2, _, _, _⟩ := h
  simp [pmu_queue_lock, h1, h2, hm, sw_locked]

theorem pmu_queue_unlock_sw (c : Consts) (pmu : Pmu) (qi : Nat)
    (h : IsSwQueue c (pmu.queue qi)) :
    pmu_queue_unlock c pmu qi =
      Res.ok (pmu.setQueue qi { pmu.queue qi with mutex := false, locked := false }, 0) := by
  obtain ⟨h1, h2, _, _, _⟩ := h
  simp [pmu_queue_unlock, h1, h2]

theorem pmu_queue_has_room_sw (c : Consts) (pmu : Pmu) (qi size : Nat)
    (h : IsSwQueue c (pmu.queue qi)) (hl : (pmu.queue qi).locked = true) :
    pmu_queue_has_room c pmu qi size =
      Res.ok (has_room c (pmu.queue qi) (pmu.hw.queue_head (pmu.queue qi).index)
                (pmu.hw.queue_tail (pmu.queue qi).index) size,
              need_rewind c (pmu.queue qi) (pmu.hw.queue_head (pmu.queue qi).index)
                (pmu.hw.queue_tail (pmu.queue qi).index) size) := by
  simp only [pmu_queue_has_room, hl, head_get_sw c pmu _ h, tail_get_sw c pmu _ h, has_room,
    need_rewind, free_before_end]
  simp

theorem isSwQueue_of_eq (c : Consts) (q q1 : PmuQueue) (h : IsSwQueue c q)
    (hid : q1.id = q.id) (hidx : q1.index = q.index) : IsSwQueue c q1 := by
  unfold IsSwQueue at *
  rw [hid, hidx]
  exact h

theorem pmu_queue_open_write_sw (c : Consts) (fuel : Nat) (pmu : Pmu) (qi size : Nat)
    (h : IsSwQueue c (pmu.queue qi)) (hm : (pmu.queue qi).mutex = false)
    (ho : (pmu.queue qi).opened = false) :
    pmu_queue_open_write c fuel pmu qi size =
      if has_room c (pmu.queue qi) (pmu.hw.queue_head (pmu.queue qi).index)
          (pmu.hw.queue_tail (pmu.queue qi).index) size = true then
        Res.ok (if need_rewind c (pmu.queue qi) (pmu.hw.queue_head (pmu.queue qi).index)
                  (pmu.hw.queue_tail (pmu.queue qi).index) size = true
                then pmu_queue_rewind c
                  (sw_opened_write pmu qi (pmu.hw.queue_head (pmu.queue qi).index)) qi
                else sw_opened_write pmu qi (pmu.hw.queue_head (pmu.queue qi).index), 0)
      else Res.ok (sw_locked pmu qi, -EAGAIN) := by
  have hq : (sw_locked pmu qi).queue qi = { pmu.queue qi with mutex := true, locked := true } := by
    simp [sw_locked]
  have hsw : IsSwQueue c ((sw_locked pmu qi).queue qi) := by
    rw [hq]
    exact isSwQueue_of_eq c _ _ h rfl rfl
  have hl : ((sw_locked pmu qi).queue qi).locked = true := by rw [hq]
  have hroom := pmu_queue_has_room_sw c (sw_locked pmu qi) qi size hsw hl
  have hhw : (sw_locked pmu qi).hw = pmu.hw := by simp [sw_locked]
  have hhead := head_get_sw c (sw_locked pmu qi) _ hsw
  rw [hhw] at hroom hhead
  have e1 : has_room c ((sw_locked pmu qi).queue qi) = has_room c (pmu.queue qi) := by
    rw [hq]; rfl
  have e2 : need_rewind c ((sw_locked pmu qi).queue qi) = need_rewind c (pmu.queue qi) := by
    rw [hq]; rfl
  have e3 : ((sw_locked pmu qi).queue qi).index = (pmu.queue qi).index := by rw [hq]
  rw [e1, e2, e3] at hroom
  rw [e3] at hhead
  simp only [pmu_queue_open_write, pmu_queue_lock_sw c fuel pmu qi h hm, Res.bind, hroom, hhead]
  have ho2 : ((sw_locked pmu qi).queue qi).opened = false := by rw [hq]; exact ho
  simp only [ho2]
  by_cases hr : has_room c (pmu.queue qi) (pmu.hw.queue_head (pmu.queue qi).index)
      (pmu.hw.queue_tail (pmu.queue qi).index) size = true
  · simp [hr, sw_opened_write, sw_locked]
  · simp [hr]

theorem pmu_queue_push_opened (c : Consts) (pmu : Pmu) (qi : Nat) (data : Buf) (size : Nat)
    (ho : (pmu.queue qi).opened = true) :
    pmu_queue_push c pmu qi data size =
      (({ pmu with hw := pmu_copy_to_dmem c pmu.hw (pmu.queue qi).position data size } : Pmu).setQueue qi
        { pmu.queue qi with
          position := add32 (pmu.queue qi).position (ALIGN size c.QUEUE_ALIGNMENT) }, 0) := by
  simp [pmu_queue_push, ho]

theorem pmu_queue_close_write_sw (c : Consts) (pmu : Pmu) (qi : Nat)
    (h : IsSwQueue c (pmu.queue qi)) (ho : (pmu.queue qi).opened = true)
    (hf : (pmu.queue qi).oflag = Oflag.OFLAG_WRITE) :
    pmu_queue_close c pmu qi true =
      Res.ok (({ pmu with hw := { pmu.hw with
                  queue_head := Function.update pmu.hw.queue_head (pmu.queue qi).index
                    (pmu.queue qi).position } } : Pmu).setQueue qi
                { pmu.queue qi with opened := false, mutex := false, locked := false }, 0) := by
  have h' := h
  obtain ⟨h1, h2, h3, h4, h5⟩ := h
  simp [pmu_queue_close, ho, hf, pmu_queue_head_set, h3, Nat.not_le.mpr h4, pmu_queue_unlock,
    h1, h2, Res.bind, Pmu.setQueue]

theorem pmu_queue_close_read_sw (c : Consts) (pmu : Pmu) (qi : Nat)
    (h : IsSwQueue c (pmu.queue qi)) (ho : (pmu.queue qi).opened = true)
    (hf : (pmu.queue qi).oflag = Oflag.OFLAG_READ) :
    pmu_queue_close c pmu qi true =
      Res.ok (({ pmu with hw := { pmu.hw with
                  queue_tail := Function.update pmu.hw.queue_tail (pmu.queue qi).index
                    (pmu.queue qi).position } } : Pmu).setQueue qi
                { pmu.queue qi with opened := false, mutex := false, locked := false }, 0) := by
  have h' := h
  obtain ⟨h1, h2, h3, h4, h5⟩ := h
  simp [pmu_queue_close, ho, hf, pmu_queue_tail_set, h3, Nat.not_le.mpr h5, pmu_queue_unlock,
    h1, h2, Res.bind, Pmu.setQueue]

theorem pmu_queue_open_read_sw (c : Consts) (fuel : Nat) (pmu : Pmu) (qi : Nat)
    (h : IsSwQueue c (pmu.queue qi)) (hm : (pmu.queue qi).mutex = false)
    (ho : (pmu.queue qi).opened = false) :
    pmu_queue_open_read c fuel pmu qi =
      Res.ok (sw_opened_read pmu qi (pmu.hw.queue_tail (pmu.queue qi).index), 0) := by
  have hq : (sw_locked pmu qi).queue qi = { pmu.queue qi with mutex := true, locked := true } := by
    simp [sw_locked]
  have hsw : IsSwQueue c ((sw_locked pmu qi).queue qi) := by
    rw [hq]
    exact isSwQueue_of_eq c _ _ h rfl rfl
  have htail := tail_get_sw c (sw_locked pmu qi) _ hsw
  simp only [pmu_queue_open_read, pmu_queue_lock_sw c fuel pmu qi h hm, Res.bind, htail]
  simp [hq, ho, sw_opened_read, sw_locked]

theorem pmu_queue_pop_sw (c : Consts) (pmu : Pmu) (qi : Nat) (data : Buf) (size : Nat)
    (h : IsSwQueue c (pmu.queue qi)) (ho : (pmu.queue qi).opened = true)
    (hne : pmu.hw.queue_head (pmu.queue qi).index ≠ (pmu.queue qi).position) :
    pmu_queue_pop c pmu qi data size =
      let q := pmu.queue qi
      let head := pmu.hw.queue_head q.index
      let used := if head > q.position then head - q.position
                  else sub32 (add32 q.offset q.size) q.position
      let size1 := if size > used then used else size
      Res.ok {
        pmu := ({ pmu with hw := (pmu_copy_from_dmem c pmu.hw q.position data size1).1 } : Pmu).setQueue qi
          { q with position := add32 q.position (ALIGN size1 c.QUEUE_ALIGNMENT) },
        data := (pmu_copy_from_dmem c pmu.hw q.position data size1).2,
        bytes_read := size1, err := 0 } := by
  simp [pmu_queue_pop, ho, head_get_sw c pmu _ h, hne]

/-! ### The same facts, as projections of the resulting state -/

theorem open_write_fit_proj (c : Consts) (fuel : Nat) (pmu : Pmu) (qi size : Nat)
    (h : IsSwQueue c (pmu.queue qi)) (hm : (pmu.queue qi).mutex = false)
    (ho : (pmu.queue qi).opened = false)
    (hroom : has_room c (pmu.queue qi) (pmu.hw.queue_head (pmu.queue qi).index)
      (pmu.hw.queue_tail (pmu.queue qi).index) size = true)
    (hrw : need_rewind c (pmu.queue qi) (pmu.hw.queue_head (pmu.queue qi).index)
      (pmu.hw.queue_tail (pmu.queue qi).index) size = false) :
    ∃ p1, pmu_queue_open_write c fuel pmu qi size = Res.ok (p1, 0) ∧
      p1.queue qi =
        { pmu.queue qi with
          mutex := true, locked := true, position := pmu.hw.queue_head (pmu.queue qi).index,
          oflag := Oflag.OFLAG_WRITE, opened := true } ∧
      p1.hw = pmu.hw := by
  refine ⟨sw_opened_write pmu qi (pmu.hw.queue_head (pmu.queue qi).index), ?_, ?_, ?_⟩
  · rw [pmu_queue_open_write_sw c fuel pmu qi size h hm ho, hroom, hrw]
    simp
  · simp [sw_opened_write]
  · simp [sw_opened_write]

theorem push_proj (c : Consts) (pmu : Pmu) (qi : Nat) (data : Buf) (size : Nat)
    (ho : (pmu.queue qi).opened = true) :
    ∃ p2, pmu_queue_push c pmu qi data size = (p2, 0) ∧
      p2.queue qi =
        { pmu.queue qi with
          position := add32 (pmu.queue qi).position (ALIGN size c.QUEUE_ALIGNMENT) } ∧
      p2.hw = pmu_copy_to_dmem c pmu.hw (pmu.queue qi).position data size := by
  refine ⟨_, pmu_queue_push_opened c pmu qi data size ho, ?_, ?_⟩
  · simp
  · simp

theorem close_write_proj (c : Consts) (pmu : Pmu) (qi : Nat)
    (h : IsSwQueue c (pmu.queue qi)) (ho : (pmu.queue qi).opened = true)
    (hf : (pmu.queue qi).oflag = Oflag.OFLAG_WRITE) :
    ∃ p3, pmu_queue_close c pmu qi true = Res.ok (p3, 0) ∧
      p3.queue qi = { pmu.queue qi with opened := false, mutex := false, locked := false } ∧
      p3.hw = { pmu.hw with
        queue_head := Function.update pmu.hw.queue_head (pmu.queue qi).index
          (pmu.queue qi).position } := by
  refine ⟨_, pmu_queue_close_write_sw c pmu qi h ho hf, ?_, ?_⟩
  · simp
  · simp

theorem close_read_proj (c : Consts) (pmu : Pmu) (qi : Nat)
    (h : IsSwQueue c (pmu.queue qi)) (ho : (pmu.queue qi).opened = true)
    (hf : (pmu.queue qi).oflag = Oflag.OFLAG_READ) :
    ∃ p3, pmu_queue_close c pmu qi true = Res.ok (p3, 0) ∧
      p3.queue qi = { pmu.queue qi with opened := false, mutex := false, locked := false } ∧
      p3.hw = { pmu.hw with
        queue_tail := Function.update pmu.hw.queue_tail (pmu.queue qi).index
          (pmu.queue qi).position } := by
  refine ⟨_, pmu_queue_close_read_sw c pmu qi h ho hf, ?_, ?_⟩
  · simp
  · simp

theorem open_read_proj (c : Consts) (fuel : Nat) (pmu : Pmu) (qi : Nat)
    (h : IsSwQueue c (pmu.queue qi)) (hm : (pmu.queue qi).mutex = false)
    (ho : (pmu.queue qi).opened = false) :
    ∃ p4, pmu_queue_open_read c fuel pmu qi = Res.ok (p4, 0) ∧
      p4.queue qi =
        { pmu.queue qi with
          mutex := true, locked := true, position := pmu.hw.queue_tail (pmu.queue qi).index,
          oflag := Oflag.OFLAG_READ, opened := true } ∧
      p4.hw = pmu.hw := by
  refine ⟨_, pmu_queue_open_read_sw c fuel pmu qi h hm ho, ?_, ?_⟩
  · simp [sw_opened_read]
  · simp [sw_opened_read]

theorem pop_proj (c : Consts) (pmu : Pmu) (qi : Nat) (data : Buf) (size used : Nat)
    (h : IsSwQueue c (pmu.queue qi)) (ho : (pmu.queue qi).opened = true)
    (hne : pmu.hw.queue_head (pmu.queue qi).index ≠ (pmu.queue qi).position)
    (hused : used = if pmu.hw.queue_head (pmu.queue qi).index > (pmu.queue qi).position
              then pmu.hw.queue_head (pmu.queue qi).index - (pmu.queue qi).position
              else sub32 (add32 (pmu.queue qi).offset (pmu.queue qi).size) (pmu.queue qi).position)
    (hsz : size ≤ used) (hpos : 0 < size) (hal : (pmu.queue qi).position % 4 = 0) :
    ∃ r, pmu_queue_pop c pmu qi data size = Res.ok r ∧ r.err = 0 ∧ r.bytes_read = size ∧
      r.data = buf_after_read pmu.hw.dmem ((pmu.queue qi).position &&& c.addr_mask) size data ∧
      r.pmu.queue qi =
        { pmu.queue qi with
          position := add32 (pmu.queue qi).position (ALIGN size c.QUEUE_ALIGNMENT) } ∧
      r.pmu.hw = { pmu.hw with
        dmemc := ((pmu.queue qi).position &&& c.addr_mask) + 4 * ((size + 3) / 4) } := by
  have hs : ¬ size > used := by omega
  refine ⟨_, pmu_queue_pop_sw c pmu qi data size h ho hne, ?_, ?_, ?_, ?_, ?_⟩
  · simp
  · simp only [← hused, if_neg hs]
  · simp only [← hused, if_neg hs, pmu_copy_from_dmem_eq c pmu.hw _ data size hpos hal]
  · simp only [← hused, if_neg hs]
    simp
  · simp only [← hused, if_neg hs, pmu_copy_from_dmem_eq c pmu.hw _ data size hpos hal]
    simp

/-! ## Arithmetic of the free-space test -/

theorem ALIGN_four (n : Nat) (h : n + 3 < U32) : ALIGN n 4 = (n + 3) / 4 * 4 := by
  simp only [ALIGN, U32] at *
  rw [Nat.mod_eq_of_lt (by omega)]

theorem free_before_end_eq (c : Consts) (q : PmuQueue) (head : Nat)
    (hg : q.offset + q.size < U32) (hh : head + c.PMU_CMD_HDR_SIZE ≤ q.offset + q.size) :
    free_before_end c q head = q.offset + q.size - head - c.PMU_CMD_HDR_SIZE := by
  simp only [free_before_end, sub32, add32, U32] at *
  omega

/-! ## C1: round trip without wraparound -/

/-- C1: on a closed, unlocked software command queue whose head equals its tail at a
4-byte-aligned offset `h`, for every byte string `data` of length `n > 0` whose padded
length fits before the buffer end, open_for_write(n), push(data, n), close(commit),
open_for_read, pop(n) all succeed, the pop reports `bytes_read = n` and returns exactly
the bytes of `data`. -/
theorem queue_push_pop_roundtrip (c : Consts) (fuel : Nat) (pmu : Pmu) (qi : Nat)
    (data dst : Buf) (n h : Nat)
    (hQA : c.QUEUE_ALIGNMENT = 4)
    (hsw : IsSwQueue c (pmu.queue qi))
    (hclosed : (pmu.queue qi).opened = false) (hmutex : (pmu.queue qi).mutex = false)
    (hgeom : (pmu.queue qi).offset + (pmu.queue qi).size < U32)
    (hhead : pmu.hw.queue_head (pmu.queue qi).index = h)
    (htail : pmu.hw.queue_tail (pmu.queue qi).index = h)
    (halign : h % 4 = 0) (hn : 0 < n)
    (hfit : (n + 3) / 4 * 4 + h + c.PMU_CMD_HDR_SIZE ≤ (pmu.queue qi).offset + (pmu.queue qi).size)
    (hbytes : ∀ i, i < n → data i < 256) :
    ∃ p1 p3 p4 r,
      pmu_queue_open_write c fuel pmu qi n = Res.ok (p1, 0) ∧
      (pmu_queue_push c p1 qi data n).2 = 0 ∧
      pmu_queue_close c (pmu_queue_push c p1 qi data n).1 qi true = Res.ok (p3, 0) ∧
      pmu_queue_open_read c fuel p3 qi = Res.ok (p4, 0) ∧
      pmu_queue_pop c p4 qi dst n = Res.ok r ∧
      r.err = 0 ∧ r.bytes_read = n ∧ ∀ i, i < n → r.data i = data i := by
  have hn3 : n + 3 < U32 := by simp only [U32] at *; omega
  have hP : ALIGN n c.QUEUE_ALIGNMENT = (n + 3) / 4 * 4 := by rw [hQA]; exact ALIGN_four n hn3
  have hfree := free_before_end_eq c (pmu.queue qi) h hgeom (by omega)
  have hrw : need_rewind c (pmu.queue qi) h h n = false := by
    simp only [need_rewind, hP, hfree]
    simp
    omega
  have hroom : has_room c (pmu.queue qi) h h n = true := by
    simp only [has_room, hrw, hP, hfree]
    simp
    omega
  have h1 := pmu_queue_open_write_sw c fuel pmu qi n hsw hmutex hclosed
  rw [hhead, htail, hroom, hrw] at h1
  simp only [if_true, Bool.false_eq_true, if_false] at h1
  obtain ⟨p1, hp1, hq1, hw1⟩ := open_write_fit_proj c fuel pmu qi n hsw hmutex hclosed
    (by rw [hhead, htail]; exact hroom) (by rw [hhead, htail]; exact hrw)
  rw [hhead] at hq1
  -- push
  obtain ⟨p2, hp2, hq2, hw2⟩ := push_proj c p1 qi data n (by rw [hq1])
  have hadd : add32 h ((n + 3) / 4 * 4) = h + (n + 3) / 4 * 4 := by
    simp only [add32, U32] at *
    rw [Nat.mod_eq_of_lt (by omega)]
  simp only [hq1, hP, hadd] at hq2
  simp only [hq1, hw1, pmu_copy_to_dmem_eq c pmu.hw h data n hn halign] at hw2
  -- close
  obtain ⟨p3, hp3, hq3, hw3⟩ := close_write_proj c p2 qi
    (by rw [hq2]; exact isSwQueue_of_eq c _ _ hsw rfl rfl) (by rw [hq2]) (by rw [hq2])
  simp only [hq2] at hq3
  simp only [hq2, hw2] at hw3
  -- open for read
  obtain ⟨p4, hp4, hq4, hw4⟩ := open_read_proj c fuel p3 qi
    (by rw [hq3]; exact isSwQueue_of_eq c _ _ hsw rfl rfl) (by rw [hq3]) (by rw [hq3])
  simp only [hq3, hw3, htail] at hq4
  simp only [hw3] at hw4
  -- pop
  obtain ⟨r, hr, herr, hbr, hdata, _, _⟩ := pop_proj c p4 qi dst n ((n + 3) / 4 * 4)
    (by rw [hq4]; exact isSwQueue_of_eq c _ _ hsw rfl rfl) (by rw [hq4])
    (by rw [hq4, hw4]; simp; omega)
    (by
      rw [hq4, hw4]
      simp only [Function.update_same]
      rw [if_pos (by omega)]
      omega)
    (by omega) hn (by rw [hq4]; exact halign)
  refine ⟨p1, p3, p4, r, hp1, ?_, ?_, hp4, hr, herr, hbr, ?_⟩
  · rw [hp2]
  · rw [hp2]; exact hp3
  · intro i hi
    rw [hdata, hq4, hw4]
    simp only []
    rw [buf_after_read_write _ _ n data dst i hi]
    exact Nat.mod_eq_of_lt (hbytes i hi)

theorem queue_push_pop_roundtrip_witness :
    ∃ p1 p3 p4 r,
      pmu_queue_open_write gk20a 0 pmu0 0 5 = Res.ok (p1, 0) ∧
      (pmu_queue_push gk20a p1 0 (fun i => i + 1) 5).2 = 0 ∧
      pmu_queue_close gk20a (pmu_queue_push gk20a p1 0 (fun i => i + 1) 5).1 0 true
        = Res.ok (p3, 0) ∧
      pmu_queue_open_read gk20a 0 p3 0 = Res.ok (p4, 0) ∧
      pmu_queue_pop gk20a p4 0 (fun _ => 0) 5 = Res.ok r ∧
      r.err = 0 ∧ r.bytes_read = 5 ∧ ∀ i, i < 5 → r.data i = (fun i => i + 1) i :=
  queue_push_pop_roundtrip gk20a 0 pmu0 0 (fun i => i + 1) (fun _ => 0) 5 2048 rfl
    ⟨rfl, rfl, rfl, by decide, by decide⟩ rfl rfl (by decide) rfl rfl (by decide) (by decide)
    (by decide) (by intro i hi; simp only []; omega)

/-! ## C4: when open_for_write reports a full queue -/

theorem rewind_write_proj (c : Consts) (pmu : Pmu) (qi : Nat)
    (ho : (pmu.queue qi).opened = true) (hf : (pmu.queue qi).oflag = Oflag.OFLAG_WRITE) :
    (pmu_queue_rewind c pmu qi).queue qi =
        { pmu.queue qi with position := (pmu.queue qi).offset } ∧
      (pmu_queue_rewind c pmu qi).hw =
        pmu_copy_to_dmem c pmu.hw (pmu.queue qi).position ((rewind_cmd c pmu).image c)
          (c.PMU_CMD_HDR_SIZE % 256) := by
  constructor
  · simp [pmu_queue_rewind, ho, hf, pmu_queue_push_opened c pmu qi _ _ ho]
  · simp [pmu_queue_rewind, ho, hf, pmu_queue_push_opened c pmu qi _ _ ho, rewind_cmd]

theorem has_room_iff_fits (c : Consts) (q : PmuQueue) (head tail size : Nat)
    (hg : q.offset + q.size < U32) (hh : head + c.PMU_CMD_HDR_SIZE ≤ q.offset + q.size) :
    (has_room c q head tail size = true ↔
      fits_spec q.offset q.size head tail c.PMU_CMD_HDR_SIZE (ALIGN size c.QUEUE_ALIGNMENT)) ∧
    (need_rewind c q head tail size = true ↔
      rewind_spec q.offset q.size head tail c.PMU_CMD_HDR_SIZE (ALIGN size c.QUEUE_ALIGNMENT)) := by
  have hfree := free_before_end_eq c q head hg hh
  have hr : need_rewind c q head tail size = true ↔
      rewind_spec q.offset q.size head tail c.PMU_CMD_HDR_SIZE (ALIGN size c.QUEUE_ALIGNMENT) := by
    simp only [need_rewind, rewind_spec, hfree, decide_eq_true_eq]
    omega
  refine ⟨?_, hr⟩
  simp only [has_room, fits_spec, hfree, decide_eq_true_eq]
  by_cases hrw : need_rewind c q head tail size = true
  · have hrs := hr.mp hrw
    obtain ⟨h1, h2⟩ := hrs
    rw [if_pos hrw, if_pos h1]
    by_cases h3 : q.offset < tail
    · rw [if_pos h3]; omega
    · rw [if_neg h3]; omega
  · have hrs : ¬ rewind_spec q.offset q.size head tail c.PMU_CMD_HDR_SIZE
        (ALIGN size c.QUEUE_ALIGNMENT) := fun h => hrw (hr.mpr h)
    simp only [rewind_spec] at hrs
    rw [if_neg hrw]
    by_cases h1 : head ≥ tail
    · rw [if_pos h1, if_neg (by omega)]; omega
    · rw [if_neg h1, if_pos (by omega)]

/-- C4: on a closed, unlocked software command queue with
`head <= offset + size - header size`, open_for_write(n) returns `-EAGAIN`
(QueueFull) exactly when the padded request `P = ALIGN(n)` does not fit in the
sense of `fits_spec`; when it fits, the call succeeds and leaves the queue open
for write, with `position = offset` when a rewind was needed and `position = head`
when it was not. -/
theorem open_write_full_iff_not_fits (c : Consts) (fuel : Nat) (pmu : Pmu) (qi n : Nat)
    (hsw : IsSwQueue c (pmu.queue qi))
    (hclosed : (pmu.queue qi).opened = false) (hmutex : (pmu.queue qi).mutex = false)
    (hgeom : (pmu.queue qi).offset + (pmu.queue qi).size < U32)
    (hhead : pmu.hw.queue_head (pmu.queue qi).index + c.PMU_CMD_HDR_SIZE
      ≤ (pmu.queue qi).offset + (pmu.queue qi).size) :
    ((∃ p, pmu_queue_open_write c fuel pmu qi n = Res.ok (p, -EAGAIN)) ↔
      ¬ fits_spec (pmu.queue qi).offset (pmu.queue qi).size
          (pmu.hw.queue_head (pmu.queue qi).index) (pmu.hw.queue_tail (pmu.queue qi).index)
          c.PMU_CMD_HDR_SIZE (ALIGN n c.QUEUE_ALIGNMENT)) ∧
    (fits_spec (pmu.queue qi).offset (pmu.queue qi).size
          (pmu.hw.queue_head (pmu.queue qi).index) (pmu.hw.queue_tail (pmu.queue qi).index)
          c.PMU_CMD_HDR_SIZE (ALIGN n c.QUEUE_ALIGNMENT) →
      ∃ p, pmu_queue_open_write c fuel pmu qi n = Res.ok (p, 0) ∧
        (p.queue qi).opened = true ∧ (p.queue qi).oflag = Oflag.OFLAG_WRITE ∧
        (rewind_spec (pmu.queue qi).offset (pmu.queue qi).size
            (pmu.hw.queue_head (pmu.queue qi).index) (pmu.hw.queue_tail (pmu.queue qi).index)
            c.PMU_CMD_HDR_SIZE (ALIGN n c.QUEUE_ALIGNMENT) →
          (p.queue qi).position = (pmu.queue qi).offset) ∧
        (¬ rewind_spec (pmu.queue qi).offset (pmu.queue qi).size
            (pmu.hw.queue_head (pmu.queue qi).index) (pmu.hw.queue_tail (pmu.queue qi).index)
            c.PMU_CMD_HDR_SIZE (ALIGN n c.QUEUE_ALIGNMENT) →
          (p.queue qi).position = pmu.hw.queue_head (pmu.queue qi).index)) := by
  obtain ⟨hfit, hrew⟩ := has_room_iff_fits c (pmu.queue qi)
    (pmu.hw.queue_head (pmu.queue qi).index) (pmu.hw.queue_tail (pmu.queue qi).index) n hgeom hhead
  have hopen := pmu_queue_open_write_sw c fuel pmu qi n hsw hmutex hclosed
  have hneg : (-EAGAIN : Int) ≠ 0 := by decide
  constructor
  · constructor
    · rintro ⟨p, hp⟩ hf
      rw [hopen, if_pos (hfit.mpr hf)] at hp
      injection hp with hp
      injection hp with _ hp
      exact hneg hp.symm
    · intro hnf
      have hr : ¬ has_room c (pmu.queue qi) (pmu.hw.queue_head (pmu.queue qi).index)
          (pmu.hw.queue_tail (pmu.queue qi).index) n = true := fun h => hnf (hfit.mp h)
      exact ⟨_, by rw [hopen, if_neg hr]⟩
  · intro hf
    rw [hopen, if_pos (hfit.mpr hf)]
    have hq : (sw_opened_write pmu qi (pmu.hw.queue_head (pmu.queue qi).index)).queue qi =
        { pmu.queue qi with
          mutex := true, locked := true, position := pmu.hw.queue_head (pmu.queue qi).index,
          oflag := Oflag.OFLAG_WRITE, opened := true } := by simp [sw_opened_write]
    by_cases hrw : need_rewind c (pmu.queue qi) (pmu.hw.queue_head (pmu.queue qi).index)
        (pmu.hw.queue_tail (pmu.queue qi).index) n = true
    · rw [if_pos hrw]
      obtain ⟨hq2, _⟩ := rewind_write_proj c
        (sw_opened_write pmu qi (pmu.hw.queue_head (pmu.queue qi).index)) qi
        (by rw [hq]) (by rw [hq])
      refine ⟨_, rfl, ?_, ?_, ?_, ?_⟩
      · rw [hq2, hq]
      · rw [hq2, hq]
      · intro _; rw [hq2, hq]
      · intro hn; exact absurd (hrew.mp hrw) hn
    · rw [if_neg hrw]
      refine ⟨_, rfl, ?_, ?_, ?_, ?_⟩
      · rw [hq]
      · rw [hq]
      · intro hr; exact absurd (hrew.mpr hr) hrw
      · intro _; rw [hq]

theorem open_write_full_iff_not_fits_witness :
    (∃ p, pmu_queue_open_write gk20a 0 pmu0 0 8 = Res.ok (p, -EAGAIN)) ↔
      ¬ fits_spec 2048 128 2048 2048 4 8 :=
  (open_write_full_iff_not_fits gk20a 0 pmu0 0 8 ⟨rfl, rfl, rfl, by decide, by decide⟩ rfl rfl
    (by decide) (by decide)).1

/-! ## C3: position and written bytes stay inside the buffer -/

theorem copy_to_dmem_frame (c : Consts) (hw : Hw) (dst : Nat) (src : Buf) (n x : Nat)
    (h : ∀ i, i < (n + 3) / 4 → x ≠ (dst &&& c.addr_mask) + 4 * i) :
    (pmu_copy_to_dmem c hw dst src n).dmem x = hw.dmem x := by
  by_cases hn : n = 0
  · simp [pmu_copy_to_dmem, hn]
  by_cases ha : dst % 4 = 0
  · rw [pmu_copy_to_dmem_eq c hw dst src n (by omega) ha]
    simp only [dmem_after_write]
    by_cases hc : (dst &&& c.addr_mask) ≤ x ∧ x < (dst &&& c.addr_mask) + 4 * ((n + 3) / 4) ∧
        (x - (dst &&& c.addr_mask)) % 4 = 0
    · exfalso
      exact h ((x - (dst &&& c.addr_mask)) / 4) (by omega) (by omega)
    · rw [if_neg hc]
  · simp [pmu_copy_to_dmem, hn, ha]

/-- Writes of `n` bytes at an aligned address `a` of the buffer `[lo, hi)` whose padded
end stays at or below `hi` leave every word outside the buffer untouched. -/
theorem copy_to_dmem_inside (c : Consts) (hw : Hw) (a : Nat) (src : Buf) (n lo hi x : Nat)
    (hmask : a % 4 = 0 → a &&& c.addr_mask = a)
    (hlo : lo ≤ a) (hhi : a + 4 * ((n + 3) / 4) ≤ hi)
    (hx : x < lo ∨ hi < x + 4) :
    (pmu_copy_to_dmem c hw a src n).dmem x = hw.dmem x := by
  by_cases ha : a % 4 = 0
  · apply copy_to_dmem_frame
    intro i hi2
    rw [hmask ha]
    omega
  · by_cases hn : n = 0
    · simp [pmu_copy_to_dmem, hn]
    · simp [pmu_copy_to_dmem, hn, ha]

/-- C3 (amended): on a closed, unlocked software command queue whose head is a
multiple of 4 with `offset <= head <= offset + size - header size`, whose tail lies
in `[offset, offset + size)`, and for every request size `0 < n <= 2^32 - 4`: if
open_for_write(n) succeeds, then `position` lies in `[offset, offset + size)` after
the open and after the following push of `n` bytes, and every DMEM word outside the
queue's buffer is left as it was (every byte written, the rewind marker included,
lies inside the buffer). -/
theorem open_write_push_in_bounds (c : Consts) (fuel : Nat) (pmu : Pmu) (qi n : Nat) (data : Buf)
    (hQA : c.QUEUE_ALIGNMENT = 4)
    (hhdr4 : c.PMU_CMD_HDR_SIZE % 4 = 0) (hhdr0 : 0 < c.PMU_CMD_HDR_SIZE)
    (hsw : IsSwQueue c (pmu.queue qi))
    (hclosed : (pmu.queue qi).opened = false) (hmutex : (pmu.queue qi).mutex = false)
    (hgeom : (pmu.queue qi).offset + (pmu.queue qi).size < U32)
    (hmask : ∀ a, a % 4 = 0 → a < (pmu.queue qi).offset + (pmu.queue qi).size →
      a &&& c.addr_mask = a)
    (hhead_al : pmu.hw.queue_head (pmu.queue qi).index % 4 = 0)
    (hhead_lo : (pmu.queue qi).offset ≤ pmu.hw.queue_head (pmu.queue qi).index)
    (hhead_hi : pmu.hw.queue_head (pmu.queue qi).index + c.PMU_CMD_HDR_SIZE
      ≤ (pmu.queue qi).offset + (pmu.queue qi).size)
    (htail_hi : pmu.hw.queue_tail (pmu.queue qi).index
      < (pmu.queue qi).offset + (pmu.queue qi).size)
    (hn3 : n + 3 < U32) :
    ∀ p1, pmu_queue_open_write c fuel pmu qi n = Res.ok (p1, 0) →
      ((pmu.queue qi).offset ≤ (p1.queue qi).position ∧
        (p1.queue qi).position < (pmu.queue qi).offset + (pmu.queue qi).size) ∧
      ((pmu.queue qi).offset ≤ ((pmu_queue_push c p1 qi data n).1.queue qi).position ∧
        ((pmu_queue_push c p1 qi data n).1.queue qi).position
          < (pmu.queue qi).offset + (pmu.queue qi).size) ∧
      ∀ x, (x < (pmu.queue qi).offset ∨ (pmu.queue qi).offset + (pmu.queue qi).size < x + 4) →
        (pmu_queue_push c p1 qi data n).1.hw.dmem x = pmu.hw.dmem x := by
  intro p1 hp1
  obtain ⟨hfit, hrew⟩ := has_room_iff_fits c (pmu.queue qi)
    (pmu.hw.queue_head (pmu.queue qi).index) (pmu.hw.queue_tail (pmu.queue qi).index) n
    hgeom hhead_hi
  have hP : ALIGN n c.QUEUE_ALIGNMENT = (n + 3) / 4 * 4 := by rw [hQA]; exact ALIGN_four n hn3
  rw [hP] at hfit hrew
  rw [pmu_queue_open_write_sw c fuel pmu qi n hsw hmutex hclosed] at hp1
  have hneg : (-EAGAIN : Int) ≠ 0 := by decide
  by_cases hroom : has_room c (pmu.queue qi) (pmu.hw.queue_head (pmu.queue qi).index)
      (pmu.hw.queue_tail (pmu.queue qi).index) n = true
  swap
  · rw [if_neg hroom] at hp1
    injection hp1 with hp1
    injection hp1 with _ hp1
    exact absurd hp1 hneg
  rw [if_pos hroom] at hp1
  have hfs := hfit.mp hroom
  simp only [fits_spec] at hfs
  have hq : (sw_opened_write pmu qi (pmu.hw.queue_head (pmu.queue qi).index)).queue qi =
      { pmu.queue qi with
        mutex := true, locked := true, position := pmu.hw.queue_head (pmu.queue qi).index,
        oflag := Oflag.OFLAG_WRITE, opened := true } := by simp [sw_opened_write]
  have hhw : (sw_opened_write pmu qi (pmu.hw.queue_head (pmu.queue qi).index)).hw = pmu.hw := by
    simp [sw_opened_write]
  by_cases hrw : need_rewind c (pmu.queue qi) (pmu.hw.queue_head (pmu.queue qi).index)
      (pmu.hw.queue_tail (pmu.queue qi).index) n = true
  · -- a rewind marker is written at the old head, the request goes to the base
    rw [if_pos hrw] at hp1
    injection hp1 with hp1
    injection hp1 with hp1 _
    have hrs := hrew.mp hrw
    simp only [rewind_spec] at hrs
    obtain ⟨hge, hnf⟩ := hrs
    rw [if_pos hge] at hfs
    have hbase : (pmu.queue qi).offset < pmu.hw.queue_tail (pmu.queue qi).index ∧
        (n + 3) / 4 * 4 ≤ pmu.hw.queue_tail (pmu.queue qi).index - (pmu.queue qi).offset - 1 := by
      rcases hfs with h | h
      · exact absurd h hnf
      · exact h
    obtain ⟨hq1, hw1⟩ := rewind_write_proj c
      (sw_opened_write pmu qi (pmu.hw.queue_head (pmu.queue qi).index)) qi
      (by rw [hq]) (by rw [hq])
    rw [hp1] at hq1 hw1
    rw [hq] at hq1 hw1
    rw [hhw] at hw1
    simp only [] at hq1 hw1
    obtain ⟨p2, hp2, hq2, hw2⟩ := push_proj c p1 qi data n (by rw [hq1])
    rw [hp2]
    simp only [hq1, hP] at hq2
    simp only [hq1, hw1] at hw2
    have hadd : add32 (pmu.queue qi).offset ((n + 3) / 4 * 4)
        = (pmu.queue qi).offset + (n + 3) / 4 * 4 := by
      simp only [add32, U32] at *
      rw [Nat.mod_eq_of_lt (by omega)]
    rw [hadd] at hq2
    refine ⟨?_, ?_, ?_⟩
    · rw [hq1]; simp only []; omega
    · rw [hq2]; simp only []; omega
    · intro x hx
      rw [hw2]
      rw [copy_to_dmem_inside c _ (pmu.queue qi).offset data n (pmu.queue qi).offset
        ((pmu.queue qi).offset + (pmu.queue qi).size) x
        (fun h4 => hmask _ h4 (by omega)) (le_refl _) (by omega) hx]
      have hm : (c.PMU_CMD_HDR_SIZE % 256 + 3) / 4 * 4 ≤ c.PMU_CMD_HDR_SIZE := by omega
      exact copy_to_dmem_inside c pmu.hw (pmu.hw.queue_head (pmu.queue qi).index) _ _
        (pmu.queue qi).offset ((pmu.queue qi).offset + (pmu.queue qi).size) x
        (fun h4 => hmask _ h4 (by omega)) hhead_lo (by omega) hx
  · -- no rewind: the request is written at the head
    rw [if_neg hrw] at hp1
    injection hp1 with hp1
    injection hp1 with hp1 _
    have hnr : ¬ rewind_spec (pmu.queue qi).offset (pmu.queue qi).size
        (pmu.hw.queue_head (pmu.queue qi).index) (pmu.hw.queue_tail (pmu.queue qi).index)
        c.PMU_CMD_HDR_SIZE ((n + 3) / 4 * 4) := fun h => hrw (hrew.mpr h)
    simp only [rewind_spec] at hnr
    have hend : pmu.hw.queue_head (pmu.queue qi).index + (n + 3) / 4 * 4
        < (pmu.queue qi).offset + (pmu.queue qi).size := by
      by_cases hge : pmu.hw.queue_head (pmu.queue qi).index ≥
          pmu.hw.queue_tail (pmu.queue qi).index
      · rw [if_pos hge] at hfs
        have : (n + 3) / 4 * 4 ≤ (pmu.queue qi).offset + (pmu.queue qi).size
            - pmu.hw.queue_head (pmu.queue qi).index - c.PMU_CMD_HDR_SIZE := by
          by_contra hcon
          exact hnr ⟨hge, hcon⟩
        omega
      · rw [if_neg hge] at hfs
        omega
    rw [← hp1] at *
    obtain ⟨p2, hp2, hq2, hw2⟩ := push_proj c
      (sw_opened_write pmu qi (pmu.hw.queue_head (pmu.queue qi).index)) qi data n (by rw [hq])
    rw [hp2]
    simp only [hq, hP] at hq2
    simp only [hq, hhw] at hw2
    have hadd : add32 (pmu.hw.queue_head (pmu.queue qi).index) ((n + 3) / 4 * 4)
        = pmu.hw.queue_head (pmu.queue qi).index + (n + 3) / 4 * 4 := by
      simp only [add32, U32] at *
      rw [Nat.mod_eq_of_lt (by omega)]
    rw [hadd] at hq2
    refine ⟨?_, ?_, ?_⟩
    · rw [hq]; simp only []; omega
    · rw [hq2]; simp only []; omega
    · intro x hx
      rw [hw2]
      exact copy_to_dmem_inside c pmu.hw (pmu.hw.queue_head (pmu.queue qi).index) data n
        (pmu.queue qi).offset ((pmu.queue qi).offset + (pmu.queue qi).size) x
        (fun h4 => hmask _ h4 (by omega)) hhead_lo (by omega) hx

/-- C3, as stated, fails: with header size 8, alignment 4 and a 64-byte queue at
offset 0 whose head and tail are both 60 (multiples of 4 inside `[0, 64)`),
open_for_write(8) succeeds without a rewind, the push moves `position` to 68 and
stores a word at byte address 64, beyond the end of the buffer. And with header
size 4 and the empty queue `[2048, 2176)` of `pmu0`, open_for_write(2^32 - 1)
succeeds, because the padded size wraps to 0 in `u32`, and the push stores a word
at byte address 2176, the end of the buffer. -/
theorem open_write_push_overruns_buffer :
    ((pmu_q64 60).hw.queue_head ((pmu_q64 60).queue 0).index = 60 ∧
     (pmu_q64 60).hw.queue_tail ((pmu_q64 60).queue 0).index = 60 ∧
     ((pmu_q64 60).queue 0).offset = 0 ∧ ((pmu_q64 60).queue 0).size = 64 ∧
     ∃ p1, pmu_queue_open_write gk20a_hdr8 0 (pmu_q64 60) 0 8 = Res.ok (p1, 0) ∧
       ((pmu_queue_push gk20a_hdr8 p1 0 (fun _ => 255) 8).1.queue 0).position = 68 ∧
       (pmu_queue_push gk20a_hdr8 p1 0 (fun _ => 255) 8).1.hw.dmem 64 = 4294967295 ∧
       (pmu_q64 60).hw.dmem 64 = 0) ∧
    (pmu0.hw.queue_head (pmu0.queue 0).index = 2048 ∧
     pmu0.hw.queue_tail (pmu0.queue 0).index = 2048 ∧
     (pmu0.queue 0).offset = 2048 ∧ (pmu0.queue 0).size = 128 ∧
     ∃ p1, pmu_queue_open_write gk20a 0 pmu0 0 4294967295 = Res.ok (p1, 0) ∧
       (pmu_queue_push gk20a p1 0 (fun _ => 255) 4294967295).1.hw.dmem 2176 = 4294967295 ∧
       pmu0.hw.dmem 2176 = 0) := by
  constructor
  · refine ⟨rfl, rfl, rfl, rfl, _, rfl, ?_, ?_, rfl⟩
    · rfl
    · rfl
  · refine ⟨rfl, rfl, rfl, rfl, sw_opened_write pmu0 0 2048, ?_, ?_, rfl⟩
    · exact (pmu_queue_open_write_sw gk20a 0 pmu0 0 4294967295
        ⟨rfl, rfl, rfl, by decide, by decide⟩ rfl rfl).trans rfl
    · rw [pmu_queue_push_opened gk20a (sw_opened_write pmu0 0 2048) 0 _ _ rfl]
      simp only [setQueue_hw]
      have hpos : ((sw_opened_write pmu0 0 2048).queue 0).position = 2048 := rfl
      rw [hpos, pmu_copy_to_dmem_eq gk20a _ 2048 _ 4294967295 (by decide) (by decide)]
      simp only [dmem_after_write]
      rw [if_pos (by decide)]
      rfl

/-- The address mask of `gk20a` (bits 2 to 15) leaves a word-aligned address below
64 KiB as it is. -/
theorem land_addr_mask_gk20a (a : Nat) (h4 : a % 4 = 0) (hlt : a < 65536) :
    a &&& gk20a.addr_mask = a := by
  have e1 : a = (a / 4) <<< 2 := by
    rw [Nat.shiftLeft_eq]; omega
  have e2 : gk20a.addr_mask = (2 ^ 14 - 1) <<< 2 := by decide
  rw [e2]
  apply Nat.eq_of_testBit_eq
  intro i
  rw [Nat.testBit_and, e1]
  simp only [Nat.testBit_shiftLeft, Nat.testBit_two_pow_sub_one]
  by_cases hi : i ≥ 2
  · simp only [hi, decide_True, Bool.true_and]
    by_cases h14 : i - 2 < 14
    · simp [h14]
    · have : a / 4 < 2 ^ (i - 2) := by
        have h1 : a / 4 < 2 ^ 14 := by omega
        have h2 : 2 ^ 14 ≤ 2 ^ (i - 2) := Nat.pow_le_pow_right (by norm_num) (by omega)
        omega
      simp [Nat.testBit_lt_two_pow this]
  · simp [hi]

theorem open_write_push_in_bounds_witness :
    (2048 ≤ ((sw_opened_write pmu0 0 2048).queue 0).position ∧
      ((sw_opened_write pmu0 0 2048).queue 0).position < 2048 + 128) ∧
    (2048 ≤ ((pmu_queue_push gk20a (sw_opened_write pmu0 0 2048) 0
        (fun _ => 255) 8).1.queue 0).position ∧
      ((pmu_queue_push gk20a (sw_opened_write pmu0 0 2048) 0 (fun _ => 255) 8).1.queue 0).position
        < 2048 + 128) ∧
    ∀ x, (x < 2048 ∨ 2048 + 128 < x + 4) →
      (pmu_queue_push gk20a (sw_opened_write pmu0 0 2048) 0 (fun _ => 255) 8).1.hw.dmem x
        = pmu0.hw.dmem x :=
  open_write_push_in_bounds gk20a 0 pmu0 0 8 (fun _ => 255) rfl (by decide) (by decide)
    ⟨rfl, rfl, rfl, by decide, by decide⟩ rfl rfl (by decide)
    (fun a h4 hlt => land_addr_mask_gk20a a h4
      (Nat.lt_trans hlt (by decide : (pmu0.queue 0).offset + (pmu0.queue 0).size < 65536)))
    (by decide) (by decide) (by decide) (by decide) (by decide)
    (sw_opened_write pmu0 0 2048)
    ((pmu_queue_open_write_sw gk20a 0 pmu0 0 8 ⟨rfl, rfl, rfl, by decide, by decide⟩
      rfl rfl).trans rfl)

/-! ## C2: wraparound -/

theorem is_empty_sw (c : Consts) (pmu : Pmu) (qi : Nat)
    (h : IsSwQueue c (pmu.queue qi)) (ho : (pmu.queue qi).opened = false) :
    pmu_queue_is_empty c pmu qi =
      Res.ok (pmu.hw.queue_head (pmu.queue qi).index == pmu.hw.queue_tail (pmu.queue qi).index) := by
  simp [pmu_queue_is_empty, head_get_sw c pmu _ h, tail_get_sw c pmu _ h, ho]

theorem rewind_read_proj (c : Consts) (pmu : Pmu) (qi : Nat)
    (ho : (pmu.queue qi).opened = true) (hf : (pmu.queue qi).oflag = Oflag.OFLAG_READ) :
    (pmu_queue_rewind c pmu qi).queue qi =
        { pmu.queue qi with position := (pmu.queue qi).offset } ∧
      (pmu_queue_rewind c pmu qi).hw = pmu.hw := by
  constructor
  · simp [pmu_queue_rewind, ho, hf]
  · simp [pmu_queue_rewind, ho, hf]

theorem hdr_parse_image (h : PmuHdr) (b : Buf)
    (h0 : h.unit_id < 256) (h1 : h.size < 256) (h2 : h.ctrl_flags < 256) (h3 : h.seq_id < 256)
    (hb : ∀ i, i < 4 → b i = h.image i) : PmuHdr.parse b = h := by
  have e0 := hb 0 (by norm_num)
  have e1 := hb 1 (by norm_num)
  have e2 := hb 2 (by norm_num)
  have e3 := hb 3 (by norm_num)
  simp only [PmuHdr.image] at e0 e1 e2 e3
  norm_num at e0 e1 e2 e3
  cases h with
  | mk u s f q =>
    simp only [PmuHdr.parse, e0, e1, e2, e3] at *
    simp only [Nat.mod_mod, Nat.mod_eq_of_lt h0, Nat.mod_eq_of_lt h1, Nat.mod_eq_of_lt h2,
      Nat.mod_eq_of_lt h3]

/-- The reader's side of a wraparound: the head register is at `offset + P`, the
tail register at the old head `head0`, DMEM holds a rewind marker at `head0` and the
command at the base. `pmu_read_message` pops the marker, rewinds, and reads the
command. -/
theorem read_message_after_rewind (c : Consts) (fuel : Nat) (p : Pmu) (qi : Nat) (msg0 : PmuMsg)
    (cmd : PmuCmd) (n head0 : Nat)
    (hQA : c.QUEUE_ALIGNMENT = 4)
    (hhdr4 : c.sizeof_pmu_hdr % 4 = 0) (hhdr_lo : 4 ≤ c.sizeof_pmu_hdr)
    (hsw : IsSwQueue c (p.queue qi))
    (hclosed : (p.queue qi).opened = false) (hmutex : (p.queue qi).mutex = false)
    (hgeom : (p.queue qi).offset + (p.queue qi).size < U32)
    (hmask : ∀ a, a % 4 = 0 → a < (p.queue qi).offset + (p.queue qi).size →
      a &&& c.addr_mask = a)
    (hal0 : head0 % 4 = 0) (halo : (p.queue qi).offset % 4 = 0)
    (hhi : head0 + c.sizeof_pmu_hdr ≤ (p.queue qi).offset + (p.queue qi).size)
    (hH : p.hw.queue_head (p.queue qi).index = (p.queue qi).offset + (n + 3) / 4 * 4)
    (hT : p.hw.queue_tail (p.queue qi).index = head0)
    (hlt : (p.queue qi).offset + (n + 3) / 4 * 4 < head0)
    (hmarker : lane (p.hw.dmem head0) 0 = c.PMU_UNIT_REWIND)
    (hcmd : ∀ j, j < n →
      lane (p.hw.dmem ((p.queue qi).offset + 4 * (j / 4))) (j % 4) = cmd.image c j)
    (hu : cmd.hdr.unit_id < 256) (hs : cmd.hdr.size = n) (hn : n < 256)
    (hf : cmd.hdr.ctrl_flags < 256) (hq : cmd.hdr.seq_id < 256)
    (hnh : c.sizeof_pmu_hdr ≤ n)
    (hvalid : c.PMU_UNIT_ID_IS_VALID cmd.hdr.unit_id = true) :
    ∃ r, pmu_read_message c fuel p qi msg0 = Res.ok r ∧ r.ret = true ∧ r.status = 0 ∧
      r.msg.hdr = cmd.hdr ∧ (∀ i, i < n - c.sizeof_pmu_hdr → r.msg.msg i = cmd.cmd i) ∧
      r.pmu.hw.queue_tail (p.queue qi).index = (p.queue qi).offset + (n + 3) / 4 * 4 ∧
      (r.pmu.queue qi).opened = false := by
  have hAH : ALIGN c.sizeof_pmu_hdr c.QUEUE_ALIGNMENT = c.sizeof_pmu_hdr := by
    rw [hQA, ALIGN_four _ (by simp only [U32] at *; omega)]
    omega
  -- the queue is not empty
  have hemp := is_empty_sw c p qi hsw hclosed
  have hne0 : (p.hw.queue_head (p.queue qi).index == p.hw.queue_tail (p.queue qi).index) = false := by
    rw [hH, hT]
    simp only [beq_eq_false_iff_ne, ne_eq]
    omega
  rw [hne0] at hemp
  -- open for read at the old head
  obtain ⟨p4, hp4, hq4, hw4⟩ := open_read_proj c fuel p qi hsw hmutex hclosed
  rw [hT] at hq4
  -- first pop: the rewind marker
  obtain ⟨r1, hr1, herr1, hbr1, hd1, hq1, hw1⟩ := pop_proj c p4 qi msg0.hdr.image c.sizeof_pmu_hdr
    ((p.queue qi).offset + (p.queue qi).size - head0)
    (by rw [hq4]; exact isSwQueue_of_eq c _ _ hsw rfl rfl) (by rw [hq4])
    (by rw [hq4, hw4, hH]; simp only []; omega)
    (by
      rw [hq4, hw4, hH]
      simp only []
      rw [if_neg (by omega)]
      simp only [sub32, add32, U32] at *
      omega)
    (by omega) (by omega) (by rw [hq4]; exact hal0)
  simp only [hq4, hw4, hAH, hmask head0 hal0 (by omega)] at hd1 hq1 hw1
  have hadd1 : add32 head0 c.sizeof_pmu_hdr = head0 + c.sizeof_pmu_hdr := by
    simp only [add32, U32] at *
    rw [Nat.mod_eq_of_lt (by omega)]
  rw [hadd1] at hq1
  have hunit1 : (PmuHdr.parse r1.data).unit_id = c.PMU_UNIT_REWIND := by
    rw [hd1]
    simp only [PmuHdr.parse, buf_after_read]
    rw [if_pos (by omega)]
    simp only [Nat.zero_div, Nat.mul_zero, Nat.add_zero, Nat.zero_mod]
    rw [hmarker.symm]
    simp only [lane, pow_zero, Nat.div_one, Nat.mod_mod]
  -- rewind to the base
  obtain ⟨hq2, hw2⟩ := rewind_read_proj c r1.pmu qi (by rw [hq1]) (by rw [hq1])
  simp only [hq1] at hq2
  -- second pop: the header of the command
  have hPge : c.sizeof_pmu_hdr ≤ (n + 3) / 4 * 4 := by omega
  obtain ⟨r2, hr2, herr2, hbr2, hd2, hq3, hw3⟩ := pop_proj c (pmu_queue_rewind c r1.pmu qi) qi
    (PmuHdr.parse r1.data).image c.sizeof_pmu_hdr ((n + 3) / 4 * 4)
    (by rw [hq2]; exact isSwQueue_of_eq c _ _ hsw rfl rfl) (by rw [hq2])
    (by rw [hq2, hw2, hw1]; simp only []; rw [hH]; omega)
    (by
      rw [hq2, hw2, hw1]
      simp only []
      rw [hH, if_pos (by omega)]
      omega)
    hPge (by omega) (by rw [hq2]; exact halo)
  simp only [hq2, hw2, hw1, hAH, hmask (p.queue qi).offset halo (by omega)] at hd2 hq3 hw3
  have hadd2 : add32 (p.queue qi).offset c.sizeof_pmu_hdr = (p.queue qi).offset + c.sizeof_pmu_hdr := by
    simp only [add32, U32] at *
    rw [Nat.mod_eq_of_lt (by omega)]
  rw [hadd2] at hq3
  have hhdr2 : PmuHdr.parse r2.data = cmd.hdr := by
    apply hdr_parse_image cmd.hdr r2.data hu (by omega) hf hq
    intro i hi
    rw [hd2]
    simp only [buf_after_read]
    rw [if_pos (by omega), hcmd i (by omega)]
    simp only [PmuCmd.image]
    rw [if_pos (by omega)]
  by_cases hbody : n > c.sizeof_pmu_hdr
  · -- third pop: the body of the command
    obtain ⟨r3, hr3, herr3, hbr3, hd3, hq5, hw5⟩ := pop_proj c r2.pmu qi msg0.msg
      (n - c.sizeof_pmu_hdr) ((n + 3) / 4 * 4 - c.sizeof_pmu_hdr)
      (by rw [hq3]; exact isSwQueue_of_eq c _ _ hsw rfl rfl) (by rw [hq3])
      (by rw [hq3, hw3]; simp only []; rw [hH]; omega)
      (by
        rw [hq3, hw3]
        simp only []
        rw [hH, if_pos (by omega)]
        omega)
      (by omega) (by omega) (by rw [hq3]; simp only []; omega)
    have hAB : ALIGN (n - c.sizeof_pmu_hdr) c.QUEUE_ALIGNMENT
        = (n + 3) / 4 * 4 - c.sizeof_pmu_hdr := by
      rw [hQA, ALIGN_four _ (by simp only [U32] at *; omega)]
      omega
    simp only [hq3, hw3, hAB,
      hmask ((p.queue qi).offset + c.sizeof_pmu_hdr) (by omega) (by omega)] at hd3 hq5 hw5
    have hadd3 : add32 ((p.queue qi).offset + c.sizeof_pmu_hdr)
        ((n + 3) / 4 * 4 - c.sizeof_pmu_hdr) = (p.queue qi).offset + (n + 3) / 4 * 4 := by
      simp only [add32, U32] at *
      rw [Nat.mod_eq_of_lt (by omega)]
      omega
    rw [hadd3] at hq5
    obtain ⟨p6, hp6, hq6, hw6⟩ := close_read_proj c r3.pmu qi
      (by rw [hq5]; exact isSwQueue_of_eq c _ _ hsw rfl rfl) (by rw [hq5]) (by rw [hq5])
    simp only [hq5] at hq6 hw6
    refine ⟨{ pmu := p6, msg := { hdr := cmd.hdr, msg := r3.data }, status := 0, ret := true },
      ?_, rfl, rfl, rfl, ?_, ?_, ?_⟩
    · simp [pmu_read_message, hemp, Res.bind, hp4, hr1, herr1, hbr1, hunit1, hr2, herr2, hbr2,
        hhdr2, pmu_read_message_body, hvalid, hs, Consts.PMU_MSG_HDR_SIZE, hbody, hr3, herr3,
        hbr3, hp6]
    · intro i hi
      simp only [hd3, buf_after_read]
      rw [if_pos hi]
      have e1 : (p.queue qi).offset + c.sizeof_pmu_hdr + 4 * (i / 4)
          = (p.queue qi).offset + 4 * ((c.sizeof_pmu_hdr + i) / 4) := by omega
      have e2 : i % 4 = (c.sizeof_pmu_hdr + i) % 4 := by omega
      rw [e1, e2, hcmd (c.sizeof_pmu_hdr + i) (by omega)]
      simp only [PmuCmd.image]
      rw [if_neg (by omega)]
      congr 1
      omega
    · rw [hw6]
      simp
    · rw [hq6]
  · have hnn : n = c.sizeof_pmu_hdr := by omega
    obtain ⟨p6, hp6, hq6, hw6⟩ := close_read_proj c r2.pmu qi
      (by rw [hq3]; exact isSwQueue_of_eq c _ _ hsw rfl rfl) (by rw [hq3]) (by rw [hq3])
    simp only [hq3] at hq6 hw6
    refine ⟨{ pmu := p6, msg := { hdr := cmd.hdr, msg := msg0.msg }, status := 0, ret := true },
      ?_, rfl, rfl, rfl, ?_, ?_, ?_⟩
    · simp [pmu_read_message, hemp, Res.bind, hp4, hr1, herr1, hbr1, hunit1, hr2, herr2, hbr2,
        hhdr2, pmu_read_message_body, hvalid, hs, Consts.PMU_MSG_HDR_SIZE, hbody, hp6]
    · intro i hi
      omega
    · rw [hw6]
      simp
      omega
    · rw [hq6]

theorem hdr_image_lt (h : PmuHdr) (i : Nat) : h.image i < 256 := by
  simp only [PmuHdr.image]
  split
  · exact Nat.mod_lt _ (by norm_num)
  · split
    · exact Nat.mod_lt _ (by norm_num)
    · split
      · exact Nat.mod_lt _ (by norm_num)
      · split
        · exact Nat.mod_lt _ (by norm_num)
        · norm_num

/-- The writer's side of a wraparound: the request does not fit before the buffer
end but fits at the base. open_for_write, push and close(commit) succeed; a rewind
marker is stored at the old head, the pushed bytes at the base, and the head register
is set to `offset + P`. -/
theorem write_with_rewind (c : Consts) (fuel : Nat) (pmu : Pmu) (qi : Nat) (src : Buf) (n : Nat)
    (hQA : c.QUEUE_ALIGNMENT = 4)
    (hhdr4 : c.sizeof_pmu_hdr % 4 = 0) (hhdr_lo : 4 ≤ c.sizeof_pmu_hdr)
    (hhdr_hi : c.sizeof_pmu_hdr < 256) (hrew : c.PMU_UNIT_REWIND < 256)
    (hsw : IsSwQueue c (pmu.queue qi))
    (hclosed : (pmu.queue qi).opened = false) (hmutex : (pmu.queue qi).mutex = false)
    (hgeom : (pmu.queue qi).offset + (pmu.queue qi).size < U32)
    (hmask : ∀ a, a % 4 = 0 → a < (pmu.queue qi).offset + (pmu.queue qi).size →
      a &&& c.addr_mask = a)
    (hge : pmu.hw.queue_head (pmu.queue qi).index ≥ pmu.hw.queue_tail (pmu.queue qi).index)
    (hal0 : pmu.hw.queue_head (pmu.queue qi).index % 4 = 0)
    (halo : (pmu.queue qi).offset % 4 = 0)
    (hhi : pmu.hw.queue_head (pmu.queue qi).index + c.sizeof_pmu_hdr
      ≤ (pmu.queue qi).offset + (pmu.queue qi).size)
    (hn0 : 0 < n) (hn : n < 256)
    (hnofit : (n + 3) / 4 * 4 > (pmu.queue qi).offset + (pmu.queue qi).size
      - pmu.hw.queue_head (pmu.queue qi).index - c.sizeof_pmu_hdr)
    (hbase : (n + 3) / 4 * 4
      ≤ pmu.hw.queue_tail (pmu.queue qi).index - (pmu.queue qi).offset - 1)
    (hbytes : ∀ j, j < n → src j < 256) :
    ∃ p1 p3,
      pmu_queue_open_write c fuel pmu qi n = Res.ok (p1, 0) ∧
      pmu_queue_close c (pmu_queue_push c p1 qi src n).1 qi true = Res.ok (p3, 0) ∧
      lane (p3.hw.dmem (pmu.hw.queue_head (pmu.queue qi).index)) 0 = c.PMU_UNIT_REWIND ∧
      (∀ j, j < n → lane (p3.hw.dmem ((pmu.queue qi).offset + 4 * (j / 4))) (j % 4) = src j) ∧
      p3.hw.queue_head = Function.update pmu.hw.queue_head (pmu.queue qi).index
        ((pmu.queue qi).offset + (n + 3) / 4 * 4) ∧
      p3.hw.queue_tail = pmu.hw.queue_tail ∧
      p3.queue qi = { pmu.queue qi with
        position := (pmu.queue qi).offset + (n + 3) / 4 * 4, oflag := Oflag.OFLAG_WRITE,
        opened := false, mutex := false, locked := false } := by
  have hhi2 : pmu.hw.queue_head (pmu.queue qi).index + c.PMU_CMD_HDR_SIZE
      ≤ (pmu.queue qi).offset + (pmu.queue qi).size := hhi
  obtain ⟨hfit, hrw⟩ := has_room_iff_fits c (pmu.queue qi)
    (pmu.hw.queue_head (pmu.queue qi).index) (pmu.hw.queue_tail (pmu.queue qi).index) n
    hgeom hhi2
  have hP : ALIGN n c.QUEUE_ALIGNMENT = (n + 3) / 4 * 4 := by
    rw [hQA]; exact ALIGN_four n (by simp only [U32]; omega)
  rw [hP] at hfit hrw
  have hneed := hrw.mpr ⟨hge, by simp only [Consts.PMU_CMD_HDR_SIZE]; omega⟩
  have hroom := hfit.mpr (by
    simp only [fits_spec]
    rw [if_pos hge]
    right
    constructor
    · omega
    · exact hbase)
  have hopen := pmu_queue_open_write_sw c fuel pmu qi n hsw hmutex hclosed
  rw [if_pos hroom, if_pos hneed] at hopen
  have hq : (sw_opened_write pmu qi (pmu.hw.queue_head (pmu.queue qi).index)).queue qi =
      { pmu.queue qi with
        mutex := true, locked := true, position := pmu.hw.queue_head (pmu.queue qi).index,
        oflag := Oflag.OFLAG_WRITE, opened := true } := by simp [sw_opened_write]
  have hhw : (sw_opened_write pmu qi (pmu.hw.queue_head (pmu.queue qi).index)).hw = pmu.hw := by
    simp [sw_opened_write]
  obtain ⟨hq1, hw1⟩ := rewind_write_proj c
    (sw_opened_write pmu qi (pmu.hw.queue_head (pmu.queue qi).index)) qi
    (by rw [hq]) (by rw [hq])
  rw [hq] at hq1 hw1
  rw [hhw] at hw1
  simp only [] at hq1 hw1
  generalize pmu_queue_rewind c
    (sw_opened_write pmu qi (pmu.hw.queue_head (pmu.queue qi).index)) qi = p1 at hopen hq1 hw1
  obtain ⟨p2, hp2, hq2, hw2⟩ := push_proj c p1 qi src n (by rw [hq1])
  simp only [hq1, hP] at hq2
  simp only [hq1, hw1] at hw2
  have hadd : add32 (pmu.queue qi).offset ((n + 3) / 4 * 4)
      = (pmu.queue qi).offset + (n + 3) / 4 * 4 := by
    simp only [add32, U32] at *
    rw [Nat.mod_eq_of_lt (by omega)]
  rw [hadd] at hq2
  obtain ⟨p3, hp3, hq3, hw3⟩ := close_write_proj c p2 qi
    (by rw [hq2]; exact isSwQueue_of_eq c _ _ hsw rfl rfl) (by rw [hq2]) (by rw [hq2])
  simp only [hq2] at hq3 hw3
  have hHm : c.PMU_CMD_HDR_SIZE % 256 = c.sizeof_pmu_hdr := by
    simp only [Consts.PMU_CMD_HDR_SIZE]; omega
  rw [hHm] at hw2
  have hm0 := hmask (pmu.hw.queue_head (pmu.queue qi).index) hal0 (by omega)
  have hmo := hmask (pmu.queue qi).offset halo (by omega)
  have hinner := pmu_copy_to_dmem_eq c pmu.hw (pmu.hw.queue_head (pmu.queue qi).index)
    ((rewind_cmd c (sw_opened_write pmu qi (pmu.hw.queue_head (pmu.queue qi).index))).image c)
    c.sizeof_pmu_hdr (by omega) hal0
  rw [hm0] at hinner
  refine ⟨p1, p3, hopen, ?_, ?_, ?_, ?_, ?_, ?_⟩
  · rw [hp2]; exact hp3
  · -- the marker at the old head
    rw [hw3]
    simp only []
    rw [hw2, copy_to_dmem_frame c _ (pmu.queue qi).offset src n _ (by
      intro i hi
      rw [hmo]
      omega)]
    rw [hinner]
    simp only [dmem_after_write]
    rw [if_pos (by omega)]
    simp only [Nat.sub_self, Nat.zero_div]
    rw [Nat.mod_eq_of_lt (src_word_lt _ _ _), lane_src_word _ _ _ _ (by norm_num),
      if_pos (by omega)]
    simp only [Nat.mul_zero, Nat.add_zero, PmuCmd.image]
    rw [if_pos (by omega)]
    simp only [rewind_cmd, PmuHdr.image, if_true, Nat.mod_mod]
    exact Nat.mod_eq_of_lt hrew
  · -- the pushed bytes at the base
    intro j hj
    rw [hw3]
    simp only []
    rw [hw2, pmu_copy_to_dmem_eq c _ (pmu.queue qi).offset src n hn0 halo, hmo]
    have h1 := buf_after_read_write
      (pmu_copy_to_dmem c pmu.hw (pmu.hw.queue_head (pmu.queue qi).index)
        ((rewind_cmd c (sw_opened_write pmu qi (pmu.hw.queue_head (pmu.queue qi).index))).image c)
        c.sizeof_pmu_hdr).dmem
      (pmu.queue qi).offset n src src j hj
    simp only [buf_after_read, if_pos hj] at h1
    rw [h1]
    exact Nat.mod_eq_of_lt (hbytes j hj)
  · rw [hw3]
    simp only []
    rw [hw2]
    by_cases ha : n = 0
    · omega
    · simp [pmu_copy_to_dmem_eq c _ (pmu.queue qi).offset src n hn0 halo, hinner]
  · rw [hw3]
    simp only []
    rw [hw2]
    simp [pmu_copy_to_dmem_eq c _ (pmu.queue qi).offset src n hn0 halo, hinner]
  · rw [hq3]

/-- C2 (amended): on a closed, unlocked software command queue with `head >= tail` (head and
base 4-byte aligned, `head <= offset + size - header size`), if the padded command
does not fit before the buffer end but fits at the base, then open_for_write(n),
push(cmd, n), close(commit) succeed, store a header with the rewind unit id at the
old head, store the command at `offset` and set the head register to
`offset + ALIGN(n)`; and `pmu_read_message`, started with the tail register at the
old head, pops the marker, restarts at `offset`, returns the header and body of the
command and commits the tail `offset + ALIGN(n)`. -/
theorem wraparound_write_then_read (c : Consts) (fuel : Nat) (pmu : Pmu) (qi : Nat)
    (cmd : PmuCmd) (msg0 : PmuMsg) (n : Nat)
    (hQA : c.QUEUE_ALIGNMENT = 4)
    (hhdr4 : c.sizeof_pmu_hdr % 4 = 0) (hhdr_lo : 4 ≤ c.sizeof_pmu_hdr)
    (hrew : c.PMU_UNIT_REWIND < 256)
    (hsw : IsSwQueue c (pmu.queue qi))
    (hclosed : (pmu.queue qi).opened = false) (hmutex : (pmu.queue qi).mutex = false)
    (hgeom : (pmu.queue qi).offset + (pmu.queue qi).size < U32)
    (hmask : ∀ a, a % 4 = 0 → a < (pmu.queue qi).offset + (pmu.queue qi).size →
      a &&& c.addr_mask = a)
    (hge : pmu.hw.queue_head (pmu.queue qi).index ≥ pmu.hw.queue_tail (pmu.queue qi).index)
    (hal0 : pmu.hw.queue_head (pmu.queue qi).index % 4 = 0)
    (halo : (pmu.queue qi).offset % 4 = 0)
    (hhi : pmu.hw.queue_head (pmu.queue qi).index + c.sizeof_pmu_hdr
      ≤ (pmu.queue qi).offset + (pmu.queue qi).size)
    (hu : cmd.hdr.unit_id < 256) (hs : cmd.hdr.size = n) (hn : n < 256)
    (hf : cmd.hdr.ctrl_flags < 256) (hq : cmd.hdr.seq_id < 256)
    (hnh : c.sizeof_pmu_hdr ≤ n)
    (hvalid : c.PMU_UNIT_ID_IS_VALID cmd.hdr.unit_id = true)
    (hbody : ∀ i, i < n - c.sizeof_pmu_hdr → cmd.cmd i < 256)
    (hnofit : (n + 3) / 4 * 4 > (pmu.queue qi).offset + (pmu.queue qi).size
      - pmu.hw.queue_head (pmu.queue qi).index - c.sizeof_pmu_hdr)
    (hbase : (n + 3) / 4 * 4
      ≤ pmu.hw.queue_tail (pmu.queue qi).index - (pmu.queue qi).offset - 1) :
    ∃ p1 p3 r,
      pmu_queue_open_write c fuel pmu qi n = Res.ok (p1, 0) ∧
      pmu_queue_close c (pmu_queue_push c p1 qi (cmd.image c) n).1 qi true = Res.ok (p3, 0) ∧
      lane (p3.hw.dmem (pmu.hw.queue_head (pmu.queue qi).index)) 0 = c.PMU_UNIT_REWIND ∧
      (∀ j, j < n →
        lane (p3.hw.dmem ((pmu.queue qi).offset + 4 * (j / 4))) (j % 4) = cmd.image c j) ∧
      p3.hw.queue_head (pmu.queue qi).index = (pmu.queue qi).offset + (n + 3) / 4 * 4 ∧
      pmu_read_message c fuel
        { p3 with hw := { p3.hw with
            queue_tail := Function.update p3.hw.queue_tail (pmu.queue qi).index
              (pmu.hw.queue_head (pmu.queue qi).index) } } qi msg0 = Res.ok r ∧
      r.ret = true ∧ r.status = 0 ∧ r.msg.hdr = cmd.hdr ∧
      (∀ i, i < n - c.sizeof_pmu_hdr → r.msg.msg i = cmd.cmd i) ∧
      r.pmu.hw.queue_tail (pmu.queue qi).index = (pmu.queue qi).offset + (n + 3) / 4 * 4 := by
  have hbytes : ∀ j, j < n → cmd.image c j < 256 := by
    intro j hj
    simp only [PmuCmd.image]
    split
    · exact hdr_image_lt _ _
    · exact hbody _ (by omega)
  obtain ⟨p1, p3, hopen, hclose, hmark, hcmd, hH, hT, hq3⟩ :=
    write_with_rewind c fuel pmu qi (cmd.image c) n hQA hhdr4 hhdr_lo (by omega) hrew hsw hclosed
      hmutex hgeom hmask hge hal0 halo hhi (by omega) hn hnofit hbase hbytes
  obtain ⟨p3', hp3'⟩ : ∃ x : Pmu, x = { p3 with hw := { p3.hw with
      queue_tail := Function.update p3.hw.queue_tail (pmu.queue qi).index
        (pmu.hw.queue_head (pmu.queue qi).index) } } := ⟨_, rfl⟩
  have hq' : p3'.queue qi = { pmu.queue qi with
      position := (pmu.queue qi).offset + (n + 3) / 4 * 4, oflag := Oflag.OFLAG_WRITE,
      opened := false, mutex := false, locked := false } := by
    rw [hp3']; exact hq3
  have hdm : p3'.hw.dmem = p3.hw.dmem := by rw [hp3']
  have hqh : p3'.hw.queue_head = p3.hw.queue_head := by rw [hp3']
  have hqt : p3'.hw.queue_tail (pmu.queue qi).index = pmu.hw.queue_head (pmu.queue qi).index := by
    rw [hp3']; simp
  obtain ⟨r, hr, hret, hst, hhdr, hmsg, htail, _⟩ :=
    read_message_after_rewind c fuel p3' qi msg0 cmd n (pmu.hw.queue_head (pmu.queue qi).index)
      hQA hhdr4 hhdr_lo
      (by rw [hq']; exact isSwQueue_of_eq c _ _ hsw rfl rfl)
      (by rw [hq']) (by rw [hq'])
      (by rw [hq']; exact hgeom)
      (by rw [hq']; exact hmask)
      hal0
      (by rw [hq']; exact halo)
      (by rw [hq']; exact hhi)
      (by rw [hq', hqh, hH]; simp)
      (by rw [hq']; exact hqt)
      (by rw [hq']; simp only []; omega)
      (by rw [hdm]; exact hmark)
      (by rw [hq', hdm]; exact hcmd)
      hu hs hn hf hq hnh hvalid
  rw [hq'] at htail
  refine ⟨p1, p3, r, hopen, hclose, hmark, hcmd, ?_, ?_, hret, hst, hhdr, hmsg, htail⟩
  · rw [hH]; simp
  · rw [← hp3']; exact hr

theorem wraparound_write_then_read_witness :
    ∃ p1 p3 r,
      pmu_queue_open_write gk20a 0 pmu_wrap 0 8 = Res.ok (p1, 0) ∧
      pmu_queue_close gk20a (pmu_queue_push gk20a p1 0 (cmd_pg8.image gk20a) 8).1 0 true
        = Res.ok (p3, 0) ∧
      lane (p3.hw.dmem 2168) 0 = gk20a.PMU_UNIT_REWIND ∧
      (∀ j, j < 8 → lane (p3.hw.dmem (2048 + 4 * (j / 4))) (j % 4) = cmd_pg8.image gk20a j) ∧
      p3.hw.queue_head 0 = 2048 + (8 + 3) / 4 * 4 ∧
      pmu_read_message gk20a 0
        { p3 with hw := { p3.hw with
            queue_tail := Function.update p3.hw.queue_tail 0 2168 } } 0 PmuMsg.zero = Res.ok r ∧
      r.ret = true ∧ r.status = 0 ∧ r.msg.hdr = cmd_pg8.hdr ∧
      (∀ i, i < 8 - 4 → r.msg.msg i = cmd_pg8.cmd i) ∧
      r.pmu.hw.queue_tail 0 = 2048 + (8 + 3) / 4 * 4 :=
  wraparound_write_then_read gk20a 0 pmu_wrap 0 cmd_pg8 PmuMsg.zero 8 rfl (by decide) (by decide)
    (by decide) ⟨rfl, rfl, rfl, by decide, by decide⟩ rfl rfl (by decide)
    (fun a h4 hlt => land_addr_mask_gk20a a h4
      (Nat.lt_trans hlt (by decide : (pmu_wrap.queue 0).offset + (pmu_wrap.queue 0).size < 65536)))
    (by decide) (by decide) (by decide) (by decide) (by decide) rfl (by decide) (by decide)
    (by decide) (by decide) rfl (fun _ _ => (by decide : (7 : Nat) < 256)) (by decide) (by decide)

/-! ## The sequence table -/

theorem ffz_from_spec (tbl : Nat → Bool) (k i : Nat) :
    i ≤ find_first_zero_bit_from tbl k i ∧ find_first_zero_bit_from tbl k i ≤ i + k ∧
    (find_first_zero_bit_from tbl k i < i + k → tbl (find_first_zero_bit_from tbl k i) = false) ∧
    (∀ j, i ≤ j → j < find_first_zero_bit_from tbl k i → tbl j = true) := by
  induction k generalizing i with
  | zero =>
    simp only [find_first_zero_bit_from]
    refine ⟨le_refl _, by omega, by omega, by intro j h1 h2; omega⟩
  | succ k ih =>
    simp only [find_first_zero_bit_from]
    by_cases hb : tbl i = true
    · rw [if_pos hb]
      obtain ⟨h1, h2, h3, h4⟩ := ih (i + 1)
      refine ⟨by omega, by omega, fun h => h3 (by omega), ?_⟩
      intro j hj1 hj2
      by_cases hji : j = i
      · rw [hji]; exact hb
      · exact h4 j (by omega) hj2
    · rw [if_neg hb]
      refine ⟨le_refl _, by omega, fun _ => by simpa using hb, by intro j h1 h2; omega⟩

theorem ffz_le (tbl : Nat → Bool) (n : Nat) : find_first_zero_bit tbl n ≤ n := by
  have h := (ffz_from_spec tbl n 0).2.1
  simpa [find_first_zero_bit] using h

theorem ffz_clear (tbl : Nat → Bool) (n : Nat) (h : find_first_zero_bit tbl n < n) :
    tbl (find_first_zero_bit tbl n) = false := by
  have h3 := (ffz_from_spec tbl n 0).2.2.1
  simp only [find_first_zero_bit] at *
  exact h3 (by omega)

theorem ffz_min (tbl : Nat → Bool) (n j : Nat) (h : j < find_first_zero_bit tbl n) :
    tbl j = true := by
  have h4 := (ffz_from_spec tbl n 0).2.2.2
  simp only [find_first_zero_bit] at *
  exact h4 j (by omega) h

theorem ffz_lt_of_clear (tbl : Nat → Bool) (n j : Nat) (hc : tbl j = false) :
    find_first_zero_bit tbl n ≤ j := by
  by_contra hcon
  have := ffz_min tbl n j (by omega)
  rw [hc] at this
  exact absurd this (by decide)

theorem ffz_full (tbl : Nat → Bool) (n : Nat) (h : ∀ j, j < n → tbl j = true) :
    find_first_zero_bit tbl n = n := by
  by_contra hcon
  have hlt : find_first_zero_bit tbl n < n := by
    have := ffz_le tbl n
    omega
  have h1 := ffz_clear tbl n hlt
  rw [h _ hlt] at h1
  exact absurd h1 (by decide)

/-- Slot acquisition in terms of the bitmap: it fails with `-EAGAIN` exactly when
each of the first `sizeof(pmu_seq_tbl)` bits is set. -/
theorem pmu_seq_acquire_fails_iff (c : Consts) (pmu : Pmu) :
    (pmu_seq_acquire c pmu).2.1 = -EAGAIN ↔
      ∀ j, j < c.sizeof_pmu_seq_tbl → pmu.pmu_seq_tbl j = true := by
  simp only [pmu_seq_acquire]
  constructor
  · intro h j hj
    by_cases hge : find_first_zero_bit pmu.pmu_seq_tbl c.sizeof_pmu_seq_tbl ≥ c.sizeof_pmu_seq_tbl
    · exact ffz_min pmu.pmu_seq_tbl c.sizeof_pmu_seq_tbl j (by omega)
    · rw [if_neg hge] at h
      simp [EAGAIN] at h
  · intro h
    rw [ffz_full _ _ h, if_pos (le_refl _)]

/-- C8 fails on the code: with 256 sequence slots and a 32-byte bitmap, in the state
where the slots 0 to 31 are in use and the slots 32 to 255 are FREE, slot
acquisition returns `-EAGAIN`. The search covers `sizeof(pmu_seq_tbl)` positions,
which is the size of the bitmap in bytes. -/
theorem seq_acquire_exhausted_with_free_slots :
    (∀ i, 32 ≤ i → i < gk20a.PMU_MAX_NUM_SEQUENCES →
      (pmu_seq32.seq i).state = SeqState.FREE ∧ pmu_seq32.pmu_seq_tbl i = false) ∧
    (pmu_seq_acquire gk20a pmu_seq32).2.1 = -EAGAIN ∧
    (pmu_seq_acquire gk20a pmu_seq32).2.2 = none := by
  have hfull : ∀ j, j < gk20a.sizeof_pmu_seq_tbl → pmu_seq32.pmu_seq_tbl j = true := by
    intro j hj
    have hj2 : j < 32 := hj
    simp [pmu_seq32, hj2]
  refine ⟨?_, (pmu_seq_acquire_fails_iff gk20a pmu_seq32).mpr hfull, ?_⟩
  · intro i h1 h2
    have h3 : ¬ i < 32 := by omega
    simp [pmu_seq32, h3, PmuSequence.zero]
  · simp only [pmu_seq_acquire]
    rw [ffz_full _ _ hfull, if_pos (le_refl _)]



/-! ## C10: a response to a slot in use -/

theorem invoke_callback_proj (c : Consts) (pmu : Pmu) (cb : Callback) (msg : PmuMsg)
    (param : Option Nat) (handle : Nat) (status : Int) :
    (invoke_callback c pmu cb msg param handle status).calls =
        pmu.calls ++ [{ callback := cb, msg := msg, param := param, handle := handle,
                        status := status }] ∧
      (invoke_callback c pmu cb msg param handle status).seq = pmu.seq ∧
      (invoke_callback c pmu cb msg param handle status).pmu_seq_tbl = pmu.pmu_seq_tbl ∧
      (invoke_callback c pmu cb msg param handle status).dmem = pmu.dmem ∧
      (invoke_callback c pmu cb msg param handle status).hw = pmu.hw ∧
      (invoke_callback c pmu cb msg param handle status).queue = pmu.queue := by
  cases cb with
  | pmu_handle_pg_elpg_msg =>
    simp only [invoke_callback, pmu_handle_pg_elpg_msg]
    split_ifs <;> simp
  | pmu_handle_pg_buf_config_msg =>
    simp only [invoke_callback, pmu_handle_pg_buf_config_msg]
    split_ifs <;> simp
  | pmu_handle_pg_stat_msg =>
    simp only [invoke_callback, pmu_handle_pg_stat_msg]
    split_ifs <;> simp
  | client k =>
    simp [invoke_callback]

@[simp] theorem setSeq_seq_same (pmu : Pmu) (i : Nat) (s : PmuSequence) :
    (pmu.setSeq i s).seq i = s := by
  simp [Pmu.setSeq]

theorem pmu_seq_release_proj (c : Consts) (pmu : Pmu) (i : Nat) :
    (pmu_seq_release c pmu i).seq i =
        { pmu.seq i with
          state := SeqState.FREE, desc := c.PMU_INVALID_SEQ_DESC, callback := none,
          cb_params := none, msg := none, out_payload := none,
          in_ := { (pmu.seq i).in_ with size := 0 }, out := { (pmu.seq i).out with size := 0 } } ∧
      (∀ j, j ≠ i → (pmu_seq_release c pmu i).seq j = pmu.seq j) ∧
      (pmu_seq_release c pmu i).pmu_seq_tbl = Function.update pmu.pmu_seq_tbl (pmu.seq i).id false ∧
      (pmu_seq_release c pmu i).calls = pmu.calls ∧
      (pmu_seq_release c pmu i).dmem = pmu.dmem ∧
      (pmu_seq_release c pmu i).hw = pmu.hw ∧
      (pmu_seq_release c pmu i).queue = pmu.queue := by
  refine ⟨by simp [pmu_seq_release], ?_, by simp [pmu_seq_release, Pmu.setSeq],
    by simp [pmu_seq_release, Pmu.setSeq], by simp [pmu_seq_release, Pmu.setSeq],
    by simp [pmu_seq_release, Pmu.setSeq], by simp [pmu_seq_release, Pmu.setSeq]⟩
  intro j hj
  simp [pmu_seq_release, Pmu.setSeq, Function.update, hj]

theorem response_free_proj (pmu : Pmu) (si : Nat) :
    (pmu_response_handle_free pmu si).seq = pmu.seq ∧
      (pmu_response_handle_free pmu si).pmu_seq_tbl = pmu.pmu_seq_tbl ∧
      (pmu_response_handle_free pmu si).calls = pmu.calls ∧
      (pmu_response_handle_free pmu si).hw = pmu.hw ∧
      (pmu_response_handle_free pmu si).queue = pmu.queue := by
  simp only [pmu_response_handle_free]
  split_ifs <;> simp

/-- What the tail of `pmu_response_handle` does to slot `si`: one callback call when a
callback is registered, then the release of the slot. -/
theorem response_finish_spec (c : Consts) (pmu : Pmu) (msg : PmuMsg) (si : Nat) :
    (pmu_response_handle_finish c pmu msg si).2 = 0 ∧
    (pmu_response_handle_finish c pmu msg si).1.seq si =
      { pmu.seq si with
        state := SeqState.FREE, desc := c.PMU_INVALID_SEQ_DESC, callback := none,
        cb_params := none, msg := none, out_payload := none,
        in_ := { (pmu.seq si).in_ with size := 0 }, out := { (pmu.seq si).out with size := 0 } } ∧
    (∀ j, j ≠ si → (pmu_response_handle_finish c pmu msg si).1.seq j = pmu.seq j) ∧
    (pmu_response_handle_finish c pmu msg si).1.pmu_seq_tbl =
      Function.update pmu.pmu_seq_tbl (pmu.seq si).id false ∧
    (pmu_response_handle_finish c pmu msg si).1.calls =
      pmu.calls ++
        (match (pmu.seq si).callback with
         | some cb => [{ callback := cb, msg := msg, param := (pmu.seq si).cb_params,
                         handle := (pmu.seq si).desc, status := 0 }]
         | none => []) := by
  obtain ⟨f1, f2, f3, _, _⟩ := response_free_proj pmu si
  simp only [pmu_response_handle_finish]
  cases hcb : (pmu.seq si).callback with
  | none =>
    simp only []
    obtain ⟨h1, h2, h3, h4, _⟩ := pmu_seq_release_proj c (pmu_response_handle_free pmu si) si
    rw [f1] at h1 h2 h3
    rw [f2] at h3
    rw [f3] at h4
    refine ⟨trivial, ?_, h2, h3, ?_⟩
    · rw [h1]
    · rw [h4]; simp
  | some cb =>
    simp only []
    obtain ⟨g1, g2, g3, _⟩ := invoke_callback_proj c (pmu_response_handle_free pmu si) cb msg
      (pmu.seq si).cb_params (pmu.seq si).desc 0
    obtain ⟨h1, h2, h3, h4, _⟩ := pmu_seq_release_proj c
      (invoke_callback c (pmu_response_handle_free pmu si) cb msg
        (pmu.seq si).cb_params (pmu.seq si).desc 0) si
    rw [g2, f1] at h1 h2 h3
    rw [g3, f2] at h3
    rw [g1, f3] at h4
    refine ⟨trivial, ?_, h2, h3, h4⟩
    · rw [h1]

/-- C10: for a response message whose sequence id names a slot in state USED (with
the slot's id equal to its position, and an output buffer registered whenever an
output region is), `pmu_response_handle` returns 0, invokes the slot's callback
exactly once when one is registered, with the slot's context, its descriptor and
status 0, and leaves the slot FREE with its bitmap bit cleared and its callback,
response buffer, output payload and region sizes reset. -/
theorem response_to_used_slot (c : Consts) (pmu : Pmu) (msg : PmuMsg)
    (hused : (pmu.seq msg.hdr.seq_id).state = SeqState.USED)
    (hid : (pmu.seq msg.hdr.seq_id).id = msg.hdr.seq_id)
    (hout : (pmu.seq msg.hdr.seq_id).out.size ≠ 0 →
      (pmu.seq msg.hdr.seq_id).out_payload ≠ none) :
    ∃ p, pmu_response_handle c pmu msg = Res.ok (p, 0) ∧
      p.calls = pmu.calls ++
        (match (pmu.seq msg.hdr.seq_id).callback with
         | some cb => [{ callback := cb, msg := msg, param := (pmu.seq msg.hdr.seq_id).cb_params,
                         handle := (pmu.seq msg.hdr.seq_id).desc, status := 0 }]
         | none => []) ∧
      (p.seq msg.hdr.seq_id).state = SeqState.FREE ∧
      p.pmu_seq_tbl msg.hdr.seq_id = false ∧
      (p.seq msg.hdr.seq_id).callback = none ∧
      (p.seq msg.hdr.seq_id).msg = none ∧
      (p.seq msg.hdr.seq_id).out_payload = none ∧
      (p.seq msg.hdr.seq_id).in_.size = 0 ∧
      (p.seq msg.hdr.seq_id).out.size = 0 := by
  -- every branch ends in `pmu_response_handle_finish` on a state with the same slot
  have key : ∀ q : Pmu, q.seq = pmu.seq → q.pmu_seq_tbl = pmu.pmu_seq_tbl → q.calls = pmu.calls →
      ∃ p, Res.ok (pmu_response_handle_finish c q msg msg.hdr.seq_id) = Res.ok (p, (0 : Int)) ∧
      p.calls = pmu.calls ++
        (match (pmu.seq msg.hdr.seq_id).callback with
         | some cb => [{ callback := cb, msg := msg, param := (pmu.seq msg.hdr.seq_id).cb_params,
                         handle := (pmu.seq msg.hdr.seq_id).desc, status := 0 }]
         | none => []) ∧
      (p.seq msg.hdr.seq_id).state = SeqState.FREE ∧
      p.pmu_seq_tbl msg.hdr.seq_id = false ∧
      (p.seq msg.hdr.seq_id).callback = none ∧
      (p.seq msg.hdr.seq_id).msg = none ∧
      (p.seq msg.hdr.seq_id).out_payload = none ∧
      (p.seq msg.hdr.seq_id).in_.size = 0 ∧
      (p.seq msg.hdr.seq_id).out.size = 0 := by
    intro q hs ht hc
    obtain ⟨e0, e1, _, e3, e4⟩ := response_finish_spec c q msg msg.hdr.seq_id
    rw [hs] at e1 e3 e4
    rw [ht, hid] at e3
    rw [hc] at e4
    refine ⟨(pmu_response_handle_finish c q msg msg.hdr.seq_id).1, ?_, e4, ?_, ?_, ?_, ?_, ?_, ?_, ?_⟩
    · rw [← e0]
    · rw [e1]
    · rw [e3]; simp
    · rw [e1]
    · rw [e1]
    · rw [e1]
    · rw [e1]
    · rw [e1]
  have hs1 : ¬ ((pmu.seq msg.hdr.seq_id).state ≠ SeqState.USED ∧
      (pmu.seq msg.hdr.seq_id).state ≠ SeqState.CANCELLED) := by
    rw [hused]; simp
  have hs2 : (pmu.seq msg.hdr.seq_id).state ≠ SeqState.CANCELLED := by
    rw [hused]; simp
  simp only [pmu_response_handle, if_neg hs1, if_pos hs2]
  by_cases h1 : msg.hdr.unit_id = c.PMU_UNIT_RC ∧
      c.rc_msg_type msg.msg = c.PMU_RC_MSG_TYPE_UNHANDLED_CMD
  · rw [if_pos h1]
    exact key pmu rfl rfl rfl
  · rw [if_neg h1]
    cases hm : (pmu.seq msg.hdr.seq_id).msg with
    | none => exact key pmu rfl rfl rfl
    | some m =>
      simp only []
      by_cases h4 : (pmu.msgbuf m).hdr.size ≥ msg.hdr.size
      · rw [if_pos h4]
        by_cases h5 : (pmu.seq msg.hdr.seq_id).out.size ≠ 0
        · rw [if_pos h5]
          cases hp : (pmu.seq msg.hdr.seq_id).out_payload with
          | none => exact absurd hp (hout h5)
          | some b => exact key _ rfl rfl rfl
        · rw [if_neg h5]
          exact key _ rfl rfl rfl
      · rw [if_neg h4]
        exact key pmu rfl rfl rfl

theorem response_to_used_slot_witness :
    ∃ p, pmu_response_handle gk20a pmu_used3 msg_resp3 = Res.ok (p, 0) ∧
      p.calls = pmu_used3.calls ++
        (match (pmu_used3.seq msg_resp3.hdr.seq_id).callback with
         | some cb => [{ callback := cb, msg := msg_resp3,
                         param := (pmu_used3.seq msg_resp3.hdr.seq_id).cb_params,
                         handle := (pmu_used3.seq msg_resp3.hdr.seq_id).desc, status := 0 }]
         | none => []) ∧
      (p.seq msg_resp3.hdr.seq_id).state = SeqState.FREE ∧
      p.pmu_seq_tbl msg_resp3.hdr.seq_id = false ∧
      (p.seq msg_resp3.hdr.seq_id).callback = none ∧
      (p.seq msg_resp3.hdr.seq_id).msg = none ∧
      (p.seq msg_resp3.hdr.seq_id).out_payload = none ∧
      (p.seq msg_resp3.hdr.seq_id).in_.size = 0 ∧
      (p.seq msg_resp3.hdr.seq_id).out.size = 0 :=
  response_to_used_slot gk20a pmu_used3 msg_resp3 rfl rfl (fun h => absurd rfl h)

/-! ## C7: rejected commands -/

/-- What a command accepted by `pmu_validate_cmd` satisfies. -/
theorem validate_true (c : Consts) (pmu : Pmu) (cmd : PmuCmd) (msg : Option Nat)
    (payload : Option PmuPayload) (queue_id : Nat)
    (h : pmu_validate_cmd_checks c pmu cmd msg payload queue_id = true) :
    c.PMU_IS_SW_COMMAND_QUEUE queue_id = true ∧
    ¬ cmd.hdr.size < c.PMU_CMD_HDR_SIZE ∧
    ¬ cmd.hdr.size > (pmu.queue queue_id).size / 2 ∧
    c.PMU_UNIT_ID_IS_VALID cmd.hdr.unit_id = true ∧
    ∀ pl, payload = some pl →
      ¬ (pl.in_.buf = none ∧ pl.out.buf = none) ∧
      ¬ ((pl.in_.buf ≠ none ∧ pl.in_.size = 0) ∨ (pl.out.buf ≠ none ∧ pl.out.size = 0)) ∧
      ¬ ((pl.in_.offset ≠ 0 ∧ pl.in_.buf = none) ∨ (pl.out.offset ≠ 0 ∧ pl.out.buf = none)) := by
  simp only [pmu_validate_cmd_checks] at h
  have hft : ¬ (false = true) := by decide
  by_cases h0 : (!c.PMU_IS_SW_COMMAND_QUEUE queue_id) = true
  · rw [if_pos h0] at h; exact absurd h hft
  rw [if_neg h0] at h
  by_cases h1 : cmd.hdr.size < c.PMU_CMD_HDR_SIZE
  · rw [if_pos h1] at h; exact absurd h hft
  rw [if_neg h1] at h
  by_cases h2 : cmd.hdr.size > (pmu.queue queue_id).size / 2
  · rw [if_pos h2] at h; exact absurd h hft
  rw [if_neg h2] at h
  by_cases h3 : msg_hdr_too_small c pmu msg = true
  · rw [if_pos h3] at h; exact absurd h hft
  rw [if_neg h3] at h
  by_cases h4 : (!c.PMU_UNIT_ID_IS_VALID cmd.hdr.unit_id) = true
  · rw [if_pos h4] at h; exact absurd h hft
  rw [if_neg h4] at h
  refine ⟨by simpa using h0, h1, h2, by simpa using h4, ?_⟩
  intro pl hpl
  subst hpl
  simp only [pmu_validate_payload] at h
  by_cases h5 : pl.in_.buf = none ∧ pl.out.buf = none
  · rw [if_pos h5] at h; exact absurd h hft
  rw [if_neg h5] at h
  by_cases h6 : (pl.in_.buf ≠ none ∧ pl.in_.size = 0) ∨ (pl.out.buf ≠ none ∧ pl.out.size = 0)
  · rw [if_pos h6] at h; exact absurd h hft
  rw [if_neg h6] at h
  refine ⟨h5, h6, ?_⟩
  intro h8
  split_ifs at h

/-- A command accepted by `pmu_validate_cmd` passes its tests. -/
theorem validate_ok_true (c : Consts) (pmu : Pmu) (cmd : PmuCmd) (msg : Option Nat)
    (payload : Option PmuPayload) (queue_id : Nat)
    (h : pmu_validate_cmd c pmu cmd msg payload queue_id = Res.ok true) :
    pmu_validate_cmd_checks c pmu cmd msg payload queue_id = true := by
  simp only [pmu_validate_cmd] at h
  by_cases hc : pmu_validate_cmd_checks c pmu cmd msg payload queue_id = true
  · exact hc
  · rw [if_neg hc] at h
    cases payload with
    | some pl => simp at h
    | none =>
      simp only [] at h
      split_ifs at h
      simp at h

/-- Once the channel is ready, a command whose size is below the header size or
above half the capacity of the target queue, or whose unit id is not valid, or
that carries a payload with both buffers null or with a provided buffer of size
zero, makes `gk20a_pmu_cmd_post` return `-EINVAL` with the whole driver and
hardware state and the command unchanged, and nothing stored in `*seq_desc`,
provided a payload is given or the error message does not evaluate its arguments. -/
theorem post_invalid_command_rejected (c : Consts) (fuel : Nat) (pmu : Pmu) (cmd : PmuCmd)
    (msg : Option Nat) (payload : Option PmuPayload) (queue_id : Nat)
    (callback : Option Callback) (cb_param : Option Nat) (timeout : Nat)
    (hready : pmu.pmu_ready = true)
    (hlog : payload ≠ none ∨ c.nvhost_err_evaluates_args = false)
    (hbad : cmd.hdr.size < c.PMU_CMD_HDR_SIZE ∨
      2 * cmd.hdr.size > (pmu.queue queue_id).size ∨
      c.PMU_UNIT_ID_IS_VALID cmd.hdr.unit_id = false ∨
      ∃ pl, payload = some pl ∧
        ((pl.in_.buf = none ∧ pl.out.buf = none) ∨
         (pl.in_.buf ≠ none ∧ pl.in_.size = 0) ∨
         (pl.out.buf ≠ none ∧ pl.out.size = 0))) :
    gk20a_pmu_cmd_post c fuel pmu cmd msg payload queue_id callback cb_param timeout =
      Res.ok { pmu := pmu, cmd := cmd, seq_desc := none, err := -EINVAL } := by
  have hv : pmu_validate_cmd_checks c pmu cmd msg payload queue_id = false := by
    cases hval : pmu_validate_cmd_checks c pmu cmd msg payload queue_id with
    | false => rfl
    | true =>
      exfalso
      obtain ⟨_, h1, h2, h4, hp⟩ := validate_true c pmu cmd msg payload queue_id hval
      rcases hbad with hb | hb | hb | ⟨pl, hpl, hb⟩
      · exact h1 hb
      · exact h2 (by omega)
      · rw [h4] at hb; exact absurd hb (by decide)
      · obtain ⟨h5, h6, _⟩ := hp pl hpl
        rcases hb with hb | hb | hb
        · exact h5 hb
        · exact h6 (Or.inl hb)
        · exact h6 (Or.inr hb)
  have hv2 : pmu_validate_cmd c pmu cmd msg payload queue_id = Res.ok false := by
    simp only [pmu_validate_cmd, hv]
    cases payload with
    | some pl => rfl
    | none =>
      rcases hlog with hl | hl
      · exact absurd rfl hl
      · simp [hl]
  simp only [gk20a_pmu_cmd_post, hready, hv2, Res.bind]
  rfl

/-- C7 fails on the code: in the ready state `pmu0`, the command `cmd_short`, whose
size 2 is below the header size 4, posted to queue 0 without a payload
(`payload == NULL`) is not rejected with `-EINVAL`: at `invalid_cmd` the arguments
of the error message read `payload->in.size` through the null pointer, and the
call returns nothing. Posted with a payload whose two buffers are null, the same
command is rejected with `-EINVAL` and the state and the command are unchanged. -/
theorem post_invalid_null_payload_faults :
    pmu0.pmu_ready = true ∧ cmd_short.hdr.size < gk20a.PMU_CMD_HDR_SIZE ∧
    gk20a_pmu_cmd_post gk20a 0 pmu0 cmd_short none none 0 none none 0 = Res.undef ∧
    gk20a_pmu_cmd_post gk20a 0 pmu0 cmd_short none
        (some { in_ := { buf := none, size := 0, offset := 0 },
                out := { buf := none, size := 0, offset := 0 } }) 0 none none 0 =
      Res.ok { pmu := pmu0, cmd := cmd_short, seq_desc := none, err := -EINVAL } := by
  refine ⟨rfl, by decide, rfl, rfl⟩

/-! ## Queue operations leave the sequence table alone -/

theorem SameSeq.refl (p : Pmu) : SameSeq p p := ⟨rfl, rfl⟩

theorem SameSeq.trans {p q r : Pmu} (h1 : SameSeq p q) (h2 : SameSeq q r) : SameSeq p r :=
  ⟨h2.1.trans h1.1, h2.2.trans h1.2⟩

theorem sameSeq_setQueue (p : Pmu) (qi : Nat) (q : PmuQueue) : SameSeq p (p.setQueue qi q) :=
  ⟨rfl, rfl⟩

theorem mutex_acquire_loop_sameSeq (c : Consts) (id : Nat) (fuel : Nat) :
    ∀ (p p1 : Pmu), pmu_mutex_acquire_loop c id fuel p = Res.ok p1 → SameSeq p p1 := by
  induction fuel with
  | zero =>
    intro p p1 h
    simp [pmu_mutex_acquire_loop] at h
  | succ k ih =>
    intro p p1 h
    simp only [pmu_mutex_acquire_loop] at h
    split_ifs at h with h1 h2
    · have hh := ih _ _ h
      exact ⟨hh.1, hh.2⟩
    · injection h with h
      rw [← h]
      exact ⟨rfl, rfl⟩
    · have hh := ih _ _ h
      exact ⟨hh.1, hh.2⟩

theorem mutex_acquire_sameSeq (c : Consts) (fuel : Nat) (p : Pmu) (id token : Nat)
    (r : Pmu × Option Int) (h : pmu_mutex_acquire c fuel p id token = Res.ok r) :
    SameSeq p r.1 := by
  simp only [pmu_mutex_acquire] at h
  split_ifs at h with h1 h2 h3
  · injection h with h
    rw [← h]
    exact ⟨rfl, rfl⟩
  · cases hl : pmu_mutex_acquire_loop c id fuel p with
    | ok p1 =>
      rw [hl] at h
      injection h with h
      rw [← h]
      exact mutex_acquire_loop_sameSeq c id fuel p p1 hl
    | bug => rw [hl] at h; exact absurd h (by simp)
    | deadlock => rw [hl] at h; exact absurd h (by simp)
    | undef => rw [hl] at h; exact absurd h (by simp)
    | nofuel => rw [hl] at h; exact absurd h (by simp)

theorem mutex_release_sameSeq (c : Consts) (p : Pmu) (id token : Nat)
    (r : Pmu × Int) (h : pmu_mutex_release c p id token = Res.ok r) :
    SameSeq p r.1 := by
  simp only [pmu_mutex_release] at h
  split_ifs at h <;> (injection h with h; rw [← h]; exact ⟨rfl, rfl⟩)

theorem queue_lock_sameSeq (c : Consts) (fuel : Nat) (p : Pmu) (qi : Nat)
    (r : Pmu × Int) (h : pmu_queue_lock c fuel p qi = Res.ok r) : SameSeq p r.1 := by
  simp only [pmu_queue_lock] at h
  split_ifs at h with h1 h2 h3
  · injection h with h; rw [← h]; exact ⟨rfl, rfl⟩
  · injection h with h; rw [← h]; exact ⟨rfl, rfl⟩
  · cases ha : pmu_mutex_acquire c fuel p (p.queue qi).mutex_id (p.queue qi).mutex_lock with
    | ok a =>
      have hs := mutex_acquire_sameSeq c fuel p _ _ a ha
      rw [ha] at h
      obtain ⟨a1, a2⟩ := a
      cases a2 with
      | none => simp at h
      | some e =>
        simp only [] at h
        split_ifs at h
        · injection h with h; rw [← h]; exact SameSeq.trans hs ⟨rfl, rfl⟩
        · injection h with h; rw [← h]; exact hs
    | bug => rw [ha] at h; exact absurd h (by simp)
    | deadlock => rw [ha] at h; exact absurd h (by simp)
    | undef => rw [ha] at h; exact absurd h (by simp)
    | nofuel => rw [ha] at h; exact absurd h (by simp)

theorem queue_unlock_sameSeq (c : Consts) (p : Pmu) (qi : Nat)
    (r : Pmu × Int) (h : pmu_queue_unlock c p qi = Res.ok r) : SameSeq p r.1 := by
  simp only [pmu_queue_unlock] at h
  split_ifs at h with h1 h2 h3
  · injection h with h; rw [← h]; exact ⟨rfl, rfl⟩
  · injection h with h; rw [← h]; exact ⟨rfl, rfl⟩
  · cases ha : pmu_mutex_release c p (p.queue qi).mutex_id (p.queue qi).mutex_lock with
    | ok a =>
      have hs := mutex_release_sameSeq c p _ _ a ha
      rw [ha] at h
      simp only [] at h
      split_ifs at h
      · injection h with h; rw [← h]; exact SameSeq.trans hs ⟨rfl, rfl⟩
      · injection h with h; rw [← h]; exact hs
    | bug => rw [ha] at h; exact absurd h (by simp)
    | deadlock => rw [ha] at h; exact absurd h (by simp)
    | undef => rw [ha] at h; exact absurd h (by simp)
    | nofuel => rw [ha] at h; exact absurd h (by simp)
  · injection h with h; rw [← h]; exact ⟨rfl, rfl⟩

theorem queue_push_sameSeq (c : Consts) (p : Pmu) (qi : Nat) (data : Buf) (size : Nat) :
    SameSeq p (pmu_queue_push c p qi data size).1 := by
  simp only [pmu_queue_push]
  split_ifs
  · exact ⟨rfl, rfl⟩
  · exact ⟨rfl, rfl⟩

theorem queue_rewind_sameSeq (c : Consts) (p : Pmu) (qi : Nat) :
    SameSeq p (pmu_queue_rewind c p qi) := by
  simp only [pmu_queue_rewind]
  split_ifs
  · exact ⟨rfl, rfl⟩
  · exact SameSeq.trans (queue_push_sameSeq c p qi _ _) ⟨rfl, rfl⟩
  · exact ⟨rfl, rfl⟩

theorem res_bind_ok {α β : Type} (r : Res α) (f : α → Res β) (b : β)
    (h : r.bind f = Res.ok b) : ∃ a, r = Res.ok a ∧ f a = Res.ok b := by
  cases r with
  | ok a => exact ⟨a, rfl, h⟩
  | bug => simp [Res.bind] at h
  | deadlock => simp [Res.bind] at h
  | undef => simp [Res.bind] at h
  | nofuel => simp [Res.bind] at h

theorem queue_open_write_sameSeq (c : Consts) (fuel : Nat) (p : Pmu) (qi size : Nat)
    (r : Pmu × Int) (h : pmu_queue_open_write c fuel p qi size = Res.ok r) : SameSeq p r.1 := by
  simp only [pmu_queue_open_write] at h
  obtain ⟨a, ha, h⟩ := res_bind_ok _ _ _ h
  have hs := queue_lock_sameSeq c fuel p qi a ha
  split_ifs at h with h1 h2
  · injection h with h; rw [← h]; exact hs
  · obtain ⟨b, _, h⟩ := res_bind_ok _ _ _ h
    split_ifs at h
    · injection h with h; rw [← h]; exact hs
    · injection h with h; rw [← h]
      exact SameSeq.trans hs (SameSeq.trans ⟨rfl, rfl⟩ (queue_rewind_sameSeq c _ qi))
    · injection h with h; rw [← h]
      exact SameSeq.trans hs ⟨rfl, rfl⟩

theorem head_set_sameSeq (c : Consts) (p : Pmu) (q : PmuQueue) (v : Nat) :
    SameSeq p (pmu_queue_head_set c p q v) := by
  simp only [pmu_queue_head_set]
  split_ifs <;> exact ⟨rfl, rfl⟩

theorem tail_set_sameSeq (c : Consts) (p : Pmu) (q : PmuQueue) (v : Nat) :
    SameSeq p (pmu_queue_tail_set c p q v) := by
  simp only [pmu_queue_tail_set]
  split_ifs <;> exact ⟨rfl, rfl⟩

theorem queue_close_sameSeq (c : Consts) (p : Pmu) (qi : Nat) (commit : Bool)
    (r : Pmu × Int) (h : pmu_queue_close c p qi commit = Res.ok r) : SameSeq p r.1 := by
  simp only [pmu_queue_close] at h
  split_ifs at h with h1 h2 h3
  · injection h with h; rw [← h]; exact ⟨rfl, rfl⟩
  · obtain ⟨a, ha, h⟩ := res_bind_ok _ _ _ h
    have hs := queue_unlock_sameSeq c _ qi a ha
    injection h with h; rw [← h]
    exact SameSeq.trans (SameSeq.trans (tail_set_sameSeq c p _ _) ⟨rfl, rfl⟩) hs
  · obtain ⟨a, ha, h⟩ := res_bind_ok _ _ _ h
    have hs := queue_unlock_sameSeq c _ qi a ha
    injection h with h; rw [← h]
    exact SameSeq.trans (SameSeq.trans (head_set_sameSeq c p _ _) ⟨rfl, rfl⟩) hs
  · obtain ⟨a, ha, h⟩ := res_bind_ok _ _ _ h
    have hs := queue_unlock_sameSeq c _ qi a ha
    injection h with h; rw [← h]
    exact SameSeq.trans ⟨rfl, rfl⟩ hs

theorem write_cmd_loop_sameSeq (c : Consts) (qi size : Nat) (fuel : Nat) :
    ∀ (p : Pmu) (timeout : Nat) (r : Pmu × Int),
      pmu_write_cmd_loop c qi size fuel p timeout = Res.ok r → SameSeq p r.1 := by
  induction fuel with
  | zero =>
    intro p t r h
    simp [pmu_write_cmd_loop] at h
  | succ k ih =>
    intro p t r h
    simp only [pmu_write_cmd_loop] at h
    obtain ⟨a, ha, h⟩ := res_bind_ok _ _ _ h
    have hs := queue_open_write_sameSeq c k p qi size a ha
    split_ifs at h
    · exact SameSeq.trans hs (ih _ _ _ h)
    · injection h with h; rw [← h]; exact hs

theorem write_cmd_sameSeq (c : Consts) (fuel : Nat) (p : Pmu) (cmd : PmuCmd) (qi timeout : Nat)
    (r : Pmu × Int) (h : pmu_write_cmd c fuel p cmd qi timeout = Res.ok r) : SameSeq p r.1 := by
  simp only [pmu_write_cmd] at h
  obtain ⟨a, ha, h⟩ := res_bind_ok _ _ _ h
  have hs := write_cmd_loop_sameSeq c qi cmd.hdr.size fuel p timeout a ha
  split_ifs at h
  · injection h with h; rw [← h]; exact hs
  · exact SameSeq.trans hs (SameSeq.trans (queue_push_sameSeq c _ qi _ _)
      (queue_close_sameSeq c _ qi true r h))

/-! ## C9: slots are not reused while in use -/

theorem acquire_some (c : Consts) (p : Pmu) (i : Nat) (h : (pmu_seq_acquire c p).2.2 = some i) :
    i = find_first_zero_bit p.pmu_seq_tbl c.sizeof_pmu_seq_tbl ∧ i < c.sizeof_pmu_seq_tbl ∧
    p.pmu_seq_tbl i = false ∧
    (pmu_seq_acquire c p).2.1 = 0 ∧
    (pmu_seq_acquire c p).1.pmu_seq_tbl = Function.update p.pmu_seq_tbl i true ∧
    (pmu_seq_acquire c p).1.seq =
      Function.update p.seq i { p.seq i with state := SeqState.PENDING } := by
  simp only [pmu_seq_acquire] at *
  by_cases hge : find_first_zero_bit p.pmu_seq_tbl c.sizeof_pmu_seq_tbl ≥ c.sizeof_pmu_seq_tbl
  · rw [if_pos hge] at h
    simp at h
  · rw [if_neg hge] at h ⊢
    simp only [Option.some.injEq] at h
    subst h
    refine ⟨rfl, by omega, ffz_clear _ _ (by omega), rfl, rfl, rfl⟩

theorem copy_to_dmem_regs (c : Consts) (hw : Hw) (dst : Nat) (src : Buf) (n : Nat) :
    (pmu_copy_to_dmem c hw dst src n).queue_head = hw.queue_head ∧
      (pmu_copy_to_dmem c hw dst src n).queue_tail = hw.queue_tail := by
  by_cases hn : n = 0
  · simp [pmu_copy_to_dmem, hn]
  by_cases ha : dst % 4 = 0
  · rw [pmu_copy_to_dmem_eq c hw dst src n (by omega) ha]
    exact ⟨rfl, rfl⟩
  · simp [pmu_copy_to_dmem, hn, ha]

theorem allocOk1_alloc (a : Allocator) (len : Nat) (h : AllocOk1 a) :
    (a.alloc len).2.1 = 0 := by
  obtain ⟨o, rest, h⟩ := h
  simp [Allocator.alloc, h]

theorem allocOk2_alloc (a : Allocator) (len : Nat) (h : AllocOk2 a) :
    (a.alloc len).2.1 = 0 ∧ AllocOk1 (a.alloc len).1 := by
  obtain ⟨o1, o2, rest, h⟩ := h
  simp [Allocator.alloc, h, AllocOk1]

theorem allocOk2_one (a : Allocator) (h : AllocOk2 a) : AllocOk1 a := by
  obtain ⟨o1, o2, rest, h⟩ := h
  exact ⟨o1, (0, o2) :: rest, h⟩

/-- On a closed, unlocked software command queue with room for the command,
`pmu_write_cmd` succeeds at the first attempt: the command image is copied to the
write position, the head register is published, the queue is closed and unlocked. -/
theorem write_cmd_ready (c : Consts) (fuel : Nat) (q : Pmu) (cmd : PmuCmd) (qi timeout : Nat)
    (hsw : IsSwQueue c (q.queue qi)) (hm : (q.queue qi).mutex = false)
    (ho : (q.queue qi).opened = false)
    (hroom : has_room c (q.queue qi) (q.hw.queue_head (q.queue qi).index)
      (q.hw.queue_tail (q.queue qi).index) cmd.hdr.size = true) :
    ∃ w hw1, pmu_write_cmd c (fuel + 1) q cmd qi timeout = Res.ok (w, 0) ∧
      w.hw.dmem = (pmu_copy_to_dmem c hw1
        (write_position c (q.queue qi) (q.hw.queue_head (q.queue qi).index)
          (q.hw.queue_tail (q.queue qi).index) cmd.hdr.size) (cmd.image c) cmd.hdr.size).dmem ∧
      w.hw.queue_head (q.queue qi).index =
        add32 (write_position c (q.queue qi) (q.hw.queue_head (q.queue qi).index)
          (q.hw.queue_tail (q.queue qi).index) cmd.hdr.size)
          (ALIGN cmd.hdr.size c.QUEUE_ALIGNMENT) ∧
      (w.queue qi).opened = false ∧ (w.queue qi).mutex = false := by
  have hopen := pmu_queue_open_write_sw c fuel q qi cmd.hdr.size hsw hm ho
  rw [if_pos hroom] at hopen
  obtain ⟨X, hX, hXq⟩ : ∃ X, pmu_queue_open_write c fuel q qi cmd.hdr.size = Res.ok (X, 0) ∧
      X.queue qi = { q.queue qi with
        mutex := true, locked := true,
        position := write_position c (q.queue qi) (q.hw.queue_head (q.queue qi).index)
          (q.hw.queue_tail (q.queue qi).index) cmd.hdr.size,
        oflag := Oflag.OFLAG_WRITE, opened := true } := by
    refine ⟨_, hopen, ?_⟩
    by_cases hr : need_rewind c (q.queue qi) (q.hw.queue_head (q.queue qi).index)
        (q.hw.queue_tail (q.queue qi).index) cmd.hdr.size = true
    · rw [if_pos hr]
      have hq1 : (sw_opened_write q qi (q.hw.queue_head (q.queue qi).index)).queue qi =
          { q.queue qi with
            mutex := true, locked := true, position := q.hw.queue_head (q.queue qi).index,
            oflag := Oflag.OFLAG_WRITE, opened := true } := by
        simp [sw_opened_write]
      obtain ⟨e1, _⟩ := rewind_write_proj c
        (sw_opened_write q qi (q.hw.queue_head (q.queue qi).index)) qi
        (by rw [hq1]) (by rw [hq1])
      rw [e1, hq1]
      simp [write_position, hr]
    · rw [if_neg hr]
      simp [sw_opened_write, write_position, hr]
  have hXo : (X.queue qi).opened = true := by rw [hXq]
  obtain ⟨p2, hpush, hp2q, hp2hw⟩ := push_proj c X qi (cmd.image c) cmd.hdr.size hXo
  have hsw2 : IsSwQueue c (p2.queue qi) := by
    rw [hp2q, hXq]
    exact isSwQueue_of_eq c _ _ hsw rfl rfl
  obtain ⟨p3, hclose, hp3q, hp3hw⟩ := close_write_proj c p2 qi hsw2
    (by rw [hp2q, hXq]) (by rw [hp2q, hXq])
  refine ⟨p3, X.hw, ?_, ?_, ?_, ?_, ?_⟩
  · simp only [pmu_write_cmd, pmu_write_cmd_loop, hX, Res.bind]
    have h1 : ¬ ((0 : Int) = -EAGAIN ∧ 0 ≤ timeout) := by
      intro h
      have := h.1
      simp [EAGAIN] at this
    rw [if_neg h1]
    simp only [ne_eq, not_true_eq_false, if_false]
    rw [hpush]
    exact hclose
  · rw [hp3hw, hp2hw, hXq]
  · rw [hp3hw, hp2q, hXq]
    simp
  · rw [hp3q]
  · rw [hp3q]

theorem post_write_done (c : Consts) (fuel : Nat) (q : Pmu) (cmd : PmuCmd) (si qi timeout : Nat)
    (sd : Option Nat) (hdr : PmuHdr)
    (v : Nat × Nat × Option Callback × Option Nat × Option Nat × Option Nat)
    (qd : PmuQueue) (head tail : Nat)
    (hhdr : cmd.hdr = hdr) (hv : slot_view (q.seq si) = v) (hqd : q.queue qi = qd)
    (hhead : q.hw.queue_head qd.index = head) (htail : q.hw.queue_tail qd.index = tail)
    (hsw : IsSwQueue c qd) (hm : qd.mutex = false) (ho : qd.opened = false)
    (hroom : has_room c qd head tail hdr.size = true) :
    ∃ r, gk20a_pmu_cmd_post_write c (fuel + 1) q cmd si qi timeout sd = Res.ok r ∧
      PostDone c hdr v sd qd head tail si qi r := by
  subst hhdr hv hqd hhead htail
  obtain ⟨w, hw1, hw, e1, e2, e3, e4⟩ := write_cmd_ready c fuel q cmd qi timeout hsw hm ho hroom
  have hs := write_cmd_sameSeq c (fuel + 1) q cmd qi timeout (w, 0) hw
  refine ⟨{ pmu := w.setSeq si { w.seq si with state := SeqState.USED }, cmd := cmd,
             seq_desc := sd, err := 0 }, ?_, ?_⟩
  · simp only [gk20a_pmu_cmd_post_write, hw, Res.bind]
    rfl
  · have hseq : w.seq si = q.seq si := by rw [hs.1]
    refine ⟨rfl, rfl, rfl, ?_, ?_, ⟨hw1, ?_⟩, ?_, ?_, ?_⟩
    · simp
    · simp [slot_view, hseq]
    · exact e1
    · exact e2
    · exact e3
    · exact e4

theorem post_out_done (c : Consts) (fuel : Nat) (q : Pmu) (cmd : PmuCmd) (si : Nat)
    (payload : Option PmuPayload) (inp : Option Nat) (qi timeout : Nat)
    (sd : Option Nat) (hdr : PmuHdr)
    (v : Nat × Nat × Option Callback × Option Nat × Option Nat × Option Nat)
    (qd : PmuQueue) (head tail : Nat)
    (hhdr : cmd.hdr = hdr) (hv : slot_view (q.seq si) = v) (hqd : q.queue qi = qd)
    (hhead : q.hw.queue_head qd.index = head) (htail : q.hw.queue_tail qd.index = tail)
    (hsw : IsSwQueue c qd) (hm : qd.mutex = false) (ho : qd.opened = false)
    (hroom : has_room c qd head tail hdr.size = true)
    (hbug : ∀ pl, payload = some pl → pl.out.offset ≠ 0 → pl.out.buf = pl.in_.buf →
      inp ≠ none)
    (halloc : payload ≠ none → AllocOk1 q.dmem) :
    ∃ r, gk20a_pmu_cmd_post_out c (fuel + 1) q cmd si payload inp qi timeout sd = Res.ok r ∧
      PostDone c hdr v sd qd head tail si qi r := by
  cases payload with
  | none =>
    exact post_write_done c fuel q cmd si qi timeout sd hdr v qd head tail hhdr hv hqd hhead
      htail hsw hm ho hroom
  | some pl =>
    simp only [gk20a_pmu_cmd_post_out]
    by_cases h1 : pl.out.offset ≠ 0
    · rw [if_pos h1]
      by_cases h2 : pl.out.buf ≠ pl.in_.buf
      · rw [if_pos h2]
        have ha := allocOk1_alloc q.dmem
          (get16 (put16 cmd.cmd (pl.out.offset + c.alloc_size_at) (pl.out.size % 65536))
            (pl.out.offset + c.alloc_size_at)) (halloc (by simp))
        rw [if_neg (by rw [ha]; simp)]
        refine post_write_done c fuel _ _ si qi timeout sd hdr v qd head tail ?_ ?_ hqd hhead
          htail hsw hm ho hroom
        · rw [← hhdr]
          split <;> rfl
        · rw [← hv]
          simp [slot_view, Pmu.setSeq]
      · rw [if_neg h2]
        have hin := hbug pl rfl h1 (by simpa using h2)
        cases inp with
        | none => exact absurd rfl hin
        | some ki =>
          simp only []
          refine post_write_done c fuel _ _ si qi timeout sd hdr v qd head tail hhdr ?_ hqd
            hhead htail hsw hm ho hroom
          rw [← hv]
          simp [slot_view, Pmu.setSeq]
    · rw [if_neg h1]
      exact post_write_done c fuel q cmd si qi timeout sd hdr v qd head tail hhdr hv hqd hhead
        htail hsw hm ho hroom

theorem post_in_done (c : Consts) (fuel : Nat) (q : Pmu) (cmd : PmuCmd) (si : Nat)
    (payload : Option PmuPayload) (qi timeout : Nat)
    (sd : Option Nat) (hdr : PmuHdr)
    (v : Nat × Nat × Option Callback × Option Nat × Option Nat × Option Nat)
    (qd : PmuQueue) (head tail : Nat)
    (hhdr : cmd.hdr = hdr) (hv : slot_view (q.seq si) = v) (hqd : q.queue qi = qd)
    (hhead : q.hw.queue_head qd.index = head) (htail : q.hw.queue_tail qd.index = tail)
    (hsw : IsSwQueue c qd) (hm : qd.mutex = false) (ho : qd.opened = false)
    (hroom : has_room c qd head tail hdr.size = true)
    (hbuf : ∀ pl, payload = some pl → pl.in_.offset ≠ 0 → pl.in_.buf ≠ none)
    (hbug : ∀ pl, payload = some pl → pl.out.offset ≠ 0 → pl.out.buf = pl.in_.buf →
      pl.in_.offset ≠ 0)
    (halloc : payload ≠ none → AllocOk2 q.dmem) :
    ∃ r, gk20a_pmu_cmd_post_in c (fuel + 1) q cmd si payload qi timeout sd = Res.ok r ∧
      PostDone c hdr v sd qd head tail si qi r := by
  cases payload with
  | none =>
    exact post_out_done c fuel q cmd si none none qi timeout sd hdr v qd head tail hhdr hv hqd
      hhead htail hsw hm ho hroom (fun pl h => by simp at h) (fun h => absurd rfl h)
  | some pl =>
    have h2 := halloc (by simp)
    simp only [gk20a_pmu_cmd_post_in]
    by_cases h1 : pl.in_.offset ≠ 0
    · rw [if_pos h1]
      obtain ⟨ha, ha1⟩ := allocOk2_alloc q.dmem
        (get16 (put16 cmd.cmd (pl.in_.offset + c.alloc_size_at)
            (if pl.in_.buf ≠ pl.out.buf then pl.in_.size % 65536
             else (max pl.in_.size pl.out.size) % 65536))
          (pl.in_.offset + c.alloc_size_at)) h2
      rw [if_neg (by rw [ha]; simp)]
      cases hb : pl.in_.buf with
      | none => exact absurd hb (hbuf pl rfl h1)
      | some b =>
        simp only []
        refine post_out_done c fuel _ _ si (some pl) (some pl.in_.offset) qi timeout sd hdr v qd
          head tail ?_ ?_ hqd ?_ ?_ hsw hm ho hroom (fun _ _ _ _ => by simp) (fun _ => ?_)
        · rw [← hhdr]
          split <;> rfl
        · rw [← hv]
          simp [slot_view, Pmu.setSeq]
        · rw [← hhead]
          simp [Pmu.setSeq, (copy_to_dmem_regs c _ _ _ _).1]
        · rw [← htail]
          simp [Pmu.setSeq, (copy_to_dmem_regs c _ _ _ _).2]
        · rw [hb] at ha1
          simpa [Pmu.setSeq] using ha1
    · rw [if_neg h1]
      refine post_out_done c fuel q cmd si (some pl) none qi timeout sd hdr v qd head tail hhdr
        hv hqd hhead htail hsw hm ho hroom ?_ (fun _ => allocOk2_one _ h2)
      intro pl2 hpl2 ho1 ho2
      exfalso
      have hpl : pl = pl2 := by simpa using hpl2
      subst hpl
      exact h1 (hbug pl rfl ho1 ho2)

/-- With the channel ready, for a command accepted by `pmu_validate_cmd`, a clear bit
among the searched bitmap positions, a closed and unlocked software command queue
with room for the command, successful DMEM allocations and an aliased output region
only together with an input region, `gk20a_pmu_cmd_post` returns 0 with the header
stamped, the slot USED and filled, and the command image passed to
`pmu_copy_to_dmem` at the write position of the queue. -/
theorem post_done (c : Consts) (fuel : Nat) (pmu : Pmu) (cmd : PmuCmd)
    (msg : Option Nat) (payload : Option PmuPayload) (qi : Nat)
    (callback : Option Callback) (cb_param : Option Nat) (timeout : Nat)
    (hready : pmu.pmu_ready = true)
    (hvalid : pmu_validate_cmd c pmu cmd msg payload qi = Res.ok true)
    (hfree : ∃ j, j < c.sizeof_pmu_seq_tbl ∧ pmu.pmu_seq_tbl j = false)
    (hid : (pmu.seq (find_first_zero_bit pmu.pmu_seq_tbl c.sizeof_pmu_seq_tbl)).id < 256)
    (hsw : IsSwQueue c (pmu.queue qi)) (hm : (pmu.queue qi).mutex = false)
    (ho : (pmu.queue qi).opened = false)
    (hroom : has_room c (pmu.queue qi) (pmu.hw.queue_head (pmu.queue qi).index)
      (pmu.hw.queue_tail (pmu.queue qi).index) cmd.hdr.size = true)
    (hbug : ∀ pl, payload = some pl → pl.out.offset ≠ 0 → pl.out.buf = pl.in_.buf →
      pl.in_.offset ≠ 0)
    (halloc : payload ≠ none → ∃ o1 o2 rest, pmu.dmem.script = (0, o1) :: (0, o2) :: rest) :
    ∃ r, gk20a_pmu_cmd_post c (fuel + 1) pmu cmd msg payload qi callback cb_param timeout =
        Res.ok r ∧
      r.err = 0 ∧
      r.cmd.hdr.seq_id =
        (r.pmu.seq (find_first_zero_bit pmu.pmu_seq_tbl c.sizeof_pmu_seq_tbl)).id ∧
      r.cmd.hdr.ctrl_flags = (c.PMU_CMD_FLAGS_STATUS ||| c.PMU_CMD_FLAGS_INTR) % 256 ∧
      r.cmd.hdr.unit_id = cmd.hdr.unit_id ∧ r.cmd.hdr.size = cmd.hdr.size ∧
      (r.pmu.seq (find_first_zero_bit pmu.pmu_seq_tbl c.sizeof_pmu_seq_tbl)).state =
        SeqState.USED ∧
      (r.pmu.seq (find_first_zero_bit pmu.pmu_seq_tbl c.sizeof_pmu_seq_tbl)).id =
        (pmu.seq (find_first_zero_bit pmu.pmu_seq_tbl c.sizeof_pmu_seq_tbl)).id ∧
      (r.pmu.seq (find_first_zero_bit pmu.pmu_seq_tbl c.sizeof_pmu_seq_tbl)).callback =
        callback ∧
      (r.pmu.seq (find_first_zero_bit pmu.pmu_seq_tbl c.sizeof_pmu_seq_tbl)).cb_params =
        cb_param ∧
      (r.pmu.seq (find_first_zero_bit pmu.pmu_seq_tbl c.sizeof_pmu_seq_tbl)).msg = msg ∧
      r.seq_desc =
        some (r.pmu.seq (find_first_zero_bit pmu.pmu_seq_tbl c.sizeof_pmu_seq_tbl)).desc ∧
      (∃ hw1, r.pmu.hw.dmem =
        (pmu_copy_to_dmem c hw1
          (write_position c (pmu.queue qi) (pmu.hw.queue_head (pmu.queue qi).index)
            (pmu.hw.queue_tail (pmu.queue qi).index) cmd.hdr.size)
          (r.cmd.image c) cmd.hdr.size).dmem) ∧
      r.pmu.hw.queue_head (pmu.queue qi).index =
        add32 (write_position c (pmu.queue qi) (pmu.hw.queue_head (pmu.queue qi).index)
            (pmu.hw.queue_tail (pmu.queue qi).index) cmd.hdr.size)
          (ALIGN cmd.hdr.size c.QUEUE_ALIGNMENT) ∧
      (r.pmu.queue qi).opened = false ∧ (r.pmu.queue qi).mutex = false := by
  obtain ⟨j, hj, hjc⟩ := hfree
  have hle := ffz_lt_of_clear pmu.pmu_seq_tbl c.sizeof_pmu_seq_tbl j hjc
  have hnge : ¬ find_first_zero_bit pmu.pmu_seq_tbl c.sizeof_pmu_seq_tbl ≥
      c.sizeof_pmu_seq_tbl := by omega
  obtain ⟨_, _, _, _, hpl⟩ := validate_true c pmu cmd msg payload qi
    (validate_ok_true c pmu cmd msg payload qi hvalid)
  have hacq : (pmu_seq_acquire c pmu).2.2 =
      some (find_first_zero_bit pmu.pmu_seq_tbl c.sizeof_pmu_seq_tbl) := by
    simp only [pmu_seq_acquire, if_neg hnge]
  obtain ⟨_, _, _, _, _, hseq⟩ := acquire_some c pmu _ hacq
  have hq : (pmu_seq_acquire c pmu).1.queue = pmu.queue := by
    simp only [pmu_seq_acquire, if_neg hnge]; rfl
  have hhw : (pmu_seq_acquire c pmu).1.hw = pmu.hw := by
    simp only [pmu_seq_acquire, if_neg hnge]; rfl
  have hdm : (pmu_seq_acquire c pmu).1.dmem = pmu.dmem := by
    simp only [pmu_seq_acquire, if_neg hnge]; rfl
  have hsid : ((pmu_seq_acquire c pmu).1.seq
      (find_first_zero_bit pmu.pmu_seq_tbl c.sizeof_pmu_seq_tbl)).id =
      (pmu.seq (find_first_zero_bit pmu.pmu_seq_tbl c.sizeof_pmu_seq_tbl)).id := by
    rw [hseq]; simp
  have key : ∀ (q : Pmu) (cmd1 : PmuCmd) (sd : Option Nat) (P : PostResult → Prop),
      q.queue = (pmu_seq_acquire c pmu).1.queue → q.hw = (pmu_seq_acquire c pmu).1.hw →
      q.dmem = (pmu_seq_acquire c pmu).1.dmem →
      (∀ r, PostDone c cmd1.hdr
          (slot_view (q.seq (find_first_zero_bit pmu.pmu_seq_tbl c.sizeof_pmu_seq_tbl))) sd
          (pmu.queue qi) (pmu.hw.queue_head (pmu.queue qi).index)
          (pmu.hw.queue_tail (pmu.queue qi).index)
          (find_first_zero_bit pmu.pmu_seq_tbl c.sizeof_pmu_seq_tbl) qi r → P r) →
      has_room c (pmu.queue qi) (pmu.hw.queue_head (pmu.queue qi).index)
        (pmu.hw.queue_tail (pmu.queue qi).index) cmd1.hdr.size = true →
      ∃ r, gk20a_pmu_cmd_post_in c (fuel + 1) q cmd1
          (find_first_zero_bit pmu.pmu_seq_tbl c.sizeof_pmu_seq_tbl) payload qi timeout sd =
          Res.ok r ∧ P r := by
    intro q cmd1 sd P e1 e2 e3 hP hroom1
    obtain ⟨r, hr, hd⟩ := post_in_done c fuel q cmd1
      (find_first_zero_bit pmu.pmu_seq_tbl c.sizeof_pmu_seq_tbl) payload qi timeout sd
      cmd1.hdr _ (pmu.queue qi)
      (pmu.hw.queue_head (pmu.queue qi).index) (pmu.hw.queue_tail (pmu.queue qi).index)
      rfl rfl (by rw [e1, hq]) (by rw [e2, hhw]) (by rw [e2, hhw]) hsw hm ho hroom1
      (fun pl h hoff hb => (hpl pl h).2.2 (Or.inl ⟨hoff, hb⟩)) hbug
      (fun h => by
        have : AllocOk2 pmu.dmem := halloc h
        rw [e3, hdm]
        exact this)
    exact ⟨r, hr, hP r hd⟩
  simp only [gk20a_pmu_cmd_post, hready, hvalid, hacq, Res.bind, Bool.not_true,
    Bool.false_eq_true, if_false]
  refine key _ _ _ _ ?_ ?_ ?_ ?_ ?_
  · rfl
  · rfl
  · rfl
  swap
  · exact hroom
  intro r ⟨h1, h2, h3, h4, h5, h6, h7, h8, h9⟩
  simp only [slot_view, setSeq_seq_same, Prod.mk.injEq] at h5
  refine ⟨h1, ?_, ?_, ?_, ?_, h4, ?_, ?_, ?_, ?_, ?_, h6, h7, h8, h9⟩
  · rw [h2, h5.1]
    simp only []
    rw [hsid]
    exact Nat.mod_eq_of_lt hid
  · rw [h2]; simp
  · rw [h2]
  · rw [h2]
  · rw [h5.1, hsid]
  · rw [h5.2.2.1]
  · rw [h5.2.2.2.1]
  · rw [h5.2.2.2.2.1]
  · rw [h3, h5.2.1]

/-! ## C6: a post that cannot enqueue -/

/-- C6 fails on the code: in the ready state `pmu_full`, whose software command queue
0 has 3 free bytes, the 8-byte command `cmd_pg8` is accepted by `pmu_validate_cmd`
and slot 0 is acquired; the first `pmu_queue_open_write` returns `-EAGAIN` with the
queue mutex still held, `pmu_write_cmd` retries (its `u32` timeout is never below
0) and locks the same mutex again. `gk20a_pmu_cmd_post` returns nothing to its
caller, whatever the fuel: the slot is not released. -/
theorem post_on_full_queue_never_returns :
    pmu_full.pmu_ready = true ∧
    pmu_validate_cmd gk20a pmu_full cmd_pg8 none none 0 = Res.ok true ∧
    (pmu_seq_acquire gk20a pmu_full).2.2 = some 0 ∧
    (∃ p, pmu_queue_open_write gk20a 0 pmu_full 0 8 = Res.ok (p, -EAGAIN) ∧
      (p.queue 0).mutex = true) ∧
    gk20a_pmu_cmd_post gk20a 0 pmu_full cmd_pg8 none none 0 none none 0 = Res.nofuel ∧
    gk20a_pmu_cmd_post gk20a 1 pmu_full cmd_pg8 none none 0 none none 0 = Res.nofuel ∧
    ∀ fuel, gk20a_pmu_cmd_post gk20a (fuel + 2) pmu_full cmd_pg8 none none 0 none none 0 =
      Res.deadlock := by
  refine ⟨rfl, rfl, rfl, ⟨_, rfl, rfl⟩, rfl, rfl, ?_⟩
  intro fuel
  rfl

/-! ## C12: a response to a slot that is not in use -/

/-- C12: for a response message whose sequence id names a slot in state FREE or
PENDING, `pmu_response_handle` returns `-EINVAL` and leaves the whole state as it
was: no callback is recorded, the DMEM allocator sees no `free`, and no sequence
slot and no bit of the allocation bitmap changes. -/
theorem response_to_idle_slot_rejected (c : Consts) (pmu : Pmu) (msg : PmuMsg)
    (h : (pmu.seq msg.hdr.seq_id).state = SeqState.FREE ∨
      (pmu.seq msg.hdr.seq_id).state = SeqState.PENDING) :
    pmu_response_handle c pmu msg = Res.ok (pmu, -EINVAL) := by
  have h1 : (pmu.seq msg.hdr.seq_id).state ≠ SeqState.USED ∧
      (pmu.seq msg.hdr.seq_id).state ≠ SeqState.CANCELLED := by
    rcases h with h | h <;> rw [h] <;> exact ⟨by decide, by decide⟩
  simp only [pmu_response_handle, if_pos h1]

theorem response_to_idle_slot_rejected_witness :
    pmu_response_handle gk20a pmu0 msg_resp3 = Res.ok (pmu0, -EINVAL) :=
  response_to_idle_slot_rejected gk20a pmu0 msg_resp3 (Or.inl rfl)

/-! ## C15: a response to a cancelled slot -/

/-- C15 fails on the code: in the state `pmu_cancelled3`, whose slot 3 is CANCELLED
with the callback of client 7 registered, the message `msg_rc3` of unit
`PMU_UNIT_RC` and type `PMU_RC_MSG_TYPE_UNHANDLED_CMD` makes `pmu_response_handle`
invoke that callback: the first branch of the `if` chain is taken and the
`seq->callback = NULL` of the cancelled branch is not reached. For the message
`msg_resp3` of another unit no callback is invoked. In both cases the slot ends
FREE. -/
theorem response_rc_to_cancelled_slot_calls_back :
    (pmu_cancelled3.seq msg_rc3.hdr.seq_id).state = SeqState.CANCELLED ∧
    (∃ p, pmu_response_handle gk20a pmu_cancelled3 msg_rc3 = Res.ok (p, 0) ∧
      p.calls = [{ callback := Callback.client 7, msg := msg_rc3, param := some 9,
                   handle := 5, status := 0 }] ∧
      (p.seq 3).state = SeqState.FREE) ∧
    (∃ p, pmu_response_handle gk20a pmu_cancelled3 msg_resp3 = Res.ok (p, 0) ∧
      p.calls = [] ∧ (p.seq 3).state = SeqState.FREE) := by
  refine ⟨rfl, ⟨_, rfl, rfl, rfl⟩, ⟨_, rfl, rfl, rfl⟩⟩

/-! ## C14: a response larger than the registered buffer -/

theorem invoke_callback_bufs (c : Consts) (pmu : Pmu) (cb : Callback) (msg : PmuMsg)
    (param : Option Nat) (handle : Nat) (status : Int) :
    (invoke_callback c pmu cb msg param handle status).msgbuf = pmu.msgbuf ∧
      (invoke_callback c pmu cb msg param handle status).hostbuf = pmu.hostbuf := by
  cases cb with
  | pmu_handle_pg_elpg_msg =>
    simp only [invoke_callback, pmu_handle_pg_elpg_msg]
    split_ifs <;> simp
  | pmu_handle_pg_buf_config_msg =>
    simp only [invoke_callback, pmu_handle_pg_buf_config_msg]
    split_ifs <;> simp
  | pmu_handle_pg_stat_msg =>
    simp only [invoke_callback, pmu_handle_pg_stat_msg]
    split_ifs <;> simp
  | client k =>
    simp [invoke_callback]

theorem response_finish_bufs (c : Consts) (q : Pmu) (msg : PmuMsg) (si : Nat) :
    (pmu_response_handle_finish c q msg si).1.msgbuf = q.msgbuf ∧
      (pmu_response_handle_finish c q msg si).1.hostbuf = q.hostbuf := by
  have hf : (pmu_response_handle_free q si).msgbuf = q.msgbuf ∧
      (pmu_response_handle_free q si).hostbuf = q.hostbuf := by
    simp only [pmu_response_handle_free]
    split_ifs <;> simp
  have hr : ∀ p : Pmu, (pmu_seq_release c p si).msgbuf = p.msgbuf ∧
      (pmu_seq_release c p si).hostbuf = p.hostbuf := by
    intro p
    simp [pmu_seq_release, Pmu.setSeq]
  simp only [pmu_response_handle_finish]
  cases (q.seq si).callback with
  | none =>
    simp only []
    exact ⟨(hr _).1.trans hf.1, (hr _).2.trans hf.2⟩
  | some cb =>
    simp only []
    obtain ⟨g1, g2⟩ := invoke_callback_bufs c (pmu_response_handle_free q si) cb msg
      (q.seq si).cb_params (q.seq si).desc 0
    exact ⟨((hr _).1.trans g1).trans hf.1, ((hr _).2.trans g2).trans hf.2⟩

/-- C14 (amended): for a response to a USED slot whose registered response buffer is
smaller than the incoming message, `pmu_response_handle` copies nothing into the
caller's response buffers and payload buffers, invokes the slot's callback (when
one is registered) with status 0, returns 0, and leaves the slot FREE: the error
is logged only. -/
theorem response_buffer_too_small (c : Consts) (pmu : Pmu) (msg : PmuMsg) (m : Nat)
    (hused : (pmu.seq msg.hdr.seq_id).state = SeqState.USED)
    (hmsg : (pmu.seq msg.hdr.seq_id).msg = some m)
    (hsmall : (pmu.msgbuf m).hdr.size < msg.hdr.size) :
    ∃ p, pmu_response_handle c pmu msg = Res.ok (p, 0) ∧
      p.msgbuf = pmu.msgbuf ∧ p.hostbuf = pmu.hostbuf ∧
      p.calls = pmu.calls ++
        (match (pmu.seq msg.hdr.seq_id).callback with
         | some cb => [{ callback := cb, msg := msg, param := (pmu.seq msg.hdr.seq_id).cb_params,
                         handle := (pmu.seq msg.hdr.seq_id).desc, status := 0 }]
         | none => []) ∧
      (p.seq msg.hdr.seq_id).state = SeqState.FREE := by
  have key : ∃ p, Res.ok (pmu_response_handle_finish c pmu msg msg.hdr.seq_id) =
        Res.ok (p, (0 : Int)) ∧
      p.msgbuf = pmu.msgbuf ∧ p.hostbuf = pmu.hostbuf ∧
      p.calls = pmu.calls ++
        (match (pmu.seq msg.hdr.seq_id).callback with
         | some cb => [{ callback := cb, msg := msg, param := (pmu.seq msg.hdr.seq_id).cb_params,
                         handle := (pmu.seq msg.hdr.seq_id).desc, status := 0 }]
         | none => []) ∧
      (p.seq msg.hdr.seq_id).state = SeqState.FREE := by
    obtain ⟨e0, e1, _, _, e4⟩ := response_finish_spec c pmu msg msg.hdr.seq_id
    obtain ⟨b1, b2⟩ := response_finish_bufs c pmu msg msg.hdr.seq_id
    refine ⟨(pmu_response_handle_finish c pmu msg msg.hdr.seq_id).1, ?_, b1, b2, e4, ?_⟩
    · rw [← e0]
    · rw [e1]
  have hs1 : ¬ ((pmu.seq msg.hdr.seq_id).state ≠ SeqState.USED ∧
      (pmu.seq msg.hdr.seq_id).state ≠ SeqState.CANCELLED) := by
    rw [hused]; simp
  have hs2 : (pmu.seq msg.hdr.seq_id).state ≠ SeqState.CANCELLED := by
    rw [hused]; simp
  simp only [pmu_response_handle, if_neg hs1, if_pos hs2, hmsg]
  by_cases h1 : msg.hdr.unit_id = c.PMU_UNIT_RC ∧
      c.rc_msg_type msg.msg = c.PMU_RC_MSG_TYPE_UNHANDLED_CMD
  · rw [if_pos h1]
    exact key
  · rw [if_neg h1]
    have h4 : ¬ (pmu.msgbuf m).hdr.size ≥ msg.hdr.size := by omega
    rw [if_neg h4]
    exact key

theorem response_buffer_too_small_witness :
    ∃ p, pmu_response_handle gk20a pmu_used3_msg msg_resp3_long = Res.ok (p, 0) ∧
      p.msgbuf = pmu_used3_msg.msgbuf ∧ p.hostbuf = pmu_used3_msg.hostbuf ∧
      p.calls = pmu_used3_msg.calls ++
        (match (pmu_used3_msg.seq msg_resp3_long.hdr.seq_id).callback with
         | some cb => [{ callback := cb, msg := msg_resp3_long,
                         param := (pmu_used3_msg.seq msg_resp3_long.hdr.seq_id).cb_params,
                         handle := (pmu_used3_msg.seq msg_resp3_long.hdr.seq_id).desc,
                         status := 0 }]
         | none => []) ∧
      (p.seq msg_resp3_long.hdr.seq_id).state = SeqState.FREE :=
  response_buffer_too_small gk20a pmu_used3_msg msg_resp3_long 1 rfl rfl (by decide)

/-- C14, as stated, fails: in the state `pmu_used3_msg`, whose slot 3 is USED with a
response buffer of size 4 registered, the 8-byte response `msg_resp3_long` makes
`pmu_response_handle` return 0 and invoke the callback with status 0: neither the
result nor the status passed to the callback is non-zero. -/
theorem response_buffer_too_small_not_surfaced :
    (pmu_used3_msg.seq msg_resp3_long.hdr.seq_id).state = SeqState.USED ∧
    (pmu_used3_msg.seq msg_resp3_long.hdr.seq_id).msg = some 1 ∧
    (pmu_used3_msg.msgbuf 1).hdr.size < msg_resp3_long.hdr.size ∧
    ∃ p, pmu_response_handle gk20a pmu_used3_msg msg_resp3_long = Res.ok (p, 0) ∧
      p.calls = [{ callback := Callback.client 7, msg := msg_resp3_long, param := some 9,
                   handle := 5, status := 0 }] := by
  refine ⟨rfl, rfl, by decide, _, rfl, rfl⟩

/-! ## C11: DMEM regions of an aliased payload -/

/-- C11 fails on the code: the command `cmd_io24` posted with the payload
`payload_alias`, whose input and output are the same buffer, allocates one DMEM
region, `(4096, 8)`, and records it as both the input and the output region of
slot 0; the response `msg_resp0` then makes `pmu_response_handle` call
`pmu->dmem.free` twice for that one region. -/
theorem aliased_region_freed_twice :
    ∃ r, gk20a_pmu_cmd_post gk20a 1 pmu_alloc1 cmd_io24 none (some payload_alias) 0
          (some (Callback.client 7)) none 0 = Res.ok r ∧
      r.err = 0 ∧ r.pmu.dmem.live = [(4096, 8)] ∧ r.pmu.dmem.freed = [] ∧
      (r.pmu.seq 0).state = SeqState.USED ∧
      (r.pmu.seq 0).in_ = { size := 8, offset := 4096 } ∧
      (r.pmu.seq 0).out = { size := 8, offset := 4096 } ∧
      ∃ p, pmu_response_handle gk20a r.pmu msg_resp0 = Res.ok (p, 0) ∧
        p.dmem.freed = [(4096, 8), (4096, 8)] ∧
        p.calls = [{ callback := Callback.client 7, msg := msg_resp0, param := none,
                     handle := 0, status := 0 }] := by
  refine ⟨_, rfl, rfl, rfl, rfl, rfl, rfl, rfl, _, rfl, rfl, rfl⟩

/-! ## C13: a message with an unknown unit id -/

theorem copy_from_dmem_hw (c : Consts) (hw : Hw) (src : Nat) (dst : Buf) (n : Nat) :
    ∃ a, (pmu_copy_from_dmem c hw src dst n).1 = { hw with dmemc := a } := by
  by_cases hn : n = 0
  · exact ⟨hw.dmemc, by simp [pmu_copy_from_dmem, hn]⟩
  by_cases ha : src % 4 = 0
  · rw [pmu_copy_from_dmem_eq c hw src dst n (by omega) ha]
    exact ⟨_, rfl⟩
  · exact ⟨hw.dmemc, by simp [pmu_copy_from_dmem, hn, ha]⟩

theorem is_empty_msg (c : Consts) (pmu : Pmu) (qi : Nat)
    (h : IsMsgQueue c (pmu.queue qi)) (ho : (pmu.queue qi).opened = false) :
    pmu_queue_is_empty c pmu qi = Res.ok (pmu.hw.msgq_head == pmu.hw.msgq_tail) := by
  simp [pmu_queue_is_empty, pmu_queue_head_get, pmu_queue_tail_get, h.2, ho]

theorem open_read_msg (c : Consts) (fuel : Nat) (pmu : Pmu) (qi : Nat)
    (h : IsMsgQueue c (pmu.queue qi)) (ho : (pmu.queue qi).opened = false) :
    ∃ p1, pmu_queue_open_read c fuel pmu qi = Res.ok (p1, 0) ∧
      p1.queue qi =
        { pmu.queue qi with
          position := pmu.hw.msgq_tail, oflag := Oflag.OFLAG_READ, opened := true } ∧
      p1.hw = pmu.hw ∧ SameTable pmu p1 := by
  refine ⟨pmu.setQueue qi
    { pmu.queue qi with
      position := pmu.hw.msgq_tail, oflag := Oflag.OFLAG_READ, opened := true }, ?_, ?_, rfl,
    ⟨rfl, rfl, rfl, rfl, rfl, rfl⟩⟩
  · simp [pmu_queue_open_read, pmu_queue_lock, h.1, Res.bind, ho, pmu_queue_tail_get, h.2]
  · simp

theorem pop_msg (c : Consts) (pmu : Pmu) (qi : Nat) (data : Buf) (size : Nat)
    (h : IsMsgQueue c (pmu.queue qi)) (ho : (pmu.queue qi).opened = true)
    (hne : pmu.hw.msgq_head ≠ (pmu.queue qi).position)
    (hsz : size ≤ (if pmu.hw.msgq_head > (pmu.queue qi).position
              then pmu.hw.msgq_head - (pmu.queue qi).position
              else sub32 (add32 (pmu.queue qi).offset (pmu.queue qi).size)
                (pmu.queue qi).position)) :
    ∃ r, pmu_queue_pop c pmu qi data size = Res.ok r ∧ r.err = 0 ∧ r.bytes_read = size ∧
      r.data = (pmu_copy_from_dmem c pmu.hw (pmu.queue qi).position data size).2 ∧
      r.pmu.queue qi =
        { pmu.queue qi with
          position := add32 (pmu.queue qi).position (ALIGN size c.QUEUE_ALIGNMENT) } ∧
      r.pmu.hw = (pmu_copy_from_dmem c pmu.hw (pmu.queue qi).position data size).1 ∧
      SameTable pmu r.pmu := by
  have hs : ¬ size > (if pmu.hw.msgq_head > (pmu.queue qi).position
              then pmu.hw.msgq_head - (pmu.queue qi).position
              else sub32 (add32 (pmu.queue qi).offset (pmu.queue qi).size)
                (pmu.queue qi).position) := by omega
  refine ⟨{
      pmu := ({ pmu with
          hw := (pmu_copy_from_dmem c pmu.hw (pmu.queue qi).position data size).1 } :
          Pmu).setQueue qi
        { pmu.queue qi with
          position := add32 (pmu.queue qi).position (ALIGN size c.QUEUE_ALIGNMENT) },
      data := (pmu_copy_from_dmem c pmu.hw (pmu.queue qi).position data size).2,
      bytes_read := size, err := 0 }, ?_, rfl, rfl, rfl, ?_, rfl, ⟨rfl, rfl, rfl, rfl, rfl, rfl⟩⟩
  · simp only [pmu_queue_pop, ho, pmu_queue_head_get, h.2]
    simp only [Bool.not_true, Bool.false_eq_true, false_and, if_false, hne, hs]
  · simp

theorem close_msg (c : Consts) (pmu : Pmu) (qi : Nat)
    (h : IsMsgQueue c (pmu.queue qi)) (ho : (pmu.queue qi).opened = true) :
    ∃ p3, pmu_queue_close c pmu qi false = Res.ok (p3, 0) ∧
      p3.queue qi = { pmu.queue qi with opened := false } ∧ p3.hw = pmu.hw ∧
      SameTable pmu p3 := by
  refine ⟨pmu.setQueue qi { pmu.queue qi with opened := false }, ?_, ?_, rfl,
    ⟨rfl, rfl, rfl, rfl, rfl, rfl⟩⟩
  · simp [pmu_queue_close, ho, pmu_queue_unlock, h.1, Res.bind]
  · simp

theorem sameTable_trans {p q r : Pmu} (h1 : SameTable p q) (h2 : SameTable q r) :
    SameTable p r :=
  ⟨h2.1.trans h1.1, h2.2.1.trans h1.2.1, h2.2.2.1.trans h1.2.2.1,
    h2.2.2.2.1.trans h1.2.2.2.1, h2.2.2.2.2.1.trans h1.2.2.2.2.1,
    h2.2.2.2.2.2.trans h1.2.2.2.2.2⟩

/-- A header with an invalid unit id at the tail of the message queue: `pmu_read_message`
closes the queue without commit and returns false with status `-EINVAL`. -/
theorem read_message_invalid_unit (c : Consts) (fuel : Nat) (pmu : Pmu) (qi : Nat)
    (msg0 : PmuMsg)
    (hq : IsMsgQueue c (pmu.queue qi))
    (hclosed : (pmu.queue qi).opened = false)
    (hne : pmu.hw.msgq_head ≠ pmu.hw.msgq_tail)
    (hused : c.PMU_MSG_HDR_SIZE ≤
      (if pmu.hw.msgq_head > pmu.hw.msgq_tail then pmu.hw.msgq_head - pmu.hw.msgq_tail
       else sub32 (add32 (pmu.queue qi).offset (pmu.queue qi).size) pmu.hw.msgq_tail))
    (hrew : (PmuHdr.parse (pmu_copy_from_dmem c pmu.hw pmu.hw.msgq_tail msg0.hdr.image
        c.PMU_MSG_HDR_SIZE).2).unit_id ≠ c.PMU_UNIT_REWIND)
    (hbad : c.PMU_UNIT_ID_IS_VALID (PmuHdr.parse (pmu_copy_from_dmem c pmu.hw pmu.hw.msgq_tail
        msg0.hdr.image c.PMU_MSG_HDR_SIZE).2).unit_id = false) :
    ∃ r, pmu_read_message c fuel pmu qi msg0 = Res.ok r ∧ r.ret = false ∧
      r.status = -EINVAL ∧
      r.pmu.hw = (pmu_copy_from_dmem c pmu.hw pmu.hw.msgq_tail msg0.hdr.image
        c.PMU_MSG_HDR_SIZE).1 ∧
      (r.pmu.queue qi).opened = false ∧ SameTable pmu r.pmu := by
  have hne2 : (pmu.hw.msgq_head == pmu.hw.msgq_tail) = false := by
    simpa using hne
  obtain ⟨p1, hopen, hq1, hhw1, ht1⟩ := open_read_msg c fuel pmu qi hq hclosed
  have hmq1 : IsMsgQueue c (p1.queue qi) := by rw [hq1]; exact hq
  have hpos1 : (p1.queue qi).position = pmu.hw.msgq_tail := by rw [hq1]
  obtain ⟨r, hpop, herr, hbytes, hdata, hq2, hhw2, ht2⟩ :=
    pop_msg c p1 qi msg0.hdr.image c.PMU_MSG_HDR_SIZE hmq1 (by rw [hq1])
      (by rw [hhw1, hpos1]; exact hne)
      (by rw [hhw1, hpos1, hq1]; exact hused)
  rw [hhw1, hpos1] at hdata hhw2
  have hmq2 : IsMsgQueue c (r.pmu.queue qi) := by rw [hq2, hq1]; exact hq
  obtain ⟨p3, hclose, hq3, hhw3, ht3⟩ := close_msg c r.pmu qi hmq2 (by rw [hq2, hq1])
  have hcond : ¬ (r.err ≠ 0 ∨ r.bytes_read ≠ c.PMU_MSG_HDR_SIZE) := by
    rw [herr, hbytes]; simp
  have hnv : (!c.PMU_UNIT_ID_IS_VALID (PmuHdr.parse r.data).unit_id) = true := by
    rw [hdata, hbad]; rfl
  have hrew2 : ¬ (PmuHdr.parse r.data).unit_id = c.PMU_UNIT_REWIND := by
    rw [hdata]; exact hrew
  refine ⟨{ pmu := p3, msg := { msg0 with hdr := PmuHdr.parse r.data }, status := -EINVAL,
            ret := false }, ?_, rfl, rfl, ?_, ?_, ?_⟩
  · simp only [pmu_read_message, is_empty_msg c pmu qi hq hclosed, hne2, Res.bind, hopen, hpop]
    simp only [Bool.false_eq_true, if_false, ne_eq, not_true_eq_false, hcond, hrew2,
      pmu_read_message_body, hnv, if_true, pmu_read_message_clean_up, hclose, Res.bind]
  · simp only []; rw [hhw3, hhw2]
  · simp only []; rw [hq3]
  · exact sameTable_trans (sameTable_trans ht1 ht2) ht3

/-- C13 (amended): with the message queue closed and not empty, at least a header
of unread bytes at the tail, and a header there whose unit id is neither the rewind
id nor a valid unit id, the message loop of `pmu_process_message` stops at that
message: it ends with the tail register, the head register and DMEM as they were
(the message is not consumed), no sequence slot, bitmap bit or allocator state
changed, no callback invoked, and the queue closed again. -/
theorem process_message_stops_at_invalid_unit (c : Consts) (fuel : Nat) (pmu : Pmu)
    (msg0 : PmuMsg)
    (hq : IsMsgQueue c (pmu.queue c.PMU_MESSAGE_QUEUE))
    (hclosed : (pmu.queue c.PMU_MESSAGE_QUEUE).opened = false)
    (hne : pmu.hw.msgq_head ≠ pmu.hw.msgq_tail)
    (hused : c.PMU_MSG_HDR_SIZE ≤
      (if pmu.hw.msgq_head > pmu.hw.msgq_tail then pmu.hw.msgq_head - pmu.hw.msgq_tail
       else sub32 (add32 (pmu.queue c.PMU_MESSAGE_QUEUE).offset
              (pmu.queue c.PMU_MESSAGE_QUEUE).size) pmu.hw.msgq_tail))
    (hrew : (PmuHdr.parse (pmu_copy_from_dmem c pmu.hw pmu.hw.msgq_tail msg0.hdr.image
        c.PMU_MSG_HDR_SIZE).2).unit_id ≠ c.PMU_UNIT_REWIND)
    (hbad : c.PMU_UNIT_ID_IS_VALID (PmuHdr.parse (pmu_copy_from_dmem c pmu.hw pmu.hw.msgq_tail
        msg0.hdr.image c.PMU_MSG_HDR_SIZE).2).unit_id = false) :
    ∃ p, pmu_process_message_loop c (fuel + 1) pmu msg0 = Res.ok p ∧
      p.hw.msgq_tail = pmu.hw.msgq_tail ∧ p.hw.msgq_head = pmu.hw.msgq_head ∧
      p.hw.dmem = pmu.hw.dmem ∧
      p.seq = pmu.seq ∧ p.pmu_seq_tbl = pmu.pmu_seq_tbl ∧ p.dmem = pmu.dmem ∧
      p.calls = pmu.calls ∧ (p.queue c.PMU_MESSAGE_QUEUE).opened = false := by
  obtain ⟨a, ha⟩ := copy_from_dmem_hw c pmu.hw pmu.hw.msgq_tail msg0.hdr.image c.PMU_MSG_HDR_SIZE
  obtain ⟨r, hr, hret, _, hhw, hop, ht⟩ :=
    read_message_invalid_unit c fuel pmu c.PMU_MESSAGE_QUEUE msg0 hq hclosed hne hused hrew hbad
  refine ⟨r.pmu, ?_, ?_, ?_, ?_, ht.1, ht.2.1, ht.2.2.1, ht.2.2.2.1, hop⟩
  · simp only [pmu_process_message_loop, hr, Res.bind, hret]
    rfl
  · rw [hhw, ha]
  · rw [hhw, ha]
  · rw [hhw, ha]

theorem process_message_stops_at_invalid_unit_witness :
    ∃ p, pmu_process_message_loop gk20a 1 pmu_msgq_bad PmuMsg.zero = Res.ok p ∧
      p.hw.msgq_tail = pmu_msgq_bad.hw.msgq_tail ∧ p.hw.msgq_head = pmu_msgq_bad.hw.msgq_head ∧
      p.hw.dmem = pmu_msgq_bad.hw.dmem ∧
      p.seq = pmu_msgq_bad.seq ∧ p.pmu_seq_tbl = pmu_msgq_bad.pmu_seq_tbl ∧
      p.dmem = pmu_msgq_bad.dmem ∧
      p.calls = pmu_msgq_bad.calls ∧ (p.queue gk20a.PMU_MESSAGE_QUEUE).opened = false :=
  process_message_stops_at_invalid_unit gk20a 0 pmu_msgq_bad PmuMsg.zero ⟨rfl, rfl⟩ rfl
    (by decide) (by decide) (by decide) rfl

/-- C13, as stated, fails: in the state `pmu_msgq_bad` the message queue holds a
header with the unknown unit id 200 at the tail, 2560, and behind it a response for
the USED slot 3. One run of the message loop ends with the tail still at 2560, slot
3 still USED and no callback invoked. Started behind the first message (state
`pmu_msgq_good`), the same loop dispatches the response: the callback of slot 3 is
invoked and the tail ends at 2568. -/
theorem process_message_stalls_on_invalid_unit :
    pmu_msgq_bad.hw.msgq_tail = 2560 ∧ pmu_msgq_bad.hw.msgq_head = 2568 ∧
    (PmuHdr.parse (pmu_copy_from_dmem gk20a pmu_msgq_bad.hw 2560 PmuHdr.zero.image 4).2).unit_id
      = 200 ∧
    gk20a.PMU_UNIT_ID_IS_VALID 200 = false ∧
    (∃ p, pmu_process_message_loop gk20a 3 pmu_msgq_bad PmuMsg.zero = Res.ok p ∧
      p.hw.msgq_tail = 2560 ∧ (p.seq 3).state = SeqState.USED ∧ p.calls = []) ∧
    (∃ p, pmu_process_message_loop gk20a 3 pmu_msgq_good PmuMsg.zero = Res.ok p ∧
      p.hw.msgq_tail = 2568 ∧ (p.seq 3).state = SeqState.FREE ∧
      p.calls = [{ callback := Callback.client 7, msg := msg_resp3, param := some 9,
                   handle := 5, status := 0 }]) := by
  refine ⟨rfl, rfl, by decide, rfl, ⟨_, rfl, rfl, rfl, rfl⟩, ⟨_, rfl, rfl, rfl, ?_⟩⟩
  rfl

/-! ## C16: the retry loop of `pmu_write_cmd` -/

/-- The retry loop of `pmu_write_cmd` never gives up: whatever the timeout, a result
it returns is not `-EAGAIN`. -/
theorem write_cmd_loop_never_eagain (c : Consts) (qi size : Nat) (fuel : Nat) :
    ∀ (p : Pmu) (timeout : Nat) (r : Pmu × Int),
      pmu_write_cmd_loop c qi size fuel p timeout = Res.ok r → r.2 ≠ -EAGAIN := by
  induction fuel with
  | zero =>
    intro p t r h
    simp [pmu_write_cmd_loop] at h
  | succ n ih =>
    intro p t r h
    simp only [pmu_write_cmd_loop] at h
    obtain ⟨a, _, h⟩ := res_bind_ok _ _ _ h
    by_cases h1 : a.2 = -EAGAIN ∧ 0 ≤ t
    · rw [if_pos h1] at h
      exact ih _ _ _ h
    · rw [if_neg h1] at h
      injection h with h
      rw [← h]
      intro h2
      exact h1 ⟨h2, Nat.zero_le t⟩

/-- C16 fails on the code: in the state `pmu_full`, whose software command queue 0
has 3 free bytes, `pmu_queue_open_write` for the 8-byte command `cmd_pg8` returns
`-EAGAIN`; `pmu_write_cmd` then retries whatever the timeout (0 here, and any other
value), because `timeout >= 0` always holds for a `u32`, and never returns
`-EAGAIN`: the second attempt locks the queue mutex that the first one left held. -/
theorem write_cmd_full_queue_never_gives_up :
    (∃ p, pmu_queue_open_write gk20a 0 pmu_full 0 8 = Res.ok (p, -EAGAIN)) ∧
    pmu_write_cmd gk20a 2 pmu_full cmd_pg8 0 0 = Res.deadlock ∧
    (∀ fuel timeout, pmu_write_cmd gk20a (fuel + 2) pmu_full cmd_pg8 0 timeout =
      Res.deadlock) ∧
    (∀ timeout, pmu_write_cmd gk20a 1 pmu_full cmd_pg8 0 timeout = Res.nofuel) ∧
    (∀ timeout, pmu_write_cmd gk20a 0 pmu_full cmd_pg8 0 timeout = Res.nofuel) := by
  have hopen : ∀ fuel, pmu_queue_open_write gk20a fuel pmu_full 0 8 =
      Res.ok (sw_locked pmu_full 0, -EAGAIN) := by
    intro fuel
    exact (pmu_queue_open_write_sw gk20a fuel pmu_full 0 8
      ⟨rfl, rfl, rfl, by decide, by decide⟩ rfl rfl).trans rfl
  have hlock : ∀ fuel size, pmu_queue_open_write gk20a fuel (sw_locked pmu_full 0) 0 size =
      Res.deadlock := by
    intro fuel size
    rfl
  refine ⟨⟨_, hopen 0⟩, rfl, ?_, ?_, ?_⟩
  · intro fuel t
    have e : cmd_pg8.hdr.size = 8 := rfl
    simp only [pmu_write_cmd, pmu_write_cmd_loop, e, hopen, Res.bind, hlock, Nat.zero_le,
      and_self, if_true]
  · intro t
    have e : cmd_pg8.hdr.size = 8 := rfl
    simp only [pmu_write_cmd, pmu_write_cmd_loop, e, hopen, Res.bind, Nat.zero_le,
      and_self, if_true]
  · intro t
    simp only [pmu_write_cmd, pmu_write_cmd_loop, Res.bind]

/-! ## C17: the token of an acquired mutex -/

/-- C17 fails on the code: in the state `pmu0`, `pmu_mutex_acquire` for mutex 0 with
`*token = 0` (the invalid owner id) takes the slow path and acquires the mutex with
the generated token 1: the owner register holds 1 and the counter is 1. The function
stores nothing in `*token`, which is still 0, and its return value is the local
`err`, which was never assigned. `pmu_mutex_release` with that token returns
`-EINVAL` and resets nothing. -/
theorem mutex_acquire_hands_back_no_token :
    ∃ p, pmu_mutex_acquire gk20a 1 pmu0 0 0 = Res.ok (p, none) ∧
      p.hw.mutex (p.mutex 0).index = 1 ∧ (p.mutex 0).ref_cnt = 1 ∧
      (p.mutex 0).acquired = true ∧
      pmu_mutex_release gk20a p 0 0 = Res.ok (p, -EINVAL) ∧
      ∃ p2, pmu_mutex_release gk20a p 0 1 = Res.ok (p2, 0) ∧
        p2.hw.mutex (p.mutex 0).index = gk20a.mutex_value_initial_lock ∧
        (p2.mutex 0).ref_cnt = 0 := by
  refine ⟨_, rfl, rfl, rfl, rfl, rfl, _, rfl, rfl, rfl⟩

/-! ## C18: release of a mutex -/

/-- C18 (amended): for a valid mutex id, `pmu_mutex_release` with a token different
from the owner register returns `-EINVAL` and changes nothing. With the owner's
token it returns 0; if the `acquired` flag of the mutex is set, the counter is
decremented (in `u32`), and the owner register is reset to the unlocked value and
the token written to the token-release register exactly when the counter has
reached 0; if the flag is clear, the counter is left alone and the register is
reset and the token released whatever the counter. -/
theorem mutex_release_spec (c : Consts) (pmu : Pmu) (id token : Nat)
    (hvalid : c.PMU_MUTEX_ID_IS_VALID id = true) (hcnt : id ≤ pmu.mutex_cnt) :
    (token ≠ pmu.hw.mutex (pmu.mutex id).index →
      pmu_mutex_release c pmu id token = Res.ok (pmu, -EINVAL)) ∧
    (token = pmu.hw.mutex (pmu.mutex id).index → (pmu.mutex id).acquired = true →
      ∃ p, pmu_mutex_release c pmu id token = Res.ok (p, 0) ∧
        (p.mutex id).ref_cnt = sub32 (pmu.mutex id).ref_cnt 1 ∧
        (sub32 (pmu.mutex id).ref_cnt 1 = 0 →
          p.hw.mutex (pmu.mutex id).index = c.mutex_value_initial_lock ∧
          p.hw.mutex_id_released = pmu.hw.mutex_id_released ++ [token]) ∧
        (sub32 (pmu.mutex id).ref_cnt 1 ≠ 0 → p.hw = pmu.hw)) ∧
    (token = pmu.hw.mutex (pmu.mutex id).index → (pmu.mutex id).acquired = false →
      ∃ p, pmu_mutex_release c pmu id token = Res.ok (p, 0) ∧
        p.mutex = pmu.mutex ∧
        p.hw.mutex (pmu.mutex id).index = c.mutex_value_initial_lock ∧
        p.hw.mutex_id_released = pmu.hw.mutex_id_released ++ [token]) := by
  have hgt : ¬ id > pmu.mutex_cnt := by omega
  have hreset : ∀ hw : Hw, ∀ i,
      (writel_mutex c hw i c.mutex_value_initial_lock).mutex i = c.mutex_value_initial_lock ∧
      (writel_mutex c hw i c.mutex_value_initial_lock).mutex_id_released =
        hw.mutex_id_released := by
    intro hw i
    simp [writel_mutex]
  have hunf : pmu_mutex_release c pmu id token =
      if token ≠ pmu.hw.mutex (pmu.mutex id).index then Res.ok (pmu, -EINVAL)
      else if !(pmu.mutex id).acquired then
        Res.ok ({ pmu with
          hw := writel_mutex_id_release
            (writel_mutex c pmu.hw (pmu.mutex id).index c.mutex_value_initial_lock)
            (pmu.hw.mutex (pmu.mutex id).index) }, 0)
      else if sub32 (pmu.mutex id).ref_cnt 1 = 0 then
        Res.ok ({ pmu with
          mutex := Function.update pmu.mutex id
            { pmu.mutex id with ref_cnt := sub32 (pmu.mutex id).ref_cnt 1 },
          hw := writel_mutex_id_release
            (writel_mutex c pmu.hw (pmu.mutex id).index c.mutex_value_initial_lock)
            (pmu.hw.mutex (pmu.mutex id).index) }, 0)
      else Res.ok ({ pmu with
          mutex := Function.update pmu.mutex id
            { pmu.mutex id with ref_cnt := sub32 (pmu.mutex id).ref_cnt 1 } }, 0) := by
    simp only [pmu_mutex_release, hvalid, Bool.not_true, Bool.false_eq_true, if_false, hgt]
  rw [hunf]
  refine ⟨?_, ?_, ?_⟩
  · intro hne
    rw [if_pos hne]
  · intro heq hacq
    have hne : ¬ token ≠ pmu.hw.mutex (pmu.mutex id).index := fun h => h heq
    have hna : ¬ (!(pmu.mutex id).acquired) = true := by rw [hacq]; decide
    rw [if_neg hne, if_neg hna]
    by_cases h0 : sub32 (pmu.mutex id).ref_cnt 1 = 0
    · rw [if_pos h0]
      refine ⟨_, rfl, ?_, ?_, ?_⟩
      · simp
      · intro _
        rw [← heq]
        simp [writel_mutex_id_release, hreset]
      · intro h; exact absurd h0 h
    · rw [if_neg h0]
      refine ⟨_, rfl, ?_, ?_, ?_⟩
      · simp
      · intro h; exact absurd h h0
      · intro _; rfl
  · intro heq hacq
    have hne : ¬ token ≠ pmu.hw.mutex (pmu.mutex id).index := fun h => h heq
    have hna : (!(pmu.mutex id).acquired) = true := by rw [hacq]; decide
    rw [if_neg hne, if_pos hna]
    refine ⟨_, rfl, rfl, ?_, ?_⟩
    · rw [← heq]
      simp [writel_mutex_id_release, hreset]
    · rw [← heq]
      simp [writel_mutex_id_release, hreset]

theorem mutex_release_spec_witness :
    gk20a.PMU_MUTEX_ID_IS_VALID 0 = true ∧ 0 ≤ pmu_mutex_held.mutex_cnt ∧
    ((1 ≠ pmu_mutex_held.hw.mutex (pmu_mutex_held.mutex 0).index →
      pmu_mutex_release gk20a pmu_mutex_held 0 1 = Res.ok (pmu_mutex_held, -EINVAL)) ∧
    (1 = pmu_mutex_held.hw.mutex (pmu_mutex_held.mutex 0).index →
      (pmu_mutex_held.mutex 0).acquired = true →
      ∃ p, pmu_mutex_release gk20a pmu_mutex_held 0 1 = Res.ok (p, 0) ∧
        (p.mutex 0).ref_cnt = sub32 (pmu_mutex_held.mutex 0).ref_cnt 1 ∧
        (sub32 (pmu_mutex_held.mutex 0).ref_cnt 1 = 0 →
          p.hw.mutex (pmu_mutex_held.mutex 0).index = gk20a.mutex_value_initial_lock ∧
          p.hw.mutex_id_released = pmu_mutex_held.hw.mutex_id_released ++ [1]) ∧
        (sub32 (pmu_mutex_held.mutex 0).ref_cnt 1 ≠ 0 → p.hw = pmu_mutex_held.hw)) ∧
    (1 = pmu_mutex_held.hw.mutex (pmu_mutex_held.mutex 0).index →
      (pmu_mutex_held.mutex 0).acquired = false →
      ∃ p, pmu_mutex_release gk20a pmu_mutex_held 0 1 = Res.ok (p, 0) ∧
        p.mutex = pmu_mutex_held.mutex ∧
        p.hw.mutex (pmu_mutex_held.mutex 0).index = gk20a.mutex_value_initial_lock ∧
        p.hw.mutex_id_released = pmu_mutex_held.hw.mutex_id_released ++ [1])) :=
  ⟨rfl, by decide, mutex_release_spec gk20a pmu_mutex_held 0 1 rfl (by decide)⟩

/-- C18, as stated, fails: in the state `pmu_mutex_shared`, where the owner register of
mutex 0 holds 5, the counter is 2 and the `acquired` flag is clear,
`pmu_mutex_release` with the owner's token 5 leaves the counter at 2 and yet resets
the owner register to the unlocked value and writes the token to the token-release
register. -/
theorem mutex_release_unacquired_resets :
    pmu_mutex_shared.hw.mutex (pmu_mutex_shared.mutex 0).index = 5 ∧
    (pmu_mutex_shared.mutex 0).ref_cnt = 2 ∧
    ∃ p, pmu_mutex_release gk20a pmu_mutex_shared 0 5 = Res.ok (p, 0) ∧
      (p.mutex 0).ref_cnt = 2 ∧
      p.hw.mutex (pmu_mutex_shared.mutex 0).index = gk20a.mutex_value_initial_lock ∧
      p.hw.mutex_id_released = [5] := by
  refine ⟨rfl, rfl, _, rfl, rfl, rfl, rfl⟩

/-! ## C21: enable followed at once by disable -/

/-- C21 (amended): in a state in which power gating is ready, the state is OFF and
the allow gate is closed, with the golden context image initialised,
`gk20a_pmu_enable_elpg` returns 0 and only sets the state to OFF_ON_PENDING, and
`gk20a_pmu_disable_elpg` called next returns 0 in the state from before the two calls:
the state is OFF again and nothing else has changed, so neither call has posted a
command. -/
theorem enable_then_disable_collapses (c : Consts) (fuel : Nat) (pmu : Pmu) (env : Pmu → Pmu)
    (hready : pmu.elpg_ready = true) (hoff : pmu.elpg_stat = ElpgStat.OFF)
    (hgate : pmu.elpg_enable_allow = false) :
    ∃ p1, gk20a_pmu_enable_elpg c fuel pmu true = Res.ok (p1, 0) ∧
      p1 = { pmu with elpg_stat := ElpgStat.OFF_ON_PENDING } ∧
      gk20a_pmu_disable_elpg c fuel p1 env = Res.ok (pmu, 0) := by
  refine ⟨_, ?_, rfl, ?_⟩
  · simp [gk20a_pmu_enable_elpg, hready, hoff, hgate]
  · cases pmu
    simp only [] at hready hoff
    subst hready hoff
    rfl

/-- In the state `pmu_gate_closed`, enable followed by disable gives the state back. -/
theorem enable_then_disable_collapses_witness :
    pmu_gate_closed.elpg_ready = true ∧ pmu_gate_closed.elpg_stat = ElpgStat.OFF ∧
    pmu_gate_closed.elpg_enable_allow = false ∧
    ∃ p1, gk20a_pmu_enable_elpg gk20a 1 pmu_gate_closed true = Res.ok (p1, 0) ∧
      p1 = { pmu_gate_closed with elpg_stat := ElpgStat.OFF_ON_PENDING } ∧
      gk20a_pmu_disable_elpg gk20a 1 p1 id = Res.ok (pmu_gate_closed, 0) :=
  ⟨rfl, rfl, rfl, enable_then_disable_collapses gk20a 1 pmu_gate_closed id rfl rfl rfl⟩

/-- C21, as stated, fails: in the state `pmu_elpg_ready` (power gating ready, state
OFF, allow gate open), with the golden context image initialised,
`gk20a_pmu_enable_elpg` posts the ALLOW command (the head register of queue 0 moves
from 2048 to 2056) and sets the state to ON_PENDING; `gk20a_pmu_disable_elpg` called
next, with no acknowledgement arriving during its wait, returns `-EBUSY` and the
state is still ON_PENDING, not OFF. -/
theorem enable_then_disable_stays_on_pending :
    pmu_elpg_ready.elpg_ready = true ∧ pmu_elpg_ready.elpg_stat = ElpgStat.OFF ∧
    pmu_elpg_ready.hw.queue_head 0 = 2048 ∧
    ∃ p1, gk20a_pmu_enable_elpg gk20a 1 pmu_elpg_ready true = Res.ok (p1, 0) ∧
      p1.hw.queue_head 0 = 2056 ∧ p1.elpg_stat = ElpgStat.ON_PENDING ∧
      ∃ p2, gk20a_pmu_disable_elpg gk20a 1 p1 id = Res.ok (p2, -EBUSY) ∧
        p2.elpg_stat = ElpgStat.ON_PENDING ∧ p2.hw.queue_head 0 = 2056 := by
  refine ⟨rfl, rfl, rfl, _, rfl, rfl, rfl, _, rfl, rfl, rfl⟩

/-! ## C22: what disabling power gating returns -/

/-- The second half of `gk20a_pmu_disable_elpg` returns 0 only in a state that is OFF. -/
theorem disable_elpg_post_zero (c : Consts) (fuel : Nat) (pmu : Pmu) (env : Pmu → Pmu) (p : Pmu)
    (h : gk20a_pmu_disable_elpg_post c fuel pmu env = Res.ok (p, 0)) :
    p.elpg_stat = ElpgStat.OFF := by
  simp only [gk20a_pmu_disable_elpg_post] at h
  cases hpost : gk20a_pmu_cmd_post c fuel pmu (elpg_cmd c c.PMU_PG_ELPG_CMD_DISALLOW) none none
      c.PMU_COMMAND_QUEUE_HPQ (some Callback.pmu_handle_pg_elpg_msg) pmu_self 4294967295 with
  | ok r =>
    rw [hpost] at h
    simp only [Res.bind] at h
    by_cases hs : (wait_event_interruptible_timeout env
        (fun p => decide (p.elpg_stat = ElpgStat.OFF)) r.pmu).elpg_stat = ElpgStat.OFF
    · by_cases ht : (wait_event_interruptible_timeout env
          (fun p => decide (p.elpg_stat = ElpgStat.OFF)) r.pmu).elpg_timer_pending = true
      · simp only [hs, ht, ne_eq, not_true_eq_false, if_false, Bool.not_true,
          Bool.false_eq_true, Res.ok.injEq, Prod.mk.injEq, and_true] at h
        rw [← h]; exact hs
      · simp only [Bool.not_eq_true] at ht
        simp only [hs, ht, ne_eq, not_true_eq_false, if_false, Bool.not_false, if_true,
          Res.ok.injEq, Prod.mk.injEq, and_true] at h
        rw [← h]
    · simp only [ne_eq, hs, not_false_eq_true, if_true, Res.ok.injEq, Prod.mk.injEq] at h
      have := h.2
      simp [EBUSY] at this
  | bug => rw [hpost] at h; simp [Res.bind] at h
  | deadlock => rw [hpost] at h; simp [Res.bind] at h
  | undef => rw [hpost] at h; simp [Res.bind] at h
  | nofuel => rw [hpost] at h; simp [Res.bind] at h

/-- The second half of `gk20a_pmu_disable_elpg` when the acknowledgement of the
DISALLOW command has not arrived at the end of the wait. -/
theorem disable_elpg_post_timeout (c : Consts) (fuel : Nat) (pmu : Pmu) (env : Pmu → Pmu)
    (r : PostResult)
    (hpost : gk20a_pmu_cmd_post c fuel pmu (elpg_cmd c c.PMU_PG_ELPG_CMD_DISALLOW) none none
      c.PMU_COMMAND_QUEUE_HPQ (some Callback.pmu_handle_pg_elpg_msg) pmu_self 4294967295
        = Res.ok r)
    (hs : (wait_event_interruptible_timeout env
      (fun p => decide (p.elpg_stat = ElpgStat.OFF)) r.pmu).elpg_stat ≠ ElpgStat.OFF) :
    gk20a_pmu_disable_elpg_post c fuel pmu env =
      Res.ok (wait_event_interruptible_timeout env
        (fun p => decide (p.elpg_stat = ElpgStat.OFF)) r.pmu, -EBUSY) := by
  simp only [gk20a_pmu_disable_elpg_post, hpost, Res.bind]
  rw [if_pos hs]

/-- C22: with power gating ready, `gk20a_pmu_disable_elpg` returns 0 only in a state
that is OFF. If the state is ON_PENDING and the ALLOW acknowledgement has not arrived
when the first wait ends (the state then is not ON), it returns `-EBUSY` in the state
the wait ended in, without posting. If the state is ON, at entry or after the first
wait, and the post of the DISALLOW command returns, and the DISALLOW acknowledgement
has not arrived when the second wait ends (the state then is not OFF), it returns
`-EBUSY` in the state that wait ended in. -/
theorem disable_elpg_returns (c : Consts) (fuel : Nat) (pmu : Pmu) (env : Pmu → Pmu)
    (hready : pmu.elpg_ready = true) :
    (∀ p, gk20a_pmu_disable_elpg c fuel pmu env = Res.ok (p, 0) →
      p.elpg_stat = ElpgStat.OFF) ∧
    (pmu.elpg_stat = ElpgStat.ON_PENDING → (env pmu).elpg_stat ≠ ElpgStat.ON →
      gk20a_pmu_disable_elpg c fuel pmu env = Res.ok (env pmu, -EBUSY)) ∧
    (∀ p1 r,
      (pmu.elpg_stat = ElpgStat.ON ∧ p1 = pmu) ∨
        (pmu.elpg_stat = ElpgStat.ON_PENDING ∧ (env pmu).elpg_stat = ElpgStat.ON ∧
          p1 = env pmu) →
      gk20a_pmu_cmd_post c fuel p1 (elpg_cmd c c.PMU_PG_ELPG_CMD_DISALLOW) none none
        c.PMU_COMMAND_QUEUE_HPQ (some Callback.pmu_handle_pg_elpg_msg) pmu_self 4294967295
          = Res.ok r →
      (wait_event_interruptible_timeout env
        (fun p => decide (p.elpg_stat = ElpgStat.OFF)) r.pmu).elpg_stat ≠ ElpgStat.OFF →
      gk20a_pmu_disable_elpg c fuel pmu env =
        Res.ok (wait_event_interruptible_timeout env
          (fun p => decide (p.elpg_stat = ElpgStat.OFF)) r.pmu, -EBUSY)) := by
  have hwait : pmu.elpg_stat = ElpgStat.ON_PENDING →
      wait_event_interruptible_timeout env (fun p => decide (p.elpg_stat = ElpgStat.ON)) pmu
        = env pmu := by
    intro h
    simp [wait_event_interruptible_timeout, h]
  refine ⟨?_, ?_, ?_⟩
  · intro p h
    simp only [gk20a_pmu_disable_elpg, hready, Bool.not_true, Bool.false_eq_true, if_false] at h
    by_cases h1 : pmu.elpg_stat = ElpgStat.OFF_ON_PENDING
    · rw [if_pos h1] at h
      simp only [Res.ok.injEq, Prod.mk.injEq, and_true] at h
      rw [← h]
    · rw [if_neg h1] at h
      by_cases h2 : pmu.elpg_stat = ElpgStat.ON_PENDING
      · rw [if_pos h2, hwait h2] at h
        by_cases h3 : (env pmu).elpg_stat = ElpgStat.ON
        · rw [if_neg (fun hn => hn h3)] at h
          exact disable_elpg_post_zero c fuel _ env p h
        · rw [if_pos h3] at h
          simp only [Res.ok.injEq, Prod.mk.injEq] at h
          have := h.2
          simp [EBUSY] at this
      · rw [if_neg h2] at h
        by_cases h4 : pmu.elpg_stat = ElpgStat.ON
        · rw [if_neg (fun hn => hn h4)] at h
          exact disable_elpg_post_zero c fuel _ env p h
        · rw [if_pos h4] at h
          simp only [Res.ok.injEq, Prod.mk.injEq, and_true] at h
          rw [← h]
          cases hs : pmu.elpg_stat
          · rfl
          · exact absurd hs h2
          · exact absurd hs h4
          · exact absurd hs h1
  · intro h2 h3
    have h1 : ¬ pmu.elpg_stat = ElpgStat.OFF_ON_PENDING := by rw [h2]; decide
    simp only [gk20a_pmu_disable_elpg, hready, Bool.not_true, Bool.false_eq_true, if_false]
    rw [if_neg h1, if_pos h2, hwait h2, if_pos h3]
  · intro p1 r hcase hpost hs
    simp only [gk20a_pmu_disable_elpg, hready, Bool.not_true, Bool.false_eq_true, if_false]
    rcases hcase with ⟨hon, hp1⟩ | ⟨h2, h3, hp1⟩
    · have h1 : ¬ pmu.elpg_stat = ElpgStat.OFF_ON_PENDING := by rw [hon]; decide
      have h2 : ¬ pmu.elpg_stat = ElpgStat.ON_PENDING := by rw [hon]; decide
      rw [if_neg h1, if_neg h2, if_neg (fun hn => hn hon)]
      rw [hp1] at hpost
      exact disable_elpg_post_timeout c fuel _ env r hpost hs
    · have h1 : ¬ pmu.elpg_stat = ElpgStat.OFF_ON_PENDING := by rw [h2]; decide
      rw [if_neg h1, if_pos h2, hwait h2, if_neg (fun hn => hn h3)]
      rw [hp1] at hpost
      exact disable_elpg_post_timeout c fuel _ env r hpost hs

/-- Three runs of `gk20a_pmu_disable_elpg` with the constants of `gk20a` and no
acknowledgement arriving: from OFF_ON_PENDING it returns 0 and the state is OFF; from
ON_PENDING it returns `-EBUSY` and the state is unchanged; from ON it posts the
DISALLOW command (the head register of queue 0 moves to 2056), and returns `-EBUSY`
with the state still ON. -/
theorem disable_elpg_returns_witness :
    pmu_enable_pending.elpg_ready = true ∧ pmu_on_pending.elpg_ready = true ∧
    pmu_elpg_on.elpg_ready = true ∧
    (∃ p, gk20a_pmu_disable_elpg gk20a 1 pmu_enable_pending id = Res.ok (p, 0) ∧
      p.elpg_stat = ElpgStat.OFF) ∧
    gk20a_pmu_disable_elpg gk20a 1 pmu_on_pending id = Res.ok (pmu_on_pending, -EBUSY) ∧
    (∃ p, gk20a_pmu_disable_elpg gk20a 1 pmu_elpg_on id = Res.ok (p, -EBUSY) ∧
      p.elpg_stat = ElpgStat.ON ∧ p.hw.queue_head 0 = 2056) :=
  ⟨rfl, rfl, rfl,
    ⟨_, rfl, (disable_elpg_returns gk20a 1 pmu_enable_pending id rfl).1 _ rfl⟩,
    (disable_elpg_returns gk20a 1 pmu_on_pending id rfl).2.1 rfl (by decide),
    ⟨_, (disable_elpg_returns gk20a 1 pmu_elpg_on id rfl).2.2 pmu_elpg_on _
      (Or.inl ⟨rfl, rfl⟩) rfl (by decide), rfl, rfl⟩⟩

/-! ## C23: the debounce timer -/

/-- When the state is OFF_ON_PENDING the timer function opens the allow gate and does
nothing else: the call of `gk20a_pmu_enable_elpg` it makes returns at the test
`pmu->elpg_stat != PMU_ELPG_STAT_OFF`. -/
theorem elpg_enable_allow_pending (c : Consts) (fuel : Nat) (pmu : Pmu) (golden : Bool)
    (h : pmu.elpg_stat = ElpgStat.OFF_ON_PENDING) :
    pmu_elpg_enable_allow c fuel pmu golden = Res.ok { pmu with elpg_enable_allow := true } := by
  simp only [pmu_elpg_enable_allow, h, if_true, gk20a_pmu_enable_elpg]
  by_cases h1 : pmu.elpg_ready = true
  · by_cases h2 : golden = true
    · simp [h1, h2, Res.bind]
    · simp [h1, h2, Res.bind]
  · simp [h1, Res.bind]

/-- C23 fails on the code: the state `pmu_enable_pending` is the one in which
`gk20a_pmu_enable_elpg` leaves `pmu_gate_closed` (power gating ready, golden image
initialised, state OFF, allow gate closed, timer running): the state is
OFF_ON_PENDING. When the timer expires and its function `pmu_elpg_enable_allow` runs,
the allow gate is opened, but no command is posted and the state is still
OFF_ON_PENDING, because the `gk20a_pmu_enable_elpg` it calls returns at once for every
state other than OFF. A later `gk20a_pmu_enable_elpg` does nothing either. -/
theorem timer_leaves_enable_pending :
    (∀ fuel, gk20a_pmu_enable_elpg gk20a fuel pmu_gate_closed true =
      Res.ok (pmu_enable_pending, 0)) ∧
    pmu_timer_expired.elpg_ready = true ∧
    pmu_timer_expired.elpg_stat = ElpgStat.OFF_ON_PENDING ∧
    (∀ fuel, pmu_elpg_enable_allow gk20a fuel pmu_timer_expired true =
      Res.ok { pmu_timer_expired with elpg_enable_allow := true }) ∧
    ({ pmu_timer_expired with elpg_enable_allow := true } : Pmu).elpg_stat =
      ElpgStat.OFF_ON_PENDING ∧
    ({ pmu_timer_expired with elpg_enable_allow := true } : Pmu).hw = pmu_timer_expired.hw ∧
    (∀ fuel, gk20a_pmu_enable_elpg gk20a fuel
        { pmu_timer_expired with elpg_enable_allow := true } true =
      Res.ok ({ pmu_timer_expired with elpg_enable_allow := true }, 0)) := by
  refine ⟨fun _ => rfl, rfl, rfl, fun fuel => ?_, rfl, rfl, fun _ => rfl⟩
  exact elpg_enable_allow_pending gk20a fuel pmu_timer_expired true rfl

/-! ## C24: acknowledgements of the power-gating unit -/

/-- C24: the three acknowledgement types being distinct (they are the labels of one
`switch`), `pmu_handle_pg_elpg_msg` called with status 0 sets the state to ON for an
ALLOW acknowledgement, to OFF for a DISALLOW acknowledgement, and sets the readiness
flag (leaving the state as it is) for an INIT acknowledgement; with a non-zero status,
or with any other acknowledgement type, it leaves the whole driver state unchanged. -/
theorem elpg_ack_transitions (c : Consts) (pmu : Pmu) (msg : PmuMsg) (status : Int)
    (h1 : c.PMU_PG_ELPG_MSG_INIT_ACK ≠ c.PMU_PG_ELPG_MSG_ALLOW_ACK)
    (h2 : c.PMU_PG_ELPG_MSG_INIT_ACK ≠ c.PMU_PG_ELPG_MSG_DISALLOW_ACK)
    (h3 : c.PMU_PG_ELPG_MSG_ALLOW_ACK ≠ c.PMU_PG_ELPG_MSG_DISALLOW_ACK) :
    (c.pg_elpg_msg msg.msg = c.PMU_PG_ELPG_MSG_ALLOW_ACK →
      pmu_handle_pg_elpg_msg c pmu msg 0 = { pmu with elpg_stat := ElpgStat.ON }) ∧
    (c.pg_elpg_msg msg.msg = c.PMU_PG_ELPG_MSG_DISALLOW_ACK →
      pmu_handle_pg_elpg_msg c pmu msg 0 = { pmu with elpg_stat := ElpgStat.OFF }) ∧
    (c.pg_elpg_msg msg.msg = c.PMU_PG_ELPG_MSG_INIT_ACK →
      pmu_handle_pg_elpg_msg c pmu msg 0 = { pmu with elpg_ready := true } ∧
      (pmu_handle_pg_elpg_msg c pmu msg 0).elpg_stat = pmu.elpg_stat) ∧
    (status ≠ 0 → pmu_handle_pg_elpg_msg c pmu msg status = pmu) ∧
    (c.pg_elpg_msg msg.msg ≠ c.PMU_PG_ELPG_MSG_INIT_ACK →
      c.pg_elpg_msg msg.msg ≠ c.PMU_PG_ELPG_MSG_ALLOW_ACK →
      c.pg_elpg_msg msg.msg ≠ c.PMU_PG_ELPG_MSG_DISALLOW_ACK →
      pmu_handle_pg_elpg_msg c pmu msg 0 = pmu) := by
  refine ⟨?_, ?_, ?_, ?_, ?_⟩
  · intro h
    have h1' : ¬ c.PMU_PG_ELPG_MSG_ALLOW_ACK = c.PMU_PG_ELPG_MSG_INIT_ACK := fun e => h1 e.symm
    simp [pmu_handle_pg_elpg_msg, h, h1']
  · intro h
    have h2' : ¬ c.PMU_PG_ELPG_MSG_DISALLOW_ACK = c.PMU_PG_ELPG_MSG_INIT_ACK :=
      fun e => h2 e.symm
    have h3' : ¬ c.PMU_PG_ELPG_MSG_DISALLOW_ACK = c.PMU_PG_ELPG_MSG_ALLOW_ACK :=
      fun e => h3 e.symm
    simp [pmu_handle_pg_elpg_msg, h, h2', h3']
  · intro h
    constructor
    · simp [pmu_handle_pg_elpg_msg, h]
    · simp [pmu_handle_pg_elpg_msg, h]
  · intro h
    simp [pmu_handle_pg_elpg_msg, h]
  · intro ha hb hc
    simp [pmu_handle_pg_elpg_msg, ha, hb, hc]

/-- With the constants of `gk20a`, in the state `pmu_on_pending`: an ALLOW
acknowledgement (type 2) moves the state from ON_PENDING to ON. -/
theorem elpg_ack_transitions_witness :
    gk20a.PMU_PG_ELPG_MSG_INIT_ACK ≠ gk20a.PMU_PG_ELPG_MSG_ALLOW_ACK ∧
    gk20a.PMU_PG_ELPG_MSG_INIT_ACK ≠ gk20a.PMU_PG_ELPG_MSG_DISALLOW_ACK ∧
    gk20a.PMU_PG_ELPG_MSG_ALLOW_ACK ≠ gk20a.PMU_PG_ELPG_MSG_DISALLOW_ACK ∧
    gk20a.pg_elpg_msg (msg_elpg_ack 2).msg = gk20a.PMU_PG_ELPG_MSG_ALLOW_ACK ∧
    pmu_on_pending.elpg_stat = ElpgStat.ON_PENDING ∧
    pmu_handle_pg_elpg_msg gk20a pmu_on_pending (msg_elpg_ack 2) 0 =
      { pmu_on_pending with elpg_stat := ElpgStat.ON } :=
  ⟨by decide, by decide, by decide, by decide, rfl,
    (elpg_ack_transitions gk20a pmu_on_pending (msg_elpg_ack 2) 0 (by decide) (by decide)
      (by decide)).1 (by decide)⟩

/-! ## C25: opening a queue that is already open -/

theorem mutex_acquire_loop_queue (c : Consts) (id : Nat) (fuel : Nat) :
    ∀ (p p1 : Pmu), pmu_mutex_acquire_loop c id fuel p = Res.ok p1 → p1.queue = p.queue := by
  induction fuel with
  | zero =>
    intro p p1 h
    simp [pmu_mutex_acquire_loop] at h
  | succ k ih =>
    intro p p1 h
    simp only [pmu_mutex_acquire_loop] at h
    split_ifs at h with h1 h2
    · have hh := ih _ _ h
      exact hh
    · injection h with h
      rw [← h]
    · have hh := ih _ _ h
      exact hh

theorem mutex_acquire_queue (c : Consts) (fuel : Nat) (p : Pmu) (id token : Nat)
    (r : Pmu × Option Int) (h : pmu_mutex_acquire c fuel p id token = Res.ok r) :
    r.1.queue = p.queue ∧ (r.2 = some 0 ∨ r.2 = none) := by
  simp only [pmu_mutex_acquire] at h
  split_ifs at h with h1 h2 h3
  · injection h with h
    rw [← h]
    exact ⟨rfl, Or.inl rfl⟩
  · cases hl : pmu_mutex_acquire_loop c id fuel p with
    | ok p1 =>
      rw [hl] at h
      injection h with h
      rw [← h]
      exact ⟨mutex_acquire_loop_queue c id fuel p p1 hl, Or.inr rfl⟩
    | bug => rw [hl] at h; exact absurd h (by simp)
    | deadlock => rw [hl] at h; exact absurd h (by simp)
    | undef => rw [hl] at h; exact absurd h (by simp)
    | nofuel => rw [hl] at h; exact absurd h (by simp)

/-- A `pmu_queue_lock` that returns has returned 0 and has left the open flag, the
direction and the position of the queue as they were. -/
theorem queue_lock_opened (c : Consts) (fuel : Nat) (p : Pmu) (qi : Nat)
    (r : Pmu × Int) (h : pmu_queue_lock c fuel p qi = Res.ok r) :
    r.2 = 0 ∧ (r.1.queue qi).opened = (p.queue qi).opened ∧
      (r.1.queue qi).oflag = (p.queue qi).oflag ∧
      (r.1.queue qi).position = (p.queue qi).position := by
  simp only [pmu_queue_lock] at h
  split_ifs at h with h1 h2 h3
  · injection h with h; rw [← h]; exact ⟨rfl, rfl, rfl, rfl⟩
  · injection h with h; rw [← h]; simp
  · cases ha : pmu_mutex_acquire c fuel p (p.queue qi).mutex_id (p.queue qi).mutex_lock with
    | ok a =>
      obtain ⟨hq, hv⟩ := mutex_acquire_queue c fuel p _ _ a ha
      rw [ha] at h
      obtain ⟨a1, a2⟩ := a
      simp only [] at hq hv
      rcases hv with hv | hv
      · subst hv
        simp only [if_true] at h
        injection h with h
        rw [← h]
        simp [hq]
      · subst hv
        simp at h
    | bug => rw [ha] at h; exact absurd h (by simp)
    | deadlock => rw [ha] at h; exact absurd h (by simp)
    | undef => rw [ha] at h; exact absurd h (by simp)
    | nofuel => rw [ha] at h; exact absurd h (by simp)

/-- C25 (amended): for a queue that is already open, `pmu_queue_open_write` and
`pmu_queue_open_read` never return, so the recorded direction and position are never
replaced. On the message queue, which takes no lock, and on a software command queue
whose kernel mutex is free, they reach `BUG()`; on a software command queue whose
kernel mutex is held, as it is while the queue is open, they block in `mutex_lock`
before the test of the open flag is reached. -/
theorem open_of_open_queue (c : Consts) (fuel : Nat) (pmu : Pmu) (qi size : Nat)
    (ho : (pmu.queue qi).opened = true) :
    (∀ r, pmu_queue_open_write c fuel pmu qi size ≠ Res.ok r) ∧
    (∀ r, pmu_queue_open_read c fuel pmu qi ≠ Res.ok r) ∧
    (c.PMU_IS_MESSAGE_QUEUE (pmu.queue qi).id = true →
      pmu_queue_open_write c fuel pmu qi size = Res.bug ∧
      pmu_queue_open_read c fuel pmu qi = Res.bug) ∧
    (c.PMU_IS_MESSAGE_QUEUE (pmu.queue qi).id = false →
      c.PMU_IS_SW_COMMAND_QUEUE (pmu.queue qi).id = true → (pmu.queue qi).mutex = false →
      pmu_queue_open_write c fuel pmu qi size = Res.bug ∧
      pmu_queue_open_read c fuel pmu qi = Res.bug) ∧
    (c.PMU_IS_MESSAGE_QUEUE (pmu.queue qi).id = false →
      c.PMU_IS_SW_COMMAND_QUEUE (pmu.queue qi).id = true → (pmu.queue qi).mutex = true →
      pmu_queue_open_write c fuel pmu qi size = Res.deadlock ∧
      pmu_queue_open_read c fuel pmu qi = Res.deadlock) := by
  refine ⟨?_, ?_, ?_, ?_, ?_⟩
  · intro r h
    simp only [pmu_queue_open_write] at h
    cases hl : pmu_queue_lock c fuel pmu qi with
    | ok l =>
      obtain ⟨h0, hop, _, _⟩ := queue_lock_opened c fuel pmu qi l hl
      rw [hl] at h
      simp only [Res.bind, h0, ne_eq, not_true_eq_false, if_false, hop, ho, if_true] at h
      exact absurd h (by simp)
    | bug => rw [hl] at h; simp [Res.bind] at h
    | deadlock => rw [hl] at h; simp [Res.bind] at h
    | undef => rw [hl] at h; simp [Res.bind] at h
    | nofuel => rw [hl] at h; simp [Res.bind] at h
  · intro r h
    simp only [pmu_queue_open_read] at h
    cases hl : pmu_queue_lock c fuel pmu qi with
    | ok l =>
      obtain ⟨h0, hop, _, _⟩ := queue_lock_opened c fuel pmu qi l hl
      rw [hl] at h
      simp only [Res.bind, h0, ne_eq, not_true_eq_false, if_false, hop, ho, if_true] at h
      exact absurd h (by simp)
    | bug => rw [hl] at h; simp [Res.bind] at h
    | deadlock => rw [hl] at h; simp [Res.bind] at h
    | undef => rw [hl] at h; simp [Res.bind] at h
    | nofuel => rw [hl] at h; simp [Res.bind] at h
  · intro hm
    simp [pmu_queue_open_write, pmu_queue_open_read, pmu_queue_lock, hm, Res.bind, ho]
  · intro hm hs hmx
    simp [pmu_queue_open_write, pmu_queue_open_read, pmu_queue_lock, hm, hs, hmx, Res.bind, ho]
  · intro hm hs hmx
    simp [pmu_queue_open_write, pmu_queue_open_read, pmu_queue_lock, hm, hs, hmx, Res.bind]

/-- On the open message queue of `pmu_msgq_open` both opens reach `BUG()`. -/
theorem open_of_open_queue_witness :
    pmu_queue_open_read gk20a 1 pmu_used3 4 = Res.ok (pmu_msgq_open, 0) ∧
    (pmu_msgq_open.queue 4).opened = true ∧
    gk20a.PMU_IS_MESSAGE_QUEUE (pmu_msgq_open.queue 4).id = true ∧
    pmu_queue_open_write gk20a 1 pmu_msgq_open 4 8 = Res.bug ∧
    pmu_queue_open_read gk20a 1 pmu_msgq_open 4 = Res.bug :=
  ⟨rfl, rfl, rfl, (open_of_open_queue gk20a 1 pmu_msgq_open 4 8 rfl).2.2.1 rfl⟩

/-- C25, as stated, fails: after `pmu_queue_open_write` has opened the software command
queue 0 of `pmu0`, a second `pmu_queue_open_write` and a `pmu_queue_open_read` of the
same queue do not reach `BUG()`: they block in `mutex_lock(&queue->mutex)`, which the
first open holds. -/
theorem open_of_open_sw_queue_blocks :
    ∃ p, pmu_queue_open_write gk20a 1 pmu0 0 8 = Res.ok (p, 0) ∧
      (p.queue 0).opened = true ∧ (p.queue 0).mutex = true ∧
      pmu_queue_open_write gk20a 1 p 0 8 = Res.deadlock ∧
      pmu_queue_open_read gk20a 1 p 0 = Res.deadlock :=
  ⟨_, rfl, rfl, rfl, rfl, rfl⟩

/-! ## C26: closing a queue -/

theorem head_set_queue (c : Consts) (pmu : Pmu) (q : PmuQueue) (v : Nat) :
    (pmu_queue_head_set c pmu q v).queue = pmu.queue ∧
    (pmu_queue_head_set c pmu q v).mutex = pmu.mutex ∧
    (pmu_queue_head_set c pmu q v).mutex_cnt = pmu.mutex_cnt ∧
    (pmu_queue_head_set c pmu q v).hw.mutex = pmu.hw.mutex := by
  simp only [pmu_queue_head_set]
  split_ifs <;> exact ⟨rfl, rfl, rfl, rfl⟩

theorem tail_set_queue (c : Consts) (pmu : Pmu) (q : PmuQueue) (v : Nat) :
    (pmu_queue_tail_set c pmu q v).queue = pmu.queue ∧
    (pmu_queue_tail_set c pmu q v).mutex = pmu.mutex ∧
    (pmu_queue_tail_set c pmu q v).mutex_cnt = pmu.mutex_cnt ∧
    (pmu_queue_tail_set c pmu q v).hw.mutex = pmu.hw.mutex := by
  simp only [pmu_queue_tail_set]
  split_ifs <;> exact ⟨rfl, rfl, rfl, rfl⟩

theorem mutex_release_queue (c : Consts) (p : Pmu) (id token : Nat)
    (r : Pmu × Int) (h : pmu_mutex_release c p id token = Res.ok r) :
    r.1.queue = p.queue ∧ r.1.mutex_cnt = p.mutex_cnt := by
  simp only [pmu_mutex_release] at h
  split_ifs at h <;> (injection h with h; rw [← h]; exact ⟨rfl, rfl⟩)

/-- A `pmu_queue_unlock` that returns has returned 0 and has left the open flag of the
queue as it was. -/
theorem queue_unlock_opened (c : Consts) (p : Pmu) (qi : Nat)
    (r : Pmu × Int) (h : pmu_queue_unlock c p qi = Res.ok r) :
    r.2 = 0 ∧ (r.1.queue qi).opened = (p.queue qi).opened := by
  simp only [pmu_queue_unlock] at h
  split_ifs at h with h1 h2 h3
  · injection h with h; rw [← h]; exact ⟨rfl, rfl⟩
  · injection h with h; rw [← h]; simp
  · cases ha : pmu_mutex_release c p (p.queue qi).mutex_id (p.queue qi).mutex_lock with
    | ok a =>
      have hq := (mutex_release_queue c p _ _ a ha).1
      rw [ha] at h
      simp only [] at h
      split_ifs at h
      · injection h with h; rw [← h]; simp [hq]
      · injection h with h; rw [← h]; simp [hq]
    | bug => rw [ha] at h; exact absurd h (by simp)
    | deadlock => rw [ha] at h; exact absurd h (by simp)
    | undef => rw [ha] at h; exact absurd h (by simp)
    | nofuel => rw [ha] at h; exact absurd h (by simp)
  · injection h with h; rw [← h]; exact ⟨rfl, rfl⟩

theorem close_opened_eq (c : Consts) (pmu : Pmu) (qi : Nat) (commit : Bool)
    (ho : (pmu.queue qi).opened = true) :
    pmu_queue_close c pmu qi commit =
      (pmu_queue_unlock c (close_pre_unlock c pmu qi commit) qi).bind fun r => Res.ok (r.1, 0) := by
  simp only [pmu_queue_close, ho, Bool.not_true, Bool.false_eq_true, if_false, close_pre_unlock]

theorem close_pre_unlock_proj (c : Consts) (pmu : Pmu) (qi : Nat) (commit : Bool) :
    (close_pre_unlock c pmu qi commit).queue qi = { pmu.queue qi with opened := false } ∧
    (close_pre_unlock c pmu qi commit).mutex = pmu.mutex ∧
    (close_pre_unlock c pmu qi commit).mutex_cnt = pmu.mutex_cnt ∧
    (close_pre_unlock c pmu qi commit).hw.mutex = pmu.hw.mutex := by
  simp only [close_pre_unlock]
  refine ⟨by simp, ?_, ?_, ?_⟩
  · cases commit
    · rfl
    · simp only [if_true]
      split_ifs
      · exact (tail_set_queue c pmu _ _).2.1
      · exact (head_set_queue c pmu _ _).2.1
  · cases commit
    · rfl
    · simp only [if_true]
      split_ifs
      · exact (tail_set_queue c pmu _ _).2.2.1
      · exact (head_set_queue c pmu _ _).2.2.1
  · cases commit
    · rfl
    · simp only [if_true, setQueue_hw]
      split_ifs
      · exact (tail_set_queue c pmu _ _).2.2.2
      · exact (head_set_queue c pmu _ _).2.2.2

/-- C26 (amended): for every queue state and either value of `commit`, a
`pmu_queue_close` that returns has returned 0 with the queue marked closed. For a
queue that is not open it returns at once and changes nothing, so a lock that is held
stays held. For an open software command queue it returns with the lock released: the
`locked` flag is clear and the kernel mutex free. For the open message queue, which
has no lock, it returns with the `locked` flag as it was. For an open hardware-locked
queue whose `locked` flag is set and whose token is the owner of its hardware mutex
(the mutex id being valid), it returns with the `locked` flag clear. -/
theorem close_marks_closed (c : Consts) (pmu : Pmu) (qi : Nat) (commit : Bool) :
    (∀ r, pmu_queue_close c pmu qi commit = Res.ok r →
      r.2 = 0 ∧ (r.1.queue qi).opened = false) ∧
    ((pmu.queue qi).opened = false → pmu_queue_close c pmu qi commit = Res.ok (pmu, 0)) ∧
    ((pmu.queue qi).opened = true → c.PMU_IS_MESSAGE_QUEUE (pmu.queue qi).id = false →
      c.PMU_IS_SW_COMMAND_QUEUE (pmu.queue qi).id = true →
      ∃ p, pmu_queue_close c pmu qi commit = Res.ok (p, 0) ∧ (p.queue qi).opened = false ∧
        (p.queue qi).locked = false ∧ (p.queue qi).mutex = false) ∧
    ((pmu.queue qi).opened = true → c.PMU_IS_MESSAGE_QUEUE (pmu.queue qi).id = true →
      ∃ p, pmu_queue_close c pmu qi commit = Res.ok (p, 0) ∧ (p.queue qi).opened = false ∧
        (p.queue qi).locked = (pmu.queue qi).locked) ∧
    ((pmu.queue qi).opened = true → IsHwQueue c (pmu.queue qi) →
      (pmu.queue qi).locked = true →
      c.PMU_MUTEX_ID_IS_VALID (pmu.queue qi).mutex_id = true →
      (pmu.queue qi).mutex_id ≤ pmu.mutex_cnt →
      (pmu.queue qi).mutex_lock = pmu.hw.mutex (pmu.mutex (pmu.queue qi).mutex_id).index →
      ∃ p, pmu_queue_close c pmu qi commit = Res.ok (p, 0) ∧ (p.queue qi).opened = false ∧
        (p.queue qi).locked = false) := by
  obtain ⟨hq, hmx, hcnt, hhw⟩ := close_pre_unlock_proj c pmu qi commit
  refine ⟨?_, ?_, ?_, ?_, ?_⟩
  · intro r h
    by_cases ho : (pmu.queue qi).opened = true
    · rw [close_opened_eq c pmu qi commit ho] at h
      cases hu : pmu_queue_unlock c (close_pre_unlock c pmu qi commit) qi with
      | ok u =>
        obtain ⟨_, hop⟩ := queue_unlock_opened c _ qi u hu
        rw [hu] at h
        simp only [Res.bind] at h
        injection h with h
        rw [← h]
        refine ⟨rfl, ?_⟩
        simp only [hop, hq]
      | bug => rw [hu] at h; simp [Res.bind] at h
      | deadlock => rw [hu] at h; simp [Res.bind] at h
      | undef => rw [hu] at h; simp [Res.bind] at h
      | nofuel => rw [hu] at h; simp [Res.bind] at h
    · simp only [Bool.not_eq_true] at ho
      simp only [pmu_queue_close, ho, Bool.not_false, if_true] at h
      injection h with h
      rw [← h]
      exact ⟨rfl, ho⟩
  · intro ho
    simp [pmu_queue_close, ho]
  · intro ho hm hs
    rw [close_opened_eq c pmu qi commit ho]
    have hu : pmu_queue_unlock c (close_pre_unlock c pmu qi commit) qi =
        Res.ok ((close_pre_unlock c pmu qi commit).setQueue qi
          { (close_pre_unlock c pmu qi commit).queue qi with mutex := false, locked := false },
          0) := by
      simp only [pmu_queue_unlock, hq, hm, hs, Bool.false_eq_true, if_false, if_true]
    rw [hu]
    refine ⟨_, rfl, ?_, ?_, ?_⟩
    · simp [hq]
    · simp
    · simp
  · intro ho hm
    rw [close_opened_eq c pmu qi commit ho]
    have hu : pmu_queue_unlock c (close_pre_unlock c pmu qi commit) qi =
        Res.ok (close_pre_unlock c pmu qi commit, 0) := by
      simp only [pmu_queue_unlock, hq, hm, if_true]
    rw [hu]
    refine ⟨_, rfl, ?_, ?_⟩
    · simp [hq]
    · simp [hq]
  · intro ho hhwq hl hv hle htok
    obtain ⟨hm, hs⟩ := hhwq
    rw [close_opened_eq c pmu qi commit ho]
    have hgt : ¬ (pmu.queue qi).mutex_id > pmu.mutex_cnt := by omega
    have hrel : ∃ p, pmu_mutex_release c (close_pre_unlock c pmu qi commit)
        (pmu.queue qi).mutex_id (pmu.queue qi).mutex_lock = Res.ok (p, 0) := by
      simp only [pmu_mutex_release, hv, Bool.not_true, Bool.false_eq_true, if_false, hcnt, hgt,
        hmx, hhw, htok, ne_eq, not_true_eq_false]
      split_ifs <;> exact ⟨_, rfl⟩
    obtain ⟨p, hp⟩ := hrel
    have hpq := (mutex_release_queue c _ _ _ _ hp).1
    have hu : pmu_queue_unlock c (close_pre_unlock c pmu qi commit) qi =
        Res.ok (p.setQueue qi { p.queue qi with locked := false }, 0) := by
      simp only [pmu_queue_unlock, hq, hm, hs, Bool.false_eq_true, if_false, hl, if_true, hp]
    rw [hu]
    refine ⟨_, rfl, ?_, ?_⟩
    · simp only [Res.bind, setQueue_queue_same]
      simp only [] at hpq
      rw [hpq, hq]
    · simp

/-- Closing two open queues with the constants of `gk20a`: the software command queue 0
of `pmu0` after a `pmu_queue_open_write`, with commit, and the hardware-locked queue 2
of `pmu_hwq_open`, without commit. -/
theorem close_marks_closed_witness :
    (∃ p1, pmu_queue_open_write gk20a 1 pmu0 0 8 = Res.ok (p1, 0) ∧
      (p1.queue 0).opened = true ∧ (p1.queue 0).locked = true ∧
      ∃ p, pmu_queue_close gk20a p1 0 true = Res.ok (p, 0) ∧ (p.queue 0).opened = false ∧
        (p.queue 0).locked = false ∧ (p.queue 0).mutex = false) ∧
    ((pmu_hwq_open.queue 2).opened = true ∧ (pmu_hwq_open.queue 2).locked = true ∧
      ∃ p, pmu_queue_close gk20a pmu_hwq_open 2 false = Res.ok (p, 0) ∧
        (p.queue 2).opened = false ∧ (p.queue 2).locked = false) :=
  ⟨⟨_, rfl, rfl, rfl,
      (close_marks_closed gk20a _ 0 true).2.2.1 rfl rfl rfl⟩,
    rfl, rfl,
    (close_marks_closed gk20a pmu_hwq_open 2 false).2.2.2.2 rfl ⟨rfl, rfl⟩ rfl rfl
      (by decide) rfl⟩

/-- C26, as stated, fails: in the state `pmu_full`, `pmu_queue_open_write` for 8 bytes
on queue 0 returns `-EAGAIN` with the queue locked and not open; `pmu_queue_close` of
that queue, with either value of `commit`, returns 0 at its first test and changes
nothing: the `locked` flag is still set and the kernel mutex still held. -/
theorem close_of_unopened_queue_keeps_lock :
    ∃ p, pmu_queue_open_write gk20a 1 pmu_full 0 8 = Res.ok (p, -EAGAIN) ∧
      (p.queue 0).opened = false ∧ (p.queue 0).locked = true ∧ (p.queue 0).mutex = true ∧
      pmu_queue_close gk20a p 0 true = Res.ok (p, 0) ∧
      pmu_queue_close gk20a p 0 false = Res.ok (p, 0) :=
  ⟨_, rfl, rfl, rfl, rfl, rfl, rfl⟩

/-! ## C27: push and pop on a queue that is not open for them -/

/-- C27 fails on the code. Queue 0 of `pmu0` opened for read and closed again is not
open, and its direction flag is `OFLAG_READ`: `pmu_queue_push` of 4 bytes of value 255
returns 0, stores the word at the position 2048 and moves the position to 2052; the
same happens while the queue is open for read. Queue 0 opened for write, after a
push of 8 bytes (position 2056, head register 2048), is not open for read:
`pmu_queue_pop` of 8 bytes returns 0, reports 8 bytes read, copies them from DMEM and
moves the position to 2064. The tests are `!queue->opened && queue->oflag == ...`, so
`-EINVAL` is returned only for a closed queue whose last direction is the requested
one. -/
theorem push_pop_on_unopened_queue_proceed :
    (∃ p1 p2, pmu_queue_open_read gk20a 1 pmu0 0 = Res.ok (p1, 0) ∧
      pmu_queue_close gk20a p1 0 false = Res.ok (p2, 0) ∧
      (p1.queue 0).opened = true ∧ (p1.queue 0).oflag = Oflag.OFLAG_READ ∧
      (p2.queue 0).opened = false ∧ (p2.queue 0).oflag = Oflag.OFLAG_READ ∧
      (p2.queue 0).position = 2048 ∧ p2.hw.dmem 2048 = 0 ∧
      (pmu_queue_push gk20a p2 0 (fun _ => 255) 4).2 = 0 ∧
      (pmu_queue_push gk20a p2 0 (fun _ => 255) 4).1.hw.dmem 2048 = 4294967295 ∧
      ((pmu_queue_push gk20a p2 0 (fun _ => 255) 4).1.queue 0).position = 2052 ∧
      (pmu_queue_push gk20a p1 0 (fun _ => 255) 4).2 = 0 ∧
      (pmu_queue_push gk20a p1 0 (fun _ => 255) 4).1.hw.dmem 2048 = 4294967295 ∧
      ((pmu_queue_push gk20a p1 0 (fun _ => 255) 4).1.queue 0).position = 2052) ∧
    (∃ p3 r, pmu_queue_open_write gk20a 1 pmu0 0 8 = Res.ok (p3, 0) ∧
      ((pmu_queue_push gk20a p3 0 (fun _ => 255) 8).1.queue 0).opened = true ∧
      ((pmu_queue_push gk20a p3 0 (fun _ => 255) 8).1.queue 0).oflag = Oflag.OFLAG_WRITE ∧
      ((pmu_queue_push gk20a p3 0 (fun _ => 255) 8).1.queue 0).position = 2056 ∧
      pmu_queue_pop gk20a (pmu_queue_push gk20a p3 0 (fun _ => 255) 8).1 0 (fun _ => 0) 8
        = Res.ok r ∧
      r.err = 0 ∧ r.bytes_read = 8 ∧ (r.pmu.queue 0).position = 2064 ∧
      r.pmu.hw.dmemc = 2064) ∧
    (pmu_queue_push gk20a (pmu0.setQueue 0 { pmu0.queue 0 with oflag := Oflag.OFLAG_WRITE }) 0
        (fun _ => 255) 4).2 = -EINVAL := by
  refine ⟨⟨_, _, rfl, rfl, rfl, rfl, rfl, rfl, rfl, rfl, rfl, ?_, rfl, rfl, ?_, rfl⟩,
    ⟨_, _, rfl, rfl, rfl, rfl, rfl, rfl, rfl, rfl, rfl⟩, rfl⟩
  · decide
  · decide

/-! ## C28: how many bytes a pop transfers -/

/-- C28 (amended): for a queue that is open (so in particular for one open for read), with
head register `H` and position `p` (the position 4-byte aligned, head and position
inside the queue, as the queue code keeps them, and the alignment unit being 4),
`pmu_queue_pop` of at most `max` bytes returns 0 and reports `n = min(max, used)` bytes
read, where `used = H - p` if `H > p`, `used = offset + size - p` if `H < p` and
`used = 0` if `H = p`; the destination holds the `n` bytes of DMEM from the (masked)
address `p` on and is unchanged beyond them, DMEM itself is unchanged, and the position
has advanced by `n` rounded up to a multiple of 4. With `H = p` nothing is transferred
and the state is unchanged. -/
theorem pop_transfers_min (c : Consts) (pmu : Pmu) (qi : Nat) (data : Buf) (max H : Nat)
    (ho : (pmu.queue qi).opened = true)
    (hH : pmu_queue_head_get c pmu (pmu.queue qi) = some H)
    (hQA : c.QUEUE_ALIGNMENT = 4)
    (hal : (pmu.queue qi).position % 4 = 0)
    (hgeom : (pmu.queue qi).offset + (pmu.queue qi).size + 3 < U32)
    (hHin : H ≤ (pmu.queue qi).offset + (pmu.queue qi).size)
    (hpin : (pmu.queue qi).position ≤ (pmu.queue qi).offset + (pmu.queue qi).size) :
    ∃ r used, pmu_queue_pop c pmu qi data max = Res.ok r ∧
      used = (if H > (pmu.queue qi).position then H - (pmu.queue qi).position
              else if H < (pmu.queue qi).position then
                (pmu.queue qi).offset + (pmu.queue qi).size - (pmu.queue qi).position
              else 0) ∧
      r.err = 0 ∧ r.bytes_read = min max used ∧
      r.data = buf_after_read pmu.hw.dmem ((pmu.queue qi).position &&& c.addr_mask)
        (min max used) data ∧
      (r.pmu.queue qi).position = (pmu.queue qi).position + (min max used + 3) / 4 * 4 ∧
      r.pmu.hw.dmem = pmu.hw.dmem ∧
      (H = (pmu.queue qi).position → r.pmu = pmu ∧ r.data = data ∧ r.bytes_read = 0) := by
  have hg : ¬ ((pmu.queue qi).opened = false ∧ (pmu.queue qi).oflag = Oflag.OFLAG_READ) := by
    rw [ho]; simp
  have hb0 : ∀ a, buf_after_read pmu.hw.dmem a 0 data = data := by
    intro a
    funext j
    simp [buf_after_read]
  by_cases heq : H = (pmu.queue qi).position
  · refine ⟨{ pmu := pmu, data := data, bytes_read := 0, err := 0 }, 0, ?_, ?_, rfl, ?_, ?_, ?_,
      rfl, fun _ => ⟨rfl, rfl, rfl⟩⟩
    · simp [pmu_queue_pop, ho, hH, heq]
    · rw [if_neg (by omega), if_neg (by omega)]
    · simp
    · simp [hb0]
    · simp
  · -- the number of bytes between the position and the head, or the end of the queue
    obtain ⟨used, hused⟩ : ∃ u, u = (if H > (pmu.queue qi).position then
        H - (pmu.queue qi).position
        else (pmu.queue qi).offset + (pmu.queue qi).size - (pmu.queue qi).position) := ⟨_, rfl⟩
    have hsub : sub32 (add32 (pmu.queue qi).offset (pmu.queue qi).size) (pmu.queue qi).position
        = (pmu.queue qi).offset + (pmu.queue qi).size - (pmu.queue qi).position := by
      simp only [sub32, add32, U32] at *
      omega
    have hmin : (if max > used then used else max) = min max used := by
      by_cases hm : max > used
      · rw [if_pos hm]; omega
      · rw [if_neg hm]; omega
    have hule : used ≤ (pmu.queue qi).offset + (pmu.queue qi).size := by
      rw [hused]; split_ifs <;> omega
    have hn3 : min max used + 3 < U32 := by omega
    have hunf : pmu_queue_pop c pmu qi data max =
        Res.ok {
          pmu := ({ pmu with hw := (pmu_copy_from_dmem c pmu.hw (pmu.queue qi).position data
                    (min max used)).1 } : Pmu).setQueue qi
            { pmu.queue qi with
              position :=
                add32 (pmu.queue qi).position (ALIGN (min max used) c.QUEUE_ALIGNMENT) },
          data := (pmu_copy_from_dmem c pmu.hw (pmu.queue qi).position data (min max used)).2,
          bytes_read := min max used, err := 0 } := by
      simp only [pmu_queue_pop, ho, hH, heq, hsub, ← hused, hmin, Bool.not_true,
        Bool.false_eq_true, false_and, if_false]
    have hused' : used = (if H > (pmu.queue qi).position then H - (pmu.queue qi).position
        else if H < (pmu.queue qi).position then
          (pmu.queue qi).offset + (pmu.queue qi).size - (pmu.queue qi).position
        else 0) := by
      rw [hused]
      by_cases h1 : H > (pmu.queue qi).position
      · rw [if_pos h1, if_pos h1]
      · rw [if_neg h1, if_neg h1, if_pos (by omega)]
    have hpos : add32 (pmu.queue qi).position (ALIGN (min max used) c.QUEUE_ALIGNMENT)
        = (pmu.queue qi).position + (min max used + 3) / 4 * 4 := by
      rw [hQA, ALIGN_four _ hn3]
      simp only [add32]
      apply Nat.mod_eq_of_lt
      have : (pmu.queue qi).position + used ≤ (pmu.queue qi).offset + (pmu.queue qi).size := by
        rw [hused]; split_ifs <;> omega
      omega
    refine ⟨_, used, hunf, hused', rfl, rfl, ?_, ?_, ?_, fun h => absurd h heq⟩
    · by_cases hn : 0 < min max used
      · simp only [pmu_copy_from_dmem_eq c pmu.hw _ data _ hn hal]
      · have hn0 : min max used = 0 := by omega
        rw [hn0, hb0]
        simp [pmu_copy_from_dmem]
    · simp only [setQueue_queue_same, hpos]
    · by_cases hn : 0 < min max used
      · simp only [setQueue_hw, pmu_copy_from_dmem_eq c pmu.hw _ data _ hn hal]
      · have hn0 : min max used = 0 := by omega
        rw [hn0]
        simp [pmu_copy_from_dmem]

/-- In the state `pmu_msgq_12`, which holds 12 bytes, a pop of at most 16 bytes
transfers the 12 bytes (`min 16 12`) and moves the position from 2560 to 2572. -/
theorem pop_transfers_min_witness :
    (pmu_msgq_12.queue 4).opened = true ∧ (pmu_msgq_12.queue 4).oflag = Oflag.OFLAG_READ ∧
    pmu_queue_head_get gk20a pmu_msgq_12 (pmu_msgq_12.queue 4) = some 2572 ∧
    (pmu_msgq_12.queue 4).position = 2560 ∧
    ∃ r used, pmu_queue_pop gk20a pmu_msgq_12 4 (fun _ => 0) 16 = Res.ok r ∧
      used = (if 2572 > (pmu_msgq_12.queue 4).position then
                2572 - (pmu_msgq_12.queue 4).position
              else if 2572 < (pmu_msgq_12.queue 4).position then
                (pmu_msgq_12.queue 4).offset + (pmu_msgq_12.queue 4).size
                  - (pmu_msgq_12.queue 4).position
              else 0) ∧
      r.err = 0 ∧ r.bytes_read = min 16 used ∧
      r.data = buf_after_read pmu_msgq_12.hw.dmem
        ((pmu_msgq_12.queue 4).position &&& gk20a.addr_mask) (min 16 used) (fun _ => 0) ∧
      (r.pmu.queue 4).position = (pmu_msgq_12.queue 4).position + (min 16 used + 3) / 4 * 4 ∧
      r.pmu.hw.dmem = pmu_msgq_12.hw.dmem ∧
      (2572 = (pmu_msgq_12.queue 4).position →
        r.pmu = pmu_msgq_12 ∧ r.data = (fun _ => 0) ∧ r.bytes_read = 0) :=
  ⟨rfl, rfl, rfl, rfl,
    pop_transfers_min gk20a pmu_msgq_12 4 (fun _ => 0) 16 2572 rfl rfl rfl (by decide)
      (by decide) (by decide) (by decide)⟩

/-! ## C29: the wraparound scenario with a 64-byte queue -/

/-- With capacity 64, header size 8 and the head at 40, a request of 60 bytes has no
room, wherever the tail is inside the queue. -/
theorem no_room_for_60 (t : Nat) (ht : t ≤ 64) :
    has_room gk20a_hdr8 ((pmu_q64 40).queue 0) 40 t 60 = false := by
  have hA : ALIGN 60 gk20a_hdr8.QUEUE_ALIGNMENT = 60 := by decide
  have hF : free_before_end gk20a_hdr8 ((pmu_q64 40).queue 0) 40 = 16 := by decide
  have hoff : ((pmu_q64 40).queue 0).offset = 0 := rfl
  simp only [has_room, need_rewind, hA, hF, hoff, decide_eq_false_iff_not, not_le]
  by_cases h1 : 40 ≥ t
  · have e : decide (40 ≥ t ∧ 60 > 16) = true := by simp [h1]
    rw [e]
    simp only [if_true]
    split_ifs <;> omega
  · have e : decide (40 ≥ t ∧ 60 > 16) = false := by simp [h1]
    rw [e]
    simp only [Bool.false_eq_true, if_false]
    split_ifs <;> omega

/-- C29 (amended): with a queue of capacity 64 bytes at offset 0, alignment unit 4 and
header size 8, and the head at 40, a 60-byte command is refused: it fails the tests
of `pmu_validate_cmd` (60 is more than half the capacity), and
`pmu_queue_open_write` for 60 bytes returns `-EAGAIN`, writing nothing and leaving the
queue not open, wherever the tail is inside the queue. A 20-byte command with head and
tail at 40 passes the tests and triggers the rewind: `pmu_queue_open_write` succeeds
with the position at 0 after storing a rewind marker at offset 40 (the word 2048:
unit id 0, size 8); push and close(commit) store the command from offset 0 on and set
the head register to 20; `pmu_read_message`, with the tail register at 40, returns the
header and the body of the command and commits the tail 20. -/
theorem rewind_scenario_q64 :
    ((pmu_q64 40).queue 0).offset = 0 ∧ ((pmu_q64 40).queue 0).size = 64 ∧
    gk20a_hdr8.QUEUE_ALIGNMENT = 4 ∧ gk20a_hdr8.PMU_CMD_HDR_SIZE = 8 ∧
    pmu_validate_cmd_checks gk20a_hdr8 (pmu_q64 40) cmd60 none none 0 = false ∧
    (∀ fuel t, t ≤ 64 →
      ∃ p, pmu_queue_open_write gk20a_hdr8 fuel (pmu_q64_ht 40 t) 0 60 = Res.ok (p, -EAGAIN) ∧
        p.hw = (pmu_q64_ht 40 t).hw ∧ (p.queue 0).opened = false) ∧
    pmu_validate_cmd_checks gk20a_hdr8 (pmu_q64 40) cmd20 none none 0 = true ∧
    ∃ p1 p3 r,
      pmu_queue_open_write gk20a_hdr8 1 (pmu_q64 40) 0 20 = Res.ok (p1, 0) ∧
      (p1.queue 0).position = 0 ∧ p1.hw.dmem 40 = 2048 ∧
      pmu_queue_close gk20a_hdr8 (pmu_queue_push gk20a_hdr8 p1 0 (cmd20.image gk20a_hdr8) 20).1
        0 true = Res.ok (p3, 0) ∧
      p3.hw.dmem 40 = 2048 ∧
      (∀ j, j < 20 → lane (p3.hw.dmem (4 * (j / 4))) (j % 4) = cmd20.image gk20a_hdr8 j) ∧
      p3.hw.queue_head 0 = 20 ∧ p3.hw.queue_tail 0 = 40 ∧
      pmu_read_message gk20a_hdr8 1 p3 0 PmuMsg.zero = Res.ok r ∧
      r.ret = true ∧ r.status = 0 ∧ r.msg.hdr = cmd20.hdr ∧
      (∀ i, i < 12 → r.msg.msg i = cmd20.cmd i) ∧
      r.pmu.hw.queue_tail 0 = 20 := by
  refine ⟨rfl, rfl, rfl, rfl, by decide, ?_, by decide, ?_⟩
  · intro fuel t ht
    have hsw : IsSwQueue gk20a_hdr8 ((pmu_q64_ht 40 t).queue 0) :=
      ⟨rfl, rfl, rfl, (by decide : 0 < 4), (by decide : 0 < 4)⟩
    have h := pmu_queue_open_write_sw gk20a_hdr8 fuel (pmu_q64_ht 40 t) 0 60 hsw rfl rfl
    have hroom := no_room_for_60 t ht
    have hqq : (pmu_q64_ht 40 t).queue 0 = (pmu_q64 40).queue 0 := rfl
    rw [← hqq] at hroom
    have hh : (pmu_q64_ht 40 t).hw.queue_head ((pmu_q64_ht 40 t).queue 0).index = 40 := rfl
    have htl : (pmu_q64_ht 40 t).hw.queue_tail ((pmu_q64_ht 40 t).queue 0).index = t := rfl
    rw [hh, htl, hroom] at h
    simp only [Bool.false_eq_true, if_false] at h
    exact ⟨_, h, rfl, rfl⟩
  · -- the writer's side, by evaluation
    have hwr : ∃ p1 p3,
        pmu_queue_open_write gk20a_hdr8 1 (pmu_q64 40) 0 20 = Res.ok (p1, 0) ∧
        (p1.queue 0).position = 0 ∧ p1.hw.dmem 40 = 2048 ∧
        pmu_queue_close gk20a_hdr8
          (pmu_queue_push gk20a_hdr8 p1 0 (cmd20.image gk20a_hdr8) 20).1 0 true
            = Res.ok (p3, 0) ∧
        p3.hw.dmem 40 = 2048 ∧
        (∀ j, j < 20 → lane (p3.hw.dmem (4 * (j / 4))) (j % 4) = cmd20.image gk20a_hdr8 j) ∧
        p3.hw.queue_head 0 = 20 ∧ p3.hw.queue_tail 0 = 40 ∧
        (p3.queue 0).id = 0 ∧ (p3.queue 0).index = 0 ∧ (p3.queue 0).offset = 0 ∧
        (p3.queue 0).size = 64 ∧ (p3.queue 0).opened = false ∧ (p3.queue 0).mutex = false := by
      refine ⟨_, _, rfl, rfl, rfl, rfl, rfl, ?_, rfl, rfl, rfl, rfl, rfl, rfl, rfl, rfl⟩
      decide
    obtain ⟨p1, p3, h1, hpos, hm1, h3, hm3, hcmd, hH, hT, hid, hidx, hoff, hsz, hop, hmx⟩ := hwr
    have hsw : IsSwQueue gk20a_hdr8 (p3.queue 0) := by
      unfold IsSwQueue
      rw [hid, hidx]
      exact ⟨rfl, rfl, rfl, by decide, by decide⟩
    -- the reader's side
    obtain ⟨r, hr, hret, hst, hhdr, hmsg, htail, _⟩ :=
      read_message_after_rewind gk20a_hdr8 1 p3 0 PmuMsg.zero cmd20 20 40 rfl (by decide)
        (by decide) hsw hop hmx (by rw [hoff, hsz]; decide)
        (fun a h4 hlt => land_addr_mask_gk20a a h4
          (Nat.lt_trans hlt (by rw [hoff, hsz]; decide)))
        (by decide) (by rw [hoff]) (by rw [hoff, hsz]; decide)
        (by rw [hidx, hH, hoff]) (by rw [hidx, hT]) (by rw [hoff]; decide)
        (by rw [hm3]; decide)
        (by
          intro j hj
          rw [hoff, Nat.zero_add]
          exact hcmd j hj)
        (by decide) rfl (by decide) (by decide) (by decide) (by decide) (by decide)
    rw [hidx, hoff] at htail
    refine ⟨p1, p3, r, h1, hpos, hm1, h3, hm3, hcmd, hH, hT, hr, hret, hst, hhdr, ?_, htail⟩
    intro i hi
    exact hmsg i (by
      have e : gk20a_hdr8.sizeof_pmu_hdr = 8 := rfl
      rw [e]
      omega)

/-- C29, as stated, fails: with capacity 64, alignment unit 4, header size 8 and head
and tail at 40, the 60-byte command fails the tests of `pmu_validate_cmd`, and
`pmu_queue_open_write` for 60 bytes returns `-EAGAIN`: the queue is not opened, its
position is not set, and no rewind marker is written at offset 40. -/
theorem enqueue_60_at_40_refused :
    ((pmu_q64 40).queue 0).offset = 0 ∧ ((pmu_q64 40).queue 0).size = 64 ∧
    (pmu_q64 40).hw.queue_head 0 = 40 ∧ (pmu_q64 40).hw.queue_tail 0 = 40 ∧
    gk20a_hdr8.QUEUE_ALIGNMENT = 4 ∧ gk20a_hdr8.PMU_CMD_HDR_SIZE = 8 ∧ cmd60.hdr.size = 60 ∧
    pmu_validate_cmd_checks gk20a_hdr8 (pmu_q64 40) cmd60 none none 0 = false ∧
    ∃ p, pmu_queue_open_write gk20a_hdr8 1 (pmu_q64 40) 0 60 = Res.ok (p, -EAGAIN) ∧
      (p.queue 0).opened = false ∧ (p.queue 0).position = ((pmu_q64 40).queue 0).position ∧
      p.hw.dmem 40 = 0 ∧ p.hw.queue_head 0 = 40 := by
  refine ⟨rfl, rfl, rfl, rfl, rfl, rfl, rfl, by decide, _, rfl, rfl, rfl, rfl, rfl⟩

/-! ## C30: which slot an acquisition takes -/

/-- C30: whenever `pmu_seq_acquire` succeeds (returns 0) it stores a slot position `i`
in `*pseq`; bit `i` of the bitmap was clear and every bit below `i` was set, so `i`
is the lowest-numbered position whose bit is clear; the resulting state is the old
one with bit `i` set and the state of slot `i` PENDING, so no other bit, no other
slot and no other field of slot `i` is changed. -/
theorem seq_acquire_takes_lowest_clear_bit (c : Consts) (pmu : Pmu)
    (h : (pmu_seq_acquire c pmu).2.1 = 0) :
    ∃ i, (pmu_seq_acquire c pmu).2.2 = some i ∧
      pmu.pmu_seq_tbl i = false ∧ (∀ j, j < i → pmu.pmu_seq_tbl j = true) ∧
      (pmu_seq_acquire c pmu).1 =
        { pmu with
          pmu_seq_tbl := Function.update pmu.pmu_seq_tbl i true,
          seq := Function.update pmu.seq i { pmu.seq i with state := SeqState.PENDING } } ∧
      (pmu_seq_acquire c pmu).1.pmu_seq_tbl i = true ∧
      ((pmu_seq_acquire c pmu).1.seq i).state = SeqState.PENDING ∧
      (∀ j, j ≠ i → (pmu_seq_acquire c pmu).1.pmu_seq_tbl j = pmu.pmu_seq_tbl j) ∧
      (∀ j, j ≠ i → (pmu_seq_acquire c pmu).1.seq j = pmu.seq j) := by
  by_cases hge : find_first_zero_bit pmu.pmu_seq_tbl c.sizeof_pmu_seq_tbl ≥ c.sizeof_pmu_seq_tbl
  · simp only [pmu_seq_acquire, if_pos hge] at h
    simp [EAGAIN] at h
  · have hunf : pmu_seq_acquire c pmu =
        ({ pmu with
            pmu_seq_tbl := Function.update pmu.pmu_seq_tbl
              (find_first_zero_bit pmu.pmu_seq_tbl c.sizeof_pmu_seq_tbl) true,
            seq := Function.update pmu.seq
              (find_first_zero_bit pmu.pmu_seq_tbl c.sizeof_pmu_seq_tbl)
              { pmu.seq (find_first_zero_bit pmu.pmu_seq_tbl c.sizeof_pmu_seq_tbl) with
                state := SeqState.PENDING } }, 0,
          some (find_first_zero_bit pmu.pmu_seq_tbl c.sizeof_pmu_seq_tbl)) := by
      simp only [pmu_seq_acquire, if_neg hge, Pmu.setSeq]
    rw [hunf]
    refine ⟨_, rfl, ffz_clear _ _ (by omega), fun j hj => ffz_min _ _ j hj, rfl, ?_, ?_, ?_, ?_⟩
    · simp
    · simp
    · intro j hj
      simp [Function.update, hj]
    · intro j hj
      simp [Function.update, hj]

/-- In the state `pmu_used3`, whose only set bit is bit 3, the acquisition succeeds
and takes slot 0. -/
theorem seq_acquire_takes_lowest_clear_bit_witness :
    (pmu_seq_acquire gk20a pmu_used3).2.1 = 0 ∧
    (pmu_seq_acquire gk20a pmu_used3).2.2 = some 0 ∧
    ∃ i, (pmu_seq_acquire gk20a pmu_used3).2.2 = some i ∧
      pmu_used3.pmu_seq_tbl i = false ∧ (∀ j, j < i → pmu_used3.pmu_seq_tbl j = true) ∧
      (pmu_seq_acquire gk20a pmu_used3).1 =
        { pmu_used3 with
          pmu_seq_tbl := Function.update pmu_used3.pmu_seq_tbl i true,
          seq := Function.update pmu_used3.seq i
            { pmu_used3.seq i with state := SeqState.PENDING } } ∧
      (pmu_seq_acquire gk20a pmu_used3).1.pmu_seq_tbl i = true ∧
      ((pmu_seq_acquire gk20a pmu_used3).1.seq i).state = SeqState.PENDING ∧
      (∀ j, j ≠ i → (pmu_seq_acquire gk20a pmu_used3).1.pmu_seq_tbl j = pmu_used3.pmu_seq_tbl j) ∧
      (∀ j, j ≠ i → (pmu_seq_acquire gk20a pmu_used3).1.seq j = pmu_used3.seq j) :=
  ⟨rfl, rfl, seq_acquire_takes_lowest_clear_bit gk20a pmu_used3 rfl⟩

/-! ## C32: the token released after a failed acquisition -/

/-- C32 fails on the code: in the state `pmu_mutex3_taken` the owner register of
hardware mutex 3 holds 5. One turn of the loop of `pmu_mutex_acquire` for mutex 3
generates the candidate token 1, writes it to the owner register, reads back 5, and
then writes the value 3, the index of the mutex, to the token-release register; the
candidate token 1 is not handed back. The loop goes on with the state so changed, in
which the next candidate token is 2. -/
theorem mutex_acquire_releases_index_not_token :
    (pmu_mutex3_taken.mutex 3).index = 3 ∧
    pmu_mutex3_taken.hw.mutex 3 = 5 ∧
    (readl_mutex_id pmu_mutex3_taken.hw).1 = 1 ∧
    (writel_mutex gk20a (readl_mutex_id pmu_mutex3_taken.hw).2 3 1).mutex 3 = 5 ∧
    (readl_mutex_id { pmu_mutex3_taken.hw with mutex_id_cnt := 1, mutex_id_released := [3] }).1
      = 2 ∧
    ∀ fuel, pmu_mutex_acquire_loop gk20a 3 (fuel + 1) pmu_mutex3_taken =
      pmu_mutex_acquire_loop gk20a 3 fuel
        { pmu_mutex3_taken with
          hw := { pmu_mutex3_taken.hw with mutex_id_cnt := 1, mutex_id_released := [3] } } := by
  refine ⟨rfl, rfl, rfl, rfl, rfl, fun fuel => rfl⟩

/-! ## C36: the lock after a failed open for write -/

/-- C36 fails on the code: in the state `pmu_full`, `pmu_queue_open_write` for 8 bytes on
the software command queue 0 returns `-EAGAIN`; the queue is not open, but its
`locked` flag is set and its kernel mutex is held. The next `pmu_queue_lock`,
`pmu_queue_open_write` (the retry of `pmu_write_cmd`) or `pmu_queue_open_read` of the
queue blocks on that mutex. -/
theorem open_write_full_keeps_lock :
    (pmu_full.queue 0).locked = false ∧ (pmu_full.queue 0).mutex = false ∧
    ∃ p, pmu_queue_open_write gk20a 1 pmu_full 0 8 = Res.ok (p, -EAGAIN) ∧
      (p.queue 0).opened = false ∧ (p.queue 0).locked = true ∧ (p.queue 0).mutex = true ∧
      pmu_queue_lock gk20a 1 p 0 = Res.deadlock ∧
      pmu_queue_open_write gk20a 1 p 0 8 = Res.deadlock ∧
      pmu_queue_open_read gk20a 1 p 0 = Res.deadlock :=
  ⟨rfl, rfl, _, rfl, rfl, rfl, rfl, rfl, rfl, rfl⟩

/-! ## C33: when disabling power gating posts -/

/-- C33: `gk20a_pmu_disable_elpg` calls `gk20a_pmu_cmd_post` at one place only, at the
start of its second half, with the DISALLOW command, and it enters that half only in a
state that is ON. With power gating not ready, or the state OFF, it returns 0 in the
state it was called in; from OFF_ON_PENDING it returns 0 having only set the state to
OFF; from ON_PENDING it first waits, and if the state is not ON after the wait it
returns `-EBUSY` in the state the wait ended in, while if the state is ON it enters
the second half from there; from ON it enters the second half at once. -/
theorem disable_elpg_posts_only_when_on (c : Consts) (fuel : Nat) (pmu : Pmu) (env : Pmu → Pmu) :
    (pmu.elpg_ready = false → gk20a_pmu_disable_elpg c fuel pmu env = Res.ok (pmu, 0)) ∧
    (pmu.elpg_ready = true → pmu.elpg_stat = ElpgStat.OFF →
      gk20a_pmu_disable_elpg c fuel pmu env = Res.ok (pmu, 0)) ∧
    (pmu.elpg_ready = true → pmu.elpg_stat = ElpgStat.OFF_ON_PENDING →
      gk20a_pmu_disable_elpg c fuel pmu env =
        Res.ok ({ pmu with elpg_stat := ElpgStat.OFF }, 0)) ∧
    (pmu.elpg_ready = true → pmu.elpg_stat = ElpgStat.ON_PENDING →
      (env pmu).elpg_stat ≠ ElpgStat.ON →
      gk20a_pmu_disable_elpg c fuel pmu env = Res.ok (env pmu, -EBUSY)) ∧
    (pmu.elpg_ready = true → pmu.elpg_stat = ElpgStat.ON_PENDING →
      (env pmu).elpg_stat = ElpgStat.ON →
      gk20a_pmu_disable_elpg c fuel pmu env = gk20a_pmu_disable_elpg_post c fuel (env pmu) env) ∧
    (pmu.elpg_ready = true → pmu.elpg_stat = ElpgStat.ON →
      gk20a_pmu_disable_elpg c fuel pmu env = gk20a_pmu_disable_elpg_post c fuel pmu env) ∧
    (∀ p, gk20a_pmu_disable_elpg_post c fuel p env =
      (gk20a_pmu_cmd_post c fuel p (elpg_cmd c c.PMU_PG_ELPG_CMD_DISALLOW) none none
          c.PMU_COMMAND_QUEUE_HPQ (some Callback.pmu_handle_pg_elpg_msg) pmu_self
          4294967295).bind fun r =>
        if (wait_event_interruptible_timeout env
            (fun p => decide (p.elpg_stat = ElpgStat.OFF)) r.pmu).elpg_stat ≠ ElpgStat.OFF then
          Res.ok (wait_event_interruptible_timeout env
            (fun p => decide (p.elpg_stat = ElpgStat.OFF)) r.pmu, -EBUSY)
        else if !(wait_event_interruptible_timeout env
            (fun p => decide (p.elpg_stat = ElpgStat.OFF)) r.pmu).elpg_timer_pending then
          Res.ok ({ wait_event_interruptible_timeout env
              (fun p => decide (p.elpg_stat = ElpgStat.OFF)) r.pmu with
            elpg_enable_allow := false, elpg_timer_pending := true }, 0)
        else Res.ok (wait_event_interruptible_timeout env
          (fun p => decide (p.elpg_stat = ElpgStat.OFF)) r.pmu, 0)) := by
  have hwait : pmu.elpg_stat = ElpgStat.ON_PENDING →
      wait_event_interruptible_timeout env (fun p => decide (p.elpg_stat = ElpgStat.ON)) pmu
        = env pmu := by
    intro h
    simp [wait_event_interruptible_timeout, h]
  refine ⟨?_, ?_, ?_, ?_, ?_, ?_, fun p => rfl⟩
  · intro h
    simp [gk20a_pmu_disable_elpg, h]
  · intro h hs
    simp [gk20a_pmu_disable_elpg, h, hs]
  · intro h hs
    simp [gk20a_pmu_disable_elpg, h, hs]
  · intro h hs he
    have h1 : ¬ pmu.elpg_stat = ElpgStat.OFF_ON_PENDING := by rw [hs]; decide
    simp only [gk20a_pmu_disable_elpg, h, Bool.not_true, Bool.false_eq_true, if_false]
    rw [if_neg h1, if_pos hs, hwait hs, if_pos he]
  · intro h hs he
    have h1 : ¬ pmu.elpg_stat = ElpgStat.OFF_ON_PENDING := by rw [hs]; decide
    simp only [gk20a_pmu_disable_elpg, h, Bool.not_true, Bool.false_eq_true, if_false]
    rw [if_neg h1, if_pos hs, hwait hs, if_neg (fun hn => hn he)]
  · intro h hs
    have h1 : ¬ pmu.elpg_stat = ElpgStat.OFF_ON_PENDING := by rw [hs]; decide
    have h2 : ¬ pmu.elpg_stat = ElpgStat.ON_PENDING := by rw [hs]; decide
    simp only [gk20a_pmu_disable_elpg, h, Bool.not_true, Bool.false_eq_true, if_false]
    rw [if_neg h1, if_neg h2, if_neg (fun hn => hn hs)]

/-- Runs of `gk20a_pmu_disable_elpg` with the constants of `gk20a`. From ON_PENDING, with
nothing arriving, nothing is posted: the state and the hardware are as before and the
result is `-EBUSY`. From ON_PENDING with the acknowledgements arriving, the state is
ON after the first wait and the DISALLOW command is then posted (the head register of
queue 0 moves from 2048 to 2056, the word at 2048 carries the unit id 3 and the size
8); the result is 0 in state OFF. -/
theorem disable_elpg_posts_only_when_on_witness :
    pmu_on_pending.elpg_ready = true ∧ pmu_on_pending.elpg_stat = ElpgStat.ON_PENDING ∧
    pmu_on_pending.hw.queue_head 0 = 2048 ∧
    gk20a_pmu_disable_elpg gk20a 1 pmu_on_pending id = Res.ok (pmu_on_pending, -EBUSY) ∧
    (env_acks gk20a pmu_on_pending).elpg_stat = ElpgStat.ON ∧
    gk20a_pmu_disable_elpg gk20a 1 pmu_on_pending (env_acks gk20a) =
      gk20a_pmu_disable_elpg_post gk20a 1 (env_acks gk20a pmu_on_pending) (env_acks gk20a) ∧
    ∃ p, gk20a_pmu_disable_elpg gk20a 1 pmu_on_pending (env_acks gk20a) = Res.ok (p, 0) ∧
      p.elpg_stat = ElpgStat.OFF ∧ p.hw.queue_head 0 = 2056 ∧ p.hw.dmem 2048 = 198659 ∧
      p.hw.dmem 2052 = 65536 ∧ p.elpg_enable_allow = false ∧ p.elpg_timer_pending = true :=
  ⟨rfl, rfl, rfl,
    (disable_elpg_posts_only_when_on gk20a 1 pmu_on_pending id).2.2.2.1 rfl rfl (by decide),
    rfl,
    (disable_elpg_posts_only_when_on gk20a 1 pmu_on_pending (env_acks gk20a)).2.2.2.2.1
      rfl rfl rfl,
    _, rfl, rfl, rfl, rfl, rfl, rfl, rfl⟩

/-! ## Queue operations leave the tables, the allocator and the caller memory alone -/

theorem sameTable_setQueue (p : Pmu) (qi : Nat) (q : PmuQueue) : SameTable p (p.setQueue qi q) :=
  ⟨rfl, rfl, rfl, rfl, rfl, rfl⟩

theorem mutex_acquire_loop_sameTable (c : Consts) (id : Nat) (fuel : Nat) :
    ∀ (p p1 : Pmu), pmu_mutex_acquire_loop c id fuel p = Res.ok p1 → SameTable p p1 := by
  induction fuel with
  | zero =>
    intro p p1 h
    simp [pmu_mutex_acquire_loop] at h
  | succ k ih =>
    intro p p1 h
    simp only [pmu_mutex_acquire_loop] at h
    split_ifs at h with h1 h2
    · have hh := ih _ _ h
      exact hh
    · injection h with h
      rw [← h]
      exact ⟨rfl, rfl, rfl, rfl, rfl, rfl⟩
    · have hh := ih _ _ h
      exact hh

theorem mutex_acquire_sameTable (c : Consts) (fuel : Nat) (p : Pmu) (id token : Nat)
    (r : Pmu × Option Int) (h : pmu_mutex_acquire c fuel p id token = Res.ok r) :
    SameTable p r.1 := by
  simp only [pmu_mutex_acquire] at h
  split_ifs at h with h1 h2 h3
  · injection h with h
    rw [← h]
    exact ⟨rfl, rfl, rfl, rfl, rfl, rfl⟩
  · cases hl : pmu_mutex_acquire_loop c id fuel p with
    | ok p1 =>
      rw [hl] at h
      injection h with h
      rw [← h]
      exact mutex_acquire_loop_sameTable c id fuel p p1 hl
    | bug => rw [hl] at h; exact absurd h (by simp)
    | deadlock => rw [hl] at h; exact absurd h (by simp)
    | undef => rw [hl] at h; exact absurd h (by simp)
    | nofuel => rw [hl] at h; exact absurd h (by simp)

theorem mutex_release_sameTable (c : Consts) (p : Pmu) (id token : Nat)
    (r : Pmu × Int) (h : pmu_mutex_release c p id token = Res.ok r) :
    SameTable p r.1 := by
  simp only [pmu_mutex_release] at h
  split_ifs at h <;> (injection h with h; rw [← h]; exact ⟨rfl, rfl, rfl, rfl, rfl, rfl⟩)

theorem queue_lock_sameTable (c : Consts) (fuel : Nat) (p : Pmu) (qi : Nat)
    (r : Pmu × Int) (h : pmu_queue_lock c fuel p qi = Res.ok r) : SameTable p r.1 := by
  simp only [pmu_queue_lock] at h
  split_ifs at h with h1 h2 h3
  · injection h with h; rw [← h]; exact ⟨rfl, rfl, rfl, rfl, rfl, rfl⟩
  · injection h with h; rw [← h]; exact ⟨rfl, rfl, rfl, rfl, rfl, rfl⟩
  · cases ha : pmu_mutex_acquire c fuel p (p.queue qi).mutex_id (p.queue qi).mutex_lock with
    | ok a =>
      have hs := mutex_acquire_sameTable c fuel p _ _ a ha
      rw [ha] at h
      obtain ⟨a1, a2⟩ := a
      cases a2 with
      | none => simp at h
      | some e =>
        simp only [] at h
        split_ifs at h
        · injection h with h; rw [← h]; exact sameTable_trans hs ⟨rfl, rfl, rfl, rfl, rfl, rfl⟩
        · injection h with h; rw [← h]; exact hs
    | bug => rw [ha] at h; exact absurd h (by simp)
    | deadlock => rw [ha] at h; exact absurd h (by simp)
    | undef => rw [ha] at h; exact absurd h (by simp)
    | nofuel => rw [ha] at h; exact absurd h (by simp)

theorem queue_unlock_sameTable (c : Consts) (p : Pmu) (qi : Nat)
    (r : Pmu × Int) (h : pmu_queue_unlock c p qi = Res.ok r) : SameTable p r.1 := by
  simp only [pmu_queue_unlock] at h
  split_ifs at h with h1 h2 h3
  · injection h with h; rw [← h]; exact ⟨rfl, rfl, rfl, rfl, rfl, rfl⟩
  · injection h with h; rw [← h]; exact ⟨rfl, rfl, rfl, rfl, rfl, rfl⟩
  · cases ha : pmu_mutex_release c p (p.queue qi).mutex_id (p.queue qi).mutex_lock with
    | ok a =>
      have hs := mutex_release_sameTable c p _ _ a ha
      rw [ha] at h
      simp only [] at h
      split_ifs at h
      · injection h with h; rw [← h]; exact sameTable_trans hs ⟨rfl, rfl, rfl, rfl, rfl, rfl⟩
      · injection h with h; rw [← h]; exact hs
    | bug => rw [ha] at h; exact absurd h (by simp)
    | deadlock => rw [ha] at h; exact absurd h (by simp)
    | undef => rw [ha] at h; exact absurd h (by simp)
    | nofuel => rw [ha] at h; exact absurd h (by simp)
  · injection h with h; rw [← h]; exact ⟨rfl, rfl, rfl, rfl, rfl, rfl⟩

theorem queue_push_sameTable (c : Consts) (p : Pmu) (qi : Nat) (data : Buf) (size : Nat) :
    SameTable p (pmu_queue_push c p qi data size).1 := by
  simp only [pmu_queue_push]
  split_ifs
  · exact ⟨rfl, rfl, rfl, rfl, rfl, rfl⟩
  · exact ⟨rfl, rfl, rfl, rfl, rfl, rfl⟩

theorem queue_rewind_sameTable (c : Consts) (p : Pmu) (qi : Nat) :
    SameTable p (pmu_queue_rewind c p qi) := by
  simp only [pmu_queue_rewind]
  split_ifs
  · exact ⟨rfl, rfl, rfl, rfl, rfl, rfl⟩
  · exact sameTable_trans (queue_push_sameTable c p qi _ _) ⟨rfl, rfl, rfl, rfl, rfl, rfl⟩
  · exact ⟨rfl, rfl, rfl, rfl, rfl, rfl⟩

theorem queue_open_write_sameTable (c : Consts) (fuel : Nat) (p : Pmu) (qi size : Nat)
    (r : Pmu × Int) (h : pmu_queue_open_write c fuel p qi size = Res.ok r) : SameTable p r.1 := by
  simp only [pmu_queue_open_write] at h
  obtain ⟨a, ha, h⟩ := res_bind_ok _ _ _ h
  have hs := queue_lock_sameTable c fuel p qi a ha
  split_ifs at h with h1 h2
  · injection h with h; rw [← h]; exact hs
  · obtain ⟨b, _, h⟩ := res_bind_ok _ _ _ h
    split_ifs at h
    · injection h with h; rw [← h]; exact hs
    · injection h with h; rw [← h]
      exact sameTable_trans hs (sameTable_trans ⟨rfl, rfl, rfl, rfl, rfl, rfl⟩ (queue_rewind_sameTable c _ qi))
    · injection h with h; rw [← h]
      exact sameTable_trans hs ⟨rfl, rfl, rfl, rfl, rfl, rfl⟩

theorem head_set_sameTable (c : Consts) (p : Pmu) (q : PmuQueue) (v : Nat) :
    SameTable p (pmu_queue_head_set c p q v) := by
  simp only [pmu_queue_head_set]
  split_ifs <;> exact ⟨rfl, rfl, rfl, rfl, rfl, rfl⟩

theorem tail_set_sameTable (c : Consts) (p : Pmu) (q : PmuQueue) (v : Nat) :
    SameTable p (pmu_queue_tail_set c p q v) := by
  simp only [pmu_queue_tail_set]
  split_ifs <;> exact ⟨rfl, rfl, rfl, rfl, rfl, rfl⟩

theorem queue_close_sameTable (c : Consts) (p : Pmu) (qi : Nat) (commit : Bool)
    (r : Pmu × Int) (h : pmu_queue_close c p qi commit = Res.ok r) : SameTable p r.1 := by
  simp only [pmu_queue_close] at h
  split_ifs at h with h1 h2 h3
  · injection h with h; rw [← h]; exact ⟨rfl, rfl, rfl, rfl, rfl, rfl⟩
  · obtain ⟨a, ha, h⟩ := res_bind_ok _ _ _ h
    have hs := queue_unlock_sameTable c _ qi a ha
    injection h with h; rw [← h]
    exact sameTable_trans (sameTable_trans (tail_set_sameTable c p _ _) ⟨rfl, rfl, rfl, rfl, rfl, rfl⟩) hs
  · obtain ⟨a, ha, h⟩ := res_bind_ok _ _ _ h
    have hs := queue_unlock_sameTable c _ qi a ha
    injection h with h; rw [← h]
    exact sameTable_trans (sameTable_trans (head_set_sameTable c p _ _) ⟨rfl, rfl, rfl, rfl, rfl, rfl⟩) hs
  · obtain ⟨a, ha, h⟩ := res_bind_ok _ _ _ h
    have hs := queue_unlock_sameTable c _ qi a ha
    injection h with h; rw [← h]
    exact sameTable_trans ⟨rfl, rfl, rfl, rfl, rfl, rfl⟩ hs

theorem write_cmd_loop_sameTable (c : Consts) (qi size : Nat) (fuel : Nat) :
    ∀ (p : Pmu) (timeout : Nat) (r : Pmu × Int),
      pmu_write_cmd_loop c qi size fuel p timeout = Res.ok r → SameTable p r.1 := by
  induction fuel with
  | zero =>
    intro p t r h
    simp [pmu_write_cmd_loop] at h
  | succ k ih =>
    intro p t r h
    simp only [pmu_write_cmd_loop] at h
    obtain ⟨a, ha, h⟩ := res_bind_ok _ _ _ h
    have hs := queue_open_write_sameTable c k p qi size a ha
    split_ifs at h
    · exact sameTable_trans hs (ih _ _ _ h)
    · injection h with h; rw [← h]; exact hs

theorem write_cmd_sameTable (c : Consts) (fuel : Nat) (p : Pmu) (cmd : PmuCmd) (qi timeout : Nat)
    (r : Pmu × Int) (h : pmu_write_cmd c fuel p cmd qi timeout = Res.ok r) : SameTable p r.1 := by
  simp only [pmu_write_cmd] at h
  obtain ⟨a, ha, h⟩ := res_bind_ok _ _ _ h
  have hs := write_cmd_loop_sameTable c qi cmd.hdr.size fuel p timeout a ha
  split_ifs at h
  · injection h with h; rw [← h]; exact hs
  · exact sameTable_trans hs (sameTable_trans (queue_push_sameTable c _ qi _ _)
      (queue_close_sameTable c _ qi true r h))

/-! ## C31: the DMEM regions of a posted command -/

theorem get16_put16 (b : Buf) (k v : Nat) (hv : v < 65536) : get16 (put16 b k v) k = v := by
  simp [get16, put16]
  omega

theorem get32_put32 (b : Buf) (k v : Nat) : get32 (put32 b k v) k = v % U32 := by
  simp [get32, put32, U32]
  omega

theorem put32_other (b : Buf) (k v i : Nat) (h : i < k ∨ k + 4 ≤ i) : put32 b k v i = b i := by
  simp only [put32]
  repeat rw [if_neg (by omega)]

theorem put16_other (b : Buf) (k v i : Nat) (h : i < k ∨ k + 2 ≤ i) : put16 b k v i = b i := by
  simp only [put16]
  repeat rw [if_neg (by omega)]

theorem get16_put32 (b : Buf) (k j v : Nat) (h : j + 2 ≤ k ∨ k + 4 ≤ j) :
    get16 (put32 b k v) j = get16 b j := by
  simp only [get16]
  rw [put32_other b k v j (by omega), put32_other b k v (j + 1) (by omega)]

theorem get32_put16 (b : Buf) (k j v : Nat) (h : j + 4 ≤ k ∨ k + 2 ≤ j) :
    get32 (put16 b k v) j = get32 b j := by
  simp only [get32]
  rw [put16_other b k v j (by omega), put16_other b k v (j + 1) (by omega),
    put16_other b k v (j + 2) (by omega), put16_other b k v (j + 3) (by omega)]

/-- A successful call of the allocator has taken the next scripted result. -/
theorem alloc_eq_zero (a : Allocator) (len : Nat) (h : (a.alloc len).2.1 = 0) :
    ∃ o rest, a.script = (0, o) :: rest ∧
      a.alloc len = ({ a with script := rest, live := (o, len) :: a.live }, 0, some o) := by
  unfold Allocator.alloc at *
  cases hs : a.script with
  | nil =>
    rw [hs] at h
    simp [ENOMEM] at h
  | cons e rest =>
    obtain ⟨err, off⟩ := e
    rw [hs] at h
    simp only [] at h ⊢
    by_cases he : err = 0
    · subst he
      exact ⟨off, rest, rfl, by simp⟩
    · rw [if_neg he] at h
      exact absurd h he

theorem post_write_regions (c : Consts) (fuel : Nat) (p : Pmu) (cmd : PmuCmd) (si : Nat)
    (qi timeout : Nat) (sd : Option Nat) (r : PostResult)
    (hr : gk20a_pmu_cmd_post_write c fuel p cmd si qi timeout sd = Res.ok r) :
    r.pmu.dmem = p.dmem ∧ (r.pmu.seq si).in_ = (p.seq si).in_ ∧
      (r.pmu.seq si).out = (p.seq si).out := by
  simp only [gk20a_pmu_cmd_post_write] at hr
  obtain ⟨w, hw, hr⟩ := res_bind_ok _ _ _ hr
  have hs := write_cmd_sameTable c fuel p cmd qi timeout w hw
  injection hr with hr
  rw [← hr]
  simp only []
  by_cases h0 : w.2 = 0
  · rw [if_pos h0]
    refine ⟨hs.2.2.1, ?_, ?_⟩
    · simp [hs.1]
    · simp [hs.1]
  · rw [if_neg h0]
    exact ⟨hs.2.2.1, by rw [hs.1], by rw [hs.1]⟩

theorem post_out_regions (c : Consts) (fuel : Nat) (p : Pmu) (cmd : PmuCmd) (si : Nat)
    (pl : PmuPayload) (inp : Option Nat) (qi timeout : Nat) (sd : Option Nat) (r : PostResult)
    (hf1 : c.alloc_size_at + 2 ≤ c.alloc_offset_at ∨ c.alloc_offset_at + 4 ≤ c.alloc_size_at)
    (hr : gk20a_pmu_cmd_post_out c fuel p cmd si (some pl) inp qi timeout sd = Res.ok r)
    (hok : r.err = 0) :
    (r.pmu.seq si).in_ = (p.seq si).in_ ∧
    (pl.out.offset = 0 → r.pmu.dmem = p.dmem ∧ (r.pmu.seq si).out = (p.seq si).out) ∧
    (pl.out.offset ≠ 0 → pl.out.buf ≠ pl.in_.buf →
      ∃ o rest, p.dmem.script = (0, o) :: rest ∧
        r.pmu.dmem =
          { p.dmem with script := rest, live := (o, pl.out.size % 65536) :: p.dmem.live } ∧
        (r.pmu.seq si).out = { size := pl.out.size % 65536, offset := o % U32 }) ∧
    (pl.out.offset ≠ 0 → pl.out.buf = pl.in_.buf → ∀ ki, inp = some ki →
      (ki + c.alloc_offset_at + 4 ≤ pl.out.offset + c.alloc_size_at ∨
        pl.out.offset + c.alloc_size_at + 2 ≤ ki + c.alloc_offset_at) →
      r.pmu.dmem = p.dmem ∧
      (r.pmu.seq si).out =
        { size := pl.out.size % 65536,
          offset := get32 cmd.cmd (ki + c.alloc_offset_at) % U32 }) := by
  have hlt : pl.out.size % 65536 < 65536 := Nat.mod_lt _ (by norm_num)
  simp only [gk20a_pmu_cmd_post_out] at hr
  by_cases h1 : pl.out.offset ≠ 0
  · rw [if_pos h1] at hr
    by_cases h2 : pl.out.buf ≠ pl.in_.buf
    · rw [if_pos h2] at hr
      simp only [get16_put16 _ _ _ hlt] at hr
      by_cases h3 : (p.dmem.alloc (pl.out.size % 65536)).2.1 = 0
      · obtain ⟨o, rest, hscr, hal⟩ := alloc_eq_zero _ _ h3
        rw [hal] at hr
        simp only [ne_eq, not_true_eq_false, if_false] at hr
        obtain ⟨e1, e2, e3⟩ := post_write_regions c fuel _ _ si qi timeout sd r hr
        refine ⟨?_, fun h0 => absurd h0 h1, fun _ _ => ⟨o, rest, hscr, ?_, ?_⟩,
          fun _ h => absurd h h2⟩
        · rw [e2]; simp
        · exact e1
        · rw [e3]
          simp only [setSeq_seq_same]
          rw [get16_put32 _ _ _ _ (by omega), get16_put16 _ _ _ hlt, get32_put32]
      · rw [if_pos h3] at hr
        injection hr with hr
        rw [← hr] at hok
        exact absurd hok h3
    · rw [if_neg h2] at hr
      cases inp with
      | none => simp at hr
      | some ki =>
        simp only [] at hr
        obtain ⟨e1, e2, e3⟩ := post_write_regions c fuel _ _ si qi timeout sd r hr
        refine ⟨?_, fun h0 => absurd h0 h1, fun _ h => absurd (by simpa using h2) h,
          fun _ _ kj hkj hd => ⟨?_, ?_⟩⟩
        · rw [e2]; simp
        · exact e1
        · have hk : ki = kj := by simpa using hkj
          subst hk
          rw [e3]
          simp only [setSeq_seq_same]
          rw [get16_put32 _ _ _ _ (by omega), get16_put16 _ _ _ hlt, get32_put32,
            get32_put16 _ _ _ _ (by omega)]
  · rw [if_neg h1] at hr
    obtain ⟨e1, e2, e3⟩ := post_write_regions c fuel _ _ si qi timeout sd r hr
    have h0 : pl.out.offset = 0 := by simpa using h1
    exact ⟨e2, fun _ => ⟨e1, e3⟩, fun h => absurd h0 h, fun h => absurd h0 h⟩

theorem setSeq_dmem (p : Pmu) (i : Nat) (s : PmuSequence) : (p.setSeq i s).dmem = p.dmem :=
  rfl

theorem post_in_regions (c : Consts) (fuel : Nat) (p : Pmu) (cmd : PmuCmd) (si : Nat)
    (pl : PmuPayload) (qi timeout : Nat) (sd : Option Nat) (r : PostResult)
    (hf1 : c.alloc_size_at + 2 ≤ c.alloc_offset_at ∨ c.alloc_offset_at + 4 ≤ c.alloc_size_at)
    (hf2 : c.alloc_size_at + 2 ≤ c.sizeof_pmu_allocation)
    (hf3 : c.alloc_offset_at + 4 ≤ c.sizeof_pmu_allocation)
    (hrec : pl.out.offset = 0 ∨ pl.in_.offset + c.sizeof_pmu_allocation ≤ pl.out.offset ∨
      pl.out.offset + c.sizeof_pmu_allocation ≤ pl.in_.offset)
    (hin : pl.in_.offset ≠ 0)
    (hr : gk20a_pmu_cmd_post_in c fuel p cmd si (some pl) qi timeout sd = Res.ok r)
    (hok : r.err = 0) :
    ∃ o rest sz, p.dmem.script = (0, o) :: rest ∧
      sz = (if pl.in_.buf ≠ pl.out.buf then pl.in_.size % 65536
            else max pl.in_.size pl.out.size % 65536) ∧
      (r.pmu.seq si).in_ = { size := sz, offset := o % U32 } ∧
      (pl.out.offset = 0 →
        r.pmu.dmem = { p.dmem with script := rest, live := (o, sz) :: p.dmem.live } ∧
        (r.pmu.seq si).out = (p.seq si).out) ∧
      (pl.out.offset ≠ 0 → pl.out.buf = pl.in_.buf →
        r.pmu.dmem = { p.dmem with script := rest, live := (o, sz) :: p.dmem.live } ∧
        (r.pmu.seq si).out = { size := pl.out.size % 65536, offset := o % U32 }) ∧
      (pl.out.offset ≠ 0 → pl.out.buf ≠ pl.in_.buf →
        ∃ o2 rest2, rest = (0, o2) :: rest2 ∧
          r.pmu.dmem =
            { p.dmem with
              script := rest2,
              live := (o2, pl.out.size % 65536) :: (o, sz) :: p.dmem.live } ∧
          (r.pmu.seq si).out = { size := pl.out.size % 65536, offset := o2 % U32 }) := by
  obtain ⟨sz, hsz⟩ : ∃ sz, sz = (if pl.in_.buf ≠ pl.out.buf then pl.in_.size % 65536
      else max pl.in_.size pl.out.size % 65536) := ⟨_, rfl⟩
  have hszlt : sz < 65536 := by
    rw [hsz]
    split_ifs <;> exact Nat.mod_lt _ (by norm_num)
  simp only [gk20a_pmu_cmd_post_in] at hr
  rw [if_pos hin, ← hsz] at hr
  simp only [get16_put16 _ _ _ hszlt] at hr
  by_cases h3 : (p.dmem.alloc sz).2.1 = 0
  · obtain ⟨o, rest, hscr, hal⟩ := alloc_eq_zero _ _ h3
    rw [hal] at hr
    simp only [ne_eq, not_true_eq_false, if_false] at hr
    have hcases : pl.in_.buf = none ∨ ∃ b, pl.in_.buf = some b := by
      cases pl.in_.buf <;> simp
    rcases hcases with hb | ⟨b, hb⟩
    · rw [hb] at hr
      simp at hr
    · rw [hb] at hr
      simp only [] at hr
      obtain ⟨g1, g2, g3, g4⟩ := post_out_regions c fuel _ _ si pl (some pl.in_.offset) qi
        timeout sd r hf1 hr hok
      simp only [setSeq_seq_same] at g1 g2 g3 g4
      rw [get16_put32 _ _ _ _ (by omega), get16_put16 _ _ _ hszlt, get32_put32] at g1
      refine ⟨o, rest, sz, hscr, hsz, g1, ?_, ?_, ?_⟩
      · intro h0
        exact g2 h0
      · intro h1 h2
        obtain ⟨e1, e2⟩ := g4 h1 h2 _ rfl (by omega)
        refine ⟨e1, ?_⟩
        rw [e2, get32_put32, Nat.mod_mod]
      · intro h1 h2
        obtain ⟨o2, rest2, e0, e1, e2⟩ := g3 h1 h2
        exact ⟨o2, rest2, e0, e1, e2⟩
  · rw [if_pos h3] at hr
    injection hr with hr
    rw [← hr] at hok
    exact absurd hok h3

/-- C31 (amended): for every `gk20a_pmu_cmd_post` that returns 0 for a command with an
input payload (a payload whose input offset is not 0), the allocation records of the
command being laid out without overlap: the first DMEM allocation of the call
succeeded, at an offset `o`. When the input and the output buffer are the same
buffer, that region is the only one allocated, its size is the larger of the input
and the output size (as a 16-bit value), and it is recorded as the input region of
the slot; the output region of the slot is recorded at the same offset `o` with the
output size if the payload has an output offset, and is left alone if it has none.
Otherwise the input region has the input size (as a 16-bit value); with an output
offset a second region of the output size is allocated and recorded as the output
region of the slot, and without one no second region is allocated. -/
theorem post_payload_regions (c : Consts) (fuel : Nat) (pmu : Pmu) (cmd : PmuCmd)
    (msg : Option Nat) (pl : PmuPayload) (qi : Nat) (callback : Option Callback)
    (cb_param : Option Nat) (timeout : Nat) (r : PostResult)
    (hf1 : c.alloc_size_at + 2 ≤ c.alloc_offset_at ∨ c.alloc_offset_at + 4 ≤ c.alloc_size_at)
    (hf2 : c.alloc_size_at + 2 ≤ c.sizeof_pmu_allocation)
    (hf3 : c.alloc_offset_at + 4 ≤ c.sizeof_pmu_allocation)
    (hrec : pl.out.offset = 0 ∨ pl.in_.offset + c.sizeof_pmu_allocation ≤ pl.out.offset ∨
      pl.out.offset + c.sizeof_pmu_allocation ≤ pl.in_.offset)
    (hin : pl.in_.offset ≠ 0)
    (hpost : gk20a_pmu_cmd_post c fuel pmu cmd msg (some pl) qi callback cb_param timeout =
      Res.ok r)
    (hok : r.err = 0) :
    ∃ si o rest, si = find_first_zero_bit pmu.pmu_seq_tbl c.sizeof_pmu_seq_tbl ∧
      pmu.dmem.script = (0, o) :: rest ∧
      (pl.in_.buf = pl.out.buf →
        (r.pmu.seq si).in_ =
          { size := max pl.in_.size pl.out.size % 65536, offset := o % U32 } ∧
        r.pmu.dmem =
          { pmu.dmem with
            script := rest,
            live := (o, max pl.in_.size pl.out.size % 65536) :: pmu.dmem.live } ∧
        (pl.out.offset ≠ 0 →
          (r.pmu.seq si).out = { size := pl.out.size % 65536, offset := o % U32 }) ∧
        (pl.out.offset = 0 → (r.pmu.seq si).out = (pmu.seq si).out)) ∧
      (pl.in_.buf ≠ pl.out.buf →
        (r.pmu.seq si).in_ = { size := pl.in_.size % 65536, offset := o % U32 } ∧
        (pl.out.offset = 0 →
          r.pmu.dmem =
            { pmu.dmem with
              script := rest, live := (o, pl.in_.size % 65536) :: pmu.dmem.live } ∧
          (r.pmu.seq si).out = (pmu.seq si).out) ∧
        (pl.out.offset ≠ 0 →
          ∃ o2 rest2, rest = (0, o2) :: rest2 ∧
            r.pmu.dmem =
              { pmu.dmem with
                script := rest2,
                live := (o2, pl.out.size % 65536) :: (o, pl.in_.size % 65536)
                  :: pmu.dmem.live } ∧
            (r.pmu.seq si).out = { size := pl.out.size % 65536, offset := o2 % U32 })) := by
  simp only [gk20a_pmu_cmd_post] at hpost
  by_cases h0 : (!pmu.pmu_ready) = true
  · rw [if_pos h0] at hpost; simp at hpost
  rw [if_neg h0] at hpost
  obtain ⟨valid, _, hpost⟩ := res_bind_ok _ _ _ hpost
  by_cases h1 : (!valid) = true
  · rw [if_pos h1] at hpost
    injection hpost with hpost
    rw [← hpost] at hok
    simp [EINVAL] at hok
  rw [if_neg h1] at hpost
  by_cases hge : find_first_zero_bit pmu.pmu_seq_tbl c.sizeof_pmu_seq_tbl ≥ c.sizeof_pmu_seq_tbl
  · have hacq : pmu_seq_acquire c pmu = (pmu, -EAGAIN, none) := by
      simp only [pmu_seq_acquire, if_pos hge]
    rw [hacq] at hpost
    simp only [] at hpost
    injection hpost with hpost
    rw [← hpost] at hok
    simp [EAGAIN] at hok
  · have hacq : (pmu_seq_acquire c pmu).2.2 =
        some (find_first_zero_bit pmu.pmu_seq_tbl c.sizeof_pmu_seq_tbl) := by
      simp only [pmu_seq_acquire, if_neg hge]
    obtain ⟨_, _, _, _, _, hseq⟩ := acquire_some c pmu _ hacq
    have hdm : (pmu_seq_acquire c pmu).1.dmem = pmu.dmem := by
      simp only [pmu_seq_acquire, if_neg hge]; rfl
    rw [hacq] at hpost
    simp only [] at hpost
    obtain ⟨o, rest, sz, hscr, hsz, g1, g2, g3, g4⟩ := post_in_regions c fuel _ _ _ pl qi
      timeout _ r hf1 hf2 hf3 hrec hin hpost hok
    have hout : ∀ x : PmuAllocation,
        x = ((pmu_seq_acquire c pmu).1.seq
          (find_first_zero_bit pmu.pmu_seq_tbl c.sizeof_pmu_seq_tbl)).out →
        x = (pmu.seq (find_first_zero_bit pmu.pmu_seq_tbl c.sizeof_pmu_seq_tbl)).out := by
      intro x hx
      rw [hx, hseq]
      simp
    simp only [setSeq_seq_same] at g2
    refine ⟨_, o, rest, rfl, ?_, ?_, ?_⟩
    · rw [← hdm]; exact hscr
    · intro hal
      have hsz2 : sz = max pl.in_.size pl.out.size % 65536 := by
        rw [hsz, if_neg (fun hn => hn hal)]
      rw [hsz2] at g1 g2 g3
      refine ⟨g1, ?_, ?_, ?_⟩
      · by_cases ho : pl.out.offset = 0
        · have := (g2 ho).1
          rw [this]
          simp only [setSeq_dmem, hdm]
        · have := (g3 ho hal.symm).1
          rw [this]
          simp only [setSeq_dmem, hdm]
      · intro ho
        exact (g3 ho hal.symm).2
      · intro ho
        exact hout _ (g2 ho).2
    · intro hnal
      have hsz2 : sz = pl.in_.size % 65536 := by
        rw [hsz, if_pos hnal]
      rw [hsz2] at g1 g2 g4
      refine ⟨g1, ?_, ?_⟩
      · intro ho
        refine ⟨?_, hout _ (g2 ho).2⟩
        have := (g2 ho).1
        rw [this]
        simp only [setSeq_dmem, hdm]
      · intro ho
        obtain ⟨o2, rest2, e0, e1, e2⟩ := g4 ho (fun h => hnal h.symm)
        refine ⟨o2, rest2, e0, ?_, e2⟩
        rw [e1]
        simp only [setSeq_dmem, hdm]

theorem post_payload_regions_witness :
    ∃ r, gk20a_pmu_cmd_post gk20a 1 pmu_alloc2 cmd_io24 none (some payload_io) 0
          (some (Callback.client 7)) none 0 = Res.ok r ∧
      r.err = 0 ∧
      (r.pmu.seq 0).in_ = { size := 8, offset := 4096 } ∧
      (r.pmu.seq 0).out = { size := 16, offset := 4200 } ∧
      r.pmu.dmem.live = [(4200, 16), (4096, 8)] ∧
      ∃ si o rest, si = find_first_zero_bit pmu_alloc2.pmu_seq_tbl gk20a.sizeof_pmu_seq_tbl ∧
        pmu_alloc2.dmem.script = (0, o) :: rest ∧
        (payload_io.in_.buf = payload_io.out.buf →
          (r.pmu.seq si).in_ =
            { size := max payload_io.in_.size payload_io.out.size % 65536, offset := o % U32 } ∧
          r.pmu.dmem =
            { pmu_alloc2.dmem with
              script := rest,
              live := (o, max payload_io.in_.size payload_io.out.size % 65536)
                :: pmu_alloc2.dmem.live } ∧
          (payload_io.out.offset ≠ 0 →
            (r.pmu.seq si).out = { size := payload_io.out.size % 65536, offset := o % U32 }) ∧
          (payload_io.out.offset = 0 → (r.pmu.seq si).out = (pmu_alloc2.seq si).out)) ∧
        (payload_io.in_.buf ≠ payload_io.out.buf →
          (r.pmu.seq si).in_ = { size := payload_io.in_.size % 65536, offset := o % U32 } ∧
          (payload_io.out.offset = 0 →
            r.pmu.dmem =
              { pmu_alloc2.dmem with
                script := rest,
                live := (o, payload_io.in_.size % 65536) :: pmu_alloc2.dmem.live } ∧
            (r.pmu.seq si).out = (pmu_alloc2.seq si).out) ∧
          (payload_io.out.offset ≠ 0 →
            ∃ o2 rest2, rest = (0, o2) :: rest2 ∧
              r.pmu.dmem =
                { pmu_alloc2.dmem with
                  script := rest2,
                  live := (o2, payload_io.out.size % 65536)
                    :: (o, payload_io.in_.size % 65536) :: pmu_alloc2.dmem.live } ∧
              (r.pmu.seq si).out =
                { size := payload_io.out.size % 65536, offset := o2 % U32 })) :=
  ⟨_, rfl, rfl, rfl, rfl, rfl,
    post_payload_regions gk20a 1 pmu_alloc2 cmd_io24 none payload_io 0
      (some (Callback.client 7)) none 0 _ (by decide) (by decide) (by decide) (by decide)
      (by decide) rfl rfl⟩

/-- C31 fails on the code: the command `cmd_io24` posted with the payload
`payload_alias_16_8`, whose 16-byte input and 8-byte output are the same buffer,
allocates one DMEM region of 16 bytes at 4096 and records it as the input region of
slot 0, but the output region recorded in the slot is 8 bytes at 4096: it is not the
region of size `max 16 8` that was allocated. -/
theorem aliased_output_record_has_output_size :
    payload_alias_16_8.in_.buf = payload_alias_16_8.out.buf ∧
    max payload_alias_16_8.in_.size payload_alias_16_8.out.size = 16 ∧
    ∃ r, gk20a_pmu_cmd_post gk20a 1 pmu_alloc1 cmd_io24 none (some payload_alias_16_8) 0
          (some (Callback.client 7)) none 0 = Res.ok r ∧
      r.err = 0 ∧ r.pmu.dmem.live = [(4096, 16)] ∧
      (r.pmu.seq 0).state = SeqState.USED ∧
      (r.pmu.seq 0).in_ = { size := 16, offset := 4096 } ∧
      (r.pmu.seq 0).out = { size := 8, offset := 4096 } ∧
      (r.pmu.seq 0).out ≠ (r.pmu.seq 0).in_ :=
  ⟨rfl, rfl, _, rfl, rfl, rfl, rfl, rfl, rfl, by decide⟩

/-! ## C35: a committed write keeps the unread bytes and the room for a rewind marker -/

theorem commit_after_open (c : Consts) (p1 : Pmu) (qi : Nat) (data : Buf) (n : Nat)
    (hsw : IsSwQueue c (p1.queue qi)) (ho : (p1.queue qi).opened = true)
    (hf : (p1.queue qi).oflag = Oflag.OFLAG_WRITE) :
    ∃ p2 p3, pmu_queue_push c p1 qi data n = (p2, 0) ∧
      pmu_queue_close c p2 qi true = Res.ok (p3, 0) ∧
      p3.hw.queue_head (p1.queue qi).index =
        add32 (p1.queue qi).position (ALIGN n c.QUEUE_ALIGNMENT) ∧
      p3.hw.queue_tail = p1.hw.queue_tail ∧
      p3.hw.dmem = (pmu_copy_to_dmem c p1.hw (p1.queue qi).position data n).dmem := by
  obtain ⟨p2, hp2, hq2, hw2⟩ := push_proj c p1 qi data n ho
  have hsw2 : IsSwQueue c (p2.queue qi) :=
    isSwQueue_of_eq c _ _ hsw (by rw [hq2]) (by rw [hq2])
  obtain ⟨p3, hp3, _, hw3⟩ := close_write_proj c p2 qi hsw2 (by rw [hq2]; exact ho)
    (by rw [hq2]; exact hf)
  refine ⟨p2, p3, hp2, hp3, ?_, ?_, ?_⟩
  · rw [hw3, hq2]
    simp
  · rw [hw3, hw2]
    exact (copy_to_dmem_regs c p1.hw _ data n).2
  · rw [hw3, hw2]

/-- C35 (amended): on a closed, unlocked software command queue whose head is a
multiple of 4, whose head and tail are at most `offset + size - header size` and
whose head is at least `offset`, and for every request size `0 < n <= 2^32 - 4`: if
open_for_write(n) succeeds, then the push of `n` bytes and the close with commit
succeed, the tail register is left alone, the new head register differs from the
tail, lies in `[offset, offset + size - header size]`, and no DMEM word that
overlaps the unread bytes between tail and head has been written. -/
theorem commit_keeps_unread_and_marker_room (c : Consts) (fuel : Nat) (pmu : Pmu) (qi n : Nat)
    (data : Buf)
    (hQA : c.QUEUE_ALIGNMENT = 4)
    (hhdr4 : c.PMU_CMD_HDR_SIZE % 4 = 0) (hhdr0 : 0 < c.PMU_CMD_HDR_SIZE)
    (hsw : IsSwQueue c (pmu.queue qi))
    (hclosed : (pmu.queue qi).opened = false) (hmutex : (pmu.queue qi).mutex = false)
    (hgeom : (pmu.queue qi).offset + (pmu.queue qi).size < U32)
    (hmask : ∀ a, a % 4 = 0 → a < (pmu.queue qi).offset + (pmu.queue qi).size →
      a &&& c.addr_mask = a)
    (hhead_al : pmu.hw.queue_head (pmu.queue qi).index % 4 = 0)
    (hhead_lo : (pmu.queue qi).offset ≤ pmu.hw.queue_head (pmu.queue qi).index)
    (hhead_hi : pmu.hw.queue_head (pmu.queue qi).index + c.PMU_CMD_HDR_SIZE
      ≤ (pmu.queue qi).offset + (pmu.queue qi).size)
    (htail_hi : pmu.hw.queue_tail (pmu.queue qi).index + c.PMU_CMD_HDR_SIZE
      ≤ (pmu.queue qi).offset + (pmu.queue qi).size)
    (hn0 : 0 < n) (hn3 : n + 3 < U32) :
    ∀ p1, pmu_queue_open_write c fuel pmu qi n = Res.ok (p1, 0) →
      ∃ p2 p3, pmu_queue_push c p1 qi data n = (p2, 0) ∧
        pmu_queue_close c p2 qi true = Res.ok (p3, 0) ∧
        p3.hw.queue_tail (pmu.queue qi).index = pmu.hw.queue_tail (pmu.queue qi).index ∧
        p3.hw.queue_head (pmu.queue qi).index ≠ pmu.hw.queue_tail (pmu.queue qi).index ∧
        (pmu.queue qi).offset ≤ p3.hw.queue_head (pmu.queue qi).index ∧
        p3.hw.queue_head (pmu.queue qi).index + c.PMU_CMD_HDR_SIZE
          ≤ (pmu.queue qi).offset + (pmu.queue qi).size ∧
        ∀ x, InUnread (pmu.queue qi).offset (pmu.queue qi).size
            (pmu.hw.queue_head (pmu.queue qi).index) (pmu.hw.queue_tail (pmu.queue qi).index) x →
          p3.hw.dmem x = pmu.hw.dmem x := by
  intro p1 hp1
  obtain ⟨hfit, hrew⟩ := has_room_iff_fits c (pmu.queue qi)
    (pmu.hw.queue_head (pmu.queue qi).index) (pmu.hw.queue_tail (pmu.queue qi).index) n
    hgeom hhead_hi
  have hP : ALIGN n c.QUEUE_ALIGNMENT = (n + 3) / 4 * 4 := by rw [hQA]; exact ALIGN_four n hn3
  rw [hP] at hfit hrew
  rw [pmu_queue_open_write_sw c fuel pmu qi n hsw hmutex hclosed] at hp1
  have hneg : (-EAGAIN : Int) ≠ 0 := by decide
  by_cases hroom : has_room c (pmu.queue qi) (pmu.hw.queue_head (pmu.queue qi).index)
      (pmu.hw.queue_tail (pmu.queue qi).index) n = true
  swap
  · rw [if_neg hroom] at hp1
    injection hp1 with hp1
    injection hp1 with _ hp1
    exact absurd hp1 hneg
  rw [if_pos hroom] at hp1
  have hfs := hfit.mp hroom
  simp only [fits_spec] at hfs
  have hq : (sw_opened_write pmu qi (pmu.hw.queue_head (pmu.queue qi).index)).queue qi =
      { pmu.queue qi with
        mutex := true, locked := true, position := pmu.hw.queue_head (pmu.queue qi).index,
        oflag := Oflag.OFLAG_WRITE, opened := true } := by simp [sw_opened_write]
  have hhw : (sw_opened_write pmu qi (pmu.hw.queue_head (pmu.queue qi).index)).hw = pmu.hw := by
    simp [sw_opened_write]
  by_cases hrw : need_rewind c (pmu.queue qi) (pmu.hw.queue_head (pmu.queue qi).index)
      (pmu.hw.queue_tail (pmu.queue qi).index) n = true
  · -- a rewind marker is written at the old head, the request goes to the base
    rw [if_pos hrw] at hp1
    injection hp1 with hp1
    injection hp1 with hp1 _
    have hrs := hrew.mp hrw
    simp only [rewind_spec] at hrs
    obtain ⟨hge, hnf⟩ := hrs
    rw [if_pos hge] at hfs
    have hbase : (pmu.queue qi).offset < pmu.hw.queue_tail (pmu.queue qi).index ∧
        (n + 3) / 4 * 4 ≤ pmu.hw.queue_tail (pmu.queue qi).index - (pmu.queue qi).offset - 1 := by
      rcases hfs with h | h
      · exact absurd h hnf
      · exact h
    obtain ⟨hq1, hw1⟩ := rewind_write_proj c
      (sw_opened_write pmu qi (pmu.hw.queue_head (pmu.queue qi).index)) qi
      (by rw [hq]) (by rw [hq])
    rw [hp1] at hq1 hw1
    rw [hq] at hq1 hw1
    rw [hhw] at hw1
    simp only [] at hq1 hw1
    obtain ⟨p2, p3, hp2, hp3, hhd, htl, hdm⟩ := commit_after_open c p1 qi data n
      (isSwQueue_of_eq c _ _ hsw (by rw [hq1]) (by rw [hq1])) (by rw [hq1]) (by rw [hq1])
    simp only [hq1, hP] at hhd hdm
    have hadd : add32 (pmu.queue qi).offset ((n + 3) / 4 * 4)
        = (pmu.queue qi).offset + (n + 3) / 4 * 4 := by
      simp only [add32, U32] at *
      rw [Nat.mod_eq_of_lt (by omega)]
    rw [hadd] at hhd
    refine ⟨p2, p3, hp2, hp3, ?_, ?_, ?_, ?_, ?_⟩
    · rw [htl, hw1]
      exact congrFun (copy_to_dmem_regs c pmu.hw _ _ _).2 _
    · rw [hhd]; omega
    · rw [hhd]; omega
    · rw [hhd]; omega
    · intro x hx
      simp only [InUnread] at hx
      rw [if_pos hge] at hx
      rw [hdm, hw1]
      rw [copy_to_dmem_inside c _ (pmu.queue qi).offset data n (pmu.queue qi).offset
        ((pmu.queue qi).offset + (n + 3) / 4 * 4) x
        (fun h4 => hmask _ h4 (by omega)) (le_refl _) (by omega) (by omega)]
      have hm : (c.PMU_CMD_HDR_SIZE % 256 + 3) / 4 * 4 ≤ c.PMU_CMD_HDR_SIZE := by omega
      exact copy_to_dmem_inside c pmu.hw (pmu.hw.queue_head (pmu.queue qi).index) _ _
        (pmu.hw.queue_head (pmu.queue qi).index) ((pmu.queue qi).offset + (pmu.queue qi).size) x
        (fun h4 => hmask _ h4 (by omega)) (le_refl _) (by omega) (by omega)
  · -- no rewind: the request is written at the head
    rw [if_neg hrw] at hp1
    injection hp1 with hp1
    injection hp1 with hp1 _
    have hnr : ¬ rewind_spec (pmu.queue qi).offset (pmu.queue qi).size
        (pmu.hw.queue_head (pmu.queue qi).index) (pmu.hw.queue_tail (pmu.queue qi).index)
        c.PMU_CMD_HDR_SIZE ((n + 3) / 4 * 4) := fun h => hrw (hrew.mpr h)
    simp only [rewind_spec] at hnr
    have hq1 : p1.queue qi =
        { pmu.queue qi with
          mutex := true, locked := true, position := pmu.hw.queue_head (pmu.queue qi).index,
          oflag := Oflag.OFLAG_WRITE, opened := true } := by rw [← hp1]; exact hq
    have hw1 : p1.hw = pmu.hw := by rw [← hp1]; exact hhw
    obtain ⟨p2, p3, hp2, hp3, hhd, htl, hdm⟩ := commit_after_open c p1 qi data n
      (isSwQueue_of_eq c _ _ hsw (by rw [hq1]) (by rw [hq1])) (by rw [hq1]) (by rw [hq1])
    simp only [hq1, hP] at hhd hdm
    by_cases hge : pmu.hw.queue_head (pmu.queue qi).index ≥
        pmu.hw.queue_tail (pmu.queue qi).index
    · rw [if_pos hge] at hfs
      have hle : (n + 3) / 4 * 4 ≤ (pmu.queue qi).offset + (pmu.queue qi).size
          - pmu.hw.queue_head (pmu.queue qi).index - c.PMU_CMD_HDR_SIZE := by
        by_contra hcon
        exact hnr ⟨hge, hcon⟩
      have hadd : add32 (pmu.hw.queue_head (pmu.queue qi).index) ((n + 3) / 4 * 4)
          = pmu.hw.queue_head (pmu.queue qi).index + (n + 3) / 4 * 4 := by
        simp only [add32, U32] at *
        rw [Nat.mod_eq_of_lt (by omega)]
      rw [hadd] at hhd
      refine ⟨p2, p3, hp2, hp3, ?_, ?_, ?_, ?_, ?_⟩
      · rw [htl, hw1]
      · rw [hhd]; omega
      · rw [hhd]; omega
      · rw [hhd]; omega
      · intro x hx
        simp only [InUnread] at hx
        rw [if_pos hge] at hx
        rw [hdm, hw1]
        exact copy_to_dmem_inside c pmu.hw (pmu.hw.queue_head (pmu.queue qi).index) data n
          (pmu.hw.queue_head (pmu.queue qi).index)
          (pmu.hw.queue_head (pmu.queue qi).index + (n + 3) / 4 * 4) x
          (fun h4 => hmask _ h4 (by omega)) (le_refl _) (by omega) (by omega)
    · rw [if_neg hge] at hfs
      have hadd : add32 (pmu.hw.queue_head (pmu.queue qi).index) ((n + 3) / 4 * 4)
          = pmu.hw.queue_head (pmu.queue qi).index + (n + 3) / 4 * 4 := by
        simp only [add32, U32] at *
        rw [Nat.mod_eq_of_lt (by omega)]
      rw [hadd] at hhd
      refine ⟨p2, p3, hp2, hp3, ?_, ?_, ?_, ?_, ?_⟩
      · rw [htl, hw1]
      · rw [hhd]; omega
      · rw [hhd]; omega
      · rw [hhd]; omega
      · intro x hx
        simp only [InUnread] at hx
        rw [if_neg (by omega)] at hx
        rw [hdm, hw1]
        exact copy_to_dmem_inside c pmu.hw (pmu.hw.queue_head (pmu.queue qi).index) data n
          (pmu.hw.queue_head (pmu.queue qi).index)
          (pmu.hw.queue_head (pmu.queue qi).index + (n + 3) / 4 * 4) x
          (fun h4 => hmask _ h4 (by omega)) (le_refl _) (by omega) (by omega)

theorem commit_keeps_unread_and_marker_room_witness :
    ∃ p2 p3, pmu_queue_push gk20a (sw_opened_write (pmu_q64_ht 40 8) 0 40) 0 (fun _ => 255) 8
        = (p2, 0) ∧
      pmu_queue_close gk20a p2 0 true = Res.ok (p3, 0) ∧
      p3.hw.queue_tail 0 = 8 ∧
      p3.hw.queue_head 0 ≠ 8 ∧
      0 ≤ p3.hw.queue_head 0 ∧
      p3.hw.queue_head 0 + 4 ≤ 0 + 64 ∧
      ∀ x, InUnread 0 64 40 8 x → p3.hw.dmem x = (pmu_q64_ht 40 8).hw.dmem x :=
  commit_keeps_unread_and_marker_room gk20a 0 (pmu_q64_ht 40 8) 0 8 (fun _ => 255) rfl
    (by decide) (by decide) ⟨rfl, rfl, rfl, by decide, by decide⟩ rfl rfl (by decide)
    (fun a h4 hlt => land_addr_mask_gk20a a h4
      (Nat.lt_trans hlt
        (by decide : ((pmu_q64_ht 40 8).queue 0).offset + ((pmu_q64_ht 40 8).queue 0).size
          < 65536)))
    (by decide) (by decide) (by decide) (by decide) (by decide) (by decide)
    (sw_opened_write (pmu_q64_ht 40 8) 0 40)
    ((pmu_queue_open_write_sw gk20a 0 (pmu_q64_ht 40 8) 0 8
      ⟨rfl, rfl, rfl, by decide, by decide⟩ rfl rfl).trans rfl)

/-- C35, as stated, fails: the empty software command queue 0 of `pmu0` (buffer
`[2048, 2176)`, head = tail = 2048, header size 4) and the request size
`n = 2^32 - 1 > 0`. The padded size wraps to 0 in `u32`, so open_for_write(n)
succeeds, the push leaves `position` at 2048, and the close with commit stores 2048
in the head register: the new head equals the tail. -/
theorem commit_of_wrapping_size_leaves_head_at_tail :
    pmu0.hw.queue_head (pmu0.queue 0).index = 2048 ∧
    pmu0.hw.queue_tail (pmu0.queue 0).index = 2048 ∧
    (pmu0.queue 0).offset = 2048 ∧ (pmu0.queue 0).size = 128 ∧
    gk20a.PMU_CMD_HDR_SIZE = 4 ∧
    ALIGN 4294967295 gk20a.QUEUE_ALIGNMENT = 0 ∧
    ∃ p1 p2 p3, pmu_queue_open_write gk20a 0 pmu0 0 4294967295 = Res.ok (p1, 0) ∧
      pmu_queue_push gk20a p1 0 (fun _ => 255) 4294967295 = (p2, 0) ∧
      pmu_queue_close gk20a p2 0 true = Res.ok (p3, 0) ∧
      p3.hw.queue_head (pmu0.queue 0).index = pmu0.hw.queue_tail (pmu0.queue 0).index := by
  obtain ⟨p2, p3, hp2, hp3, hhd, _, _⟩ := commit_after_open gk20a (sw_opened_write pmu0 0 2048) 0
    (fun _ => 255) 4294967295 ⟨rfl, rfl, rfl, by decide, by decide⟩ rfl rfl
  refine ⟨rfl, rfl, rfl, rfl, rfl, by decide, sw_opened_write pmu0 0 2048, p2, p3, ?_, hp2, hp3,
    ?_⟩
  · exact (pmu_queue_open_write_sw gk20a 0 pmu0 0 4294967295
      ⟨rfl, rfl, rfl, by decide, by decide⟩ rfl rfl).trans rfl
  · exact hhd.trans (by decide)

/-! ## C34: a notification before the channel is ready -/

theorem init_powergating_not_ready (c : Consts) (fuel : Nat) (pmu : Pmu)
    (h : pmu.pmu_ready = false) : pmu_init_powergating c fuel pmu = Res.bug := by
  simp [pmu_init_powergating, gk20a_pmu_cmd_post, h, Res.bind]

theorem copy_from_dmem_msgq_tail (c : Consts) (hw : Hw) (src : Nat) (dst : Buf) (n : Nat) :
    (pmu_copy_from_dmem c hw src dst n).1.msgq_tail = hw.msgq_tail := by
  obtain ⟨a, ha⟩ := copy_from_dmem_hw c hw src dst n
  rw [ha]

theorem process_init_msg_rejects (c : Consts) (pmu : Pmu) (msg : PmuMsg) (gid_data : Buf)
    (r : InitResult) (h : pmu_process_init_msg c pmu msg gid_data = Res.ok r) (he : r.err ≠ 0) :
    r.pmu.pmu_ready = pmu.pmu_ready ∧ r.pmu.queue = pmu.queue ∧ SameTable pmu r.pmu ∧
      r.pmu.hw.msgq_tail = pmu.hw.msgq_tail := by
  simp only [pmu_process_init_msg] at h
  split_ifs at h with h1 h2
  · injection h with h
    rw [← h]
    refine ⟨rfl, rfl, ⟨rfl, rfl, rfl, rfl, rfl, rfl⟩, ?_⟩
    simp only [copy_from_dmem_msgq_tail]
  · injection h with h
    rw [← h]
    refine ⟨rfl, rfl, ⟨rfl, rfl, rfl, rfl, rfl, rfl⟩, ?_⟩
    simp only [copy_from_dmem_msgq_tail]
  · obtain ⟨p4, _, h⟩ := res_bind_ok _ _ _ h
    injection h with h
    rw [← h] at he
    exact absurd rfl he

/-- C34 fails on the code. Before the channel is ready `pmu_process_message` does
not look at the result of `pmu_process_init_msg` and goes on to
`pmu_init_powergating`, whose first `gk20a_pmu_cmd_post` asserts
`BUG_ON(!pmu->pmu_ready)`. In the state `pmu_boot_bad_unit` the pending message has
unit id 3, in `pmu_boot_bad_type` it has unit id 7 and message type 1:
`pmu_process_init_msg` returns `-EINVAL`, leaving the channel not ready and the
queue descriptors as they were, and `pmu_process_message` then reaches the
assertion failure. The same holds for every state that is not ready and every
pending message that `pmu_process_init_msg` rejects. -/
theorem invalid_init_message_reaches_bug :
    (pmu_boot_bad_unit.pmu_ready = false ∧
      (∃ r, pmu_process_init_msg gk20a pmu_boot_bad_unit PmuMsg.zero (fun _ => 0) = Res.ok r ∧
        r.msg.hdr.unit_id = 3 ∧ gk20a.PMU_UNIT_INIT = 7 ∧
        r.err = -EINVAL ∧ r.pmu.pmu_ready = false ∧
        r.pmu.queue = pmu_boot_bad_unit.queue) ∧
      ∀ fuel, pmu_process_message gk20a fuel pmu_boot_bad_unit PmuMsg.zero (fun _ => 0)
        = Res.bug) ∧
    (pmu_boot_bad_type.pmu_ready = false ∧
      (∃ r, pmu_process_init_msg gk20a pmu_boot_bad_type PmuMsg.zero (fun _ => 0) = Res.ok r ∧
        r.msg.hdr.unit_id = 7 ∧ gk20a.init_msg_type r.msg.msg = 1 ∧
        gk20a.PMU_INIT_MSG_TYPE_PMU_INIT = 0 ∧
        r.err = -EINVAL ∧ r.pmu.pmu_ready = false ∧
        r.pmu.queue = pmu_boot_bad_type.queue) ∧
      ∀ fuel, pmu_process_message gk20a fuel pmu_boot_bad_type PmuMsg.zero (fun _ => 0)
        = Res.bug) ∧
    ∀ (c : Consts) (fuel : Nat) (pmu : Pmu) (msg : PmuMsg) (gid_data : Buf) (r : InitResult),
      pmu.pmu_ready = false → pmu_process_init_msg c pmu msg gid_data = Res.ok r → r.err ≠ 0 →
      pmu_process_message c fuel pmu msg gid_data = Res.bug := by
  have hgen : ∀ (c : Consts) (fuel : Nat) (pmu : Pmu) (msg : PmuMsg) (gid_data : Buf)
      (r : InitResult),
      pmu.pmu_ready = false → pmu_process_init_msg c pmu msg gid_data = Res.ok r → r.err ≠ 0 →
      pmu_process_message c fuel pmu msg gid_data = Res.bug := by
    intro c fuel pmu msg gid_data r hnr hinit he
    have hrd := (process_init_msg_rejects c pmu msg gid_data r hinit he).1
    simp only [pmu_process_message, hnr, Bool.not_false, if_true, hinit, Res.bind]
    rw [init_powergating_not_ready c fuel r.pmu (hrd.trans hnr)]
  have h1 : pmu_process_init_msg gk20a pmu_boot_bad_unit PmuMsg.zero (fun _ => 0) =
      Res.ok { pmu := { pmu_boot_bad_unit with
                 hw := { pmu_boot_bad_unit.hw with dmemc := 2564 } },
               msg := { hdr := { unit_id := 3, size := 8, ctrl_flags := 0, seq_id := 0 },
                        msg := fun _ => 0 },
               err := -EINVAL } := by
    rfl
  have h2 : ∃ r, pmu_process_init_msg gk20a pmu_boot_bad_type PmuMsg.zero (fun _ => 0) =
      Res.ok r ∧ r.msg.hdr.unit_id = 7 ∧ gk20a.init_msg_type r.msg.msg = 1 ∧
        r.err = -EINVAL ∧ r.pmu.pmu_ready = false ∧ r.pmu.queue = pmu_boot_bad_type.queue :=
    ⟨_, rfl, rfl, rfl, rfl, rfl, rfl⟩
  refine ⟨⟨rfl, ⟨_, h1, rfl, rfl, rfl, rfl, rfl⟩, fun fuel => ?_⟩, ⟨rfl, ?_, fun fuel => ?_⟩, hgen⟩
  · exact hgen gk20a fuel _ _ _ _ rfl h1 (by decide)
  · obtain ⟨r, e1, e2, e3, e4, e5, e6⟩ := h2
    exact ⟨r, e1, e2, e3, rfl, e4, e5, e6⟩
  · obtain ⟨r, e1, _, _, e4, _, _⟩ := h2
    exact hgen gk20a fuel _ _ _ r rfl e1 (by rw [e4]; decide)

/-- In the state `pmu_boot_valid`, whose pending message is a valid init message,
`pmu_process_message` consumes the message, sets up the five queue descriptors,
marks the channel ready and posts the three power-gating commands. -/
theorem valid_init_message_makes_ready :
    ∃ p, pmu_process_message gk20a 1 pmu_boot_valid PmuMsg.zero (fun _ => 0) = Res.ok (p, 0) ∧
      p.pmu_ready = true ∧ p.hw.msgq_tail = 2600 ∧
      (p.queue 1).offset = 2176 ∧ (p.queue 1).size = 128 ∧ (p.queue 4).index = 4 ∧
      p.gid_info.valid = false ∧
      p.elpg_stat = ElpgStat.ON ∧
      p.hw.pg_idlefilth 0 = 15000 ∧ p.hw.pg_ppuidlefilth 0 = 1000000 ∧
      p.hw.queue_head 0 = 2064 ∧ p.hw.queue_head 1 = 2188 ∧
      (p.seq 0).state = SeqState.USED ∧ (p.seq 1).state = SeqState.USED ∧
      (p.seq 2).state = SeqState.USED ∧ (p.seq 3).state = SeqState.FREE :=
  ⟨_, rfl, rfl, rfl, rfl, rfl, rfl, rfl, rfl, rfl, rfl, rfl, rfl, rfl, rfl, rfl, rfl⟩

/-! ## C2: the wraparound with the head past the room for a marker -/

/-- C2, as stated, fails: with header size 4 and the 64-byte queue at offset 0 whose
head register is 64 and whose tail register is 8, a 4-byte command does not fit
before the buffer end (`4 > 0 + 64 - 64 - 4`) and fits at the base (`4 <= 8 - 0 - 1`).
In `u32` the free space before the end wraps, so open_for_write(4) writes no rewind
marker and leaves the position at 64; the push stores the command at 64, beyond the
buffer, and the close commits the head 68, not `offset + ALIGN(4) = 4`; nothing is
stored at the base. -/
theorem wraparound_skipped_past_marker_room :
    (pmu_q64_ht 64 8).hw.queue_head ((pmu_q64_ht 64 8).queue 0).index = 64 ∧
    (pmu_q64_ht 64 8).hw.queue_tail ((pmu_q64_ht 64 8).queue 0).index = 8 ∧
    ((pmu_q64_ht 64 8).queue 0).offset = 0 ∧ ((pmu_q64_ht 64 8).queue 0).size = 64 ∧
    gk20a.PMU_CMD_HDR_SIZE = 4 ∧ ALIGN 4 gk20a.QUEUE_ALIGNMENT = 4 ∧
    ((4 : Int) > 0 + 64 - 64 - 4) ∧ ((4 : Int) ≤ 8 - 0 - 1) ∧
    ∃ p1 p3, pmu_queue_open_write gk20a 0 (pmu_q64_ht 64 8) 0 4 = Res.ok (p1, 0) ∧
      (p1.queue 0).position = 64 ∧ p1.hw.dmem = (pmu_q64_ht 64 8).hw.dmem ∧
      pmu_queue_close gk20a (pmu_queue_push gk20a p1 0 (cmd_hdr4.image gk20a) 4).1 0 true
        = Res.ok (p3, 0) ∧
      p3.hw.queue_head 0 = 68 ∧ p3.hw.dmem 64 = 1027 ∧ p3.hw.dmem 0 = 0 := by
  refine ⟨rfl, rfl, rfl, rfl, rfl, by decide, by decide, by decide, _, _, rfl, rfl, rfl, rfl,
    rfl, rfl, rfl⟩

/-! ## C28: a pop at a position that is not word aligned -/

/-- C28, as stated, fails: in the state `pmu_msgq_unaligned` the message queue is open
for read with the head register at 2572 and the position at 2562, so 10 bytes are
used. A pop of at most 4 bytes reports 4 bytes read and moves the position to 2566,
but `pmu_copy_from_dmem` refuses the source address 2562, which is not a multiple of
4: the destination is left as it was and no byte has been transferred. -/
theorem pop_at_unaligned_position_transfers_nothing :
    (pmu_msgq_unaligned.queue 4).opened = true ∧
    (pmu_msgq_unaligned.queue 4).oflag = Oflag.OFLAG_READ ∧
    pmu_queue_head_get gk20a pmu_msgq_unaligned (pmu_msgq_unaligned.queue 4) = some 2572 ∧
    (pmu_msgq_unaligned.queue 4).position = 2562 ∧
    pmu_msgq_unaligned.hw.dmem 2564 = 2 ∧
    ∃ r, pmu_queue_pop gk20a pmu_msgq_unaligned 4 (fun _ => 255) 4 = Res.ok r ∧
      r.err = 0 ∧ r.bytes_read = 4 ∧ r.bytes_read = min 4 (2572 - 2562) ∧
      r.data = (fun _ => 255) ∧
      (r.pmu.queue 4).position = 2566 :=
  ⟨rfl, rfl, rfl, rfl, rfl, _, rfl, rfl, rfl, rfl, rfl, rfl⟩

/-! ## The words and the command of a post -/

/-- A copy of `n > 0` bytes to a word-aligned, addressable DMEM address stores the
words of the source there. -/
theorem copy_to_dmem_word (c : Consts) (hw : Hw) (a : Nat) (src : Buf) (n i : Nat)
    (hn : 0 < n) (ha : a % 4 = 0) (hmask : a &&& c.addr_mask = a) (hi : i < (n + 3) / 4) :
    (pmu_copy_to_dmem c hw a src n).dmem (a + 4 * i) = src_word src n i := by
  rw [pmu_copy_to_dmem_eq c hw a src n hn ha]
  simp only [dmem_after_write, hmask]
  rw [if_pos (by omega)]
  have e : (a + 4 * i - a) / 4 = i := by omega
  rw [e]
  exact Nat.mod_eq_of_lt (src_word_lt src n i)

theorem post_write_cmd (c : Consts) (fuel : Nat) (p : Pmu) (cmd : PmuCmd) (si : Nat)
    (qi timeout : Nat) (sd : Option Nat) (r : PostResult)
    (hr : gk20a_pmu_cmd_post_write c fuel p cmd si qi timeout sd = Res.ok r) :
    r.cmd = cmd := by
  simp only [gk20a_pmu_cmd_post_write] at hr
  obtain ⟨w, _, hr⟩ := res_bind_ok _ _ _ hr
  injection hr with hr
  rw [← hr]

/-- The output block of a post changes the command body only inside the output
allocation record. -/
theorem post_out_cmd (c : Consts) (fuel : Nat) (p : Pmu) (cmd : PmuCmd) (si : Nat)
    (payload : Option PmuPayload) (inp : Option Nat) (qi timeout : Nat) (sd : Option Nat)
    (r : PostResult)
    (hf2 : c.alloc_size_at + 2 ≤ c.sizeof_pmu_allocation)
    (hf3 : c.alloc_offset_at + 4 ≤ c.sizeof_pmu_allocation)
    (hr : gk20a_pmu_cmd_post_out c fuel p cmd si payload inp qi timeout sd = Res.ok r) :
    r.cmd.hdr = cmd.hdr ∧
    ∀ k, (∀ pl, payload = some pl → pl.out.offset ≠ 0 →
        k < pl.out.offset ∨ pl.out.offset + c.sizeof_pmu_allocation ≤ k) →
      r.cmd.cmd k = cmd.cmd k := by
  cases payload with
  | none =>
    simp only [gk20a_pmu_cmd_post_out] at hr
    rw [post_write_cmd c fuel p cmd si qi timeout sd r hr]
    exact ⟨rfl, fun _ _ => rfl⟩
  | some pl =>
    simp only [gk20a_pmu_cmd_post_out] at hr
    by_cases h1 : pl.out.offset ≠ 0
    · rw [if_pos h1] at hr
      have h16 : ∀ (b : Buf) (v k : Nat),
          (k < pl.out.offset ∨ pl.out.offset + c.sizeof_pmu_allocation ≤ k) →
          put16 b (pl.out.offset + c.alloc_size_at) v k = b k := fun b v k hk =>
        put16_other b _ v k (by omega)
      have h32 : ∀ (b : Buf) (v k : Nat),
          (k < pl.out.offset ∨ pl.out.offset + c.sizeof_pmu_allocation ≤ k) →
          put32 b (pl.out.offset + c.alloc_offset_at) v k = b k := fun b v k hk =>
        put32_other b _ v k (by omega)
      by_cases h2 : pl.out.buf ≠ pl.in_.buf
      · rw [if_pos h2] at hr
        split_ifs at hr with h3
        · injection hr with hr
          rw [← hr]
          refine ⟨?_, fun k hk => ?_⟩
          · simp only [gk20a_pmu_cmd_post_clean_up]
            split <;> rfl
          · have hk1 := hk pl rfl h1
            simp only [gk20a_pmu_cmd_post_clean_up]
            split
            · simp only [h32 _ _ k hk1, h16 _ _ k hk1]
            · simp only [h16 _ _ k hk1]
        · rw [post_write_cmd c fuel _ _ si qi timeout sd r hr]
          refine ⟨?_, fun k hk => ?_⟩
          · split <;> rfl
          · have hk1 := hk pl rfl h1
            split
            · simp only [h32 _ _ k hk1, h16 _ _ k hk1]
            · simp only [h16 _ _ k hk1]
      · rw [if_neg h2] at hr
        cases inp with
        | none => simp at hr
        | some ki =>
          simp only [] at hr
          rw [post_write_cmd c fuel _ _ si qi timeout sd r hr]
          refine ⟨rfl, fun k hk => ?_⟩
          have hk1 := hk pl rfl h1
          simp only [h32 _ _ k hk1, h16 _ _ k hk1]
    · rw [if_neg h1] at hr
      rw [post_write_cmd c fuel p cmd si qi timeout sd r hr]
      exact ⟨rfl, fun _ _ => rfl⟩

/-- The input and output blocks of a post change the command body only inside the two
allocation records. -/
theorem post_in_cmd (c : Consts) (fuel : Nat) (p : Pmu) (cmd : PmuCmd) (si : Nat)
    (payload : Option PmuPayload) (qi timeout : Nat) (sd : Option Nat) (r : PostResult)
    (hf2 : c.alloc_size_at + 2 ≤ c.sizeof_pmu_allocation)
    (hf3 : c.alloc_offset_at + 4 ≤ c.sizeof_pmu_allocation)
    (hr : gk20a_pmu_cmd_post_in c fuel p cmd si payload qi timeout sd = Res.ok r) :
    r.cmd.hdr = cmd.hdr ∧
    ∀ k, (∀ pl, payload = some pl →
        (pl.in_.offset ≠ 0 →
          k < pl.in_.offset ∨ pl.in_.offset + c.sizeof_pmu_allocation ≤ k) ∧
        (pl.out.offset ≠ 0 →
          k < pl.out.offset ∨ pl.out.offset + c.sizeof_pmu_allocation ≤ k)) →
      r.cmd.cmd k = cmd.cmd k := by
  cases payload with
  | none =>
    simp only [gk20a_pmu_cmd_post_in] at hr
    obtain ⟨e1, e2⟩ := post_out_cmd c fuel p cmd si none none qi timeout sd r hf2 hf3 hr
    exact ⟨e1, fun k _ => e2 k (fun pl h => by simp at h)⟩
  | some pl =>
    simp only [gk20a_pmu_cmd_post_in] at hr
    by_cases h1 : pl.in_.offset ≠ 0
    · rw [if_pos h1] at hr
      have h16 : ∀ (b : Buf) (v k : Nat),
          (k < pl.in_.offset ∨ pl.in_.offset + c.sizeof_pmu_allocation ≤ k) →
          put16 b (pl.in_.offset + c.alloc_size_at) v k = b k := fun b v k hk =>
        put16_other b _ v k (by omega)
      have h32 : ∀ (b : Buf) (v k : Nat),
          (k < pl.in_.offset ∨ pl.in_.offset + c.sizeof_pmu_allocation ≤ k) →
          put32 b (pl.in_.offset + c.alloc_offset_at) v k = b k := fun b v k hk =>
        put32_other b _ v k (by omega)
      obtain ⟨sz, hsz⟩ : ∃ sz, sz = (if pl.in_.buf ≠ pl.out.buf then pl.in_.size % 65536
          else max pl.in_.size pl.out.size % 65536) := ⟨_, rfl⟩
      rw [← hsz] at hr
      split_ifs at hr with h3
      · injection hr with hr
        rw [← hr]
        refine ⟨?_, fun k hk => ?_⟩
        · simp only [gk20a_pmu_cmd_post_clean_up]
          split <;> rfl
        · have hk1 := (hk pl rfl).1 h1
          simp only [gk20a_pmu_cmd_post_clean_up]
          split
          · simp only [h32 _ _ k hk1, h16 _ _ k hk1]
          · simp only [h16 _ _ k hk1]
      · cases hb : pl.in_.buf with
        | none =>
          rw [hb] at hr
          simp at hr
        | some b =>
          rw [hb] at hr
          simp only [] at hr
          obtain ⟨e1, e2⟩ := post_out_cmd c fuel _ _ si (some pl) (some pl.in_.offset) qi
            timeout sd r hf2 hf3 hr
          refine ⟨?_, fun k hk => ?_⟩
          · rw [e1]
            split <;> rfl
          · have hk1 := (hk pl rfl).1 h1
            rw [e2 k (fun pl2 hpl2 ho => by
              have hpl : pl = pl2 := by simpa using hpl2
              subst hpl
              exact (hk pl rfl).2 ho)]
            split
            · simp only [h32 _ _ k hk1, h16 _ _ k hk1]
            · simp only [h16 _ _ k hk1]
    · rw [if_neg h1] at hr
      obtain ⟨e1, e2⟩ := post_out_cmd c fuel p cmd si (some pl) none qi timeout sd r hf2 hf3 hr
      exact ⟨e1, fun k hk => e2 k (fun pl2 hpl2 ho => (hk pl2 hpl2).2 ho)⟩

/-- A post leaves the command body as the caller gave it, outside the allocation
records of the payload. -/
theorem post_cmd_body (c : Consts) (fuel : Nat) (pmu : Pmu) (cmd : PmuCmd) (msg : Option Nat)
    (payload : Option PmuPayload) (qi : Nat) (callback : Option Callback)
    (cb_param : Option Nat) (timeout : Nat) (r : PostResult)
    (hf2 : c.alloc_size_at + 2 ≤ c.sizeof_pmu_allocation)
    (hf3 : c.alloc_offset_at + 4 ≤ c.sizeof_pmu_allocation)
    (hr : gk20a_pmu_cmd_post c fuel pmu cmd msg payload qi callback cb_param timeout =
      Res.ok r) :
    ∀ k, (∀ pl, payload = some pl →
        (pl.in_.offset ≠ 0 →
          k < pl.in_.offset ∨ pl.in_.offset + c.sizeof_pmu_allocation ≤ k) ∧
        (pl.out.offset ≠ 0 →
          k < pl.out.offset ∨ pl.out.offset + c.sizeof_pmu_allocation ≤ k)) →
      r.cmd.cmd k = cmd.cmd k := by
  intro k hk
  simp only [gk20a_pmu_cmd_post] at hr
  by_cases h0 : (!pmu.pmu_ready) = true
  · rw [if_pos h0] at hr; simp at hr
  rw [if_neg h0] at hr
  obtain ⟨valid, _, hr⟩ := res_bind_ok _ _ _ hr
  by_cases h1 : (!valid) = true
  · rw [if_pos h1] at hr
    injection hr with hr
    rw [← hr]
  rw [if_neg h1] at hr
  cases hacq : (pmu_seq_acquire c pmu).2.2 with
  | none =>
    rw [hacq] at hr
    simp only [] at hr
    injection hr with hr
    rw [← hr]
  | some si =>
    rw [hacq] at hr
    simp only [] at hr
    exact (post_in_cmd c fuel _ _ si payload qi timeout _ r hf2 hf3 hr).2 k hk

/-- C5 (amended): with the channel ready, for a command accepted by
`pmu_validate_cmd`, a clear bit among the searched bitmap positions (the acquired
slot `si` being the lowest, with an id that fits the 8-bit header field), a closed
and unlocked software command queue with room for the command and a write position
that is 4-byte aligned and addressable, successful DMEM allocations and an aliased
output region only together with an input region, `gk20a_pmu_cmd_post` returns 0;
the command header carries the slot's id as sequence id and the flags
STATUS | INTR, with unit id and size as given, and the command body is as given
outside the allocation records of the payload; the slot is USED and holds the given
callback, context and response buffer; the descriptor stored in `*seq_desc` is the
one recorded in the slot; the words of DMEM from the write position of the queue on
are the words of the command as stamped, the head register has been published past
them, and the queue is closed and unlocked. -/
theorem post_valid_command_committed (c : Consts) (fuel : Nat) (pmu : Pmu) (cmd : PmuCmd)
    (msg : Option Nat) (payload : Option PmuPayload) (qi : Nat)
    (callback : Option Callback) (cb_param : Option Nat) (timeout : Nat)
    (hready : pmu.pmu_ready = true)
    (hvalid : pmu_validate_cmd c pmu cmd msg payload qi = Res.ok true)
    (hfree : ∃ j, j < c.sizeof_pmu_seq_tbl ∧ pmu.pmu_seq_tbl j = false)
    (hid : (pmu.seq (find_first_zero_bit pmu.pmu_seq_tbl c.sizeof_pmu_seq_tbl)).id < 256)
    (hsw : IsSwQueue c (pmu.queue qi)) (hm : (pmu.queue qi).mutex = false)
    (ho : (pmu.queue qi).opened = false)
    (hroom : has_room c (pmu.queue qi) (pmu.hw.queue_head (pmu.queue qi).index)
      (pmu.hw.queue_tail (pmu.queue qi).index) cmd.hdr.size = true)
    (hal : write_position c (pmu.queue qi) (pmu.hw.queue_head (pmu.queue qi).index)
      (pmu.hw.queue_tail (pmu.queue qi).index) cmd.hdr.size % 4 = 0)
    (hmask : write_position c (pmu.queue qi) (pmu.hw.queue_head (pmu.queue qi).index)
        (pmu.hw.queue_tail (pmu.queue qi).index) cmd.hdr.size &&& c.addr_mask =
      write_position c (pmu.queue qi) (pmu.hw.queue_head (pmu.queue qi).index)
        (pmu.hw.queue_tail (pmu.queue qi).index) cmd.hdr.size)
    (hhdr0 : 0 < c.PMU_CMD_HDR_SIZE)
    (hf2 : c.alloc_size_at + 2 ≤ c.sizeof_pmu_allocation)
    (hf3 : c.alloc_offset_at + 4 ≤ c.sizeof_pmu_allocation)
    (hbug : ∀ pl, payload = some pl → pl.out.offset ≠ 0 → pl.out.buf = pl.in_.buf →
      pl.in_.offset ≠ 0)
    (halloc : payload ≠ none → ∃ o1 o2 rest, pmu.dmem.script = (0, o1) :: (0, o2) :: rest) :
    ∃ r, gk20a_pmu_cmd_post c (fuel + 1) pmu cmd msg payload qi callback cb_param timeout =
        Res.ok r ∧
      r.err = 0 ∧
      r.cmd.hdr.seq_id =
        (r.pmu.seq (find_first_zero_bit pmu.pmu_seq_tbl c.sizeof_pmu_seq_tbl)).id ∧
      r.cmd.hdr.ctrl_flags = (c.PMU_CMD_FLAGS_STATUS ||| c.PMU_CMD_FLAGS_INTR) % 256 ∧
      r.cmd.hdr.unit_id = cmd.hdr.unit_id ∧ r.cmd.hdr.size = cmd.hdr.size ∧
      (∀ k, (∀ pl, payload = some pl →
          (pl.in_.offset ≠ 0 →
            k < pl.in_.offset ∨ pl.in_.offset + c.sizeof_pmu_allocation ≤ k) ∧
          (pl.out.offset ≠ 0 →
            k < pl.out.offset ∨ pl.out.offset + c.sizeof_pmu_allocation ≤ k)) →
        r.cmd.cmd k = cmd.cmd k) ∧
      (r.pmu.seq (find_first_zero_bit pmu.pmu_seq_tbl c.sizeof_pmu_seq_tbl)).state =
        SeqState.USED ∧
      (r.pmu.seq (find_first_zero_bit pmu.pmu_seq_tbl c.sizeof_pmu_seq_tbl)).id =
        (pmu.seq (find_first_zero_bit pmu.pmu_seq_tbl c.sizeof_pmu_seq_tbl)).id ∧
      (r.pmu.seq (find_first_zero_bit pmu.pmu_seq_tbl c.sizeof_pmu_seq_tbl)).callback =
        callback ∧
      (r.pmu.seq (find_first_zero_bit pmu.pmu_seq_tbl c.sizeof_pmu_seq_tbl)).cb_params =
        cb_param ∧
      (r.pmu.seq (find_first_zero_bit pmu.pmu_seq_tbl c.sizeof_pmu_seq_tbl)).msg = msg ∧
      r.seq_desc =
        some (r.pmu.seq (find_first_zero_bit pmu.pmu_seq_tbl c.sizeof_pmu_seq_tbl)).desc ∧
      (∀ i, i < (cmd.hdr.size + 3) / 4 →
        r.pmu.hw.dmem
          (write_position c (pmu.queue qi) (pmu.hw.queue_head (pmu.queue qi).index)
            (pmu.hw.queue_tail (pmu.queue qi).index) cmd.hdr.size + 4 * i) =
          src_word (r.cmd.image c) cmd.hdr.size i) ∧
      r.pmu.hw.queue_head (pmu.queue qi).index =
        add32 (write_position c (pmu.queue qi) (pmu.hw.queue_head (pmu.queue qi).index)
            (pmu.hw.queue_tail (pmu.queue qi).index) cmd.hdr.size)
          (ALIGN cmd.hdr.size c.QUEUE_ALIGNMENT) ∧
      (r.pmu.queue qi).opened = false ∧ (r.pmu.queue qi).mutex = false := by
  obtain ⟨r, hr, g1, g2, g3, g4, g5, g6, g7, g8, g9, g10, g11, ⟨hw1, g12⟩, g13, g14, g15⟩ :=
    post_done c fuel pmu cmd msg payload qi callback cb_param timeout hready hvalid
      hfree hid hsw hm ho hroom hbug halloc
  have hsize : 0 < cmd.hdr.size := by
    have := (validate_true c pmu cmd msg payload qi
      (validate_ok_true c pmu cmd msg payload qi hvalid)).2.1
    omega
  refine ⟨r, hr, g1, g2, g3, g4, g5, ?_, g6, g7, g8, g9, g10, g11, ?_, g13, g14, g15⟩
  · exact post_cmd_body c (fuel + 1) pmu cmd msg payload qi callback cb_param timeout r hf2 hf3
      hr
  · intro i hi
    rw [g12]
    exact copy_to_dmem_word c hw1 _ _ _ i hsize hal hmask hi

theorem post_valid_command_committed_witness :
    ∃ r, gk20a_pmu_cmd_post gk20a 1 pmu0 cmd_pg8 none none 0 (some (Callback.client 7))
          (some 9) 0 = Res.ok r ∧
      r.err = 0 ∧
      r.cmd.hdr.seq_id = (r.pmu.seq 0).id ∧
      r.cmd.hdr.ctrl_flags = 3 ∧
      r.cmd.hdr.unit_id = 3 ∧ r.cmd.hdr.size = 8 ∧
      (∀ k, (∀ pl, (none : Option PmuPayload) = some pl →
          (pl.in_.offset ≠ 0 → k < pl.in_.offset ∨ pl.in_.offset + 8 ≤ k) ∧
          (pl.out.offset ≠ 0 → k < pl.out.offset ∨ pl.out.offset + 8 ≤ k)) →
        r.cmd.cmd k = cmd_pg8.cmd k) ∧
      (r.pmu.seq 0).state = SeqState.USED ∧
      (r.pmu.seq 0).id = 0 ∧
      (r.pmu.seq 0).callback = some (Callback.client 7) ∧
      (r.pmu.seq 0).cb_params = some 9 ∧
      (r.pmu.seq 0).msg = none ∧
      r.seq_desc = some (r.pmu.seq 0).desc ∧
      (∀ i, i < (8 + 3) / 4 →
        r.pmu.hw.dmem (2048 + 4 * i) = src_word (r.cmd.image gk20a) 8 i) ∧
      r.pmu.hw.queue_head 0 = 2056 ∧
      (r.pmu.queue 0).opened = false ∧ (r.pmu.queue 0).mutex = false :=
  post_valid_command_committed gk20a 0 pmu0 cmd_pg8 none none 0 (some (Callback.client 7))
    (some 9) 0 rfl rfl ⟨0, by decide, rfl⟩ (by decide) ⟨rfl, rfl, rfl, by decide, by decide⟩
    rfl rfl rfl (by decide) (by decide) (by decide) (by decide) (by decide)
    (fun _ h => absurd h (by simp)) (fun h => absurd rfl h)

/-- C5, as stated, fails. In the state `pmu_head_2050` the channel is ready, slot 0 is
free, the command `cmd_pg8` is valid and queue 0 has room for it, but its head
register, 2050, is not a multiple of 4: `gk20a_pmu_cmd_post` returns 0 with slot 0
USED and the head register moved to 2058, while `pmu_copy_to_dmem` has refused the
destination and DMEM is as before, so the command is not in the queue. And the
payload `payload_out_only_alias`, which `pmu_validate_cmd` accepts with the command
`cmd_io24`, makes the post reach `BUG_ON(in == NULL)`: it does not return. -/
theorem post_at_unaligned_head_writes_nothing :
    (pmu_head_2050.pmu_ready = true ∧
      pmu_validate_cmd gk20a pmu_head_2050 cmd_pg8 none none 0 = Res.ok true ∧
      pmu_head_2050.pmu_seq_tbl 0 = false ∧
      pmu_head_2050.hw.queue_head (pmu_head_2050.queue 0).index = 2050 ∧
      has_room gk20a (pmu_head_2050.queue 0) 2050 2050 8 = true ∧
      ∃ r, gk20a_pmu_cmd_post gk20a 1 pmu_head_2050 cmd_pg8 none none 0
            (some (Callback.client 7)) (some 9) 0 = Res.ok r ∧
        r.err = 0 ∧ (r.pmu.seq 0).state = SeqState.USED ∧
        r.pmu.hw.queue_head 0 = 2058 ∧
        r.pmu.hw.dmem = pmu_head_2050.hw.dmem ∧ r.pmu.hw.dmem 2048 = 0 ∧
        src_word (r.cmd.image gk20a) 8 0 = 198659) ∧
    (pmu_alloc1.pmu_ready = true ∧
      pmu_validate_cmd gk20a pmu_alloc1 cmd_io24 none (some payload_out_only_alias) 0
        = Res.ok true ∧
      has_room gk20a (pmu_alloc1.queue 0) 2048 2048 24 = true ∧
      gk20a_pmu_cmd_post gk20a 1 pmu_alloc1 cmd_io24 none (some payload_out_only_alias) 0
        (some (Callback.client 7)) none 0 = Res.bug) :=
  ⟨⟨rfl, rfl, rfl, rfl, rfl, _, rfl, rfl, rfl, rfl, rfl, rfl, rfl⟩, rfl, rfl, rfl, rfl⟩

/-! ## C20: enabling power gating -/

end PmuGk20a
